import Mathlib

/-!
# RTX kernel: task table, EDF scheduler, SVC gate and First-Fit heap

A shallow embedding of `Core/Src/k_mem.c` and `Core/Src/os_kernel.c`
(with the constants and types of `Core/Inc/common.h`).

* Machine integers are natural numbers; every place where the C code computes in
  32-bit unsigned arithmetic reduces with `u32`.  Addresses are 32-bit, `0` is `NULL`.
* The heap is a map from addresses to block headers (`mem_block_t`) together with the
  globals of `k_mem.c`.  The free list is the doubly linked list threaded through the
  `next` / `prev` fields, exactly as in the C code.
* The `while` loops that follow `next` pointers take fuel; `none` stands for a walk that
  does not come back (a cyclic list).  A null-terminated list of distinct 32-bit
  addresses has fewer than `2^32` nodes, which is the fuel every loop is started with.
* The kernel globals of `os_kernel.c` form the record `Kernel`.  Symbols supplied by the
  linker and the addresses of functions are the fields of `Image`.
-/

namespace RTX

/-! ## `common.h` -/

abbrev DORMANT : Nat := 0
abbrev READY : Nat := 1
abbrev RUNNING : Nat := 2
abbrev SLEEPING : Nat := 3

abbrev TASK_NEW : Nat := 0
abbrev TASK_EXISTING : Nat := 1

abbrev TID_NULL : Nat := 0

abbrev MAX_TASKS : Nat := 16
abbrev STACK_SIZE : Nat := 0x400

abbrev RTX_OK : Int := 0
abbrev RTX_ERR : Int := -1

/-- Reduction of a natural number to an unsigned 32-bit value (`U32`, `size_t`, pointers). -/
def u32 (n : Nat) : Nat := n % 4294967296

/-- Conversion of a 32-bit unsigned value to `int` (two's complement). -/
def toInt32 (n : Nat) : Int :=
  if u32 n < 2147483648 then (u32 n : Int) else (u32 n : Int) - 4294967296

/-- Conversion of an `int` to `U32`. -/
def ofInt32 (i : Int) : Nat := (i % 4294967296).toNat

/-- The task control block `TCB` of `common.h`. -/
structure TCB where
  ptask : Nat
  stack_high : Nat
  tid : Nat
  state : Nat
  stack_size : Nat
  stack_ptr : Nat
  is_fresh_task : Nat
  time_left : Nat
  deadline_value : Nat
  sleep_time : Nat
  period : Nat
  next_period_start : Nat
  is_periodic : Nat
  stack_base : Nat
  deriving DecidableEq, Repr

/-! ## `k_mem.c` -/

/-- The block header `mem_block_t`. -/
structure mem_block where
  size : Nat
  is_allocated : Nat
  owner_tid : Nat
  next : Nat
  prev : Nat
  deriving DecidableEq, Repr

/-- The value of `sizeof(mem_block_t)` on the 32-bit target: `U32 size`, `U8 is_allocated`
padded to a word, `task_t owner_tid` and two pointers. -/
abbrev HDR : Nat := 20

/-- Fuel of the list walks: the number of 32-bit addresses. -/
abbrev WALK_FUEL : Nat := 4294967296

/-- The linker symbols `_img_end`, `_estack`, `_Min_Stack_Size` (as addresses) and the
addresses of the two functions whose address the kernel stores. -/
structure Image where
  img_end : Nat
  estack : Nat
  min_stack_size : Nat
  osTaskExit : Nat
  null_task_func : Nat
  deriving DecidableEq, Repr

/-- The globals of `k_mem.c` and the block headers stored in memory. -/
structure Heap where
  heap_start : Nat
  heap_end : Nat
  free_list_head : Nat
  memory_initialized : Nat
  blk : Nat → mem_block

namespace Heap

def set_blk (h : Heap) (a : Nat) (b : mem_block) : Heap :=
  { h with blk := Function.update h.blk a b }

def set_head (h : Heap) (v : Nat) : Heap :=
  { h with free_list_head := v }

def set_init (h : Heap) (v : Nat) : Heap :=
  { h with memory_initialized := v }

def set_bounds (h : Heap) (heap_start heap_end : Nat) : Heap :=
  { h with heap_start := heap_start, heap_end := heap_end }

def set_size (h : Heap) (a v : Nat) : Heap :=
  { h with blk := Function.update h.blk a { h.blk a with size := v } }

def set_is_allocated (h : Heap) (a v : Nat) : Heap :=
  { h with blk := Function.update h.blk a { h.blk a with is_allocated := v } }

def set_owner_tid (h : Heap) (a v : Nat) : Heap :=
  { h with blk := Function.update h.blk a { h.blk a with owner_tid := v } }

def set_next (h : Heap) (a v : Nat) : Heap :=
  { h with blk := Function.update h.blk a { h.blk a with next := v } }

def set_prev (h : Heap) (a v : Nat) : Heap :=
  { h with blk := Function.update h.blk a { h.blk a with prev := v } }

end Heap

/-- The loop of `find_free_block`: `some 0` is `NULL`, `none` a walk that never ends. -/
def find_free_block_loop (m : Nat → mem_block) (size : Nat) : Nat → Nat → Option Nat
  | 0, _ => none
  | fuel + 1, current =>
    if current = 0 then some 0
    else if (m current).is_allocated = 0 ∧ size ≤ (m current).size then some current
    else find_free_block_loop m size fuel (m current).next

/-- `find_free_block(size)`. -/
def find_free_block (h : Heap) (size : Nat) : Option Nat :=
  find_free_block_loop h.blk size WALK_FUEL h.free_list_head

/-- `remove_from_free_list(block)`. -/
def remove_from_free_list (h : Heap) (block : Nat) : Heap :=
  let h1 :=
    if (h.blk block).prev ≠ 0 then h.set_next (h.blk block).prev (h.blk block).next
    else h.set_head (h.blk block).next
  let h2 :=
    if (h1.blk block).next ≠ 0 then h1.set_prev (h1.blk block).next (h1.blk block).prev
    else h1
  (h2.set_next block 0).set_prev block 0

/-- The scan of `add_to_free_list`: the final values of `(prev, current)`. -/
def add_scan (m : Nat → mem_block) (block : Nat) : Nat → Nat → Nat → Option (Nat × Nat)
  | 0, _, _ => none
  | fuel + 1, prev, current =>
    if current ≠ 0 ∧ current < block then add_scan m block fuel current (m current).next
    else some (prev, current)

/-- `add_to_free_list(block)`. -/
def add_to_free_list (h : Heap) (block : Nat) : Option Heap :=
  let h0 := (h.set_next block 0).set_prev block 0
  if h0.free_list_head = 0 then some (h0.set_head block)
  else
    match add_scan h0.blk block WALK_FUEL 0 h0.free_list_head with
    | none => none
    | some (prev, current) =>
      if prev = 0 then
        let h1 := h0.set_next block h0.free_list_head
        let h2 := if h1.free_list_head ≠ 0 then h1.set_prev h1.free_list_head block else h1
        some (h2.set_head block)
      else
        let h1 := h0.set_next block current
        let h2 := h1.set_prev block prev
        let h3 := h2.set_next prev block
        some (if current ≠ 0 then h3.set_prev current block else h3)

/-- The first half of `coalesce_free_blocks`: `// Try to coalesce with next block`. -/
def coalesce_next (h : Heap) (block : Nat) : Heap :=
  if (h.blk block).next ≠ 0 ∧ (h.blk (h.blk block).next).is_allocated = 0 then
    let next_block := (h.blk block).next
    if u32 (block + (h.blk block).size) = next_block then
      let a := h.set_size block (u32 ((h.blk block).size + (h.blk next_block).size))
      let b := a.set_next block (a.blk next_block).next
      let c := if (b.blk next_block).next ≠ 0 then b.set_prev (b.blk next_block).next block else b
      remove_from_free_list c next_block
    else h
  else h

/-- The second half of `coalesce_free_blocks`: `// Try to coalesce with previous block`. -/
def coalesce_prev (h : Heap) (block : Nat) : Heap :=
  if (h.blk block).prev ≠ 0 ∧ (h.blk (h.blk block).prev).is_allocated = 0 then
    let prev_block := (h.blk block).prev
    if u32 (prev_block + (h.blk prev_block).size) = block then
      let a := h.set_size prev_block (u32 ((h.blk prev_block).size + (h.blk block).size))
      let b := a.set_next prev_block (a.blk block).next
      let c := if (b.blk block).next ≠ 0 then b.set_prev (b.blk block).next prev_block else b
      remove_from_free_list c block
    else h
  else h

/-- `coalesce_free_blocks(block)`. -/
def coalesce_free_blocks (h : Heap) (block : Nat) : Heap :=
  coalesce_prev (coalesce_next h block) block

/-- `is_valid_pointer(ptr)`. -/
def is_valid_pointer (h : Heap) (ptr : Nat) : Bool :=
  if ptr < u32 (h.heap_start + HDR) ∨ h.heap_end ≤ ptr then false
  else
    let block := u32 (ptr + 4294967296 - HDR)
    if block < h.heap_start ∨ h.heap_end ≤ block then false
    else if (h.blk block).size < HDR + 4 ∨ h.heap_end < u32 (block + (h.blk block).size) then false
    else true

/-- The heap low boundary computed by `k_mem_init_impl`: `&_img_end + 0x200`, aligned up
to 4 bytes. -/
def init_heap_start (img : Image) : Nat :=
  let hs := u32 (img.img_end + 0x200)
  if hs % 4 ≠ 0 then u32 (hs + (4 - hs % 4)) else hs

/-- The heap high boundary computed by `k_mem_init_impl`: `&_estack - &_Min_Stack_Size`. -/
def init_heap_end (img : Image) : Nat :=
  u32 (img.estack + 4294967296 - u32 img.min_stack_size)

/-- The block `if (memory_initialized) { ... }` of `k_mem_init_impl`: the old heap region
is zeroed (every header that lies in it reads as zero afterwards) and the globals are
reset. -/
def init_wipe (h : Heap) : Heap :=
  if h.memory_initialized ≠ 0 then
    { heap_start := 0, heap_end := 0, free_list_head := 0, memory_initialized := 0,
      blk := fun a =>
        if h.heap_start ≠ 0 ∧ h.heap_end ≠ 0 ∧ h.heap_start ≤ a ∧ a + HDR ≤ h.heap_end
        then ⟨0, 0, 0, 0, 0⟩ else h.blk a }
  else h

/-- `k_mem_init_impl()`; the first argument is the global `g_kernel_initialized`. -/
def k_mem_init_impl (img : Image) (g_kernel_initialized : Nat) (h : Heap) : Int × Heap :=
  if g_kernel_initialized = 0 then (RTX_ERR, h)
  else
    let h1 := (init_wipe h).set_bounds (init_heap_start img) (init_heap_end img)
    let total_heap_size := u32 (h1.heap_end + 4294967296 - h1.heap_start)
    if total_heap_size < HDR + 16 then (RTX_ERR, h1)
    else
      let h2 := h1.set_blk h1.heap_start ⟨total_heap_size, 0, TID_NULL, 0, 0⟩
      (RTX_OK, (h2.set_head h2.heap_start).set_init 1)

/-- The size of a request after `// Make sure size is 4 byte aligned`. -/
def aligned_size (size : Nat) : Nat :=
  if size % 4 ≠ 0 then u32 (size + (4 - size % 4)) else size

/-- The value of `total_size` in `k_mem_alloc_impl`: the aligned size plus the header. -/
def total_size (size : Nat) : Nat := u32 (aligned_size size + HDR)

/-- The block `// Split block if bigger than needed` of `k_mem_alloc_impl`. -/
def alloc_split (h : Heap) (block total : Nat) : Option Heap :=
  if u32 (total + HDR + 16) ≤ (h.blk block).size then
    let new_block := u32 (block + total)
    let a := h.set_blk new_block
      ⟨u32 ((h.blk block).size + 4294967296 - total), 0, TID_NULL, 0, 0⟩
    let b := a.set_size block total
    add_to_free_list b new_block
  else some h

/-- The statements of `k_mem_alloc_impl` that mark the block allocated, set its owner and
clear its links. -/
def alloc_mark (h : Heap) (block tid : Nat) : Heap :=
  (((h.set_is_allocated block 1).set_owner_tid block tid).set_next block 0).set_prev block 0

/-- `k_mem_alloc_impl(size)`; the first argument is `osGetTID_internal()`.  The result is
the returned pointer (`0` for `NULL`) and the heap afterwards. -/
def k_mem_alloc_impl (tid : Nat) (h : Heap) (size : Nat) : Option (Nat × Heap) :=
  if h.memory_initialized = 0 ∨ size = 0 then some (0, h)
  else
    match find_free_block h (total_size size) with
    | none => none
    | some block =>
      if block = 0 then some (0, h)
      else
        match alloc_split (remove_from_free_list h block) block (total_size size) with
        | none => none
        | some h2 => some (u32 (block + HDR), alloc_mark h2 block tid)

/-- `k_mem_dealloc_impl(ptr)`; the first argument is `osGetTID_internal()`. -/
def k_mem_dealloc_impl (tid : Nat) (h : Heap) (ptr : Nat) : Option (Int × Heap) :=
  if ptr = 0 then some (RTX_OK, h)
  else if h.memory_initialized = 0 ∨ is_valid_pointer h ptr = false then some (RTX_ERR, h)
  else
    let block := u32 (ptr + 4294967296 - HDR)
    if (h.blk block).is_allocated = 0 then some (RTX_ERR, h)
    else if (h.blk block).owner_tid ≠ tid ∧ tid ≠ TID_NULL then some (RTX_ERR, h)
    else
      let h1 := (h.set_is_allocated block 0).set_owner_tid block TID_NULL
      match add_to_free_list h1 block with
      | none => none
      | some h2 => some (RTX_OK, coalesce_free_blocks h2 block)

/-- The loop of `k_mem_count_extfrag_impl`. -/
def count_extfrag_loop (m : Nat → mem_block) (size : Nat) : Nat → Nat → Nat → Option Nat
  | 0, _, _ => none
  | fuel + 1, current, count =>
    if current = 0 then some count
    else
      let count :=
        if (m current).is_allocated = 0 ∧
            u32 ((m current).size + 4294967296 - HDR) < size then count + 1 else count
      count_extfrag_loop m size fuel (m current).next count

/-- `k_mem_count_extfrag_impl(size)`. -/
def k_mem_count_extfrag_impl (h : Heap) (size : Nat) : Option Nat :=
  if h.memory_initialized = 0 then some 0
  else count_extfrag_loop h.blk size WALK_FUEL h.free_list_head 0

/-- The blocks of the free list in list order, each with its `size` field. -/
def free_blocks_loop (m : Nat → mem_block) : Nat → Nat → Option (List (Nat × Nat))
  | 0, _ => none
  | fuel + 1, current =>
    if current = 0 then some []
    else (free_blocks_loop m fuel (m current).next).map fun r => (current, (m current).size) :: r

/-- The free list as a list of `(address, size)` pairs. -/
def free_blocks (h : Heap) : Option (List (Nat × Nat)) :=
  free_blocks_loop h.blk WALK_FUEL h.free_list_head

/-! ## `os_kernel.c` -/

/-- The globals of `os_kernel.c`, the heap of `k_mem.c`, and the machine state the kernel
touches: the words it writes through the task stack pointers, the process stack pointer
and the PendSV pending bit of `SCB->ICSR`. -/
structure Kernel where
  g_tasks : Nat → TCB
  g_active_task_id : Nat
  target_task_id : Nat
  task_stack_ptrs : Nat → Nat
  g_num_tasks : Int
  g_kernel_initialized : Nat
  g_kernel_running : Nat
  g_system_time : Nat
  mem : Heap
  words : Nat → Nat
  psp : Nat
  pendsv : Bool
  img : Image

namespace Kernel

/-- Assignment to fields of `g_tasks[i]`. -/
def upd (k : Kernel) (i : Nat) (f : TCB → TCB) : Kernel :=
  { k with g_tasks := Function.update k.g_tasks i (f (k.g_tasks i)) }

/-- The statement `*(--task_stack_ptrs[t]) = v`. -/
def push (k : Kernel) (t v : Nat) : Kernel :=
  let sp := u32 (k.task_stack_ptrs t + 4294967296 - 4)
  { k with
    task_stack_ptrs := Function.update k.task_stack_ptrs t sp
    words := Function.update k.words sp v }

/-- A `for` loop of `n` pushes of the same value. -/
def push_n (k : Kernel) (t v : Nat) : Nat → Kernel
  | 0 => k
  | n + 1 => push_n (k.push t v) t v n

end Kernel

/-- `osGetTID_internal()`. -/
def osGetTID_internal (k : Kernel) : Nat := k.g_active_task_id

/-- `osKernelInit_impl()`.  The loop leaves `stack_base` of each slot as it was. -/
def osKernelInit_impl (k : Kernel) : Kernel :=
  let tasks : Nat → TCB := fun i =>
    if i < MAX_TASKS then
      { ptask := 0, stack_high := 0, tid := i, state := DORMANT, stack_size := 0,
        stack_ptr := 0, is_fresh_task := TASK_NEW, time_left := 0, deadline_value := 5,
        sleep_time := 0, period := 0, next_period_start := 0, is_periodic := 0,
        stack_base := (k.g_tasks i).stack_base }
    else k.g_tasks i
  let k1 : Kernel :=
    { k with
      g_tasks := tasks
      task_stack_ptrs := fun i => if i < MAX_TASKS then 0 else k.task_stack_ptrs i }
  let k2 := k1.upd 0 fun t =>
    { t with state := READY, ptask := k.img.null_task_func, deadline_value := 0xFFFFFFFF,
             time_left := 0xFFFFFFFF, is_periodic := 0 }
  let k3 : Kernel :=
    { k2 with g_num_tasks := 0, g_active_task_id := TID_NULL, g_kernel_initialized := 1,
              g_kernel_running := 0 }
  { k3 with mem := (k_mem_init_impl k3.img k3.g_kernel_initialized k3.mem).2 }

/-- The local variables of the first loop of `edf_scheduler`. -/
structure EdfScan where
  earliest_deadline : Nat
  selected_task : Nat
  tasks_with_same_deadline : Nat
  first_equal_deadline_task : Nat
  deriving DecidableEq, Repr

/-- One iteration of the first loop of `edf_scheduler`. -/
def edf_scan_step (g : Nat → TCB) (acc : EdfScan) (i : Nat) : EdfScan :=
  if (g i).state = READY then
    if (g i).deadline_value < acc.earliest_deadline then
      { earliest_deadline := (g i).deadline_value, selected_task := i,
        tasks_with_same_deadline := 1, first_equal_deadline_task := i }
    else if (g i).deadline_value = acc.earliest_deadline then
      { acc with
        tasks_with_same_deadline := acc.tasks_with_same_deadline + 1
        first_equal_deadline_task :=
          if acc.first_equal_deadline_task = TID_NULL then i else acc.first_equal_deadline_task }
    else acc
  else acc

/-- The first loop of `edf_scheduler`, over the slots `1 .. MAX_TASKS - 1`. -/
def edf_scan (g : Nat → TCB) : EdfScan :=
  (List.range' 1 (MAX_TASKS - 1)).foldl (edf_scan_step g)
    { earliest_deadline := 0xFFFFFFFF, selected_task := 0, tasks_with_same_deadline := 0,
      first_equal_deadline_task := TID_NULL }

/-- `edf_scheduler()`. -/
def edf_scheduler (k : Kernel) : Nat :=
  let r := edf_scan k.g_tasks
  let hit := fun i =>
    decide ((k.g_tasks i).state = READY ∧ (k.g_tasks i).deadline_value = r.earliest_deadline)
  if 1 < r.tasks_with_same_deadline then
    let current_task := osGetTID_internal k
    let start := u32 (current_task + 1)
    match (List.range' start (MAX_TASKS - start)).find? hit with
    | some i => i
    | none =>
      match (List.range' 1 current_task).find? hit with
      | some i => i
      | none => r.selected_task
  else r.selected_task

/-- The statements that build the initial exception frame of task `t`, as written in
`trigger_context_switch` and again in case 1 of `SVC_Handler_Main`: the status word, the
entry address, the address of `osTaskExit`, then a loop of five and a loop of eight
pushes of `0xAAAAAAAA`. -/
def init_frame (k : Kernel) (t : Nat) : Kernel :=
  let a : Kernel :=
    { k with task_stack_ptrs := Function.update k.task_stack_ptrs t (k.g_tasks t).stack_high }
  let a := a.push t 0x01000000
  let a := a.push t (a.g_tasks t).ptask
  let a := a.push t a.img.osTaskExit
  let a := a.push_n t 0xAAAAAAAA 5
  a.push_n t 0xAAAAAAAA 8

/-- The statements that build the frame of the first task in `osKernelStart`: the same
three words, then one loop of thirteen pushes. -/
def first_frame (k : Kernel) (t : Nat) : Kernel :=
  let a : Kernel :=
    { k with task_stack_ptrs := Function.update k.task_stack_ptrs t (k.g_tasks t).stack_high }
  let a := a.push t 0x01000000
  let a := a.push t (a.g_tasks t).ptask
  let a := a.push t a.img.osTaskExit
  a.push_n t 0xAAAAAAAA 13

/-- `perform_context_switch()`. -/
def perform_context_switch (k : Kernel) : Kernel :=
  let current_task := osGetTID_internal k
  let k1 : Kernel :=
    if current_task ≠ TID_NULL then
      { k with task_stack_ptrs := Function.update k.task_stack_ptrs current_task k.psp }
    else k
  if k1.target_task_id ≠ TID_NULL then
    { k1 with psp := k1.task_stack_ptrs k1.target_task_id
              g_active_task_id := k1.target_task_id }
  else k1

/-- Modelled from the spec: the pendable service exception, whose handler is not among
the C sources; once pending it runs the save routine `perform_context_switch` and the
pending bit is cleared. -/
def PendSV_Handler (k : Kernel) : Kernel :=
  if k.pendsv then { perform_context_switch k with pendsv := false } else k

/-- The block `if (g_tasks[target_task_id].is_fresh_task == TASK_NEW) { ... }` of
`trigger_context_switch`. -/
def tcs_frame (k : Kernel) (t : Nat) : Kernel :=
  if (k.g_tasks t).is_fresh_task = TASK_NEW then init_frame k t else k

/-- The block of `trigger_context_switch` that demotes the current task:
`if (current_task != TID_NULL && g_tasks[current_task].state == RUNNING) { ... }`. -/
def tcs_demote (k : Kernel) (current_task : Nat) : Kernel :=
  if current_task ≠ TID_NULL ∧ (k.g_tasks current_task).state = RUNNING then
    let a := k.upd current_task fun c => { c with state := READY }
    if (a.g_tasks current_task).time_left = 0 then
      a.upd current_task fun c => { c with time_left := c.deadline_value }
    else a
  else k

/-- The statements of `trigger_context_switch` that mark the target Running, clear its
fresh flag and refill an empty slice. -/
def tcs_dispatch (k : Kernel) (t : Nat) : Kernel :=
  let k3 := k.upd t fun c => { c with state := RUNNING }
  let k4 := k3.upd t fun c => { c with is_fresh_task := TASK_EXISTING }
  if (k4.g_tasks t).time_left = 0 then
    k4.upd t fun c => { c with time_left := c.deadline_value }
  else k4

/-- `trigger_context_switch()`. -/
def trigger_context_switch (k : Kernel) : Kernel :=
  let current_task := osGetTID_internal k
  let k : Kernel := { k with target_task_id := edf_scheduler k }
  if k.target_task_id = TID_NULL ∨ k.target_task_id = current_task then k
  else
    { tcs_dispatch (tcs_demote (tcs_frame k k.target_task_id) current_task) k.target_task_id
      with pendsv := true }

/-- `SVC_Handler_Main`, case 0. -/
def SVC_0 (k : Kernel) : Kernel :=
  { k with psp := k.task_stack_ptrs k.target_task_id }

/-- The block of case 1 that sets up the stack of a fresh target. -/
def svc1_frame (k : Kernel) (t : Nat) : Kernel :=
  if t ≠ TID_NULL ∧ (k.g_tasks t).is_fresh_task = TASK_NEW then
    (init_frame k t).upd t fun c => { c with is_fresh_task := TASK_EXISTING }
  else k

/-- The block of case 1 that marks the target Running and refills an empty slice. -/
def svc1_run (k : Kernel) (t : Nat) : Kernel :=
  if t ≠ TID_NULL then
    let a := k.upd t fun c => { c with state := RUNNING }
    if (a.g_tasks t).time_left = 0 then
      a.upd t fun c => { c with time_left := c.deadline_value }
    else a
  else k

/-- `SVC_Handler_Main`, case 1 (yield). -/
def SVC_1 (k : Kernel) : Kernel :=
  { svc1_run (svc1_frame k k.target_task_id) k.target_task_id with pendsv := true }

/-- The two assignments of case 4 made with interrupts masked. -/
def svc4_store (k : Kernel) (deadline : Int) (tid : Nat) : Kernel :=
  k.upd tid fun c => { c with deadline_value := ofInt32 deadline, time_left := ofInt32 deadline }

/-- `SVC_Handler_Main`, case 4 (set deadline): the value left in `svc_args[0]` and the
kernel afterwards. -/
def SVC_4 (k : Kernel) (deadline : Int) (tid : Nat) : Int × Kernel :=
  if 0 < deadline ∧ tid < MAX_TASKS ∧
      ((k.g_tasks tid).state = READY ∨ (k.g_tasks tid).state = RUNNING) then
    let k2 := svc4_store k deadline tid
    if k2.g_active_task_id ≠ TID_NULL ∧
        (k2.g_tasks tid).deadline_value < (k2.g_tasks k2.g_active_task_id).deadline_value then
      -- `trigger_context_switch(); return;` leaves the default `RTX_ERR` in `svc_args[0]`
      (RTX_ERR, trigger_context_switch k2)
    else (RTX_OK, k2)
  else (RTX_ERR, k)

/-- The cleanup statements of case 17 between the deallocation and the context switch. -/
def svc17_clear (k : Kernel) (tid : Nat) : Kernel :=
  let k2 := k.upd tid fun c =>
    { c with state := DORMANT, ptask := 0, stack_high := 0, stack_size := 0,
             stack_base := 0, stack_ptr := 0, is_fresh_task := TASK_NEW }
  { k2 with task_stack_ptrs := Function.update k2.task_stack_ptrs tid 0
            g_num_tasks := k2.g_num_tasks - 1 }

/-- `SVC_Handler_Main`, case 17 (task exit). -/
def SVC_17 (k : Kernel) : Option Kernel :=
  let tid := k.g_active_task_id
  if tid ≠ TID_NULL then
    match k_mem_dealloc_impl (osGetTID_internal k) k.mem (k.g_tasks tid).stack_base with
    | none => none
    | some (_, m) => some (trigger_context_switch (svc17_clear { k with mem := m } tid))
  else some k

/-- The statements of `osYield` made with interrupts masked, before the scheduler runs. -/
def yield_mark (k : Kernel) (current_task : Nat) : Kernel :=
  let k1 := k.upd current_task fun c => { c with state := READY }
  if (k1.g_tasks current_task).is_periodic = 0 then
    k1.upd current_task fun c => { c with time_left := c.deadline_value }
  else k1

/-- The scheduling decision shared by `osYield` and `osSleep`:
`target_task_id = edf_scheduler(); if (target_task_id != TID_NULL) SVC #1`. -/
def yield_to_target (k : Kernel) : Kernel :=
  let k3 : Kernel := { k with target_task_id := edf_scheduler k }
  if k3.target_task_id ≠ TID_NULL then SVC_1 k3 else k3

/-- `osYield()`. -/
def osYield (k : Kernel) : Kernel :=
  let current_task := osGetTID_internal k
  if current_task ≠ TID_NULL then yield_to_target (yield_mark k current_task) else k

/-- The statements of `osSleep` made with interrupts masked, before the scheduler runs. -/
def sleep_mark (k : Kernel) (current_task : Nat) (timeInMs : Int) : Kernel :=
  k.upd current_task fun c => { c with state := SLEEPING, time_left := ofInt32 timeInMs }

/-- `osSleep(timeInMs)`, up to the point where the caller is suspended: either the yield
SVC has been issued, or no other task is Ready and the caller waits in the `wfi` loop
(the result is then the state in which it waits). -/
def osSleep (k : Kernel) (timeInMs : Int) : Kernel :=
  let current_task := osGetTID_internal k
  if current_task ≠ TID_NULL ∧ 0 < timeInMs then
    yield_to_target (sleep_mark k current_task timeInMs)
  else k

/-- `osPeriodYield()`. -/
def osPeriodYield (k : Kernel) : Kernel :=
  let current_tid := osGetTID_internal k
  if current_tid ≠ TID_NULL then
    if (k.g_tasks current_tid).is_periodic ≠ 0 then
      let remaining_time := toInt32 (k.g_tasks current_tid).time_left
      if 0 < remaining_time then osSleep k remaining_time
      else k.upd current_tid fun c => { c with time_left := c.deadline_value }
    else osSleep k (toInt32 (k.g_tasks current_tid).deadline_value)
  else k

/-- The statements of `osCreateTask_impl` between the allocation and the preemption check:
the TCB of slot `new_tid` is filled in, the owner of the stack block is set to `new_tid`
and `g_num_tasks` is incremented. -/
def create_install (k : Kernel) (new_tid : Nat) (t : TCB) (allocated_stack : Nat) : Kernel :=
  let k1 := k.upd new_tid fun c =>
    { c with ptask := t.ptask, stack_size := t.stack_size,
             stack_high := u32 (allocated_stack + t.stack_size),
             stack_base := allocated_stack, tid := new_tid, state := READY,
             stack_ptr := 0, is_fresh_task := TASK_NEW, deadline_value := 5,
             time_left := 5, sleep_time := 0, period := 0,
             next_period_start := 0, is_periodic := 0 }
  let block := u32 (allocated_stack + 4294967296 - HDR)
  { k1 with mem := k1.mem.set_owner_tid block new_tid, g_num_tasks := k1.g_num_tasks + 1 }

/-- The preemption check that ends `osCreateTask_impl`. -/
def create_preempt (k : Kernel) (new_tid : Nat) : Kernel :=
  if k.g_kernel_running ≠ 0 ∧ k.g_active_task_id ≠ TID_NULL ∧
      (k.g_tasks new_tid).deadline_value < (k.g_tasks k.g_active_task_id).deadline_value then
    trigger_context_switch k
  else k

/-- The search for an empty slot in `osCreateTask_impl`. -/
def find_dormant (k : Kernel) : Nat :=
  ((List.range' 1 (MAX_TASKS - 1)).find? fun i =>
    decide ((k.g_tasks i).state = DORMANT)).getD TID_NULL

/-- `osCreateTask_impl(task)`: the return value, the kernel afterwards and the caller's
TCB afterwards (`none` is a null `task`).  The caller's TCB is an object of its own. -/
def osCreateTask_impl (k : Kernel) (task : Option TCB) : Option (Int × Kernel × Option TCB) :=
  if k.g_kernel_initialized = 0 then some (RTX_ERR, k, task)
  else
    match task with
    | none => some (RTX_ERR, k, task)
    | some t =>
      if t.ptask = 0 ∨ t.stack_size = 0 then some (RTX_ERR, k, task)
      else if t.stack_size < STACK_SIZE then some (RTX_ERR, k, task)
      else
        let new_tid := find_dormant k
        if new_tid = TID_NULL ∨ (MAX_TASKS : Int) - 1 ≤ k.g_num_tasks then
          some (RTX_ERR, k, task)
        else
          match k_mem_alloc_impl (osGetTID_internal k) k.mem t.stack_size with
          | none => none
          | some (allocated_stack, m) =>
            if allocated_stack = 0 then some (RTX_ERR, { k with mem := m }, task)
            else
              let k1 := create_install { k with mem := m } new_tid t allocated_stack
              let t1 : TCB :=
                { t with tid := new_tid, stack_high := (k1.g_tasks new_tid).stack_high }
              some (RTX_OK, create_preempt k1 new_tid, some t1)

/-- The statements of `osCreateDeadlineTask_impl` that follow a successful
`osCreateTask_impl`: the deadline is stored and the task is marked periodic. -/
def deadline_install (k : Kernel) (new_tid : Nat) (deadline : Int) : Kernel :=
  k.upd new_tid fun c =>
    { c with deadline_value := ofInt32 deadline, time_left := ofInt32 deadline,
             next_period_start := 0, is_periodic := 1 }

/-- The preemption check that ends `osCreateDeadlineTask_impl`. -/
def deadline_preempt (k : Kernel) (deadline : Int) : Kernel :=
  if k.g_kernel_running ≠ 0 ∧ k.g_active_task_id ≠ TID_NULL ∧
      ofInt32 deadline < (k.g_tasks k.g_active_task_id).deadline_value then
    trigger_context_switch k
  else k

/-- `osCreateDeadlineTask_impl(deadline, task)`. -/
def osCreateDeadlineTask_impl (k : Kernel) (deadline : Int) (task : Option TCB) :
    Option (Int × Kernel × Option TCB) :=
  match task with
  | none => some (RTX_ERR, k, task)
  | some t =>
    if deadline ≤ 0 ∨ t.stack_size < STACK_SIZE then some (RTX_ERR, k, task)
    else
      match osCreateTask_impl k task with
      | none => none
      | some (result, k1, task1) =>
        if result ≠ RTX_OK then some (result, k1, task1)
        else
          let new_tid := (task1.getD t).tid
          some (RTX_OK, deadline_preempt (deadline_install k1 new_tid deadline) deadline, task1)

/-- The statements of `osKernelStart` from `// set up first task` to the timer resets. -/
def start_setup (k : Kernel) (t : Nat) : Kernel :=
  let a := first_frame { k with g_active_task_id := t } t
  let a := a.upd t fun c =>
    { c with state := RUNNING, is_fresh_task := TASK_EXISTING, time_left := c.deadline_value }
  { a with
    g_tasks := fun i =>
      if 1 ≤ i ∧ i < MAX_TASKS ∧ (a.g_tasks i).state = READY then
        { a.g_tasks i with time_left := (a.g_tasks i).deadline_value }
      else a.g_tasks i
    g_kernel_running := 1
    g_system_time := 0 }

/-- `osKernelStart()`.  The flag tells whether the call reached `SVC #0`, which starts the
first task and does not return; otherwise the function returned `RTX_ERR`. -/
def osKernelStart (k : Kernel) : Bool × Kernel :=
  if k.g_kernel_initialized = 0 ∨ k.g_kernel_running ≠ 0 then (false, k)
  else
    let k : Kernel := { k with target_task_id := edf_scheduler k }
    if k.target_task_id = TID_NULL then (false, k)
    else (true, SVC_0 (start_setup k k.target_task_id))

/-! ## Predicates, invariants, state machines and concrete states used below -/

/-- A slice that has run out is refilled from the deadline. -/
def refill (c : TCB) : TCB :=
  { c with time_left := if c.time_left = 0 then c.deadline_value else c.time_left }

/-- The nodes `l`, in order, form a doubly linked chain in the headers `m`: it is entered
through the pointer `p`, the `prev` field of its first node is `q`, and the `next` field
of its last node is `r` (for the empty chain, `p = r`). -/
def Seg (m : Nat → mem_block) : Nat → Nat → List Nat → Nat → Prop
  | p, _, [], r => p = r
  | p, q, a :: l, r => p = a ∧ (m a).prev = q ∧ Seg m (m a).next a l r

/-- The last node of a chain, or `q` when the chain is empty. -/
def lastOr (l : List Nat) (q : Nat) : Nat := l.getLastD q

/-- The free list of the heap `h` is the chain `l`: it is null-terminated and doubly
linked, every block on it lies inside the heap at a 4-byte aligned address, is not
marked allocated and is owned by the Null Task, and consecutive blocks are in increasing
address order with a gap between them (no two free blocks touch). -/
structure FreeListInv (h : Heap) (l : List Nat) : Prop where
  init : h.memory_initialized ≠ 0
  start_pos : 0 < h.heap_start
  end_lt : h.heap_end < 4294967296
  seg : Seg h.blk h.free_list_head 0 l 0
  inside : ∀ a ∈ l, h.heap_start ≤ a ∧ a + (h.blk a).size ≤ h.heap_end
  free : ∀ a ∈ l, (h.blk a).is_allocated = 0 ∧ (h.blk a).owner_tid = TID_NULL
  aligned : ∀ a ∈ l, a % 4 = 0
  gaps : l.Pairwise (fun a b => a + (h.blk a).size < b)

/-- A memory map of the target: image end, top of the main stack, reserved main-stack
size, and the addresses of `osTaskExit` and `null_task_func`. -/
def sample_image : Image :=
  { img_end := 0x20000e00, estack := 0x20018000, min_stack_size := 0x4000,
    osTaskExit := 0x08000101, null_task_func := 0x08000201 }

/-- A TCB whose fields are all zero. -/
def zero_tcb : TCB :=
  { ptask := 0, stack_high := 0, tid := 0, state := 0, stack_size := 0, stack_ptr := 0,
    is_fresh_task := 0, time_left := 0, deadline_value := 0, sleep_time := 0, period := 0,
    next_period_start := 0, is_periodic := 0, stack_base := 0 }

/-- The kernel globals at reset: everything zero. -/
def power_on : Kernel :=
  { g_tasks := fun _ => zero_tcb, g_active_task_id := 0, target_task_id := 0,
    task_stack_ptrs := fun _ => 0, g_num_tasks := 0, g_kernel_initialized := 0,
    g_kernel_running := 0, g_system_time := 0,
    mem := { heap_start := 0, heap_end := 0, free_list_head := 0, memory_initialized := 0,
             blk := fun _ => ⟨0, 0, 0, 0, 0⟩ },
    words := fun _ => 0, psp := 0, pendsv := false, img := sample_image }

/-- The kernel after `osKernelInit()`. -/
def sample_kernel : Kernel := osKernelInit_impl power_on

/-- A request for a task with the minimum stack. -/
def sample_task : TCB := { zero_tcb with ptask := 0x08001001, stack_size := 0x400 }

/-- A memory map whose heap region, `0x20001000 .. 0x20001010`, is too small for
`k_mem_init_impl`. -/
def cramped_image : Image := { sample_image with min_stack_size := 0x16FF0 }

/-- The kernel after `osKernelInit()` on that memory map: the kernel is initialised, the
heap is not. -/
def cramped_kernel : Kernel := osKernelInit_impl { power_on with img := cramped_image }

/-- Two tasks created with the default deadline, then the kernel started: task 1 is
Running (it is the active task), task 2 is Ready. -/
def two_tasks_started : Option Kernel :=
  (osCreateTask_impl sample_kernel (some sample_task)).bind fun r1 =>
    (osCreateTask_impl r1.2.1 (some sample_task)).map fun r2 =>
      (osKernelStart r2.2.1).2

/-- One task created, then the kernel started: task 1 is the active task. -/
def one_task_started : Kernel :=
  match osCreateTask_impl sample_kernel (some sample_task) with
  | some r => (osKernelStart r.2.1).2
  | none => sample_kernel

/-- The kernel after one successful `osCreateTask_impl` on `sample_kernel`. -/
def one_task_created : Kernel :=
  match osCreateTask_impl sample_kernel (some sample_task) with
  | some r => r.2.1
  | none => sample_kernel

/-- One task created with deadline 10 by `osCreateDeadlineTask_impl`, then the kernel
started: task 1 is the active task, Running with deadline 10. -/
def deadline_task_started : Kernel :=
  match osCreateDeadlineTask_impl sample_kernel 10 (some sample_task) with
  | some r => (osKernelStart r.2.1).2
  | none => sample_kernel

/-- The kernel and the return value after task 1 of `deadline_task_started` has created a
second task with deadline 20. -/
def second_deadline_task : Int × Kernel :=
  match osCreateDeadlineTask_impl deadline_task_started 20 (some sample_task) with
  | some r => (r.1, r.2.1)
  | none => (RTX_ERR, deadline_task_started)

/-- The kernel in which task 1, the only task, waits in `osSleep(10)`: no slot in
`[1, MAX_TASKS)` is Ready. -/
def one_task_sleeping : Kernel := osSleep one_task_started 10

/-- The address `4 * j` bytes below `H`, in 32-bit arithmetic. -/
def below (H j : Nat) : Nat := u32 (H + 4294967296 - 4 * j)

/-- The initial exception frame of task `t` below the stack boundary `H`: the saved stack
pointer is `H - 64`, the word at `H - 4` is the status word with bit 24 set, the word at
`H - 8` is the entry address, the word at `H - 12` is the address of `osTaskExit`, and
the thirteen words from `H - 16` down to `H - 64` hold `0xAAAAAAAA`. -/
def initial_frame (k : Kernel) (t H entry : Nat) : Prop :=
  k.task_stack_ptrs t = below H 16 ∧
  k.words (below H 1) = 0x01000000 ∧
  k.words (below H 2) = entry ∧
  k.words (below H 3) = k.img.osTaskExit ∧
  ∀ j, 4 ≤ j → j ≤ 16 → k.words (below H j) = 0xAAAAAAAA

/-- What the first loop of `edf_scheduler` has computed after the slots `done`. -/
structure EdfInv (g : Nat → TCB) (done : List Nat) (acc : EdfScan) : Prop where
  le : ∀ i ∈ done, (g i).state = READY → acc.earliest_deadline ≤ (g i).deadline_value
  max : acc.earliest_deadline ≤ 0xFFFFFFFF
  sel : acc.earliest_deadline < 0xFFFFFFFF →
    acc.selected_task ∈ done ∧ (g acc.selected_task).state = READY ∧
    (g acc.selected_task).deadline_value = acc.earliest_deadline ∧
    ∀ i ∈ done, (g i).state = READY → (g i).deadline_value = acc.earliest_deadline →
      acc.selected_task ≤ i
  none : acc.earliest_deadline = 0xFFFFFFFF → acc.selected_task = 0
  cnt : acc.tasks_with_same_deadline =
    done.countP (fun i => decide ((g i).state = READY ∧
      (g i).deadline_value = acc.earliest_deadline))

/-- The kernel after `osKernelInit`, the creation of X with deadline 20 and then the
creation of Y with deadline 5. -/
def xy_created : Kernel :=
  match osCreateDeadlineTask_impl sample_kernel 20 (some sample_task) with
  | some r =>
    match osCreateDeadlineTask_impl r.2.1 5 (some sample_task) with
    | some r2 => r2.2.1
    | none => r.2.1
  | none => sample_kernel

/-- Two tasks created with the default deadline, the kernel started: task 1 is Running and
active, task 2 is Ready. -/
def two_started : Kernel := two_tasks_started.getD sample_kernel

/-- The kernel states before `osKernelStart`: `osKernelInit` on a machine with no
exception pending (and `target_task_id` still at its C initialiser), then task creations
through either call. -/
inductive Booted : Kernel → Prop
  | init (k : Kernel) (hp : k.pendsv = false) (ht : k.target_task_id = TID_NULL) :
      Booted (osKernelInit_impl k)
  | create {k k' : Kernel} {r : Int} {t t' : Option TCB} :
      Booted k → osCreateTask_impl k t = some (r, k', t') → Booted k'
  | create_deadline {k k' : Kernel} {d r : Int} {t t' : Option TCB} :
      Booted k → osCreateDeadlineTask_impl k d t = some (r, k', t') → Booted k'

/-- The kernel states after a successful `osKernelStart`, between two kernel calls: each
call is followed by the PendSV exception it may have requested. -/
inductive Started : Kernel → Prop
  | start {k k' : Kernel} : Booted k → osKernelStart k = (true, k') → Started k'
  | yield {k : Kernel} : Started k → Started (PendSV_Handler (osYield k))
  | sleep {k : Kernel} (ms : Int) : Started k → Started (PendSV_Handler (osSleep k ms))
  | period_yield {k : Kernel} : Started k → Started (PendSV_Handler (osPeriodYield k))
  | exit {k k' : Kernel} : Started k → SVC_17 k = some k' → Started (PendSV_Handler k')
  | create {k k' : Kernel} {r : Int} {t t' : Option TCB} :
      Started k → osCreateTask_impl k t = some (r, k', t') → Started (PendSV_Handler k')
  | set_deadline {k : Kernel} (d : Int) (tid : Nat) :
      Started k → Started (PendSV_Handler (SVC_4 k d tid).2)
  | trigger {k : Kernel} : Started k → Started (PendSV_Handler (trigger_context_switch k))

/-- No slot of the task table other than `a` is Running, and the Null Task is not. -/
def OnlyRunning (k : Kernel) (a : Nat) : Prop :=
  (k.g_tasks TID_NULL).state ≠ RUNNING ∧
  ∀ i, i < MAX_TASKS → (k.g_tasks i).state = RUNNING → i = a

/-- The state of the Running marks while a kernel call is in progress: once PendSV has
been requested the only slot that may be Running is the target. -/
def RunningMid (k : Kernel) : Prop :=
  if k.pendsv = true then k.target_task_id ≠ TID_NULL ∧ OnlyRunning k k.target_task_id
  else OnlyRunning k k.g_active_task_id

/-- What holds before the kernel is started: no exception is pending, the kernel is not
running and no slot of the table is Running. -/
def BootedInv (k : Kernel) : Prop :=
  k.pendsv = false ∧ k.g_kernel_running = 0 ∧
  ∀ i, i < MAX_TASKS → (k.g_tasks i).state ≠ RUNNING

/-- Between two kernel calls no exception is pending and only the active task may be
Running. -/
def StartedInv (k : Kernel) : Prop :=
  k.pendsv = false ∧ OnlyRunning k k.g_active_task_id

/-- Task 1 (Running, deadline 10) creates a task with deadline 7 through
`osCreateDeadlineTask_impl`, then yields: the first switch request (default deadline
5 against 10) marks slot 2 Running, the second (7 against 10) resets the target to task
1, which therefore stays the active task; its next yield marks it Running as well. -/
def after_deadline_create_and_yield : Kernel :=
  match osCreateDeadlineTask_impl deadline_task_started 7 (some sample_task) with
  | some r => PendSV_Handler (osYield (PendSV_Handler r.2.1))
  | none => deadline_task_started

/-- The kernel after task 1, the only task, has exited through SVC #17 (and the PendSV
exception, which was not requested, has had its turn). -/
def exited_once : Kernel := PendSV_Handler ((SVC_17 one_task_started).getD one_task_started)

/-- The kernel after a second SVC #17 from the same task. -/
def exited_twice : Kernel := PendSV_Handler ((SVC_17 exited_once).getD exited_once)

/-- The number of slots of `[1, MAX_TASKS)` whose state is not Dormant. -/
def live_count (k : Kernel) : Nat :=
  (List.range' 1 (MAX_TASKS - 1)).countP fun i => decide ((k.g_tasks i).state ≠ DORMANT)

/-- The kernel states reached from `osKernelInit` through task creation by either call,
kernel start and task exit, each call followed by the PendSV exception it may have
requested.  The task that exits is a live one: its slot is not Dormant. -/
inductive Counted : Kernel → Prop
  | init (k : Kernel) (hp : k.pendsv = false) (ht : k.target_task_id = TID_NULL) :
      Counted (osKernelInit_impl k)
  | create {k k' : Kernel} {r : Int} {t t' : Option TCB} :
      Counted k → osCreateTask_impl k t = some (r, k', t') → Counted (PendSV_Handler k')
  | create_deadline {k k' : Kernel} {d r : Int} {t t' : Option TCB} :
      Counted k → osCreateDeadlineTask_impl k d t = some (r, k', t') →
      Counted (PendSV_Handler k')
  | start {k : Kernel} : Counted k → Counted (osKernelStart k).2
  | exit {k k' : Kernel} :
      Counted k → (k.g_tasks k.g_active_task_id).state ≠ DORMANT → SVC_17 k = some k' →
      Counted (PendSV_Handler k')

/-- The task count agrees with the table, and the active and target identifiers are slot
indices. -/
def CountInv (k : Kernel) : Prop :=
  k.g_active_task_id < MAX_TASKS ∧ k.target_task_id < MAX_TASKS ∧
  k.g_num_tasks = (live_count k : Int)

/-- The sample kernel with slot 1 made Ready with deadline `0xFFFFFFFF`. -/
def sentinel_deadline_kernel : Kernel :=
  sample_kernel.upd 1 fun c => { c with state := READY, deadline_value := 0xFFFFFFFF }

/-- The blocks `bs`, in address order, tile the region from `a` to `e`: the first block
starts at `a`, every block holds at least a header and 4 bytes, every block starts where
the one before it ends, and the last block ends at `e`. -/
def Tiles (m : Nat → mem_block) : Nat → List Nat → Nat → Prop
  | a, [], e => a = e
  | a, b :: bs, e => a = b ∧ HDR + 4 ≤ (m b).size ∧ Tiles m (b + (m b).size) bs e

/-- The block at `b` is not marked allocated. -/
def is_free (h : Heap) (b : Nat) : Bool := decide ((h.blk b).is_allocated = 0)

/-- The heap `h` is tiled by the blocks `bs`, and its free list is well formed and holds
exactly the blocks of `bs` that are not marked allocated. -/
structure HeapInv (h : Heap) (bs : List Nat) : Prop where
  fl : FreeListInv h (bs.filter (is_free h))
  tiles : Tiles h.blk h.heap_start bs h.heap_end
  aligned : ∀ b ∈ bs, b % 4 = 0
  ne_nil : bs ≠ []

/-- The largest request size considered: for larger requests the 32-bit computation of
the block size can wrap around. -/
def MAX_REQUEST : Nat := 4294967000

set_option maxRecDepth 100000 in
/-- The heap states reached from a successful `k_mem_init_impl` by calls of
`k_mem_alloc_impl` and `k_mem_dealloc_impl`, together with the list of the pointers that
were handed out and not released since. The heap region of the image does not wrap
around the address space, requests are of at most `MAX_REQUEST` bytes, and a call of
`k_mem_dealloc_impl` that returns `RTX_OK` for a non-null pointer is made on a pointer of
that list. -/
inductive HeapReach (img : Image) : Heap → List Nat → Prop
  | init (g : Nat) (h0 h : Heap) :
      k_mem_init_impl img g h0 = (RTX_OK, h) → 0 < init_heap_start img →
      init_heap_start img ≤ init_heap_end img → HeapReach img h []
  | alloc (tid n p : Nat) (h h' : Heap) (O : List Nat) :
      HeapReach img h O → n ≤ MAX_REQUEST → k_mem_alloc_impl tid h n = some (p, h') →
      HeapReach img h' (if p = 0 then O else p :: O)
  | dealloc (tid p : Nat) (h h' : Heap) (O : List Nat) :
      HeapReach img h O → p ∈ O → k_mem_dealloc_impl tid h p = some (RTX_OK, h') →
      HeapReach img h' (O.erase p)
  | refused (tid p : Nat) (r : Int) (h h' : Heap) (O : List Nat) :
      HeapReach img h O → k_mem_dealloc_impl tid h p = some (r, h') →
      (p = 0 ∨ r = RTX_ERR) → HeapReach img h' O

/-- What holds in every state of `HeapReach`: the heap boundaries are those of the image,
the heap is tiled by blocks, and the outstanding pointers are the payload addresses of
the blocks marked allocated. -/
def ReachInv (img : Image) (h : Heap) (O : List Nat) : Prop :=
  h.heap_start = init_heap_start img ∧ h.heap_end = init_heap_end img ∧ O.Nodup ∧
  ∃ bs, HeapInv h bs ∧
    ∀ p, p ∈ O ↔ ∃ b, (b ∈ bs ∧ (h.blk b).is_allocated ≠ 0) ∧ p = b + HDR

/-- The result of `p = k_mem_alloc_impl(64)`, called by task 1 on the freshly initialised
heap. -/
def alloc_p : Nat × Heap :=
  (k_mem_alloc_impl 1 sample_kernel.mem 64).getD (0, sample_kernel.mem)

/-- Then `q = k_mem_alloc_impl(64)`, by the same task. -/
def alloc_q : Nat × Heap := (k_mem_alloc_impl 1 alloc_p.2 64).getD (0, alloc_p.2)

/-- Then `k_mem_dealloc_impl(p)`. -/
def freed_p : Int × Heap :=
  (k_mem_dealloc_impl 1 alloc_q.2 alloc_p.1).getD (RTX_ERR, alloc_q.2)

/-- Then `k_mem_dealloc_impl(q)`. -/
def freed_q : Int × Heap :=
  (k_mem_dealloc_impl 1 freed_p.2 alloc_q.1).getD (RTX_ERR, freed_p.2)

/-- Memory at power-on that is not all zero: the bytes at `0x20001064` read as a block
header of size 24 that is marked allocated. -/
def stale_memory : Heap :=
  { heap_start := 0, heap_end := 0, free_list_head := 0, memory_initialized := 0,
    blk := fun a => if a = 0x20001064 then ⟨24, 1, 0, 0, 0⟩ else ⟨0, 0, 0, 0, 0⟩ }

/-- The heap after the first `k_mem_init_impl` on `stale_memory`. -/
def stale_heap : Heap := (k_mem_init_impl sample_image 1 stale_memory).2

/-- Task 1 allocates 200 bytes on `stale_heap`: the payload is `0x20001014 .. 0x200010DB`
and contains the stale header. -/
def stale_alloc : Nat × Heap := (k_mem_alloc_impl 1 stale_heap 200).getD (0, stale_heap)

/-- Then `k_mem_dealloc_impl(0x20001078)`, the pointer that goes with the stale header,
is called by the Null Task. -/
def stale_freed : Int × Heap :=
  (k_mem_dealloc_impl 0 stale_alloc.2 0x20001078).getD (RTX_ERR, stale_alloc.2)

/-! ## Frame facts for the stack-priming statements -/

@[simp] theorem Kernel.upd_g_tasks (k : Kernel) (i j : Nat) (f : TCB → TCB) :
    (k.upd i f).g_tasks j = if j = i then f (k.g_tasks i) else k.g_tasks j := by
  unfold Kernel.upd
  by_cases h : j = i
  · subst h; simp
  · simp [Function.update_noteq h, h]

@[simp] theorem Kernel.upd_mem (k : Kernel) (i : Nat) (f : TCB → TCB) :
    (k.upd i f).mem = k.mem := by
  simp [Kernel.upd]

@[simp] theorem Kernel.upd_g_num_tasks (k : Kernel) (i : Nat) (f : TCB → TCB) :
    (k.upd i f).g_num_tasks = k.g_num_tasks := by
  simp [Kernel.upd]

@[simp] theorem Kernel.upd_g_active_task_id (k : Kernel) (i : Nat) (f : TCB → TCB) :
    (k.upd i f).g_active_task_id = k.g_active_task_id := by
  simp [Kernel.upd]

@[simp] theorem Kernel.upd_target_task_id (k : Kernel) (i : Nat) (f : TCB → TCB) :
    (k.upd i f).target_task_id = k.target_task_id := by
  simp [Kernel.upd]

@[simp] theorem Kernel.upd_g_kernel_running (k : Kernel) (i : Nat) (f : TCB → TCB) :
    (k.upd i f).g_kernel_running = k.g_kernel_running := by
  simp [Kernel.upd]

@[simp] theorem Kernel.upd_g_kernel_initialized (k : Kernel) (i : Nat) (f : TCB → TCB) :
    (k.upd i f).g_kernel_initialized = k.g_kernel_initialized := by
  simp [Kernel.upd]

@[simp] theorem Kernel.upd_img (k : Kernel) (i : Nat) (f : TCB → TCB) :
    (k.upd i f).img = k.img := by
  simp [Kernel.upd]

@[simp] theorem Kernel.upd_pendsv (k : Kernel) (i : Nat) (f : TCB → TCB) :
    (k.upd i f).pendsv = k.pendsv := by
  simp [Kernel.upd]

@[simp] theorem Kernel.upd_task_stack_ptrs (k : Kernel) (i : Nat) (f : TCB → TCB) :
    (k.upd i f).task_stack_ptrs = k.task_stack_ptrs := by
  simp [Kernel.upd]

@[simp] theorem Kernel.upd_words (k : Kernel) (i : Nat) (f : TCB → TCB) :
    (k.upd i f).words = k.words := by
  simp [Kernel.upd]

@[simp] theorem Kernel.upd_psp (k : Kernel) (i : Nat) (f : TCB → TCB) :
    (k.upd i f).psp = k.psp := by
  simp [Kernel.upd]

@[simp] theorem Kernel.upd_g_system_time (k : Kernel) (i : Nat) (f : TCB → TCB) :
    (k.upd i f).g_system_time = k.g_system_time := by
  simp [Kernel.upd]

theorem Kernel.push_n_frame (k : Kernel) (t v n : Nat) :
    (k.push_n t v n).g_tasks = k.g_tasks ∧ (k.push_n t v n).mem = k.mem ∧
    (k.push_n t v n).g_num_tasks = k.g_num_tasks ∧
    (k.push_n t v n).g_active_task_id = k.g_active_task_id ∧
    (k.push_n t v n).target_task_id = k.target_task_id ∧
    (k.push_n t v n).g_kernel_running = k.g_kernel_running ∧
    (k.push_n t v n).g_kernel_initialized = k.g_kernel_initialized ∧
    (k.push_n t v n).img = k.img ∧ (k.push_n t v n).pendsv = k.pendsv ∧
    (k.push_n t v n).psp = k.psp ∧ (k.push_n t v n).g_system_time = k.g_system_time := by
  induction n generalizing k with
  | zero => simp [Kernel.push_n]
  | succ n ih =>
    have := ih (k.push t v)
    simp only [Kernel.push_n]
    simpa [Kernel.push] using this

@[simp] theorem Kernel.push_n_g_tasks (k : Kernel) (t v n : Nat) :
    (k.push_n t v n).g_tasks = k.g_tasks := (k.push_n_frame t v n).1

@[simp] theorem Kernel.push_n_mem (k : Kernel) (t v n : Nat) :
    (k.push_n t v n).mem = k.mem := (k.push_n_frame t v n).2.1

@[simp] theorem Kernel.push_n_g_num_tasks (k : Kernel) (t v n : Nat) :
    (k.push_n t v n).g_num_tasks = k.g_num_tasks := (k.push_n_frame t v n).2.2.1

@[simp] theorem Kernel.push_n_g_active_task_id (k : Kernel) (t v n : Nat) :
    (k.push_n t v n).g_active_task_id = k.g_active_task_id := (k.push_n_frame t v n).2.2.2.1

@[simp] theorem Kernel.push_n_target_task_id (k : Kernel) (t v n : Nat) :
    (k.push_n t v n).target_task_id = k.target_task_id := (k.push_n_frame t v n).2.2.2.2.1

@[simp] theorem Kernel.push_n_g_kernel_running (k : Kernel) (t v n : Nat) :
    (k.push_n t v n).g_kernel_running = k.g_kernel_running := (k.push_n_frame t v n).2.2.2.2.2.1

@[simp] theorem Kernel.push_n_g_kernel_initialized (k : Kernel) (t v n : Nat) :
    (k.push_n t v n).g_kernel_initialized = k.g_kernel_initialized :=
  (k.push_n_frame t v n).2.2.2.2.2.2.1

@[simp] theorem Kernel.push_n_img (k : Kernel) (t v n : Nat) :
    (k.push_n t v n).img = k.img := (k.push_n_frame t v n).2.2.2.2.2.2.2.1

theorem init_frame_frame (k : Kernel) (t : Nat) :
    (init_frame k t).g_tasks = k.g_tasks ∧ (init_frame k t).mem = k.mem ∧
    (init_frame k t).g_num_tasks = k.g_num_tasks ∧
    (init_frame k t).g_active_task_id = k.g_active_task_id ∧
    (init_frame k t).target_task_id = k.target_task_id ∧
    (init_frame k t).g_kernel_running = k.g_kernel_running ∧
    (init_frame k t).g_kernel_initialized = k.g_kernel_initialized ∧
    (init_frame k t).img = k.img := by
  simp [init_frame, Kernel.push]

@[simp] theorem init_frame_g_tasks (k : Kernel) (t : Nat) :
    (init_frame k t).g_tasks = k.g_tasks := (init_frame_frame k t).1

@[simp] theorem init_frame_mem (k : Kernel) (t : Nat) :
    (init_frame k t).mem = k.mem := (init_frame_frame k t).2.1

@[simp] theorem init_frame_g_num_tasks (k : Kernel) (t : Nat) :
    (init_frame k t).g_num_tasks = k.g_num_tasks := (init_frame_frame k t).2.2.1

@[simp] theorem init_frame_g_active_task_id (k : Kernel) (t : Nat) :
    (init_frame k t).g_active_task_id = k.g_active_task_id := (init_frame_frame k t).2.2.2.1

@[simp] theorem init_frame_target_task_id (k : Kernel) (t : Nat) :
    (init_frame k t).target_task_id = k.target_task_id := (init_frame_frame k t).2.2.2.2.1

@[simp] theorem init_frame_g_kernel_running (k : Kernel) (t : Nat) :
    (init_frame k t).g_kernel_running = k.g_kernel_running := (init_frame_frame k t).2.2.2.2.2.1

@[simp] theorem init_frame_g_kernel_initialized (k : Kernel) (t : Nat) :
    (init_frame k t).g_kernel_initialized = k.g_kernel_initialized :=
  (init_frame_frame k t).2.2.2.2.2.2.1

@[simp] theorem init_frame_img (k : Kernel) (t : Nat) :
    (init_frame k t).img = k.img := (init_frame_frame k t).2.2.2.2.2.2.2

@[simp] theorem Kernel.push_n_pendsv (k : Kernel) (t v n : Nat) :
    (Kernel.push_n k t v n).pendsv = k.pendsv := by
  induction n generalizing k with
  | zero => simp [Kernel.push_n]
  | succ n ih => simpa [Kernel.push_n, Kernel.push] using ih (k.push t v)

@[simp] theorem Kernel.push_n_g_system_time (k : Kernel) (t v n : Nat) :
    (Kernel.push_n k t v n).g_system_time = k.g_system_time := by
  induction n generalizing k with
  | zero => simp [Kernel.push_n]
  | succ n ih => simpa [Kernel.push_n, Kernel.push] using ih (k.push t v)

@[simp] theorem Kernel.push_n_psp (k : Kernel) (t v n : Nat) :
    (Kernel.push_n k t v n).psp = k.psp := by
  induction n generalizing k with
  | zero => simp [Kernel.push_n]
  | succ n ih => simpa [Kernel.push_n, Kernel.push] using ih (k.push t v)

@[simp] theorem first_frame_mem (k : Kernel) (t : Nat) :
    (first_frame k t).mem = k.mem := by
  simp [first_frame, Kernel.push]

@[simp] theorem first_frame_g_num_tasks (k : Kernel) (t : Nat) :
    (first_frame k t).g_num_tasks = k.g_num_tasks := by
  simp [first_frame, Kernel.push]

@[simp] theorem first_frame_g_active_task_id (k : Kernel) (t : Nat) :
    (first_frame k t).g_active_task_id = k.g_active_task_id := by
  simp [first_frame, Kernel.push]

@[simp] theorem first_frame_target_task_id (k : Kernel) (t : Nat) :
    (first_frame k t).target_task_id = k.target_task_id := by
  simp [first_frame, Kernel.push]

@[simp] theorem first_frame_g_kernel_running (k : Kernel) (t : Nat) :
    (first_frame k t).g_kernel_running = k.g_kernel_running := by
  simp [first_frame, Kernel.push]

@[simp] theorem first_frame_g_kernel_initialized (k : Kernel) (t : Nat) :
    (first_frame k t).g_kernel_initialized = k.g_kernel_initialized := by
  simp [first_frame, Kernel.push]

@[simp] theorem first_frame_img (k : Kernel) (t : Nat) :
    (first_frame k t).img = k.img := by
  simp [first_frame, Kernel.push]

@[simp] theorem first_frame_pendsv (k : Kernel) (t : Nat) :
    (first_frame k t).pendsv = k.pendsv := by
  simp [first_frame, Kernel.push]

@[simp] theorem first_frame_g_system_time (k : Kernel) (t : Nat) :
    (first_frame k t).g_system_time = k.g_system_time := by
  simp [first_frame, Kernel.push]

@[simp] theorem first_frame_psp (k : Kernel) (t : Nat) :
    (first_frame k t).psp = k.psp := by
  simp [first_frame, Kernel.push]

@[simp] theorem first_frame_g_tasks (k : Kernel) (t : Nat) :
    (first_frame k t).g_tasks = k.g_tasks := by
  simp [first_frame, Kernel.push]

@[simp] theorem init_frame_pendsv (k : Kernel) (t : Nat) :
    (init_frame k t).pendsv = k.pendsv := by
  simp [init_frame, Kernel.push]

@[simp] theorem init_frame_g_system_time (k : Kernel) (t : Nat) :
    (init_frame k t).g_system_time = k.g_system_time := by
  simp [init_frame, Kernel.push]

@[simp] theorem init_frame_psp (k : Kernel) (t : Nat) :
    (init_frame k t).psp = k.psp := by
  simp [init_frame, Kernel.push]

@[simp] theorem tcs_frame_mem (k : Kernel) (t : Nat) :
    (tcs_frame k t).mem = k.mem := by
  unfold tcs_frame; split_ifs <;> simp

@[simp] theorem tcs_frame_g_num_tasks (k : Kernel) (t : Nat) :
    (tcs_frame k t).g_num_tasks = k.g_num_tasks := by
  unfold tcs_frame; split_ifs <;> simp

@[simp] theorem tcs_frame_g_active_task_id (k : Kernel) (t : Nat) :
    (tcs_frame k t).g_active_task_id = k.g_active_task_id := by
  unfold tcs_frame; split_ifs <;> simp

@[simp] theorem tcs_frame_target_task_id (k : Kernel) (t : Nat) :
    (tcs_frame k t).target_task_id = k.target_task_id := by
  unfold tcs_frame; split_ifs <;> simp

@[simp] theorem tcs_frame_g_kernel_running (k : Kernel) (t : Nat) :
    (tcs_frame k t).g_kernel_running = k.g_kernel_running := by
  unfold tcs_frame; split_ifs <;> simp

@[simp] theorem tcs_frame_g_kernel_initialized (k : Kernel) (t : Nat) :
    (tcs_frame k t).g_kernel_initialized = k.g_kernel_initialized := by
  unfold tcs_frame; split_ifs <;> simp

@[simp] theorem tcs_frame_img (k : Kernel) (t : Nat) :
    (tcs_frame k t).img = k.img := by
  unfold tcs_frame; split_ifs <;> simp

@[simp] theorem tcs_frame_pendsv (k : Kernel) (t : Nat) :
    (tcs_frame k t).pendsv = k.pendsv := by
  unfold tcs_frame; split_ifs <;> simp

@[simp] theorem tcs_frame_g_system_time (k : Kernel) (t : Nat) :
    (tcs_frame k t).g_system_time = k.g_system_time := by
  unfold tcs_frame; split_ifs <;> simp

@[simp] theorem tcs_frame_psp (k : Kernel) (t : Nat) :
    (tcs_frame k t).psp = k.psp := by
  unfold tcs_frame; split_ifs <;> simp

@[simp] theorem tcs_frame_g_tasks (k : Kernel) (t : Nat) :
    (tcs_frame k t).g_tasks = k.g_tasks := by
  unfold tcs_frame; split_ifs <;> simp

@[simp] theorem tcs_demote_mem (k : Kernel) (c : Nat) :
    (tcs_demote k c).mem = k.mem := by
  unfold tcs_demote; dsimp only; split_ifs <;> simp

@[simp] theorem tcs_demote_g_num_tasks (k : Kernel) (c : Nat) :
    (tcs_demote k c).g_num_tasks = k.g_num_tasks := by
  unfold tcs_demote; dsimp only; split_ifs <;> simp

@[simp] theorem tcs_demote_g_active_task_id (k : Kernel) (c : Nat) :
    (tcs_demote k c).g_active_task_id = k.g_active_task_id := by
  unfold tcs_demote; dsimp only; split_ifs <;> simp

@[simp] theorem tcs_demote_target_task_id (k : Kernel) (c : Nat) :
    (tcs_demote k c).target_task_id = k.target_task_id := by
  unfold tcs_demote; dsimp only; split_ifs <;> simp

@[simp] theorem tcs_demote_g_kernel_running (k : Kernel) (c : Nat) :
    (tcs_demote k c).g_kernel_running = k.g_kernel_running := by
  unfold tcs_demote; dsimp only; split_ifs <;> simp

@[simp] theorem tcs_demote_g_kernel_initialized (k : Kernel) (c : Nat) :
    (tcs_demote k c).g_kernel_initialized = k.g_kernel_initialized := by
  unfold tcs_demote; dsimp only; split_ifs <;> simp

@[simp] theorem tcs_demote_img (k : Kernel) (c : Nat) :
    (tcs_demote k c).img = k.img := by
  unfold tcs_demote; dsimp only; split_ifs <;> simp

@[simp] theorem tcs_demote_pendsv (k : Kernel) (c : Nat) :
    (tcs_demote k c).pendsv = k.pendsv := by
  unfold tcs_demote; dsimp only; split_ifs <;> simp

@[simp] theorem tcs_demote_g_system_time (k : Kernel) (c : Nat) :
    (tcs_demote k c).g_system_time = k.g_system_time := by
  unfold tcs_demote; dsimp only; split_ifs <;> simp

@[simp] theorem tcs_demote_psp (k : Kernel) (c : Nat) :
    (tcs_demote k c).psp = k.psp := by
  unfold tcs_demote; dsimp only; split_ifs <;> simp

@[simp] theorem tcs_demote_task_stack_ptrs (k : Kernel) (c : Nat) :
    (tcs_demote k c).task_stack_ptrs = k.task_stack_ptrs := by
  unfold tcs_demote; dsimp only; split_ifs <;> simp

@[simp] theorem tcs_demote_words (k : Kernel) (c : Nat) :
    (tcs_demote k c).words = k.words := by
  unfold tcs_demote; dsimp only; split_ifs <;> simp

@[simp] theorem tcs_dispatch_mem (k : Kernel) (t : Nat) :
    (tcs_dispatch k t).mem = k.mem := by
  unfold tcs_dispatch; dsimp only; split_ifs <;> simp

@[simp] theorem tcs_dispatch_g_num_tasks (k : Kernel) (t : Nat) :
    (tcs_dispatch k t).g_num_tasks = k.g_num_tasks := by
  unfold tcs_dispatch; dsimp only; split_ifs <;> simp

@[simp] theorem tcs_dispatch_g_active_task_id (k : Kernel) (t : Nat) :
    (tcs_dispatch k t).g_active_task_id = k.g_active_task_id := by
  unfold tcs_dispatch; dsimp only; split_ifs <;> simp

@[simp] theorem tcs_dispatch_target_task_id (k : Kernel) (t : Nat) :
    (tcs_dispatch k t).target_task_id = k.target_task_id := by
  unfold tcs_dispatch; dsimp only; split_ifs <;> simp

@[simp] theorem tcs_dispatch_g_kernel_running (k : Kernel) (t : Nat) :
    (tcs_dispatch k t).g_kernel_running = k.g_kernel_running := by
  unfold tcs_dispatch; dsimp only; split_ifs <;> simp

@[simp] theorem tcs_dispatch_g_kernel_initialized (k : Kernel) (t : Nat) :
    (tcs_dispatch k t).g_kernel_initialized = k.g_kernel_initialized := by
  unfold tcs_dispatch; dsimp only; split_ifs <;> simp

@[simp] theorem tcs_dispatch_img (k : Kernel) (t : Nat) :
    (tcs_dispatch k t).img = k.img := by
  unfold tcs_dispatch; dsimp only; split_ifs <;> simp

@[simp] theorem tcs_dispatch_pendsv (k : Kernel) (t : Nat) :
    (tcs_dispatch k t).pendsv = k.pendsv := by
  unfold tcs_dispatch; dsimp only; split_ifs <;> simp

@[simp] theorem tcs_dispatch_g_system_time (k : Kernel) (t : Nat) :
    (tcs_dispatch k t).g_system_time = k.g_system_time := by
  unfold tcs_dispatch; dsimp only; split_ifs <;> simp

@[simp] theorem tcs_dispatch_psp (k : Kernel) (t : Nat) :
    (tcs_dispatch k t).psp = k.psp := by
  unfold tcs_dispatch; dsimp only; split_ifs <;> simp

@[simp] theorem tcs_dispatch_task_stack_ptrs (k : Kernel) (t : Nat) :
    (tcs_dispatch k t).task_stack_ptrs = k.task_stack_ptrs := by
  unfold tcs_dispatch; dsimp only; split_ifs <;> simp

@[simp] theorem tcs_dispatch_words (k : Kernel) (t : Nat) :
    (tcs_dispatch k t).words = k.words := by
  unfold tcs_dispatch; dsimp only; split_ifs <;> simp

@[simp] theorem svc1_frame_mem (k : Kernel) (t : Nat) :
    (svc1_frame k t).mem = k.mem := by
  unfold svc1_frame; split_ifs <;> simp

@[simp] theorem svc1_frame_g_num_tasks (k : Kernel) (t : Nat) :
    (svc1_frame k t).g_num_tasks = k.g_num_tasks := by
  unfold svc1_frame; split_ifs <;> simp

@[simp] theorem svc1_frame_g_active_task_id (k : Kernel) (t : Nat) :
    (svc1_frame k t).g_active_task_id = k.g_active_task_id := by
  unfold svc1_frame; split_ifs <;> simp

@[simp] theorem svc1_frame_target_task_id (k : Kernel) (t : Nat) :
    (svc1_frame k t).target_task_id = k.target_task_id := by
  unfold svc1_frame; split_ifs <;> simp

@[simp] theorem svc1_frame_g_kernel_running (k : Kernel) (t : Nat) :
    (svc1_frame k t).g_kernel_running = k.g_kernel_running := by
  unfold svc1_frame; split_ifs <;> simp

@[simp] theorem svc1_frame_g_kernel_initialized (k : Kernel) (t : Nat) :
    (svc1_frame k t).g_kernel_initialized = k.g_kernel_initialized := by
  unfold svc1_frame; split_ifs <;> simp

@[simp] theorem svc1_frame_img (k : Kernel) (t : Nat) :
    (svc1_frame k t).img = k.img := by
  unfold svc1_frame; split_ifs <;> simp

@[simp] theorem svc1_frame_pendsv (k : Kernel) (t : Nat) :
    (svc1_frame k t).pendsv = k.pendsv := by
  unfold svc1_frame; split_ifs <;> simp

@[simp] theorem svc1_frame_g_system_time (k : Kernel) (t : Nat) :
    (svc1_frame k t).g_system_time = k.g_system_time := by
  unfold svc1_frame; split_ifs <;> simp

@[simp] theorem svc1_frame_psp (k : Kernel) (t : Nat) :
    (svc1_frame k t).psp = k.psp := by
  unfold svc1_frame; split_ifs <;> simp

@[simp] theorem svc1_run_mem (k : Kernel) (t : Nat) :
    (svc1_run k t).mem = k.mem := by
  unfold svc1_run; dsimp only; split_ifs <;> simp

@[simp] theorem svc1_run_g_num_tasks (k : Kernel) (t : Nat) :
    (svc1_run k t).g_num_tasks = k.g_num_tasks := by
  unfold svc1_run; dsimp only; split_ifs <;> simp

@[simp] theorem svc1_run_g_active_task_id (k : Kernel) (t : Nat) :
    (svc1_run k t).g_active_task_id = k.g_active_task_id := by
  unfold svc1_run; dsimp only; split_ifs <;> simp

@[simp] theorem svc1_run_target_task_id (k : Kernel) (t : Nat) :
    (svc1_run k t).target_task_id = k.target_task_id := by
  unfold svc1_run; dsimp only; split_ifs <;> simp

@[simp] theorem svc1_run_g_kernel_running (k : Kernel) (t : Nat) :
    (svc1_run k t).g_kernel_running = k.g_kernel_running := by
  unfold svc1_run; dsimp only; split_ifs <;> simp

@[simp] theorem svc1_run_g_kernel_initialized (k : Kernel) (t : Nat) :
    (svc1_run k t).g_kernel_initialized = k.g_kernel_initialized := by
  unfold svc1_run; dsimp only; split_ifs <;> simp

@[simp] theorem svc1_run_img (k : Kernel) (t : Nat) :
    (svc1_run k t).img = k.img := by
  unfold svc1_run; dsimp only; split_ifs <;> simp

@[simp] theorem svc1_run_pendsv (k : Kernel) (t : Nat) :
    (svc1_run k t).pendsv = k.pendsv := by
  unfold svc1_run; dsimp only; split_ifs <;> simp

@[simp] theorem svc1_run_g_system_time (k : Kernel) (t : Nat) :
    (svc1_run k t).g_system_time = k.g_system_time := by
  unfold svc1_run; dsimp only; split_ifs <;> simp

@[simp] theorem svc1_run_psp (k : Kernel) (t : Nat) :
    (svc1_run k t).psp = k.psp := by
  unfold svc1_run; dsimp only; split_ifs <;> simp

@[simp] theorem svc1_run_task_stack_ptrs (k : Kernel) (t : Nat) :
    (svc1_run k t).task_stack_ptrs = k.task_stack_ptrs := by
  unfold svc1_run; dsimp only; split_ifs <;> simp

@[simp] theorem svc1_run_words (k : Kernel) (t : Nat) :
    (svc1_run k t).words = k.words := by
  unfold svc1_run; dsimp only; split_ifs <;> simp

@[simp] theorem svc4_store_mem (k : Kernel) (d : Int) (t : Nat) :
    (svc4_store k d t).mem = k.mem := by
  simp [svc4_store]

@[simp] theorem svc4_store_g_num_tasks (k : Kernel) (d : Int) (t : Nat) :
    (svc4_store k d t).g_num_tasks = k.g_num_tasks := by
  simp [svc4_store]

@[simp] theorem svc4_store_g_active_task_id (k : Kernel) (d : Int) (t : Nat) :
    (svc4_store k d t).g_active_task_id = k.g_active_task_id := by
  simp [svc4_store]

@[simp] theorem svc4_store_target_task_id (k : Kernel) (d : Int) (t : Nat) :
    (svc4_store k d t).target_task_id = k.target_task_id := by
  simp [svc4_store]

@[simp] theorem svc4_store_g_kernel_running (k : Kernel) (d : Int) (t : Nat) :
    (svc4_store k d t).g_kernel_running = k.g_kernel_running := by
  simp [svc4_store]

@[simp] theorem svc4_store_g_kernel_initialized (k : Kernel) (d : Int) (t : Nat) :
    (svc4_store k d t).g_kernel_initialized = k.g_kernel_initialized := by
  simp [svc4_store]

@[simp] theorem svc4_store_img (k : Kernel) (d : Int) (t : Nat) :
    (svc4_store k d t).img = k.img := by
  simp [svc4_store]

@[simp] theorem svc4_store_pendsv (k : Kernel) (d : Int) (t : Nat) :
    (svc4_store k d t).pendsv = k.pendsv := by
  simp [svc4_store]

@[simp] theorem svc4_store_g_system_time (k : Kernel) (d : Int) (t : Nat) :
    (svc4_store k d t).g_system_time = k.g_system_time := by
  simp [svc4_store]

@[simp] theorem svc4_store_psp (k : Kernel) (d : Int) (t : Nat) :
    (svc4_store k d t).psp = k.psp := by
  simp [svc4_store]

@[simp] theorem svc4_store_task_stack_ptrs (k : Kernel) (d : Int) (t : Nat) :
    (svc4_store k d t).task_stack_ptrs = k.task_stack_ptrs := by
  simp [svc4_store]

@[simp] theorem svc4_store_words (k : Kernel) (d : Int) (t : Nat) :
    (svc4_store k d t).words = k.words := by
  simp [svc4_store]

@[simp] theorem yield_mark_mem (k : Kernel) (c : Nat) :
    (yield_mark k c).mem = k.mem := by
  unfold yield_mark; dsimp only; split_ifs <;> simp

@[simp] theorem yield_mark_g_num_tasks (k : Kernel) (c : Nat) :
    (yield_mark k c).g_num_tasks = k.g_num_tasks := by
  unfold yield_mark; dsimp only; split_ifs <;> simp

@[simp] theorem yield_mark_g_active_task_id (k : Kernel) (c : Nat) :
    (yield_mark k c).g_active_task_id = k.g_active_task_id := by
  unfold yield_mark; dsimp only; split_ifs <;> simp

@[simp] theorem yield_mark_target_task_id (k : Kernel) (c : Nat) :
    (yield_mark k c).target_task_id = k.target_task_id := by
  unfold yield_mark; dsimp only; split_ifs <;> simp

@[simp] theorem yield_mark_g_kernel_running (k : Kernel) (c : Nat) :
    (yield_mark k c).g_kernel_running = k.g_kernel_running := by
  unfold yield_mark; dsimp only; split_ifs <;> simp

@[simp] theorem yield_mark_g_kernel_initialized (k : Kernel) (c : Nat) :
    (yield_mark k c).g_kernel_initialized = k.g_kernel_initialized := by
  unfold yield_mark; dsimp only; split_ifs <;> simp

@[simp] theorem yield_mark_img (k : Kernel) (c : Nat) :
    (yield_mark k c).img = k.img := by
  unfold yield_mark; dsimp only; split_ifs <;> simp

@[simp] theorem yield_mark_pendsv (k : Kernel) (c : Nat) :
    (yield_mark k c).pendsv = k.pendsv := by
  unfold yield_mark; dsimp only; split_ifs <;> simp

@[simp] theorem yield_mark_g_system_time (k : Kernel) (c : Nat) :
    (yield_mark k c).g_system_time = k.g_system_time := by
  unfold yield_mark; dsimp only; split_ifs <;> simp

@[simp] theorem yield_mark_psp (k : Kernel) (c : Nat) :
    (yield_mark k c).psp = k.psp := by
  unfold yield_mark; dsimp only; split_ifs <;> simp

@[simp] theorem yield_mark_task_stack_ptrs (k : Kernel) (c : Nat) :
    (yield_mark k c).task_stack_ptrs = k.task_stack_ptrs := by
  unfold yield_mark; dsimp only; split_ifs <;> simp

@[simp] theorem yield_mark_words (k : Kernel) (c : Nat) :
    (yield_mark k c).words = k.words := by
  unfold yield_mark; dsimp only; split_ifs <;> simp

@[simp] theorem sleep_mark_mem (k : Kernel) (c : Nat) (d : Int) :
    (sleep_mark k c d).mem = k.mem := by
  simp [sleep_mark]

@[simp] theorem sleep_mark_g_num_tasks (k : Kernel) (c : Nat) (d : Int) :
    (sleep_mark k c d).g_num_tasks = k.g_num_tasks := by
  simp [sleep_mark]

@[simp] theorem sleep_mark_g_active_task_id (k : Kernel) (c : Nat) (d : Int) :
    (sleep_mark k c d).g_active_task_id = k.g_active_task_id := by
  simp [sleep_mark]

@[simp] theorem sleep_mark_target_task_id (k : Kernel) (c : Nat) (d : Int) :
    (sleep_mark k c d).target_task_id = k.target_task_id := by
  simp [sleep_mark]

@[simp] theorem sleep_mark_g_kernel_running (k : Kernel) (c : Nat) (d : Int) :
    (sleep_mark k c d).g_kernel_running = k.g_kernel_running := by
  simp [sleep_mark]

@[simp] theorem sleep_mark_g_kernel_initialized (k : Kernel) (c : Nat) (d : Int) :
    (sleep_mark k c d).g_kernel_initialized = k.g_kernel_initialized := by
  simp [sleep_mark]

@[simp] theorem sleep_mark_img (k : Kernel) (c : Nat) (d : Int) :
    (sleep_mark k c d).img = k.img := by
  simp [sleep_mark]

@[simp] theorem sleep_mark_pendsv (k : Kernel) (c : Nat) (d : Int) :
    (sleep_mark k c d).pendsv = k.pendsv := by
  simp [sleep_mark]

@[simp] theorem sleep_mark_g_system_time (k : Kernel) (c : Nat) (d : Int) :
    (sleep_mark k c d).g_system_time = k.g_system_time := by
  simp [sleep_mark]

@[simp] theorem sleep_mark_psp (k : Kernel) (c : Nat) (d : Int) :
    (sleep_mark k c d).psp = k.psp := by
  simp [sleep_mark]

@[simp] theorem sleep_mark_task_stack_ptrs (k : Kernel) (c : Nat) (d : Int) :
    (sleep_mark k c d).task_stack_ptrs = k.task_stack_ptrs := by
  simp [sleep_mark]

@[simp] theorem sleep_mark_words (k : Kernel) (c : Nat) (d : Int) :
    (sleep_mark k c d).words = k.words := by
  simp [sleep_mark]

@[simp] theorem deadline_install_mem (k : Kernel) (n : Nat) (d : Int) :
    (deadline_install k n d).mem = k.mem := by
  simp [deadline_install]

@[simp] theorem deadline_install_g_num_tasks (k : Kernel) (n : Nat) (d : Int) :
    (deadline_install k n d).g_num_tasks = k.g_num_tasks := by
  simp [deadline_install]

@[simp] theorem deadline_install_g_active_task_id (k : Kernel) (n : Nat) (d : Int) :
    (deadline_install k n d).g_active_task_id = k.g_active_task_id := by
  simp [deadline_install]

@[simp] theorem deadline_install_target_task_id (k : Kernel) (n : Nat) (d : Int) :
    (deadline_install k n d).target_task_id = k.target_task_id := by
  simp [deadline_install]

@[simp] theorem deadline_install_g_kernel_running (k : Kernel) (n : Nat) (d : Int) :
    (deadline_install k n d).g_kernel_running = k.g_kernel_running := by
  simp [deadline_install]

@[simp] theorem deadline_install_g_kernel_initialized (k : Kernel) (n : Nat) (d : Int) :
    (deadline_install k n d).g_kernel_initialized = k.g_kernel_initialized := by
  simp [deadline_install]

@[simp] theorem deadline_install_img (k : Kernel) (n : Nat) (d : Int) :
    (deadline_install k n d).img = k.img := by
  simp [deadline_install]

@[simp] theorem deadline_install_pendsv (k : Kernel) (n : Nat) (d : Int) :
    (deadline_install k n d).pendsv = k.pendsv := by
  simp [deadline_install]

@[simp] theorem deadline_install_g_system_time (k : Kernel) (n : Nat) (d : Int) :
    (deadline_install k n d).g_system_time = k.g_system_time := by
  simp [deadline_install]

@[simp] theorem deadline_install_psp (k : Kernel) (n : Nat) (d : Int) :
    (deadline_install k n d).psp = k.psp := by
  simp [deadline_install]

@[simp] theorem deadline_install_task_stack_ptrs (k : Kernel) (n : Nat) (d : Int) :
    (deadline_install k n d).task_stack_ptrs = k.task_stack_ptrs := by
  simp [deadline_install]

@[simp] theorem deadline_install_words (k : Kernel) (n : Nat) (d : Int) :
    (deadline_install k n d).words = k.words := by
  simp [deadline_install]

@[simp] theorem svc17_clear_mem (k : Kernel) (t : Nat) :
    (svc17_clear k t).mem = k.mem := by
  simp [svc17_clear]

@[simp] theorem svc17_clear_g_active_task_id (k : Kernel) (t : Nat) :
    (svc17_clear k t).g_active_task_id = k.g_active_task_id := by
  simp [svc17_clear]

@[simp] theorem svc17_clear_target_task_id (k : Kernel) (t : Nat) :
    (svc17_clear k t).target_task_id = k.target_task_id := by
  simp [svc17_clear]

@[simp] theorem svc17_clear_g_kernel_running (k : Kernel) (t : Nat) :
    (svc17_clear k t).g_kernel_running = k.g_kernel_running := by
  simp [svc17_clear]

@[simp] theorem svc17_clear_g_kernel_initialized (k : Kernel) (t : Nat) :
    (svc17_clear k t).g_kernel_initialized = k.g_kernel_initialized := by
  simp [svc17_clear]

@[simp] theorem svc17_clear_img (k : Kernel) (t : Nat) :
    (svc17_clear k t).img = k.img := by
  simp [svc17_clear]

@[simp] theorem svc17_clear_pendsv (k : Kernel) (t : Nat) :
    (svc17_clear k t).pendsv = k.pendsv := by
  simp [svc17_clear]

@[simp] theorem svc17_clear_g_system_time (k : Kernel) (t : Nat) :
    (svc17_clear k t).g_system_time = k.g_system_time := by
  simp [svc17_clear]

@[simp] theorem svc17_clear_psp (k : Kernel) (t : Nat) :
    (svc17_clear k t).psp = k.psp := by
  simp [svc17_clear]

@[simp] theorem svc17_clear_words (k : Kernel) (t : Nat) :
    (svc17_clear k t).words = k.words := by
  simp [svc17_clear]

@[simp] theorem create_install_g_active_task_id (k : Kernel) (n : Nat) (t : TCB) (a : Nat) :
    (create_install k n t a).g_active_task_id = k.g_active_task_id := by
  simp [create_install]

@[simp] theorem create_install_target_task_id (k : Kernel) (n : Nat) (t : TCB) (a : Nat) :
    (create_install k n t a).target_task_id = k.target_task_id := by
  simp [create_install]

@[simp] theorem create_install_g_kernel_running (k : Kernel) (n : Nat) (t : TCB) (a : Nat) :
    (create_install k n t a).g_kernel_running = k.g_kernel_running := by
  simp [create_install]

@[simp] theorem create_install_g_kernel_initialized (k : Kernel) (n : Nat) (t : TCB) (a : Nat) :
    (create_install k n t a).g_kernel_initialized = k.g_kernel_initialized := by
  simp [create_install]

@[simp] theorem create_install_img (k : Kernel) (n : Nat) (t : TCB) (a : Nat) :
    (create_install k n t a).img = k.img := by
  simp [create_install]

@[simp] theorem create_install_pendsv (k : Kernel) (n : Nat) (t : TCB) (a : Nat) :
    (create_install k n t a).pendsv = k.pendsv := by
  simp [create_install]

@[simp] theorem create_install_g_system_time (k : Kernel) (n : Nat) (t : TCB) (a : Nat) :
    (create_install k n t a).g_system_time = k.g_system_time := by
  simp [create_install]

@[simp] theorem create_install_psp (k : Kernel) (n : Nat) (t : TCB) (a : Nat) :
    (create_install k n t a).psp = k.psp := by
  simp [create_install]

@[simp] theorem create_install_task_stack_ptrs (k : Kernel) (n : Nat) (t : TCB) (a : Nat) :
    (create_install k n t a).task_stack_ptrs = k.task_stack_ptrs := by
  simp [create_install]

@[simp] theorem create_install_words (k : Kernel) (n : Nat) (t : TCB) (a : Nat) :
    (create_install k n t a).words = k.words := by
  simp [create_install]

/-! ## The task table after each block, in closed form -/

theorem tcs_demote_g_tasks (k : Kernel) (c i : Nat) :
    (tcs_demote k c).g_tasks i =
      if i = c ∧ c ≠ TID_NULL ∧ (k.g_tasks c).state = RUNNING then
        refill { k.g_tasks c with state := READY }
      else k.g_tasks i := by
  unfold tcs_demote refill
  dsimp only
  by_cases h : c ≠ TID_NULL ∧ (k.g_tasks c).state = RUNNING
  · by_cases hi : i = c
    · subst hi
      by_cases ht : (k.g_tasks i).time_left = 0 <;> simp [h, ht]
    · by_cases ht : (k.g_tasks c).time_left = 0 <;> simp [h, ht, hi]
  · have : ¬ (i = c ∧ c ≠ TID_NULL ∧ (k.g_tasks c).state = RUNNING) := fun x => h x.2
    rw [if_neg h, if_neg this]

theorem tcs_dispatch_g_tasks (k : Kernel) (t i : Nat) :
    (tcs_dispatch k t).g_tasks i =
      if i = t then
        refill { k.g_tasks t with state := RUNNING, is_fresh_task := TASK_EXISTING }
      else k.g_tasks i := by
  unfold tcs_dispatch refill
  dsimp only
  by_cases hi : i = t
  · subst hi
    by_cases ht : (k.g_tasks i).time_left = 0 <;> simp [ht]
  · by_cases ht : (k.g_tasks t).time_left = 0 <;> simp [ht, hi]

/-- The task table after `trigger_context_switch`, in closed form. -/
theorem trigger_context_switch_g_tasks (k : Kernel) (i : Nat) :
    (trigger_context_switch k).g_tasks i =
      if edf_scheduler k = TID_NULL ∨ edf_scheduler k = k.g_active_task_id then k.g_tasks i
      else if i = edf_scheduler k then
        refill { k.g_tasks i with state := RUNNING, is_fresh_task := TASK_EXISTING }
      else if i = k.g_active_task_id ∧ i ≠ TID_NULL ∧ (k.g_tasks i).state = RUNNING then
        refill { k.g_tasks i with state := READY }
      else k.g_tasks i := by
  unfold trigger_context_switch osGetTID_internal
  dsimp only
  by_cases h1 : edf_scheduler k = TID_NULL ∨ edf_scheduler k = k.g_active_task_id
  · rw [if_pos h1, if_pos h1]
  · rw [if_neg h1, if_neg h1]
    have h2 : ¬ k.g_active_task_id = edf_scheduler k := fun h => h1 (Or.inr h.symm)
    simp only [tcs_dispatch_g_tasks, tcs_demote_g_tasks, tcs_frame_g_tasks]
    have h3 : ¬ (edf_scheduler k = k.g_active_task_id ∧ k.g_active_task_id ≠ TID_NULL ∧
        (k.g_tasks k.g_active_task_id).state = RUNNING) := fun x => h2 x.1.symm
    by_cases hi : i = edf_scheduler k
    · subst hi
      rw [if_pos rfl, if_pos rfl, if_neg h3]
    · rw [if_neg hi, if_neg hi]
      by_cases hc : i = k.g_active_task_id
      · subst hc; rfl
      · have h4 : ¬ (i = k.g_active_task_id ∧ k.g_active_task_id ≠ TID_NULL ∧
            (k.g_tasks k.g_active_task_id).state = RUNNING) := fun x => hc x.1
        have h5 : ¬ (i = k.g_active_task_id ∧ i ≠ TID_NULL ∧
            (k.g_tasks i).state = RUNNING) := fun x => hc x.1
        rw [if_neg h4, if_neg h5]

@[simp] theorem trigger_context_switch_mem (k : Kernel) :
    (trigger_context_switch k).mem = k.mem := by
  unfold trigger_context_switch; dsimp only; split_ifs <;> simp

@[simp] theorem trigger_context_switch_g_num_tasks (k : Kernel) :
    (trigger_context_switch k).g_num_tasks = k.g_num_tasks := by
  unfold trigger_context_switch; dsimp only; split_ifs <;> simp

@[simp] theorem trigger_context_switch_g_active_task_id (k : Kernel) :
    (trigger_context_switch k).g_active_task_id = k.g_active_task_id := by
  unfold trigger_context_switch; dsimp only; split_ifs <;> simp

@[simp] theorem trigger_context_switch_g_kernel_running (k : Kernel) :
    (trigger_context_switch k).g_kernel_running = k.g_kernel_running := by
  unfold trigger_context_switch; dsimp only; split_ifs <;> simp

@[simp] theorem trigger_context_switch_g_kernel_initialized (k : Kernel) :
    (trigger_context_switch k).g_kernel_initialized = k.g_kernel_initialized := by
  unfold trigger_context_switch; dsimp only; split_ifs <;> simp

@[simp] theorem trigger_context_switch_img (k : Kernel) :
    (trigger_context_switch k).img = k.img := by
  unfold trigger_context_switch; dsimp only; split_ifs <;> simp

@[simp] theorem trigger_context_switch_g_system_time (k : Kernel) :
    (trigger_context_switch k).g_system_time = k.g_system_time := by
  unfold trigger_context_switch; dsimp only; split_ifs <;> simp

@[simp] theorem trigger_context_switch_psp (k : Kernel) :
    (trigger_context_switch k).psp = k.psp := by
  unfold trigger_context_switch; dsimp only; split_ifs <;> simp

@[simp] theorem trigger_context_switch_target_task_id (k : Kernel) :
    (trigger_context_switch k).target_task_id = edf_scheduler k := by
  unfold trigger_context_switch; dsimp only; split_ifs <;> simp

@[simp] theorem SVC_1_mem (k : Kernel) : (SVC_1 k).mem = k.mem := by
  simp [SVC_1]

@[simp] theorem SVC_1_g_num_tasks (k : Kernel) : (SVC_1 k).g_num_tasks = k.g_num_tasks := by
  simp [SVC_1]

@[simp] theorem SVC_1_g_active_task_id (k : Kernel) : (SVC_1 k).g_active_task_id = k.g_active_task_id := by
  simp [SVC_1]

@[simp] theorem SVC_1_g_kernel_running (k : Kernel) : (SVC_1 k).g_kernel_running = k.g_kernel_running := by
  simp [SVC_1]

@[simp] theorem SVC_1_g_kernel_initialized (k : Kernel) : (SVC_1 k).g_kernel_initialized = k.g_kernel_initialized := by
  simp [SVC_1]

@[simp] theorem SVC_1_img (k : Kernel) : (SVC_1 k).img = k.img := by
  simp [SVC_1]

@[simp] theorem SVC_1_g_system_time (k : Kernel) : (SVC_1 k).g_system_time = k.g_system_time := by
  simp [SVC_1]

@[simp] theorem SVC_1_psp (k : Kernel) : (SVC_1 k).psp = k.psp := by
  simp [SVC_1]

@[simp] theorem SVC_1_target_task_id (k : Kernel) : (SVC_1 k).target_task_id = k.target_task_id := by
  simp [SVC_1]

theorem svc1_frame_g_tasks (k : Kernel) (t i : Nat) :
    (svc1_frame k t).g_tasks i =
      if i = t ∧ t ≠ TID_NULL ∧ (k.g_tasks t).is_fresh_task = TASK_NEW then
        { k.g_tasks t with is_fresh_task := TASK_EXISTING }
      else k.g_tasks i := by
  unfold svc1_frame
  by_cases h : t ≠ TID_NULL ∧ (k.g_tasks t).is_fresh_task = TASK_NEW
  · rw [if_pos h, Kernel.upd_g_tasks, init_frame_g_tasks]
    by_cases hi : i = t
    · rw [if_pos hi, if_pos ⟨hi, h⟩]
    · rw [if_neg hi, if_neg (fun x => hi x.1)]
  · rw [if_neg h, if_neg (fun x => h x.2)]

theorem svc1_run_g_tasks (k : Kernel) (t i : Nat) :
    (svc1_run k t).g_tasks i =
      if i = t ∧ t ≠ TID_NULL then refill { k.g_tasks t with state := RUNNING }
      else k.g_tasks i := by
  unfold svc1_run refill
  dsimp only
  by_cases h : t ≠ TID_NULL
  · by_cases hi : i = t
    · subst hi
      by_cases ht : (k.g_tasks i).time_left = 0 <;> simp [h, ht]
    · by_cases ht : (k.g_tasks t).time_left = 0 <;> simp [h, ht, hi]
  · rw [if_neg h, if_neg (fun x => h x.2)]

/-- The task table after case 1 of the SVC handler: only the slot of the target changes;
it is Running, a fresh target is no longer fresh, and an empty slice is refilled. -/
theorem SVC_1_g_tasks (k : Kernel) (i : Nat) :
    (SVC_1 k).g_tasks i =
      if i = k.target_task_id ∧ k.target_task_id ≠ TID_NULL then
        refill { k.g_tasks i with
                 state := RUNNING,
                 is_fresh_task := if (k.g_tasks i).is_fresh_task = TASK_NEW then TASK_EXISTING
                                  else (k.g_tasks i).is_fresh_task }
      else k.g_tasks i := by
  unfold SVC_1
  dsimp only
  simp only [svc1_run_g_tasks, svc1_frame_g_tasks]
  by_cases hi : i = k.target_task_id
  · subst hi
    by_cases ht : k.target_task_id = TID_NULL <;>
    by_cases hf : (k.g_tasks k.target_task_id).is_fresh_task = TASK_NEW <;>
    simp [ht, hf, refill]
  · simp [hi]

/-! ## What the scheduler returns -/

theorem edf_scan_step_selected (g : Nat → TCB) (acc : EdfScan) (i : Nat)
    (hi : 1 ≤ i ∧ i < MAX_TASKS)
    (h : acc.selected_task = 0 ∨
      (1 ≤ acc.selected_task ∧ acc.selected_task < MAX_TASKS ∧
        (g acc.selected_task).state = READY)) :
    (edf_scan_step g acc i).selected_task = 0 ∨
      (1 ≤ (edf_scan_step g acc i).selected_task ∧
        (edf_scan_step g acc i).selected_task < MAX_TASKS ∧
        (g (edf_scan_step g acc i).selected_task).state = READY) := by
  unfold edf_scan_step
  split_ifs with h1 h2 h3
  · exact Or.inr ⟨hi.1, hi.2, h1⟩
  all_goals exact h

theorem edf_scan_foldl_selected (g : Nat → TCB) (l : List Nat) (acc : EdfScan)
    (hl : ∀ i ∈ l, 1 ≤ i ∧ i < MAX_TASKS)
    (h : acc.selected_task = 0 ∨
      (1 ≤ acc.selected_task ∧ acc.selected_task < MAX_TASKS ∧
        (g acc.selected_task).state = READY)) :
    (l.foldl (edf_scan_step g) acc).selected_task = 0 ∨
      (1 ≤ (l.foldl (edf_scan_step g) acc).selected_task ∧
        (l.foldl (edf_scan_step g) acc).selected_task < MAX_TASKS ∧
        (g (l.foldl (edf_scan_step g) acc).selected_task).state = READY) := by
  induction l generalizing acc with
  | nil => exact h
  | cons a l ih =>
    rw [List.foldl_cons]
    exact ih _ (fun i hi => hl i (List.mem_cons_of_mem _ hi))
      (edf_scan_step_selected g acc a (hl a (List.mem_cons_self _ _)) h)

/-- The scheduler returns the Null Task or the index of a Ready slot in `[1, MAX_TASKS)`,
whenever the identifier of the active task is a slot index. -/
theorem edf_scheduler_ready (k : Kernel) (hc : k.g_active_task_id < MAX_TASKS) :
    edf_scheduler k = TID_NULL ∨
      (1 ≤ edf_scheduler k ∧ edf_scheduler k < MAX_TASKS ∧
        (k.g_tasks (edf_scheduler k)).state = READY) := by
  have hsel := edf_scan_foldl_selected k.g_tasks (List.range' 1 (MAX_TASKS - 1))
    { earliest_deadline := 0xFFFFFFFF, selected_task := 0, tasks_with_same_deadline := 0,
      first_equal_deadline_task := TID_NULL }
    (fun i hi => by
      rw [List.mem_range'_1] at hi
      exact ⟨hi.1, by have := hi.2; simpa using this⟩)
    (Or.inl rfl)
  unfold edf_scheduler osGetTID_internal
  dsimp only
  split_ifs with h1
  · have hc' : k.g_active_task_id < 16 := hc
    have hstart : u32 (k.g_active_task_id + 1) = k.g_active_task_id + 1 := by
      unfold u32; omega
    rw [hstart]
    split
    · rename_i i hfind
      have hp := List.find?_some hfind
      have hm := List.mem_of_find?_eq_some hfind
      rw [List.mem_range'_1] at hm
      simp only [decide_eq_true_eq] at hp
      exact Or.inr ⟨by omega, by omega, hp.1⟩
    · split
      · rename_i i hfind
        have hp := List.find?_some hfind
        have hm := List.mem_of_find?_eq_some hfind
        rw [List.mem_range'_1] at hm
        simp only [decide_eq_true_eq] at hp
        exact Or.inr ⟨by omega, by omega, hp.1⟩
      · exact hsel
  · exact hsel

theorem find_dormant_spec (k : Kernel) :
    (find_dormant k = TID_NULL ∧
      ∀ i, 1 ≤ i → i < MAX_TASKS → (k.g_tasks i).state ≠ DORMANT) ∨
    (1 ≤ find_dormant k ∧ find_dormant k < MAX_TASKS ∧
      (k.g_tasks (find_dormant k)).state = DORMANT ∧
      ∀ i, 1 ≤ i → i < find_dormant k → (k.g_tasks i).state ≠ DORMANT) := by
  unfold find_dormant
  cases h : (List.range' 1 (MAX_TASKS - 1)).find? fun i =>
      decide ((k.g_tasks i).state = DORMANT) with
  | none =>
    left
    refine ⟨rfl, fun i h1 h2 => ?_⟩
    rw [List.find?_range'_eq_none] at h
    have := h i h1 (by have : i < 16 := h2; omega)
    simpa using this
  | some s =>
    right
    rw [List.find?_range'_eq_some] at h
    obtain ⟨hp, hm, hlow⟩ := h
    rw [List.mem_range'_1] at hm
    simp only [decide_eq_true_eq] at hp
    refine ⟨hm.1, by have := hm.2; simpa using this, hp, fun i h1 h2 => ?_⟩
    have := hlow i h1 h2
    simpa using this

theorem create_install_g_tasks (k : Kernel) (n : Nat) (t : TCB) (a i : Nat) :
    (create_install k n t a).g_tasks i =
      if i = n then
        { k.g_tasks n with
          ptask := t.ptask, stack_size := t.stack_size, stack_high := u32 (a + t.stack_size),
          stack_base := a, tid := n, state := READY, stack_ptr := 0,
          is_fresh_task := TASK_NEW, deadline_value := 5, time_left := 5, sleep_time := 0,
          period := 0, next_period_start := 0, is_periodic := 0 }
      else k.g_tasks i := by
  simp [create_install]

@[simp] theorem create_install_g_num_tasks (k : Kernel) (n : Nat) (t : TCB) (a : Nat) :
    (create_install k n t a).g_num_tasks = k.g_num_tasks + 1 := by
  simp [create_install]

@[simp] theorem create_install_mem (k : Kernel) (n : Nat) (t : TCB) (a : Nat) :
    (create_install k n t a).mem = k.mem.set_owner_tid (u32 (a + 4294967296 - HDR)) n := by
  simp [create_install]

@[simp] theorem create_preempt_mem (k : Kernel) (n : Nat) :
    (create_preempt k n).mem = k.mem := by
  unfold create_preempt; split_ifs <;> simp

@[simp] theorem create_preempt_g_num_tasks (k : Kernel) (n : Nat) :
    (create_preempt k n).g_num_tasks = k.g_num_tasks := by
  unfold create_preempt; split_ifs <;> simp

@[simp] theorem create_preempt_g_active_task_id (k : Kernel) (n : Nat) :
    (create_preempt k n).g_active_task_id = k.g_active_task_id := by
  unfold create_preempt; split_ifs <;> simp

@[simp] theorem create_preempt_g_kernel_running (k : Kernel) (n : Nat) :
    (create_preempt k n).g_kernel_running = k.g_kernel_running := by
  unfold create_preempt; split_ifs <;> simp

@[simp] theorem create_preempt_g_kernel_initialized (k : Kernel) (n : Nat) :
    (create_preempt k n).g_kernel_initialized = k.g_kernel_initialized := by
  unfold create_preempt; split_ifs <;> simp

@[simp] theorem create_preempt_img (k : Kernel) (n : Nat) :
    (create_preempt k n).img = k.img := by
  unfold create_preempt; split_ifs <;> simp

/-- What a successful `osCreateTask_impl` returns, in terms of its blocks. -/
theorem osCreateTask_impl_ok (k k' : Kernel) (t : TCB) (t' : Option TCB)
    (h : osCreateTask_impl k (some t) = some (RTX_OK, k', t')) :
    ∃ a m, k_mem_alloc_impl k.g_active_task_id k.mem t.stack_size = some (a, m) ∧ a ≠ 0 ∧
      k.g_kernel_initialized ≠ 0 ∧ t.ptask ≠ 0 ∧ STACK_SIZE ≤ t.stack_size ∧
      find_dormant k ≠ TID_NULL ∧ k.g_num_tasks < (MAX_TASKS : Int) - 1 ∧
      k' = create_preempt (create_install { k with mem := m } (find_dormant k) t a)
            (find_dormant k) ∧
      t' = some { t with
                  tid := find_dormant k,
                  stack_high := ((create_install { k with mem := m } (find_dormant k) t a).g_tasks
                    (find_dormant k)).stack_high } := by
  unfold osCreateTask_impl osGetTID_internal at h
  by_cases h1 : k.g_kernel_initialized = 0
  · rw [if_pos h1] at h; simp at h
  rw [if_neg h1] at h
  dsimp only at h
  by_cases h2 : t.ptask = 0 ∨ t.stack_size = 0
  · rw [if_pos h2] at h; simp at h
  rw [if_neg h2] at h
  by_cases h3 : t.stack_size < STACK_SIZE
  · rw [if_pos h3] at h; simp at h
  rw [if_neg h3] at h
  by_cases h4 : find_dormant k = TID_NULL ∨ (MAX_TASKS : Int) - 1 ≤ k.g_num_tasks
  · rw [if_pos h4] at h; simp at h
  rw [if_neg h4] at h
  cases hal : k_mem_alloc_impl k.g_active_task_id k.mem t.stack_size with
  | none => rw [hal] at h; simp at h
  | some r =>
    obtain ⟨a, m⟩ := r
    rw [hal] at h
    dsimp only at h
    by_cases h5 : a = 0
    · rw [if_pos h5] at h; simp at h
    rw [if_neg h5] at h
    simp only [Option.some.injEq, Prod.mk.injEq, true_and] at h
    refine ⟨a, m, rfl, h5, h1, ?_, ?_, ?_, ?_, h.1.symm, h.2.symm⟩
    · exact fun x => h2 (Or.inl x)
    · exact Nat.le_of_not_lt h3
    · exact fun x => h4 (Or.inl x)
    · exact Int.lt_of_not_ge (fun x => h4 (Or.inr x))

/-- Fields of a slot that `trigger_context_switch` never writes, and its slice when that
has not run out. -/
theorem trigger_context_switch_static (k : Kernel) (i : Nat) :
    ((trigger_context_switch k).g_tasks i).ptask = (k.g_tasks i).ptask ∧
    ((trigger_context_switch k).g_tasks i).stack_high = (k.g_tasks i).stack_high ∧
    ((trigger_context_switch k).g_tasks i).stack_size = (k.g_tasks i).stack_size ∧
    ((trigger_context_switch k).g_tasks i).stack_base = (k.g_tasks i).stack_base ∧
    ((trigger_context_switch k).g_tasks i).deadline_value = (k.g_tasks i).deadline_value ∧
    ((trigger_context_switch k).g_tasks i).is_periodic = (k.g_tasks i).is_periodic ∧
    ((trigger_context_switch k).g_tasks i).period = (k.g_tasks i).period ∧
    ((trigger_context_switch k).g_tasks i).tid = (k.g_tasks i).tid ∧
    ((k.g_tasks i).time_left ≠ 0 →
      ((trigger_context_switch k).g_tasks i).time_left = (k.g_tasks i).time_left) := by
  rw [trigger_context_switch_g_tasks]
  split_ifs <;> simp [refill] <;> intro h1 h2 <;> exact absurd h2 h1

theorem create_preempt_static (k : Kernel) (n i : Nat) :
    ((create_preempt k n).g_tasks i).ptask = (k.g_tasks i).ptask ∧
    ((create_preempt k n).g_tasks i).stack_high = (k.g_tasks i).stack_high ∧
    ((create_preempt k n).g_tasks i).stack_size = (k.g_tasks i).stack_size ∧
    ((create_preempt k n).g_tasks i).stack_base = (k.g_tasks i).stack_base ∧
    ((create_preempt k n).g_tasks i).deadline_value = (k.g_tasks i).deadline_value ∧
    ((create_preempt k n).g_tasks i).is_periodic = (k.g_tasks i).is_periodic ∧
    ((create_preempt k n).g_tasks i).period = (k.g_tasks i).period ∧
    ((create_preempt k n).g_tasks i).tid = (k.g_tasks i).tid ∧
    ((k.g_tasks i).time_left ≠ 0 →
      ((create_preempt k n).g_tasks i).time_left = (k.g_tasks i).time_left) := by
  unfold create_preempt
  split_ifs
  · exact trigger_context_switch_static k i
  · simp

theorem create_preempt_not_running (k : Kernel) (n : Nat) (h : k.g_kernel_running = 0) :
    create_preempt k n = k := by
  unfold create_preempt
  rw [if_neg (fun x => x.1 h)]

/-- C11. A successful `osCreateTask_impl(t)` uses the lowest-index Dormant slot `s ≥ 1`.
Afterwards that slot has the entry and the stack size of `t`, its `stack_base` is the
pointer the allocator returned, `stack_high = stack_base + stack_size` (in `U32`
arithmetic), `deadline = 5`, `time_left = 5`, it is not periodic and, when the kernel has
not been started, it is Ready and fresh; the header of the heap block behind the stack
has owner `s`; `t.tid = s` and `t.stack_high` are written back; and `g_num_tasks` has
grown by one. -/
theorem osCreateTask_impl_populates (k k' : Kernel) (t : TCB) (t' : Option TCB)
    (h : osCreateTask_impl k (some t) = some (RTX_OK, k', t')) :
    ∃ s, 1 ≤ s ∧ s < MAX_TASKS ∧ (k.g_tasks s).state = DORMANT ∧
      (∀ i, 1 ≤ i → i < s → (k.g_tasks i).state ≠ DORMANT) ∧
      (k'.g_tasks s).ptask = t.ptask ∧
      (k'.g_tasks s).stack_size = t.stack_size ∧
      (∃ m, k_mem_alloc_impl k.g_active_task_id k.mem t.stack_size =
        some ((k'.g_tasks s).stack_base, m)) ∧
      (k'.g_tasks s).stack_base ≠ 0 ∧
      (k'.g_tasks s).stack_high = u32 ((k'.g_tasks s).stack_base + (k'.g_tasks s).stack_size) ∧
      (k'.g_tasks s).deadline_value = 5 ∧
      (k'.g_tasks s).time_left = 5 ∧
      (k'.g_tasks s).is_periodic = 0 ∧
      (k.g_kernel_running = 0 →
        (k'.g_tasks s).state = READY ∧ (k'.g_tasks s).is_fresh_task = TASK_NEW) ∧
      (k'.mem.blk (u32 ((k'.g_tasks s).stack_base + 4294967296 - HDR))).owner_tid = s ∧
      t' = some { t with tid := s, stack_high := (k'.g_tasks s).stack_high } ∧
      k'.g_num_tasks = k.g_num_tasks + 1 := by
  obtain ⟨a, m, hal, ha, -, -, -, hs, -, hk, ht⟩ := osCreateTask_impl_ok k k' t t' h
  rcases find_dormant_spec k with hd | ⟨hd1, hd2, hd3, hd4⟩
  · exact absurd hd.1 hs
  refine ⟨find_dormant k, hd1, hd2, hd3, hd4, ?_⟩
  have hst := create_preempt_static (create_install { k with mem := m } (find_dormant k) t a)
    (find_dormant k) (find_dormant k)
  have hin := create_install_g_tasks { k with mem := m } (find_dormant k) t a (find_dormant k)
  rw [if_pos rfl] at hin
  rw [← hk] at hst
  rw [hin] at hst
  obtain ⟨e1, e2, e3, e4, e5, e6, -, -, e9⟩ := hst
  dsimp only at e1 e2 e3 e4 e5 e6 e9
  have e9' := e9 (by decide)
  refine ⟨e1, e3, ?_, ?_, ?_, e5, e9', e6, ?_, ?_, ?_, ?_⟩
  · exact ⟨m, by rw [e4]; exact hal⟩
  · rw [e4]; exact ha
  · rw [e2, e4, e3]
  · intro hr
    have : k' = create_install { k with mem := m } (find_dormant k) t a := by
      rw [hk]; exact create_preempt_not_running _ _ (by simpa using hr)
    rw [this, hin]
    exact ⟨rfl, rfl⟩
  · rw [e4, hk]
    simp [Heap.set_owner_tid]
  · rw [ht, e2, hin]
  · rw [hk]; simp

/-! ## Reading a header after a write -/

@[simp] theorem Heap.set_size_size (h : Heap) (a v b : Nat) :
    ((h.set_size a v).blk b).size = if b = a then v else (h.blk b).size := by
  unfold Heap.set_size
  by_cases hb : b = a
  · subst hb; simp
  · simp [Function.update_noteq hb, hb]

@[simp] theorem Heap.set_size_is_allocated (h : Heap) (a v b : Nat) :
    ((h.set_size a v).blk b).is_allocated = (h.blk b).is_allocated := by
  unfold Heap.set_size
  by_cases hb : b = a
  · subst hb; simp
  · simp [Function.update_noteq hb]

@[simp] theorem Heap.set_size_owner_tid (h : Heap) (a v b : Nat) :
    ((h.set_size a v).blk b).owner_tid = (h.blk b).owner_tid := by
  unfold Heap.set_size
  by_cases hb : b = a
  · subst hb; simp
  · simp [Function.update_noteq hb]

@[simp] theorem Heap.set_size_next (h : Heap) (a v b : Nat) :
    ((h.set_size a v).blk b).next = (h.blk b).next := by
  unfold Heap.set_size
  by_cases hb : b = a
  · subst hb; simp
  · simp [Function.update_noteq hb]

@[simp] theorem Heap.set_size_prev (h : Heap) (a v b : Nat) :
    ((h.set_size a v).blk b).prev = (h.blk b).prev := by
  unfold Heap.set_size
  by_cases hb : b = a
  · subst hb; simp
  · simp [Function.update_noteq hb]

@[simp] theorem Heap.set_size_heap_start (h : Heap) (a v : Nat) :
    (h.set_size a v).heap_start = h.heap_start := by
  simp [Heap.set_size]

@[simp] theorem Heap.set_size_heap_end (h : Heap) (a v : Nat) :
    (h.set_size a v).heap_end = h.heap_end := by
  simp [Heap.set_size]

@[simp] theorem Heap.set_size_free_list_head (h : Heap) (a v : Nat) :
    (h.set_size a v).free_list_head = h.free_list_head := by
  simp [Heap.set_size]

@[simp] theorem Heap.set_size_memory_initialized (h : Heap) (a v : Nat) :
    (h.set_size a v).memory_initialized = h.memory_initialized := by
  simp [Heap.set_size]

@[simp] theorem Heap.set_is_allocated_size (h : Heap) (a v b : Nat) :
    ((h.set_is_allocated a v).blk b).size = (h.blk b).size := by
  unfold Heap.set_is_allocated
  by_cases hb : b = a
  · subst hb; simp
  · simp [Function.update_noteq hb]

@[simp] theorem Heap.set_is_allocated_is_allocated (h : Heap) (a v b : Nat) :
    ((h.set_is_allocated a v).blk b).is_allocated = if b = a then v else (h.blk b).is_allocated := by
  unfold Heap.set_is_allocated
  by_cases hb : b = a
  · subst hb; simp
  · simp [Function.update_noteq hb, hb]

@[simp] theorem Heap.set_is_allocated_owner_tid (h : Heap) (a v b : Nat) :
    ((h.set_is_allocated a v).blk b).owner_tid = (h.blk b).owner_tid := by
  unfold Heap.set_is_allocated
  by_cases hb : b = a
  · subst hb; simp
  · simp [Function.update_noteq hb]

@[simp] theorem Heap.set_is_allocated_next (h : Heap) (a v b : Nat) :
    ((h.set_is_allocated a v).blk b).next = (h.blk b).next := by
  unfold Heap.set_is_allocated
  by_cases hb : b = a
  · subst hb; simp
  · simp [Function.update_noteq hb]

@[simp] theorem Heap.set_is_allocated_prev (h : Heap) (a v b : Nat) :
    ((h.set_is_allocated a v).blk b).prev = (h.blk b).prev := by
  unfold Heap.set_is_allocated
  by_cases hb : b = a
  · subst hb; simp
  · simp [Function.update_noteq hb]

@[simp] theorem Heap.set_is_allocated_heap_start (h : Heap) (a v : Nat) :
    (h.set_is_allocated a v).heap_start = h.heap_start := by
  simp [Heap.set_is_allocated]

@[simp] theorem Heap.set_is_allocated_heap_end (h : Heap) (a v : Nat) :
    (h.set_is_allocated a v).heap_end = h.heap_end := by
  simp [Heap.set_is_allocated]

@[simp] theorem Heap.set_is_allocated_free_list_head (h : Heap) (a v : Nat) :
    (h.set_is_allocated a v).free_list_head = h.free_list_head := by
  simp [Heap.set_is_allocated]

@[simp] theorem Heap.set_is_allocated_memory_initialized (h : Heap) (a v : Nat) :
    (h.set_is_allocated a v).memory_initialized = h.memory_initialized := by
  simp [Heap.set_is_allocated]

@[simp] theorem Heap.set_owner_tid_size (h : Heap) (a v b : Nat) :
    ((h.set_owner_tid a v).blk b).size = (h.blk b).size := by
  unfold Heap.set_owner_tid
  by_cases hb : b = a
  · subst hb; simp
  · simp [Function.update_noteq hb]

@[simp] theorem Heap.set_owner_tid_is_allocated (h : Heap) (a v b : Nat) :
    ((h.set_owner_tid a v).blk b).is_allocated = (h.blk b).is_allocated := by
  unfold Heap.set_owner_tid
  by_cases hb : b = a
  · subst hb; simp
  · simp [Function.update_noteq hb]

@[simp] theorem Heap.set_owner_tid_owner_tid (h : Heap) (a v b : Nat) :
    ((h.set_owner_tid a v).blk b).owner_tid = if b = a then v else (h.blk b).owner_tid := by
  unfold Heap.set_owner_tid
  by_cases hb : b = a
  · subst hb; simp
  · simp [Function.update_noteq hb, hb]

@[simp] theorem Heap.set_owner_tid_next (h : Heap) (a v b : Nat) :
    ((h.set_owner_tid a v).blk b).next = (h.blk b).next := by
  unfold Heap.set_owner_tid
  by_cases hb : b = a
  · subst hb; simp
  · simp [Function.update_noteq hb]

@[simp] theorem Heap.set_owner_tid_prev (h : Heap) (a v b : Nat) :
    ((h.set_owner_tid a v).blk b).prev = (h.blk b).prev := by
  unfold Heap.set_owner_tid
  by_cases hb : b = a
  · subst hb; simp
  · simp [Function.update_noteq hb]

@[simp] theorem Heap.set_owner_tid_heap_start (h : Heap) (a v : Nat) :
    (h.set_owner_tid a v).heap_start = h.heap_start := by
  simp [Heap.set_owner_tid]

@[simp] theorem Heap.set_owner_tid_heap_end (h : Heap) (a v : Nat) :
    (h.set_owner_tid a v).heap_end = h.heap_end := by
  simp [Heap.set_owner_tid]

@[simp] theorem Heap.set_owner_tid_free_list_head (h : Heap) (a v : Nat) :
    (h.set_owner_tid a v).free_list_head = h.free_list_head := by
  simp [Heap.set_owner_tid]

@[simp] theorem Heap.set_owner_tid_memory_initialized (h : Heap) (a v : Nat) :
    (h.set_owner_tid a v).memory_initialized = h.memory_initialized := by
  simp [Heap.set_owner_tid]

@[simp] theorem Heap.set_next_size (h : Heap) (a v b : Nat) :
    ((h.set_next a v).blk b).size = (h.blk b).size := by
  unfold Heap.set_next
  by_cases hb : b = a
  · subst hb; simp
  · simp [Function.update_noteq hb]

@[simp] theorem Heap.set_next_is_allocated (h : Heap) (a v b : Nat) :
    ((h.set_next a v).blk b).is_allocated = (h.blk b).is_allocated := by
  unfold Heap.set_next
  by_cases hb : b = a
  · subst hb; simp
  · simp [Function.update_noteq hb]

@[simp] theorem Heap.set_next_owner_tid (h : Heap) (a v b : Nat) :
    ((h.set_next a v).blk b).owner_tid = (h.blk b).owner_tid := by
  unfold Heap.set_next
  by_cases hb : b = a
  · subst hb; simp
  · simp [Function.update_noteq hb]

@[simp] theorem Heap.set_next_next (h : Heap) (a v b : Nat) :
    ((h.set_next a v).blk b).next = if b = a then v else (h.blk b).next := by
  unfold Heap.set_next
  by_cases hb : b = a
  · subst hb; simp
  · simp [Function.update_noteq hb, hb]

@[simp] theorem Heap.set_next_prev (h : Heap) (a v b : Nat) :
    ((h.set_next a v).blk b).prev = (h.blk b).prev := by
  unfold Heap.set_next
  by_cases hb : b = a
  · subst hb; simp
  · simp [Function.update_noteq hb]

@[simp] theorem Heap.set_next_heap_start (h : Heap) (a v : Nat) :
    (h.set_next a v).heap_start = h.heap_start := by
  simp [Heap.set_next]

@[simp] theorem Heap.set_next_heap_end (h : Heap) (a v : Nat) :
    (h.set_next a v).heap_end = h.heap_end := by
  simp [Heap.set_next]

@[simp] theorem Heap.set_next_free_list_head (h : Heap) (a v : Nat) :
    (h.set_next a v).free_list_head = h.free_list_head := by
  simp [Heap.set_next]

@[simp] theorem Heap.set_next_memory_initialized (h : Heap) (a v : Nat) :
    (h.set_next a v).memory_initialized = h.memory_initialized := by
  simp [Heap.set_next]

@[simp] theorem Heap.set_prev_size (h : Heap) (a v b : Nat) :
    ((h.set_prev a v).blk b).size = (h.blk b).size := by
  unfold Heap.set_prev
  by_cases hb : b = a
  · subst hb; simp
  · simp [Function.update_noteq hb]

@[simp] theorem Heap.set_prev_is_allocated (h : Heap) (a v b : Nat) :
    ((h.set_prev a v).blk b).is_allocated = (h.blk b).is_allocated := by
  unfold Heap.set_prev
  by_cases hb : b = a
  · subst hb; simp
  · simp [Function.update_noteq hb]

@[simp] theorem Heap.set_prev_owner_tid (h : Heap) (a v b : Nat) :
    ((h.set_prev a v).blk b).owner_tid = (h.blk b).owner_tid := by
  unfold Heap.set_prev
  by_cases hb : b = a
  · subst hb; simp
  · simp [Function.update_noteq hb]

@[simp] theorem Heap.set_prev_next (h : Heap) (a v b : Nat) :
    ((h.set_prev a v).blk b).next = (h.blk b).next := by
  unfold Heap.set_prev
  by_cases hb : b = a
  · subst hb; simp
  · simp [Function.update_noteq hb]

@[simp] theorem Heap.set_prev_prev (h : Heap) (a v b : Nat) :
    ((h.set_prev a v).blk b).prev = if b = a then v else (h.blk b).prev := by
  unfold Heap.set_prev
  by_cases hb : b = a
  · subst hb; simp
  · simp [Function.update_noteq hb, hb]

@[simp] theorem Heap.set_prev_heap_start (h : Heap) (a v : Nat) :
    (h.set_prev a v).heap_start = h.heap_start := by
  simp [Heap.set_prev]

@[simp] theorem Heap.set_prev_heap_end (h : Heap) (a v : Nat) :
    (h.set_prev a v).heap_end = h.heap_end := by
  simp [Heap.set_prev]

@[simp] theorem Heap.set_prev_free_list_head (h : Heap) (a v : Nat) :
    (h.set_prev a v).free_list_head = h.free_list_head := by
  simp [Heap.set_prev]

@[simp] theorem Heap.set_prev_memory_initialized (h : Heap) (a v : Nat) :
    (h.set_prev a v).memory_initialized = h.memory_initialized := by
  simp [Heap.set_prev]

@[simp] theorem Heap.set_head_blk (h : Heap) (v : Nat) : (h.set_head v).blk = h.blk := by
  simp [Heap.set_head]

@[simp] theorem Heap.set_head_free_list_head (h : Heap) (v : Nat) :
    (h.set_head v).free_list_head = v := by
  simp [Heap.set_head]

@[simp] theorem Heap.set_head_heap_start (h : Heap) (v : Nat) :
    (h.set_head v).heap_start = h.heap_start := by
  simp [Heap.set_head]

@[simp] theorem Heap.set_head_heap_end (h : Heap) (v : Nat) :
    (h.set_head v).heap_end = h.heap_end := by
  simp [Heap.set_head]

@[simp] theorem Heap.set_head_memory_initialized (h : Heap) (v : Nat) :
    (h.set_head v).memory_initialized = h.memory_initialized := by
  simp [Heap.set_head]

@[simp] theorem Heap.set_init_blk (h : Heap) (v : Nat) :
    (h.set_init v).blk = h.blk := by
  simp [Heap.set_init]

@[simp] theorem Heap.set_init_free_list_head (h : Heap) (v : Nat) :
    (h.set_init v).free_list_head = h.free_list_head := by
  simp [Heap.set_init]

@[simp] theorem Heap.set_init_heap_start (h : Heap) (v : Nat) :
    (h.set_init v).heap_start = h.heap_start := by
  simp [Heap.set_init]

@[simp] theorem Heap.set_init_heap_end (h : Heap) (v : Nat) :
    (h.set_init v).heap_end = h.heap_end := by
  simp [Heap.set_init]

@[simp] theorem Heap.set_init_memory_initialized (h : Heap) (v : Nat) :
    (h.set_init v).memory_initialized = v := by
  simp [Heap.set_init]

@[simp] theorem Heap.set_bounds_blk (h : Heap) (s e : Nat) :
    (h.set_bounds s e).blk = h.blk := by
  simp [Heap.set_bounds]

@[simp] theorem Heap.set_bounds_free_list_head (h : Heap) (s e : Nat) :
    (h.set_bounds s e).free_list_head = h.free_list_head := by
  simp [Heap.set_bounds]

@[simp] theorem Heap.set_bounds_heap_start (h : Heap) (s e : Nat) :
    (h.set_bounds s e).heap_start = s := by
  simp [Heap.set_bounds]

@[simp] theorem Heap.set_bounds_heap_end (h : Heap) (s e : Nat) :
    (h.set_bounds s e).heap_end = e := by
  simp [Heap.set_bounds]

@[simp] theorem Heap.set_bounds_memory_initialized (h : Heap) (s e : Nat) :
    (h.set_bounds s e).memory_initialized = h.memory_initialized := by
  simp [Heap.set_bounds]

@[simp] theorem Heap.set_blk_blk (h : Heap) (a : Nat) (x : mem_block) (b : Nat) :
    (h.set_blk a x).blk b = if b = a then x else h.blk b := by
  unfold Heap.set_blk
  by_cases hb : b = a
  · subst hb; simp
  · simp [Function.update_noteq hb, hb]

@[simp] theorem Heap.set_blk_heap_start (h : Heap) (a : Nat) (x : mem_block) :
    (h.set_blk a x).heap_start = h.heap_start := by
  simp [Heap.set_blk]

@[simp] theorem Heap.set_blk_heap_end (h : Heap) (a : Nat) (x : mem_block) :
    (h.set_blk a x).heap_end = h.heap_end := by
  simp [Heap.set_blk]

@[simp] theorem Heap.set_blk_free_list_head (h : Heap) (a : Nat) (x : mem_block) :
    (h.set_blk a x).free_list_head = h.free_list_head := by
  simp [Heap.set_blk]

@[simp] theorem Heap.set_blk_memory_initialized (h : Heap) (a : Nat) (x : mem_block) :
    (h.set_blk a x).memory_initialized = h.memory_initialized := by
  simp [Heap.set_blk]

/-! ## The list operations on headers, in closed form -/

/-- `remove_from_free_list(F)` when `F` is not its own predecessor: the predecessor and
the successor of `F` are linked to each other and the links of `F` are cleared. -/
theorem remove_from_free_list_spec (h : Heap) (F : Nat) (hP : (h.blk F).prev ≠ F) :
    (remove_from_free_list h F).free_list_head =
        (if (h.blk F).prev ≠ 0 then h.free_list_head else (h.blk F).next) ∧
    (remove_from_free_list h F).heap_start = h.heap_start ∧
    (remove_from_free_list h F).heap_end = h.heap_end ∧
    (remove_from_free_list h F).memory_initialized = h.memory_initialized ∧
    ∀ b,
      ((remove_from_free_list h F).blk b).next =
        (if b = F then 0
         else if b = (h.blk F).prev ∧ (h.blk F).prev ≠ 0 then (h.blk F).next
         else (h.blk b).next) ∧
      ((remove_from_free_list h F).blk b).prev =
        (if b = F then 0
         else if b = (h.blk F).next ∧ (h.blk F).next ≠ 0 then (h.blk F).prev
         else (h.blk b).prev) ∧
      ((remove_from_free_list h F).blk b).size = (h.blk b).size ∧
      ((remove_from_free_list h F).blk b).is_allocated = (h.blk b).is_allocated ∧
      ((remove_from_free_list h F).blk b).owner_tid = (h.blk b).owner_tid := by
  unfold remove_from_free_list
  dsimp only
  by_cases h1 : (h.blk F).prev = 0 <;> by_cases h2 : (h.blk F).next = 0
  · simp [h1, h2]
  · simp [h1, h2]
  · simp [h1, h2, Ne.symm hP]
  · simp [h1, h2, Ne.symm hP]

/-! ## Doubly linked list segments -/

@[simp] theorem lastOr_nil (q : Nat) : lastOr [] q = q := rfl

@[simp] theorem lastOr_cons (a : Nat) (l : List Nat) (q : Nat) :
    lastOr (a :: l) q = lastOr l a := by
  unfold lastOr
  cases l <;> simp [List.getLastD]

theorem lastOr_append_cons (l1 l2 : List Nat) (a q : Nat) :
    lastOr (l1 ++ a :: l2) q = lastOr l2 a := by
  induction l1 generalizing q with
  | nil => simp
  | cons b l1 ih => simp [ih]

theorem lastOr_mem (l : List Nat) (q : Nat) (hl : l ≠ []) : lastOr l q ∈ l := by
  induction l generalizing q with
  | nil => exact absurd rfl hl
  | cons a l ih =>
    rw [lastOr_cons]
    cases l with
    | nil => simp
    | cons b l => exact List.mem_cons_of_mem _ (ih a (by simp))

theorem Seg.append {m : Nat → mem_block} {l1 l2 : List Nat} {p q r : Nat} :
    Seg m p q (l1 ++ l2) r ↔ ∃ x, Seg m p q l1 x ∧ Seg m x (lastOr l1 q) l2 r := by
  induction l1 generalizing p q with
  | nil => simp [Seg]
  | cons a l1 ih =>
    rw [lastOr_cons]
    constructor
    · intro h
      have h' : p = a ∧ (m a).prev = q ∧ Seg m (m a).next a (l1 ++ l2) r := h
      obtain ⟨h1, h2, h3⟩ := h'
      obtain ⟨x, h4, h5⟩ := ih.1 h3
      exact ⟨x, ⟨h1, h2, h4⟩, h5⟩
    · rintro ⟨x, ⟨h1, h2, h3⟩, h4⟩
      have : Seg m (m a).next a (l1 ++ l2) r := ih.2 ⟨x, h3, h4⟩
      exact ⟨h1, h2, this⟩

/-- A chain only depends on the links of its own nodes. -/
theorem Seg.frame {m m' : Nat → mem_block} {l : List Nat} {p q r : Nat}
    (hm : ∀ a ∈ l, (m' a).next = (m a).next ∧ (m' a).prev = (m a).prev)
    (h : Seg m p q l r) : Seg m' p q l r := by
  induction l generalizing p q with
  | nil => exact h
  | cons a l ih =>
    obtain ⟨h1, h2, h3⟩ := h
    have ha := hm a (List.mem_cons_self _ _)
    refine ⟨h1, by rw [ha.2]; exact h2, ?_⟩
    rw [ha.1]
    exact ih (fun b hb => hm b (List.mem_cons_of_mem _ hb)) h3

/-- The entry pointer of a chain is its first node, or the exit pointer. -/
theorem Seg.head_eq {m : Nat → mem_block} {l : List Nat} {p q r : Nat}
    (h : Seg m p q l r) : p = l.headD r := by
  cases l with
  | nil => exact h
  | cons a l => exact h.1

/-- Two chains over the same nodes with the same ends have the same links. -/
theorem Seg.links_eq {m m' : Nat → mem_block} {l : List Nat} {p q r : Nat}
    (h : Seg m p q l r) (h' : Seg m' p q l r) :
    ∀ a ∈ l, (m' a).next = (m a).next ∧ (m' a).prev = (m a).prev := by
  induction l generalizing p q with
  | nil => intro a ha; cases ha
  | cons b l ih =>
    obtain ⟨h1, h2, h3⟩ := h
    obtain ⟨h1', h2', h3'⟩ := h'
    have hn : (m' b).next = (m b).next := by
      rw [h3.head_eq, h3'.head_eq]
    intro a ha
    rcases List.mem_cons.1 ha with rfl | ha
    · exact ⟨hn, by rw [h2, h2']⟩
    · rw [hn] at h3'
      exact ih h3 h3' a ha

theorem lastOr_eq_or_mem (l : List Nat) (q : Nat) : (l = [] ∧ lastOr l q = q) ∨ lastOr l q ∈ l := by
  cases l with
  | nil => exact Or.inl ⟨rfl, rfl⟩
  | cons a l => exact Or.inr (lastOr_mem _ _ (by simp))

theorem headD_eq_or_mem (l : List Nat) (r : Nat) : (l = [] ∧ l.headD r = r) ∨ l.headD r ∈ l := by
  cases l with
  | nil => exact Or.inl ⟨rfl, rfl⟩
  | cons a l => exact Or.inr (by simp)

/-- Unlinking the node `F` of a chain: what is left is the chain of the remaining nodes,
and no `size`, `is_allocated` or `owner_tid` field changes. -/
theorem Seg.remove {h : Heap} {l1 l2 : List Nat} {F : Nat}
    (hseg : Seg h.blk h.free_list_head 0 (l1 ++ F :: l2) 0)
    (hnd : (l1 ++ F :: l2).Nodup) (hnz : ∀ a ∈ l1 ++ F :: l2, a ≠ 0) :
    Seg (remove_from_free_list h F).blk (remove_from_free_list h F).free_list_head 0
        (l1 ++ l2) 0 ∧
      (remove_from_free_list h F).heap_start = h.heap_start ∧
      (remove_from_free_list h F).heap_end = h.heap_end ∧
      (remove_from_free_list h F).memory_initialized = h.memory_initialized ∧
      ∀ b, ((remove_from_free_list h F).blk b).size = (h.blk b).size ∧
        ((remove_from_free_list h F).blk b).is_allocated = (h.blk b).is_allocated ∧
        ((remove_from_free_list h F).blk b).owner_tid = (h.blk b).owner_tid := by
  obtain ⟨x, hs1, hs2⟩ := Seg.append.1 hseg
  obtain ⟨hx, hprev, hs3⟩ := hs2
  subst hx
  have hF0 : x ≠ 0 := hnz x (by simp)
  have hFl1 : x ∉ l1 := by
    intro hm
    have := List.nodup_append.1 hnd
    exact this.2.2 hm (List.mem_cons_self _ _) 
  have hFl2 : x ∉ l2 := by
    have := (List.nodup_append.1 hnd).2.1
    exact (List.nodup_cons.1 this).1
  have hdisj : ∀ a ∈ l1, a ∉ l2 := by
    intro a ha hb
    exact (List.nodup_append.1 hnd).2.2 ha (List.mem_cons_of_mem _ hb)
  have hnd1 : l1.Nodup := (List.nodup_append.1 hnd).1
  have hnd2 : l2.Nodup := (List.nodup_cons.1 (List.nodup_append.1 hnd).2.1).2
  have hPF : (h.blk x).prev ≠ x := by
    rw [hprev]
    rcases lastOr_eq_or_mem l1 0 with ⟨-, h0⟩ | hm
    · rw [h0]; exact Ne.symm hF0
    · exact fun e => hFl1 (e ▸ hm)
  obtain ⟨hhead, hgs, hge, hgi, hblk⟩ := remove_from_free_list_spec h x hPF
  have hN : (h.blk x).next = l2.headD 0 := hs3.head_eq
  refine ⟨?_, hgs, hge, hgi, fun b => (hblk b).2.2⟩
  rw [Seg.append]
  refine ⟨(h.blk x).next, ?_, ?_⟩
  · -- the nodes before `F`
    rcases List.eq_nil_or_concat l1 with hl1 | ⟨L, P, hl1⟩
    · subst hl1
      have : (h.blk x).prev = 0 := by rw [hprev]; rfl
      rw [hhead, this]
      simp [Seg]
    · rw [List.concat_eq_append] at hl1
      subst hl1
      have hP : (h.blk x).prev = P := by
        rw [hprev]; simp [lastOr_append_cons]
      have hP0 : P ≠ 0 := hnz P (by simp)
      rw [hhead, hP, if_pos hP0]
      obtain ⟨y, hs4, hs5⟩ := Seg.append.1 hs1
      obtain ⟨hy, hpp, hs6⟩ := hs5
      subst hy
      have hPL : y ∉ L := by
        intro hm
        exact (List.nodup_append.1 hnd1).2.2 hm (List.mem_singleton_self _) 
      rw [Seg.append]
      refine ⟨y, ?_, rfl, ?_, ?_⟩
      · refine Seg.frame (fun a ha => ?_) hs4
        have ha1 : a ∈ L ++ [y] := List.mem_append_left _ ha
        have e1 : a ≠ x := fun e => hFl1 (e ▸ ha1)
        have e2 : a ≠ y := fun e => hPL (e ▸ ha)
        have e3 : ¬ (a = (h.blk x).next ∧ (h.blk x).next ≠ 0) := by
          rintro ⟨e, e0⟩
          rw [hN] at e e0
          rcases headD_eq_or_mem l2 0 with ⟨-, h0⟩ | hm
          · exact e0 h0
          · exact hdisj a ha1 (e ▸ hm)
        have := hblk a
        rw [if_neg e1, if_neg e1, if_neg e3, hP, if_neg (fun z => e2 z.1)] at this
        exact ⟨this.1, this.2.1⟩
      · have e1 : y ≠ x := fun e => hFl1 (e ▸ (by simp))
        have e3 : ¬ (y = (h.blk x).next ∧ (h.blk x).next ≠ 0) := by
          rintro ⟨e, e0⟩
          rw [hN] at e e0
          rcases headD_eq_or_mem l2 0 with ⟨-, h0⟩ | hm
          · exact e0 h0
          · exact hdisj y (by simp) (e ▸ hm)
        have := (hblk y).2.1
        rw [if_neg e1, if_neg e3] at this
        rw [this]; exact hpp
      · have e1 : y ≠ x := fun e => hFl1 (e ▸ (by simp))
        have := (hblk y).1
        rw [if_neg e1, hP, if_pos ⟨rfl, hP0⟩] at this
        exact this
  · -- the nodes after `F`
    cases l2 with
    | nil => exact hs3
    | cons N l2' =>
      obtain ⟨hn, hnp, hs7⟩ := hs3
      have hN0 : N ≠ 0 := hnz N (by simp)
      have hNx : N ≠ x := fun e => hFl2 (e ▸ (by simp))
      have hNl1 : ∀ a ∈ l1, a ≠ N := fun a ha e => hdisj a ha (e ▸ (by simp))
      have hPN : ¬ (N = (h.blk x).prev ∧ (h.blk x).prev ≠ 0) := by
        rintro ⟨e, e0⟩
        rw [hprev] at e e0
        rcases lastOr_eq_or_mem l1 0 with ⟨-, h0⟩ | hm
        · exact e0 h0
        · exact hNl1 _ hm e.symm
      refine ⟨hn, ?_, ?_⟩
      · have := (hblk N).2.1
        rw [if_neg hNx, hn, if_pos ⟨rfl, hN0⟩] at this
        rw [this, hprev]
      · have hnext := (hblk N).1
        rw [if_neg hNx, if_neg hPN] at hnext
        rw [hnext]
        refine Seg.frame (fun a ha => ?_) hs7
        have e1 : a ≠ x := fun e => hFl2 (e ▸ List.mem_cons_of_mem _ ha)
        have e2 : a ≠ N := fun e => (List.nodup_cons.1 hnd2).1 (e ▸ ha)
        have e3 : ¬ (a = (h.blk x).prev ∧ (h.blk x).prev ≠ 0) := by
          rintro ⟨e, e0⟩
          rw [hprev] at e e0
          rcases lastOr_eq_or_mem l1 0 with ⟨-, h0⟩ | hm
          · exact e0 h0
          · exact hdisj _ hm (e ▸ List.mem_cons_of_mem _ ha)
        have := hblk a
        rw [if_neg e1, if_neg e1, if_neg e3, hn, if_neg (fun z => e2 z.1)] at this
        exact ⟨this.1, this.2.1⟩

/-- Redirecting the exit pointer of a chain: only the `next` field of its last node
changes (or the entry pointer, when the chain is empty). -/
theorem Seg.set_exit {m m' : Nat → mem_block} {l : List Nat} {p q r r' : Nat}
    (h : Seg m p q l r) (hnd : l.Nodup)
    (hprev : ∀ a ∈ l, (m' a).prev = (m a).prev)
    (hnext : ∀ a ∈ l, (m' a).next = if a = lastOr l q then r' else (m a).next) :
    Seg m' (if l = [] then r' else p) q l r' := by
  induction l generalizing p q with
  | nil => simp [Seg]
  | cons a l ih =>
    obtain ⟨h1, h2, h3⟩ := h
    rw [if_neg (by simp)]
    have hal : a ∉ l := (List.nodup_cons.1 hnd).1
    have hndl := (List.nodup_cons.1 hnd).2
    refine ⟨h1, by rw [hprev a (List.mem_cons_self _ _)]; exact h2, ?_⟩
    have ih' := ih h3 hndl (fun b hb => hprev b (List.mem_cons_of_mem _ hb))
      (fun b hb => by
        have := hnext b (List.mem_cons_of_mem _ hb)
        rw [lastOr_cons] at this
        exact this)
    have hna := hnext a (List.mem_cons_self _ _)
    rw [lastOr_cons] at hna
    cases l with
    | nil =>
      rw [lastOr_nil, if_pos rfl] at hna
      rw [hna]
      rfl
    | cons b l' =>
      have : a ≠ lastOr (b :: l') a := by
        intro e
        exact hal (e ▸ lastOr_mem _ _ (by simp))
      rw [if_neg this] at hna
      rw [hna]
      rw [if_neg (by simp)] at ih'
      exact ih'

/-- Redirecting the back pointer of a chain: only the `prev` field of its first node
changes. -/
theorem Seg.set_back {m m' : Nat → mem_block} {l : List Nat} {p q q' r : Nat}
    (h : Seg m p q l r) (hnd : l.Nodup)
    (hnext : ∀ a ∈ l, (m' a).next = (m a).next)
    (hprev : ∀ a ∈ l, (m' a).prev = if a = p then q' else (m a).prev) :
    Seg m' p q' l r := by
  cases l with
  | nil => exact h
  | cons a l =>
    obtain ⟨h1, h2, h3⟩ := h
    have hal : a ∉ l := (List.nodup_cons.1 hnd).1
    refine ⟨h1, ?_, ?_⟩
    · have := hprev a (List.mem_cons_self _ _)
      rw [if_pos h1.symm] at this
      exact this
    · rw [hnext a (List.mem_cons_self _ _)]
      refine Seg.frame (fun b hb => ⟨hnext b (List.mem_cons_of_mem _ hb), ?_⟩) h3
      have := hprev b (List.mem_cons_of_mem _ hb)
      rw [if_neg (fun e => hal (by rw [← h1, ← e]; exact hb))] at this
      exact this

/-- The scan of `add_to_free_list` over a chain whose nodes `l1` lie below the block and
whose remaining nodes do not: it stops between the two parts. -/
theorem add_scan_seg {m : Nat → mem_block} {B : Nat} {l1 l2 : List Nat} {p q prev0 fuel : Nat}
    (hseg : Seg m p q (l1 ++ l2) 0) (hnz : ∀ a ∈ l1, a ≠ 0)
    (hlo : ∀ a ∈ l1, a < B) (hhi : ∀ a ∈ l2, ¬ a < B) (hfuel : l1.length < fuel) :
    add_scan m B fuel prev0 p = some (lastOr l1 prev0, l2.headD 0) := by
  induction l1 generalizing p q prev0 fuel with
  | nil =>
    cases fuel with
    | zero => exact absurd hfuel (by simp)
    | succ fuel =>
      have hp : p = l2.headD 0 := hseg.head_eq
      unfold add_scan
      have : ¬ (p ≠ 0 ∧ p < B) := by
        rintro ⟨h0, hlt⟩
        rcases headD_eq_or_mem l2 0 with ⟨-, e⟩ | hm
        · exact h0 (hp.trans e)
        · exact hhi _ hm (hp ▸ hlt)
      rw [if_neg this, hp]
      rfl
  | cons a l1 ih =>
    cases fuel with
    | zero => exact absurd hfuel (by simp)
    | succ fuel =>
      obtain ⟨h1, -, h3⟩ := hseg
      subst h1
      unfold add_scan
      rw [if_pos ⟨hnz p (List.mem_cons_self _ _), hlo p (List.mem_cons_self _ _)⟩]
      rw [lastOr_cons]
      exact ih h3 (fun b hb => hnz b (List.mem_cons_of_mem _ hb))
        (fun b hb => hlo b (List.mem_cons_of_mem _ hb)) (by simpa using hfuel)

/-- `add_to_free_list(B)` once the scan is known to stop at `(prev, cur)`: the block is
linked in between `prev` and `cur`. -/
theorem add_to_free_list_spec (h : Heap) (B prev cur : Nat)
    (hscan : add_scan ((h.set_next B 0).set_prev B 0).blk B WALK_FUEL 0 h.free_list_head =
      some (prev, cur))
    (h0 : prev = 0 → cur = h.free_list_head) (hB0 : h.free_list_head = 0 → cur = 0 ∧ prev = 0)
    (hpB : prev ≠ B) (hcB : cur ≠ B) :
    ∃ h', add_to_free_list h B = some h' ∧
      h'.free_list_head = (if prev = 0 then B else h.free_list_head) ∧
      h'.heap_start = h.heap_start ∧ h'.heap_end = h.heap_end ∧
      h'.memory_initialized = h.memory_initialized ∧
      ∀ b,
        (h'.blk b).next =
          (if b = B then cur else if b = prev ∧ prev ≠ 0 then B else (h.blk b).next) ∧
        (h'.blk b).prev =
          (if b = B then prev else if b = cur ∧ cur ≠ 0 then B else (h.blk b).prev) ∧
        (h'.blk b).size = (h.blk b).size ∧
        (h'.blk b).is_allocated = (h.blk b).is_allocated ∧
        (h'.blk b).owner_tid = (h.blk b).owner_tid := by
  unfold add_to_free_list
  dsimp only
  by_cases hh : h.free_list_head = 0
  · obtain ⟨hc, hp⟩ := hB0 hh
    subst hc hp
    simp [hh]
  · have hh' : ¬ ((h.set_next B 0).set_prev B 0).free_list_head = 0 := by simpa using hh
    rw [if_neg hh']
    simp only [Heap.set_prev_free_list_head, Heap.set_next_free_list_head]
    rw [hscan]
    dsimp only
    by_cases hp : prev = 0
    · have hc := h0 hp
      subst hp
      subst hc
      simp [hh, Ne.symm hcB]
      intro b
      split_ifs <;> simp_all
    · simp [hp, Ne.symm hpB]
      by_cases hc : cur = 0
      · simp [hc]
        intro b
        split_ifs <;> simp_all
      · simp [hc, Ne.symm hcB]
        intro b
        split_ifs <;> simp_all

theorem lastOr_zero_iff (l : List Nat) (hnz : ∀ a ∈ l, a ≠ 0) : lastOr l 0 = 0 ↔ l = [] := by
  constructor
  · intro h
    rcases lastOr_eq_or_mem l 0 with ⟨e, -⟩ | hm
    · exact e
    · exact absurd h (hnz _ hm)
  · rintro rfl; rfl

theorem headD_zero_iff (l : List Nat) (hnz : ∀ a ∈ l, a ≠ 0) : l.headD 0 = 0 ↔ l = [] := by
  constructor
  · intro h
    rcases headD_eq_or_mem l 0 with ⟨e, -⟩ | hm
    · exact e
    · exact absurd h (hnz _ hm)
  · rintro rfl; rfl

/-- Linking the block `B` into a chain between the nodes below it and the nodes above
it: `add_to_free_list` returns, the chain is the old one with `B` inserted in address
order, and no `size`, `is_allocated` or `owner_tid` field changes. -/
theorem Seg.add {h : Heap} {l1 l2 : List Nat} {B : Nat}
    (hseg : Seg h.blk h.free_list_head 0 (l1 ++ l2) 0)
    (hnd : (l1 ++ l2).Nodup) (hnz : ∀ a ∈ l1 ++ l2, a ≠ 0) (hB0 : B ≠ 0)
    (hlo : ∀ a ∈ l1, a < B) (hhi : ∀ a ∈ l2, B < a)
    (hlen : (l1 ++ l2).length < WALK_FUEL) :
    ∃ h', add_to_free_list h B = some h' ∧
      Seg h'.blk h'.free_list_head 0 (l1 ++ B :: l2) 0 ∧
      h'.heap_start = h.heap_start ∧ h'.heap_end = h.heap_end ∧
      h'.memory_initialized = h.memory_initialized ∧
      ∀ b, (h'.blk b).size = (h.blk b).size ∧
        (h'.blk b).is_allocated = (h.blk b).is_allocated ∧
        (h'.blk b).owner_tid = (h.blk b).owner_tid := by
  have hnz1 : ∀ a ∈ l1, a ≠ 0 := fun a ha => hnz a (List.mem_append_left _ ha)
  have hnz2 : ∀ a ∈ l2, a ≠ 0 := fun a ha => hnz a (List.mem_append_right _ ha)
  have hB1 : ∀ a ∈ l1, a ≠ B := fun a ha => Nat.ne_of_lt (hlo a ha)
  have hB2 : ∀ a ∈ l2, a ≠ B := fun a ha => Nat.ne_of_gt (hhi a ha)
  have hdisj : ∀ a ∈ l1, a ∉ l2 := fun a ha hb => (List.nodup_append.1 hnd).2.2 ha hb
  have hnd1 : l1.Nodup := (List.nodup_append.1 hnd).1
  have hnd2 : l2.Nodup := (List.nodup_append.1 hnd).2.1
  -- the scan stops between the two parts
  have hseg0 : Seg ((h.set_next B 0).set_prev B 0).blk h.free_list_head 0 (l1 ++ l2) 0 := by
    refine Seg.frame (fun a ha => ?_) hseg
    have : a ≠ B := by
      rcases List.mem_append.1 ha with h1 | h2
      · exact hB1 a h1
      · exact hB2 a h2
    simp [this]
  have hscan := @add_scan_seg _ _ _ _ _ _ 0 WALK_FUEL hseg0 hnz1 hlo
    (fun a ha => Nat.not_lt_of_gt (hhi a ha))
    (lt_of_le_of_lt (by simp) hlen)
  have hhead : h.free_list_head = (l1 ++ l2).headD 0 := hseg.head_eq
  have hP : lastOr l1 0 ≠ B := by
    rcases lastOr_eq_or_mem l1 0 with ⟨-, e0⟩ | hm
    · rw [e0]; exact Ne.symm hB0
    · exact hB1 _ hm
  have hN : l2.headD 0 ≠ B := by
    rcases headD_eq_or_mem l2 0 with ⟨-, e0⟩ | hm
    · rw [e0]; exact Ne.symm hB0
    · exact hB2 _ hm
  have hP0 : lastOr l1 0 = 0 ↔ l1 = [] := lastOr_zero_iff l1 hnz1
  have hN0 : l2.headD 0 = 0 ↔ l2 = [] := headD_zero_iff l2 hnz2
  obtain ⟨h', hadd, hhd, hs, he, hi, hblk⟩ := add_to_free_list_spec h B (lastOr l1 0)
    (l2.headD 0) hscan
    (fun e => by rw [hhead, hP0.1 e]; rfl)
    (fun e => by
      rw [hhead] at e
      have := (headD_zero_iff _ hnz).1 e
      have e1 : l1 = [] := (List.append_eq_nil.1 this).1
      have e2 : l2 = [] := (List.append_eq_nil.1 this).2
      subst e1 e2
      exact ⟨rfl, rfl⟩)
    hP hN
  refine ⟨h', hadd, ?_, hs, he, hi, fun b => (hblk b).2.2⟩
  obtain ⟨x, hs1, hs2⟩ := Seg.append.1 hseg
  have hx : x = l2.headD 0 := hs2.head_eq
  subst hx
  rw [Seg.append]
  refine ⟨B, ?_, rfl, ?_, ?_⟩
  · have := @Seg.set_exit _ h'.blk _ _ _ _ B hs1 hnd1
      (fun a ha => by
        have := (hblk a).2.1
        rw [if_neg (hB1 a ha)] at this
        rw [this, if_neg]
        rintro ⟨e, -⟩
        rcases headD_eq_or_mem l2 0 with ⟨-, e0⟩ | hm
        · exact hnz1 a ha (e.trans e0)
        · exact hdisj a ha (e ▸ hm))
      (fun a ha => by
        have := (hblk a).1
        rw [if_neg (hB1 a ha)] at this
        rw [this]
        by_cases e : a = lastOr l1 0
        · rw [if_pos e, if_pos ⟨e, e ▸ hnz1 a ha⟩]
        · rw [if_neg e, if_neg (fun z => e z.1)])
    rw [hhd]
    by_cases e : l1 = []
    · rw [if_pos e] at this
      rw [if_pos (hP0.2 e)]
      exact this
    · rw [if_neg e] at this
      rw [if_neg (fun z => e (hP0.1 z))]
      exact this
  · have := (hblk B).2.1
    rw [if_pos rfl] at this
    exact this
  · have hnB := (hblk B).1
    rw [if_pos rfl] at hnB
    rw [hnB]
    refine Seg.set_back hs2 hnd2 (fun a ha => ?_) (fun a ha => ?_)
    · have := (hblk a).1
      rw [if_neg (hB2 a ha)] at this
      rw [this, if_neg]
      rintro ⟨e, -⟩
      rcases lastOr_eq_or_mem l1 0 with ⟨-, e0⟩ | hm
      · exact hnz2 a ha (e.trans e0)
      · exact hdisj _ hm (e ▸ ha)
    · have := (hblk a).2.1
      rw [if_neg (hB2 a ha)] at this
      rw [this]
      by_cases e : a = l2.headD 0
      · rw [if_pos e, if_pos ⟨e, e ▸ hnz2 a ha⟩]
      · rw [if_neg e, if_neg (fun z => e z.1)]

/-! ## The invariant of the free list -/

theorem chain_lt_length (l : List Nat) (a B : Nat) (hc : List.Chain (· < ·) a l)
    (hB : ∀ x ∈ l, x < B) (ha : a < B) : l.length + a < B := by
  induction l generalizing a with
  | nil => simpa using ha
  | cons b l ih =>
    have h1 : a < b := (List.chain_cons.1 hc).1
    have := ih b (List.chain_cons.1 hc).2 (fun x hx => hB x (List.mem_cons_of_mem _ hx))
      (hB b (List.mem_cons_self _ _))
    simp only [List.length_cons]
    omega

theorem FreeListInv.sorted {h : Heap} {l : List Nat} (inv : FreeListInv h l) :
    l.Pairwise (· < ·) := by
  exact inv.gaps.imp (fun hab => by omega)

theorem FreeListInv.nodup {h : Heap} {l : List Nat} (inv : FreeListInv h l) : l.Nodup :=
  inv.sorted.imp (fun hab => Nat.ne_of_lt hab)

theorem FreeListInv.ne_zero {h : Heap} {l : List Nat} (inv : FreeListInv h l) :
    ∀ a ∈ l, a ≠ 0 := fun a ha => by
  have := (inv.inside a ha).1
  have := inv.start_pos
  omega

theorem FreeListInv.length_lt {h : Heap} {l : List Nat} (inv : FreeListInv h l) :
    l.length < WALK_FUEL := by
  cases hl : l with
  | nil => simp
  | cons a l' =>
    have hc : List.Chain (· < ·) a l' := by
      have : List.Chain' (· < ·) l := List.chain'_iff_pairwise.2 inv.sorted
      rw [hl] at this
      exact this
    have hb : ∀ x ∈ l, x < 4294967296 := fun x hx => by
      have := (inv.inside x hx).2
      have := inv.end_lt
      omega
    have := chain_lt_length l' a 4294967296 hc
      (fun x hx => hb x (hl ▸ List.mem_cons_of_mem _ hx)) (hb a (hl ▸ List.mem_cons_self _ _))
    simp only [List.length_cons]
    have : (0:Nat) < a := Nat.pos_of_ne_zero (inv.ne_zero a (hl ▸ List.mem_cons_self _ _))
    show l'.length + 1 < 4294967296
    omega

/-- The loop of `find_free_block` over a chain of free blocks returns the first block
that is large enough, or `NULL` when there is none. -/
theorem find_free_block_loop_seg {m : Nat → mem_block} {n : Nat} {l : List Nat}
    {p q fuel : Nat} (hseg : Seg m p q l 0) (hnz : ∀ a ∈ l, a ≠ 0)
    (hfree : ∀ a ∈ l, (m a).is_allocated = 0) (hfuel : l.length < fuel) :
    find_free_block_loop m n fuel p =
      some ((l.find? fun a => decide (n ≤ (m a).size)).getD 0) := by
  induction l generalizing p q fuel with
  | nil =>
    cases fuel with
    | zero => exact absurd hfuel (by simp)
    | succ fuel =>
      have hp : p = 0 := hseg
      subst hp
      simp [find_free_block_loop]
  | cons a l ih =>
    cases fuel with
    | zero => exact absurd hfuel (by simp)
    | succ fuel =>
      obtain ⟨h1, -, h3⟩ := hseg
      subst h1
      have hp0 := hnz p (List.mem_cons_self _ _)
      have hpf := hfree p (List.mem_cons_self _ _)
      unfold find_free_block_loop
      rw [if_neg hp0]
      by_cases hfit : n ≤ (m p).size
      · rw [if_pos ⟨hpf, hfit⟩]
        simp [List.find?, hfit]
      · rw [if_neg (fun z => hfit z.2)]
        rw [ih h3 (fun b hb => hnz b (List.mem_cons_of_mem _ hb))
          (fun b hb => hfree b (List.mem_cons_of_mem _ hb)) (by simpa using hfuel)]
        simp [List.find?, hfit]

theorem find_free_block_inv {h : Heap} {l : List Nat} (inv : FreeListInv h l) (n : Nat) :
    find_free_block h n = some ((l.find? fun a => decide (n ≤ (h.blk a).size)).getD 0) :=
  find_free_block_loop_seg inv.seg inv.ne_zero (fun a ha => (inv.free a ha).1) inv.length_lt

theorem total_size_bounds (n : Nat) (hn : n ≤ 4294967000) :
    n + HDR ≤ total_size n ∧ total_size n < n + HDR + 4 ∧ total_size n % 4 = 0 := by
  have hH : HDR = 20 := rfl
  unfold total_size aligned_size u32
  split_ifs with h <;> omega

/-- What `alloc_split` does to a block `F` that has just been unlinked from the free list:
when the remainder can hold a header and 16 bytes, the block is cut to `total` bytes and
the remainder becomes a free block on the list; otherwise nothing changes. -/
theorem alloc_split_inv {h : Heap} {l1 l2 : List Nat} {F total S : Nat}
    (hseg : Seg h.blk h.free_list_head 0 (l1 ++ l2) 0)
    (hsz : (h.blk F).size = S)
    (htot0 : 0 < total) (htotb : total + HDR + 16 < 4294967296)
    (hS : F + S < 4294967296)
    (hnd : (l1 ++ l2).Nodup) (hnz : ∀ a ∈ l1 ++ l2, a ≠ 0)
    (hlo : ∀ a ∈ l1, a < F) (hhi : ∀ a ∈ l2, F + S ≤ a)
    (hlen : (l1 ++ l2).length < WALK_FUEL) :
    ∃ h', alloc_split h F total = some h' ∧
      h'.heap_start = h.heap_start ∧ h'.heap_end = h.heap_end ∧
      h'.memory_initialized = h.memory_initialized ∧
      (h'.blk F).is_allocated = (h.blk F).is_allocated ∧
      (h'.blk F).owner_tid = (h.blk F).owner_tid ∧
      (if total + HDR + 16 ≤ S then
        Seg h'.blk h'.free_list_head 0 (l1 ++ (F + total) :: l2) 0 ∧
        (h'.blk F).size = total ∧
        (h'.blk (F + total)).size = S - total ∧
        (h'.blk (F + total)).is_allocated = 0 ∧
        (h'.blk (F + total)).owner_tid = TID_NULL ∧
        ∀ b, b ≠ F → b ≠ F + total →
          (h'.blk b).size = (h.blk b).size ∧
          (h'.blk b).is_allocated = (h.blk b).is_allocated ∧
          (h'.blk b).owner_tid = (h.blk b).owner_tid
      else h' = h) := by
  have hH : HDR = 20 := rfl
  unfold alloc_split
  have e1 : u32 (total + HDR + 16) = total + HDR + 16 := by unfold u32; omega
  rw [e1, hsz]
  by_cases hsplit : total + HDR + 16 ≤ S
  · have e2 : u32 (F + total) = F + total := by unfold u32; omega
    have e3 : u32 (S + 4294967296 - total) = S - total := by unfold u32; omega
    simp only [if_pos hsplit, e2, e3]
    have hFR : F ≠ F + total := by omega
    have hR1 : ∀ a ∈ l1, a ≠ F + total := fun a ha => by have := hlo a ha; omega
    have hR2 : ∀ a ∈ l2, a ≠ F + total := fun a ha => by have := hhi a ha; omega
    have hF1 : ∀ a ∈ l1, a ≠ F := fun a ha => by have := hlo a ha; omega
    have hF2 : ∀ a ∈ l2, a ≠ F := fun a ha => by have := hhi a ha; omega
    have hsegb : Seg ((h.set_blk (F + total) ⟨S - total, 0, TID_NULL, 0, 0⟩).set_size F total).blk
        ((h.set_blk (F + total) ⟨S - total, 0, TID_NULL, 0, 0⟩).set_size F total).free_list_head
        0 (l1 ++ l2) 0 := by
      simp only [Heap.set_size_free_list_head, Heap.set_blk_free_list_head]
      refine Seg.frame (fun a ha => ?_) hseg
      have : a ≠ F + total := by
        rcases List.mem_append.1 ha with h1 | h2
        · exact hR1 a h1
        · exact hR2 a h2
      simp [this]
    obtain ⟨h', hadd, hs', e4, e5, e6, hdata⟩ := Seg.add (B := F + total) hsegb hnd hnz
      (by omega) (fun a ha => by have := hlo a ha; omega)
      (fun a ha => by have := hhi a ha; omega) hlen
    refine ⟨h', hadd, ?_, ?_, ?_, ?_, ?_, hs', ?_, ?_, ?_, ?_, ?_⟩
    · rw [e4]; simp
    · rw [e5]; simp
    · rw [e6]; simp
    · rw [(hdata F).2.1]; simp [hFR]
    · rw [(hdata F).2.2]; simp [hFR]
    · rw [(hdata F).1]; simp
    · rw [(hdata (F + total)).1]; simp [Ne.symm hFR]
    · rw [(hdata (F + total)).2.1]; simp
    · rw [(hdata (F + total)).2.2]; simp
    · intro b hb1 hb2
      rw [(hdata b).1, (hdata b).2.1, (hdata b).2.2]
      simp [hb1, hb2]
  · simp only [if_neg hsplit]
    exact ⟨h, rfl, rfl, rfl, rfl, rfl, rfl, rfl⟩

@[simp] theorem alloc_mark_blk (h : Heap) (F tid b : Nat) :
    (alloc_mark h F tid).blk b =
      if b = F then ⟨(h.blk F).size, 1, tid, 0, 0⟩ else h.blk b := by
  unfold alloc_mark
  by_cases hb : b = F
  · subst hb
    simp [Heap.set_prev, Heap.set_next, Heap.set_owner_tid, Heap.set_is_allocated]
  · simp [Heap.set_prev, Heap.set_next, Heap.set_owner_tid, Heap.set_is_allocated,
      Function.update_noteq hb, hb]

@[simp] theorem alloc_mark_free_list_head (h : Heap) (F tid : Nat) :
    (alloc_mark h F tid).free_list_head = h.free_list_head := by
  simp [alloc_mark]

@[simp] theorem alloc_mark_heap_start (h : Heap) (F tid : Nat) :
    (alloc_mark h F tid).heap_start = h.heap_start := by
  simp [alloc_mark]

@[simp] theorem alloc_mark_heap_end (h : Heap) (F tid : Nat) :
    (alloc_mark h F tid).heap_end = h.heap_end := by
  simp [alloc_mark]

@[simp] theorem alloc_mark_memory_initialized (h : Heap) (F tid : Nat) :
    (alloc_mark h F tid).memory_initialized = h.memory_initialized := by
  simp [alloc_mark]

/-- First Fit on a well-formed free list: the first block that is large enough. -/
theorem find_free_block_fit {h : Heap} {l1 l2 : List Nat} {F : Nat} (total : Nat)
    (inv : FreeListInv h (l1 ++ F :: l2))
    (hsmall : ∀ a ∈ l1, (h.blk a).size < total) (hfit : total ≤ (h.blk F).size) :
    find_free_block h total = some F := by
  rw [find_free_block_inv inv, List.find?_append]
  have : l1.find? (fun a => decide (total ≤ (h.blk a).size)) = none := by
    rw [List.find?_eq_none]
    intro a ha
    have := hsmall a ha
    simp; omega
  rw [this]
  simp [List.find?, hfit]

/-- No block of a well-formed free list is large enough: `find_free_block` returns
`NULL`. -/
theorem find_free_block_none {h : Heap} {l : List Nat} (total : Nat)
    (inv : FreeListInv h l) (hsmall : ∀ a ∈ l, (h.blk a).size < total) :
    find_free_block h total = some 0 := by
  rw [find_free_block_inv inv]
  have : l.find? (fun a => decide (total ≤ (h.blk a).size)) = none := by
    rw [List.find?_eq_none]
    intro a ha
    have := hsmall a ha
    simp; omega
  rw [this]
  rfl

/-- Allocation from a well-formed free list when the first block that fits is `F`:
`k_mem_alloc_impl` returns the payload address `F + HDR`; `F` is marked allocated and
owned by the caller; if `F` was split, the remainder `F + total` takes the place of `F`
on the free list, otherwise `F` is simply taken off; the list is well formed again. -/
theorem k_mem_alloc_impl_fit {h : Heap} {l1 l2 : List Nat} {F : Nat} (tid n : Nat)
    (inv : FreeListInv h (l1 ++ F :: l2)) (hn : 0 < n) (hn' : n ≤ 4294967000)
    (hsmall : ∀ a ∈ l1, (h.blk a).size < total_size n)
    (hfit : total_size n ≤ (h.blk F).size) :
    ∃ h', k_mem_alloc_impl tid h n = some (F + HDR, h') ∧
      h'.heap_start = h.heap_start ∧ h'.heap_end = h.heap_end ∧
      h'.memory_initialized = h.memory_initialized ∧
      (h'.blk F).is_allocated = 1 ∧ (h'.blk F).owner_tid = tid ∧
      (h'.blk F).next = 0 ∧ (h'.blk F).prev = 0 ∧
      (if total_size n + HDR + 16 ≤ (h.blk F).size then
        FreeListInv h' (l1 ++ (F + total_size n) :: l2) ∧
        (h'.blk F).size = total_size n ∧
        (h'.blk (F + total_size n)).size = (h.blk F).size - total_size n ∧
        ∀ b, b ≠ F → b ≠ F + total_size n →
          (h'.blk b).size = (h.blk b).size ∧
          (h'.blk b).is_allocated = (h.blk b).is_allocated ∧
          (h'.blk b).owner_tid = (h.blk b).owner_tid
      else
        FreeListInv h' (l1 ++ l2) ∧
        (h'.blk F).size = (h.blk F).size ∧
        ∀ b, b ≠ F →
          (h'.blk b).size = (h.blk b).size ∧
          (h'.blk b).is_allocated = (h.blk b).is_allocated ∧
          (h'.blk b).owner_tid = (h.blk b).owner_tid) := by
  have hH : HDR = 20 := rfl
  obtain ⟨ht1, ht2, ht3⟩ := total_size_bounds n hn'
  have hFm : F ∈ l1 ++ F :: l2 := by simp
  have hF0 : F ≠ 0 := inv.ne_zero F hFm
  have hFin := inv.inside F hFm
  have hend := inv.end_lt
  have hnd := inv.nodup
  have hsorted := inv.sorted
  have hlo : ∀ a ∈ l1, a < F := fun a ha =>
    (List.pairwise_append.1 hsorted).2.2 a ha F (List.mem_cons_self _ _)
  have hhi : ∀ a ∈ l2, F + (h.blk F).size < a := fun a ha =>
    List.rel_of_pairwise_cons (List.pairwise_append.1 inv.gaps).2.1 ha
  have hgap12 : ∀ a ∈ l1, ∀ b ∈ l2, a + (h.blk a).size < b := fun a ha b hb =>
    (List.pairwise_append.1 inv.gaps).2.2 a ha b (List.mem_cons_of_mem _ hb)
  have hgapF : ∀ a ∈ l1, a + (h.blk a).size < F := fun a ha =>
    (List.pairwise_append.1 inv.gaps).2.2 a ha F (List.mem_cons_self _ _)
  have hsub : ∀ a ∈ l1 ++ l2, a ∈ l1 ++ F :: l2 := fun a ha => by
    rcases List.mem_append.1 ha with h1 | h2
    · exact List.mem_append_left _ h1
    · exact List.mem_append_right _ (List.mem_cons_of_mem _ h2)
  have hnd12 : (l1 ++ l2).Nodup := by
    have := List.nodup_append.1 hnd
    exact List.nodup_append.2 ⟨this.1, (List.nodup_cons.1 this.2.1).2,
      fun a ha hb => this.2.2 ha (List.mem_cons_of_mem _ hb)⟩
  have hlen : (l1 ++ l2).length < WALK_FUEL := by
    have := inv.length_lt
    simp only [List.length_append, List.length_cons] at this ⊢
    omega
  -- the search and the unlinking
  obtain ⟨hs1, hg1, hg2, hg3, hd1⟩ := Seg.remove inv.seg hnd inv.ne_zero
  obtain ⟨h2, hsplit, hg4, hg5, hg6, hd2a, hd2o, hcase⟩ :=
    @alloc_split_inv _ l1 l2 F (total_size n)
      (h.blk F).size hs1 (hd1 F).1 (by omega) (by omega) (by omega) hnd12
      (fun a ha => inv.ne_zero a (hsub a ha)) hlo (fun a ha => Nat.le_of_lt (hhi a ha)) hlen
  refine ⟨alloc_mark h2 F tid, ?_, ?_, ?_, ?_, ?_, ?_, ?_, ?_, ?_⟩
  · unfold k_mem_alloc_impl
    rw [if_neg (by
      rintro (h0 | h0)
      · exact inv.init h0
      · omega)]
    rw [find_free_block_fit (total_size n) inv hsmall hfit]
    dsimp only
    rw [if_neg hF0, hsplit]
    dsimp only
    have : u32 (F + HDR) = F + HDR := by unfold u32; omega
    rw [this]
  · simp [hg4, hg1]
  · simp [hg5, hg2]
  · simp [hg6, hg3]
  · simp
  · simp
  · simp
  · simp
  · by_cases hc : total_size n + HDR + 16 ≤ (h.blk F).size
    · rw [if_pos hc] at hcase ⊢
      obtain ⟨hs2, hz1, hz2, hz3, hz4, hdata⟩ := hcase
      have hRF : F + total_size n ≠ F := by omega
      have hR1 : ∀ a ∈ l1, a ≠ F + total_size n := fun a ha => by have := hlo a ha; omega
      have hR2 : ∀ a ∈ l2, a ≠ F + total_size n := fun a ha => by have := hhi a ha; omega
      have hF1 : ∀ a ∈ l1, a ≠ F := fun a ha => by have := hlo a ha; omega
      have hF2 : ∀ a ∈ l2, a ≠ F := fun a ha => by have := hhi a ha; omega
      have hkeep : ∀ a, a ∈ l1 ∨ a ∈ l2 →
          ((alloc_mark h2 F tid).blk a).size = (h.blk a).size ∧
          ((alloc_mark h2 F tid).blk a).is_allocated = (h.blk a).is_allocated ∧
          ((alloc_mark h2 F tid).blk a).owner_tid = (h.blk a).owner_tid := by
        intro a ha
        have e1 : a ≠ F := by rcases ha with h1 | h1; exact hF1 a h1; exact hF2 a h1
        have e2 : a ≠ F + total_size n := by
          rcases ha with h1 | h1; exact hR1 a h1; exact hR2 a h1
        rw [alloc_mark_blk, if_neg e1, (hdata a e1 e2).1, (hdata a e1 e2).2.1,
          (hdata a e1 e2).2.2, (hd1 a).1, (hd1 a).2.1, (hd1 a).2.2]
        exact ⟨rfl, rfl, rfl⟩
      have hnew : ((alloc_mark h2 F tid).blk (F + total_size n)).size
          = (h.blk F).size - total_size n := by
        rw [alloc_mark_blk, if_neg hRF, hz2]
      refine ⟨?_, ?_, hnew, ?_⟩
      · refine
          { init := by simp [hg6, hg3]; exact inv.init
            start_pos := by simp [hg4, hg1]; exact inv.start_pos
            end_lt := by simp [hg5, hg2]; exact inv.end_lt
            seg := ?_, inside := ?_, free := ?_, aligned := ?_, gaps := ?_ }
        · rw [alloc_mark_free_list_head]
          refine Seg.frame (fun a ha => ?_) hs2
          have : a ≠ F := by
            rcases List.mem_append.1 ha with h1 | h1
            · exact hF1 a h1
            · rcases List.mem_cons.1 h1 with h3 | h3
              · rw [h3]; exact hRF
              · exact hF2 a h3
          rw [alloc_mark_blk, if_neg this]
          exact ⟨rfl, rfl⟩
        · intro a ha
          simp only [alloc_mark_heap_start, alloc_mark_heap_end, hg4, hg5, hg1, hg2]
          rcases List.mem_append.1 ha with h1 | h1
          · rw [(hkeep a (Or.inl h1)).1]
            exact inv.inside a (List.mem_append_left _ h1)
          · rcases List.mem_cons.1 h1 with h3 | h3
            · rw [h3, hnew]; omega
            · rw [(hkeep a (Or.inr h3)).1]
              exact inv.inside a (List.mem_append_right _ (List.mem_cons_of_mem _ h3))
        · intro a ha
          rcases List.mem_append.1 ha with h1 | h1
          · rw [(hkeep a (Or.inl h1)).2.1, (hkeep a (Or.inl h1)).2.2]
            exact inv.free a (List.mem_append_left _ h1)
          · rcases List.mem_cons.1 h1 with h3 | h3
            · rw [h3, alloc_mark_blk, if_neg hRF]
              exact ⟨hz3, hz4⟩
            · rw [(hkeep a (Or.inr h3)).2.1, (hkeep a (Or.inr h3)).2.2]
              exact inv.free a (List.mem_append_right _ (List.mem_cons_of_mem _ h3))
        · intro a ha
          rcases List.mem_append.1 ha with h1 | h1
          · exact inv.aligned a (List.mem_append_left _ h1)
          · rcases List.mem_cons.1 h1 with h3 | h3
            · have := inv.aligned F hFm
              rw [h3]; omega
            · exact inv.aligned a (List.mem_append_right _ (List.mem_cons_of_mem _ h3))
        · have hp := List.pairwise_append.1 inv.gaps
          rw [List.pairwise_append]
          refine ⟨?_, ?_, ?_⟩
          · exact (hp.1.imp_of_mem (S := fun a b =>
              a + ((alloc_mark h2 F tid).blk a).size < b)
              (fun {a b} ha _ hab => by dsimp only; rw [(hkeep a (Or.inl ha)).1]; exact hab))
          · rw [List.pairwise_cons]
            refine ⟨fun b hb => ?_, ?_⟩
            · rw [hnew]; have := hhi b hb; omega
            · exact ((List.pairwise_cons.1 hp.2.1).2.imp_of_mem (S := fun a b =>
                a + ((alloc_mark h2 F tid).blk a).size < b)
                (fun {a b} ha _ hab => by dsimp only; rw [(hkeep a (Or.inr ha)).1]; exact hab))
          · intro a ha b hb
            rw [(hkeep a (Or.inl ha)).1]
            rcases List.mem_cons.1 hb with h3 | h3
            · have := hgapF a ha
              rw [h3]; omega
            · exact hgap12 a ha b h3
      · rw [alloc_mark_blk, if_pos rfl]; exact hz1
      · intro b hb1 hb2
        rw [alloc_mark_blk, if_neg hb1, (hdata b hb1 hb2).1, (hdata b hb1 hb2).2.1,
          (hdata b hb1 hb2).2.2, (hd1 b).1, (hd1 b).2.1, (hd1 b).2.2]
        exact ⟨rfl, rfl, rfl⟩
    · rw [if_neg hc] at hcase ⊢
      subst hcase
      have hF1 : ∀ a ∈ l1, a ≠ F := fun a ha => by have := hlo a ha; omega
      have hF2 : ∀ a ∈ l2, a ≠ F := fun a ha => by have := hhi a ha; omega
      have hkeep : ∀ a, a ≠ F →
          ((alloc_mark (remove_from_free_list h F) F tid).blk a).size = (h.blk a).size ∧
          ((alloc_mark (remove_from_free_list h F) F tid).blk a).is_allocated
            = (h.blk a).is_allocated ∧
          ((alloc_mark (remove_from_free_list h F) F tid).blk a).owner_tid
            = (h.blk a).owner_tid := by
        intro a e1
        rw [alloc_mark_blk, if_neg e1, (hd1 a).1, (hd1 a).2.1, (hd1 a).2.2]
        exact ⟨rfl, rfl, rfl⟩
      have hne : ∀ a ∈ l1 ++ l2, a ≠ F := fun a ha => by
        rcases List.mem_append.1 ha with h1 | h1
        · exact hF1 a h1
        · exact hF2 a h1
      refine ⟨?_, ?_, hkeep⟩
      · refine
          { init := by simp [hg3]; exact inv.init
            start_pos := by simp [hg1]; exact inv.start_pos
            end_lt := by simp [hg2]; exact inv.end_lt
            seg := ?_, inside := ?_, free := ?_, aligned := ?_, gaps := ?_ }
        · rw [alloc_mark_free_list_head]
          refine Seg.frame (fun a ha => ?_) hs1
          rw [alloc_mark_blk, if_neg (hne a ha)]
          exact ⟨rfl, rfl⟩
        · intro a ha
          simp only [alloc_mark_heap_start, alloc_mark_heap_end, hg1, hg2]
          rw [(hkeep a (hne a ha)).1]
          exact inv.inside a (hsub a ha)
        · intro a ha
          rw [(hkeep a (hne a ha)).2.1, (hkeep a (hne a ha)).2.2]
          exact inv.free a (hsub a ha)
        · intro a ha
          exact inv.aligned a (hsub a ha)
        · have hp := List.pairwise_append.1 inv.gaps
          rw [List.pairwise_append]
          refine ⟨?_, ?_, ?_⟩
          · exact (hp.1.imp_of_mem (S := fun a b =>
              a + ((alloc_mark (remove_from_free_list h F) F tid).blk a).size < b)
              (fun {a b} ha _ hab => by dsimp only; rw [(hkeep a (hF1 a ha)).1]; exact hab))
          · exact ((List.pairwise_cons.1 hp.2.1).2.imp_of_mem (S := fun a b =>
              a + ((alloc_mark (remove_from_free_list h F) F tid).blk a).size < b)
              (fun {a b} ha _ hab => by dsimp only; rw [(hkeep a (hF2 a ha)).1]; exact hab))
          · intro a ha b hb
            rw [(hkeep a (hF1 a ha)).1]
            exact hgap12 a ha b hb
      · rw [alloc_mark_blk, if_pos rfl]
        exact (hd1 F).1

/-- Allocation from a well-formed free list on which no block is large enough returns
`NULL` and changes nothing. -/
theorem k_mem_alloc_impl_none {h : Heap} {l : List Nat} (tid n : Nat)
    (inv : FreeListInv h l) (hsmall : ∀ a ∈ l, (h.blk a).size < total_size n) :
    k_mem_alloc_impl tid h n = some (0, h) := by
  unfold k_mem_alloc_impl
  split_ifs
  · rfl
  · rw [find_free_block_none (total_size n) inv hsmall]
    rfl

/-- On a well-formed free list `k_mem_alloc_impl` returns; when it returns `NULL` the
heap is unchanged. -/
theorem k_mem_alloc_impl_returns {h : Heap} {l : List Nat} (tid n : Nat)
    (inv : FreeListInv h l) (hn : 0 < n) (hn' : n ≤ 4294967000) :
    ∃ p h', k_mem_alloc_impl tid h n = some (p, h') ∧ (p = 0 → h' = h) := by
  cases hf : l.find? (fun a => decide (total_size n ≤ (h.blk a).size)) with
  | none =>
    rw [List.find?_eq_none] at hf
    refine ⟨0, h, k_mem_alloc_impl_none tid n inv (fun a ha => ?_), fun _ => rfl⟩
    have := hf a ha
    simp at this
    exact this
  | some F =>
    rw [List.find?_eq_some] at hf
    obtain ⟨hp, l1, l2, hl, hsm⟩ := hf
    subst hl
    simp only [decide_eq_true_eq] at hp
    obtain ⟨h', hal, -⟩ := k_mem_alloc_impl_fit tid n inv hn hn'
      (fun a ha => by have := hsm a ha; simp at this; exact this) hp
    exact ⟨F + HDR, h', hal, fun e => by simp at e⟩

theorem Kernel.mem_eta (k : Kernel) : ({ k with mem := k.mem } : Kernel) = k := by
  cases k; rfl

/-- C12. Let the task count be within its bound and, when the kernel and the heap are
initialised, the free list be well formed (nothing is asked of the heap of a kernel that
is not initialised, or whose heap initialisation failed). Then `osCreateTask_impl(t)`
returns `RTX_ERR` and leaves the kernel (task table, `g_num_tasks`, heap) and the
caller's TCB unchanged whenever the kernel is not initialised, `t` is null, `t.entry` is
null, `t.stack_size < 1024`, no slot in `[1, MAX_TASKS)` is Dormant,
`g_num_tasks = MAX_TASKS - 1`, or the allocator returns `NULL` for `stack_size` bytes; in
every other case it returns `RTX_OK`. -/
theorem osCreateTask_impl_error_cases (k : Kernel) (t : Option TCB) (l : List Nat)
    (hheap : k.g_kernel_initialized ≠ 0 → k.mem.memory_initialized ≠ 0 →
      FreeListInv k.mem l)
    (hcount : k.g_num_tasks ≤ (MAX_TASKS : Int) - 1)
    (hu16 : ∀ c, t = some c → c.stack_size < 65536) :
    ((k.g_kernel_initialized = 0 ∨ t = none ∨
        (∃ c, t = some c ∧ (c.ptask = 0 ∨ c.stack_size < STACK_SIZE ∨
          ∃ m, k_mem_alloc_impl k.g_active_task_id k.mem c.stack_size = some (0, m))) ∨
        (∀ i, 1 ≤ i → i < MAX_TASKS → (k.g_tasks i).state ≠ DORMANT) ∨
        k.g_num_tasks = (MAX_TASKS : Int) - 1) →
      osCreateTask_impl k t = some (RTX_ERR, k, t)) ∧
    (¬ (k.g_kernel_initialized = 0 ∨ t = none ∨
        (∃ c, t = some c ∧ (c.ptask = 0 ∨ c.stack_size < STACK_SIZE ∨
          ∃ m, k_mem_alloc_impl k.g_active_task_id k.mem c.stack_size = some (0, m))) ∨
        (∀ i, 1 ≤ i → i < MAX_TASKS → (k.g_tasks i).state ≠ DORMANT) ∨
        k.g_num_tasks = (MAX_TASKS : Int) - 1) →
      ∃ k' t', osCreateTask_impl k t = some (RTX_OK, k', t')) := by
  unfold osCreateTask_impl osGetTID_internal
  by_cases h1 : k.g_kernel_initialized = 0
  · rw [if_pos h1]
    exact ⟨fun _ => rfl, fun hn => absurd (Or.inl h1) hn⟩
  rw [if_neg h1]
  cases t with
  | none => exact ⟨fun _ => rfl, fun hn => absurd (Or.inr (Or.inl rfl)) hn⟩
  | some c =>
    dsimp only
    have hss := hu16 c rfl
    by_cases h2 : c.ptask = 0 ∨ c.stack_size = 0
    · rw [if_pos h2]
      refine ⟨fun _ => rfl, fun hn => absurd ?_ hn⟩
      refine Or.inr (Or.inr (Or.inl ⟨c, rfl, ?_⟩))
      rcases h2 with h2 | h2
      · exact Or.inl h2
      · exact Or.inr (Or.inl (by rw [h2]; decide))
    rw [if_neg h2]
    by_cases h3 : c.stack_size < STACK_SIZE
    · rw [if_pos h3]
      exact ⟨fun _ => rfl,
        fun hn => absurd (Or.inr (Or.inr (Or.inl ⟨c, rfl, Or.inr (Or.inl h3)⟩))) hn⟩
    rw [if_neg h3]
    by_cases h4 : find_dormant k = TID_NULL ∨ (MAX_TASKS : Int) - 1 ≤ k.g_num_tasks
    · rw [if_pos h4]
      refine ⟨fun _ => rfl, fun hn => absurd ?_ hn⟩
      rcases h4 with h4 | h4
      · rcases find_dormant_spec k with hd | hd
        · exact Or.inr (Or.inr (Or.inr (Or.inl hd.2)))
        · exact absurd h4 (Nat.ne_of_gt hd.1)
      · exact Or.inr (Or.inr (Or.inr (Or.inr (le_antisymm hcount h4))))
    rw [if_neg h4]
    have hs3 : STACK_SIZE ≤ c.stack_size := Nat.le_of_not_lt h3
    have hret : ∃ p m, k_mem_alloc_impl k.g_active_task_id k.mem c.stack_size = some (p, m) ∧
        (p = 0 → m = k.mem) := by
      by_cases hm : k.mem.memory_initialized = 0
      · refine ⟨0, k.mem, ?_, fun _ => rfl⟩
        unfold k_mem_alloc_impl
        rw [if_pos (Or.inl hm)]
      · exact k_mem_alloc_impl_returns k.g_active_task_id c.stack_size (hheap h1 hm)
          (by have : STACK_SIZE = 1024 := rfl
              omega) (by omega)
    obtain ⟨p, m, hal, hnull⟩ := hret
    rw [hal]
    dsimp only
    by_cases h5 : p = 0
    · rw [if_pos h5, hnull h5, Kernel.mem_eta]
      exact ⟨fun _ => rfl, fun hn => absurd
        (Or.inr (Or.inr (Or.inl ⟨c, rfl, Or.inr (Or.inr ⟨m, h5 ▸ hal⟩)⟩))) hn⟩
    · rw [if_neg h5]
      refine ⟨fun hbad => ?_, fun _ => ⟨_, _, rfl⟩⟩
      exfalso
      rcases hbad with hb | hb | ⟨c', hc', hb⟩ | hb | hb
      · exact h1 hb
      · cases hb
      · cases hc'
        rcases hb with hb | hb | ⟨m', hb⟩
        · exact h2 (Or.inl hb)
        · exact h3 hb
        · rw [hal] at hb
          simp only [Option.some.injEq, Prod.mk.injEq] at hb
          exact h5 hb.1
      · rcases find_dormant_spec k with hd | hd
        · exact h4 (Or.inl hd.1)
        · exact hb _ hd.1 hd.2.1 hd.2.2.1
      · exact h4 (Or.inr (le_of_eq hb.symm))

theorem u32_lt (x : Nat) : u32 x < 4294967296 := by unfold u32; omega

theorem init_heap_start_aligned (img : Image) : init_heap_start img % 4 = 0 := by
  unfold init_heap_start u32 at *
  dsimp only at *
  split_ifs at * <;> omega

/-- What a successful `k_mem_init_impl` leaves behind. -/
theorem k_mem_init_impl_ok (img : Image) (g : Nat) (h h' : Heap)
    (hok : k_mem_init_impl img g h = (RTX_OK, h')) :
    g ≠ 0 ∧ h'.heap_start = init_heap_start img ∧ h'.heap_end = init_heap_end img ∧
    h'.free_list_head = h'.heap_start ∧ h'.memory_initialized = 1 ∧
    h'.blk h'.heap_start =
      ⟨u32 (h'.heap_end + 4294967296 - h'.heap_start), 0, TID_NULL, 0, 0⟩ ∧
    HDR + 16 ≤ u32 (h'.heap_end + 4294967296 - h'.heap_start) := by
  unfold k_mem_init_impl at hok
  by_cases hg : g = 0
  · rw [if_pos hg] at hok
    simp at hok
  rw [if_neg hg] at hok
  dsimp only at hok
  simp only [Heap.set_bounds_heap_start, Heap.set_bounds_heap_end] at hok
  by_cases ht : u32 (init_heap_end img + 4294967296 - init_heap_start img) < HDR + 16
  · rw [if_pos ht] at hok
    simp at hok
  rw [if_neg ht] at hok
  simp only [Prod.mk.injEq, true_and, Heap.set_blk_heap_start,
    Heap.set_bounds_heap_start] at hok
  subst hok
  simp
  exact ⟨hg, Nat.le_of_not_lt ht⟩

/-- After a successful `k_mem_init_impl` on a heap region that does not wrap around the
address space, the free list is the single block at the heap low boundary, whose size is
the whole heap, and it is well formed. -/
theorem k_mem_init_impl_inv (img : Image) (g : Nat) (h h' : Heap)
    (hok : k_mem_init_impl img g h = (RTX_OK, h'))
    (hpos : 0 < h'.heap_start) (hle : h'.heap_start ≤ h'.heap_end) :
    FreeListInv h' [h'.heap_start] ∧
      (h'.blk h'.heap_start).size = h'.heap_end - h'.heap_start := by
  obtain ⟨-, hs, he, hh, hi, hb, -⟩ := k_mem_init_impl_ok img g h h' hok
  have hend : h'.heap_end < 4294967296 := by rw [he]; exact u32_lt _
  have hsz : (h'.blk h'.heap_start).size = h'.heap_end - h'.heap_start := by
    rw [hb]
    show u32 (h'.heap_end + 4294967296 - h'.heap_start) = _
    unfold u32; omega
  refine ⟨{ init := by rw [hi]; decide, start_pos := hpos, end_lt := hend,
            seg := ?_, inside := ?_, free := ?_, aligned := ?_, gaps := by simp }, hsz⟩
  · rw [hh]
    refine ⟨rfl, by rw [hb], ?_⟩
    rw [hb]
    rfl
  · intro a ha
    simp only [List.mem_singleton] at ha
    subst ha
    rw [hsz]
    omega
  · intro a ha
    simp only [List.mem_singleton] at ha
    subst ha
    rw [hb]
    exact ⟨rfl, rfl⟩
  · intro a ha
    simp only [List.mem_singleton] at ha
    subst ha
    rw [hs]
    exact init_heap_start_aligned img

/-! ## A concrete kernel -/

theorem sample_kernel_inv : FreeListInv sample_kernel.mem [0x20001000] := by
  have hok : k_mem_init_impl sample_image 1 power_on.mem = (RTX_OK, sample_kernel.mem) :=
    Prod.ext (by decide) rfl
  have := (k_mem_init_impl_inv sample_image 1 power_on.mem sample_kernel.mem hok
    (by decide) (by decide)).1
  have e : sample_kernel.mem.heap_start = 0x20001000 := by decide
  rw [e] at this
  exact this

/-- A result whose first component is known has the form `(c, b)`. -/
theorem exists_of_map_fst {β : Type} (r : Option (Int × β)) (c : Int)
    (h : r.map Prod.fst = some c) : ∃ b, r = some (c, b) := by
  cases r with
  | none => simp at h
  | some x =>
    obtain ⟨c', b⟩ := x
    simp only [Option.map_some', Option.some.injEq] at h
    subst h
    exact ⟨b, rfl⟩

theorem osCreateTask_impl_populates_witness :
    ∃ k' t', osCreateTask_impl sample_kernel (some sample_task) = some (RTX_OK, k', t') ∧
      ∃ s, 1 ≤ s ∧ s < MAX_TASKS ∧ (sample_kernel.g_tasks s).state = DORMANT ∧
        (∀ i, 1 ≤ i → i < s → (sample_kernel.g_tasks i).state ≠ DORMANT) ∧
        (k'.g_tasks s).ptask = sample_task.ptask ∧
        (k'.g_tasks s).stack_size = sample_task.stack_size ∧
        (∃ m, k_mem_alloc_impl sample_kernel.g_active_task_id sample_kernel.mem
          sample_task.stack_size = some ((k'.g_tasks s).stack_base, m)) ∧
        (k'.g_tasks s).stack_base ≠ 0 ∧
        (k'.g_tasks s).stack_high =
          u32 ((k'.g_tasks s).stack_base + (k'.g_tasks s).stack_size) ∧
        (k'.g_tasks s).deadline_value = 5 ∧
        (k'.g_tasks s).time_left = 5 ∧
        (k'.g_tasks s).is_periodic = 0 ∧
        (sample_kernel.g_kernel_running = 0 →
          (k'.g_tasks s).state = READY ∧ (k'.g_tasks s).is_fresh_task = TASK_NEW) ∧
        (k'.mem.blk (u32 ((k'.g_tasks s).stack_base + 4294967296 - HDR))).owner_tid = s ∧
        t' = some { sample_task with tid := s, stack_high := (k'.g_tasks s).stack_high } ∧
        k'.g_num_tasks = sample_kernel.g_num_tasks + 1 := by
  obtain ⟨⟨k', t'⟩, h⟩ := exists_of_map_fst (osCreateTask_impl sample_kernel (some sample_task))
    RTX_OK (by decide)
  exact ⟨k', t', h, osCreateTask_impl_populates sample_kernel k' sample_task t' h⟩

theorem osCreateTask_impl_error_cases_witness :
    osCreateTask_impl power_on (some sample_task) = some (RTX_ERR, power_on, some sample_task) ∧
    osCreateTask_impl cramped_kernel (some sample_task) =
      some (RTX_ERR, cramped_kernel, some sample_task) ∧
    osCreateTask_impl sample_kernel none = some (RTX_ERR, sample_kernel, none) ∧
    osCreateTask_impl sample_kernel (some { sample_task with stack_size := 0x3FF }) =
      some (RTX_ERR, sample_kernel, some { sample_task with stack_size := 0x3FF }) ∧
    ∃ k' t', osCreateTask_impl sample_kernel (some sample_task) = some (RTX_OK, k', t') := by
  refine ⟨?_, ?_, ?_, ?_, ?_⟩
  · exact (osCreateTask_impl_error_cases power_on (some sample_task) []
      (fun h => absurd (by decide) h) (by decide) (fun c hc => by cases hc; decide)).1
      (Or.inl (by decide))
  · refine (osCreateTask_impl_error_cases cramped_kernel (some sample_task) []
      (fun _ h => absurd (by decide) h) (by decide) (fun c hc => by cases hc; decide)).1
      (Or.inr (Or.inr (Or.inl ⟨sample_task, rfl, Or.inr (Or.inr ⟨cramped_kernel.mem, ?_⟩)⟩)))
    unfold k_mem_alloc_impl
    rw [if_pos (Or.inl (by decide))]
  · exact (osCreateTask_impl_error_cases sample_kernel none [0x20001000]
      (fun _ _ => sample_kernel_inv) (by decide) (fun c hc => by cases hc)).1
      (Or.inr (Or.inl rfl))
  · exact (osCreateTask_impl_error_cases sample_kernel
      (some { sample_task with stack_size := 0x3FF }) [0x20001000]
      (fun _ _ => sample_kernel_inv) (by decide) (fun c hc => by cases hc; decide)).1
      (Or.inr (Or.inr (Or.inl ⟨_, rfl, Or.inr (Or.inl (by decide))⟩)))
  · refine (osCreateTask_impl_error_cases sample_kernel (some sample_task) [0x20001000]
      (fun _ _ => sample_kernel_inv) (by decide) (fun c hc => by cases hc; decide)).2 ?_
    rintro (hb | hb | ⟨c, hc, hb⟩ | hb | hb)
    · revert hb; decide
    · cases hb
    · cases hc
      rcases hb with hb | hb | ⟨m, hb⟩
      · revert hb; decide
      · revert hb; decide
      · have : (k_mem_alloc_impl sample_kernel.g_active_task_id sample_kernel.mem
            sample_task.stack_size).map Prod.fst = some 0 := by rw [hb]; rfl
        revert this; decide
    · exact hb 1 (by decide) (by decide) (by decide)
    · revert hb; decide

/-- The scan of `add_to_free_list` over a null-terminated chain comes to an end. -/
theorem add_scan_returns {m : Nat → mem_block} {B : Nat} {l : List Nat} {p q prev0 fuel : Nat}
    (hseg : Seg m p q l 0) (hfuel : l.length < fuel) :
    ∃ r, add_scan m B fuel prev0 p = some r := by
  induction l generalizing p q prev0 fuel with
  | nil =>
    cases fuel with
    | zero => exact absurd hfuel (by simp)
    | succ fuel =>
      have hp : p = 0 := hseg
      subst hp
      exact ⟨(prev0, 0), by simp [add_scan]⟩
  | cons a l ih =>
    cases fuel with
    | zero => exact absurd hfuel (by simp)
    | succ fuel =>
      obtain ⟨h1, -, h3⟩ := hseg
      subst h1
      unfold add_scan
      by_cases hc : p ≠ 0 ∧ p < B
      · rw [if_pos hc]
        exact ih h3 (by simpa using hfuel)
      · rw [if_neg hc]
        exact ⟨_, rfl⟩

/-- On a well-formed free list `add_to_free_list` returns for every block that is not
on the list. -/
theorem add_to_free_list_returns {h : Heap} {l : List Nat} (B : Nat)
    (hseg : Seg h.blk h.free_list_head 0 l 0) (hB : B ∉ l) (hlen : l.length < WALK_FUEL) :
    ∃ h', add_to_free_list h B = some h' := by
  have hseg0 : Seg ((h.set_next B 0).set_prev B 0).blk h.free_list_head 0 l 0 := by
    refine Seg.frame (fun a ha => ?_) hseg
    have : a ≠ B := fun e => hB (e ▸ ha)
    simp [this]
  obtain ⟨⟨prev, cur⟩, hscan⟩ := @add_scan_returns _ B _ _ _ 0 _ hseg0 hlen
  unfold add_to_free_list
  simp only [Heap.set_prev_free_list_head, Heap.set_next_free_list_head]
  by_cases h1 : h.free_list_head = 0
  · rw [if_pos h1]
    exact ⟨_, rfl⟩
  · rw [if_neg h1, hscan]
    dsimp only
    by_cases h2 : prev = 0
    · rw [if_pos h2]
      exact ⟨_, rfl⟩
    · rw [if_neg h2]
      exact ⟨_, rfl⟩

/-- On a well-formed free list `k_mem_dealloc_impl` returns for every pointer. -/
theorem k_mem_dealloc_impl_returns {h : Heap} {l : List Nat} (tid ptr : Nat)
    (inv : FreeListInv h l) :
    ∃ r h', k_mem_dealloc_impl tid h ptr = some (r, h') := by
  unfold k_mem_dealloc_impl
  by_cases h1 : ptr = 0
  · rw [if_pos h1]
    exact ⟨_, _, rfl⟩
  rw [if_neg h1]
  by_cases h2 : h.memory_initialized = 0 ∨ is_valid_pointer h ptr = false
  · rw [if_pos h2]
    exact ⟨_, _, rfl⟩
  rw [if_neg h2]
  dsimp only
  by_cases h3 : (h.blk (u32 (ptr + 4294967296 - HDR))).is_allocated = 0
  · rw [if_pos h3]
    exact ⟨_, _, rfl⟩
  rw [if_neg h3]
  by_cases h4 : (h.blk (u32 (ptr + 4294967296 - HDR))).owner_tid ≠ tid ∧ tid ≠ TID_NULL
  · rw [if_pos h4]
    exact ⟨_, _, rfl⟩
  rw [if_neg h4]
  have hB : u32 (ptr + 4294967296 - HDR) ∉ l := fun hm => h3 (inv.free _ hm).1
  have hseg : Seg ((h.set_is_allocated (u32 (ptr + 4294967296 - HDR)) 0).set_owner_tid
      (u32 (ptr + 4294967296 - HDR)) TID_NULL).blk
      ((h.set_is_allocated (u32 (ptr + 4294967296 - HDR)) 0).set_owner_tid
      (u32 (ptr + 4294967296 - HDR)) TID_NULL).free_list_head 0 l 0 := by
    simp only [Heap.set_owner_tid_free_list_head, Heap.set_is_allocated_free_list_head]
    exact Seg.frame (fun a _ => by simp) inv.seg
  obtain ⟨h', hadd⟩ := add_to_free_list_returns _ hseg hB inv.length_lt
  rw [hadd]
  exact ⟨_, _, rfl⟩

/-- C13 (the code at a failing input). On the freshly initialised kernel
`osCreateDeadlineTask_impl(4, t)` returns `RTX_OK`; slot 1 is then marked periodic with
`deadline_value = 4` and `time_left = 4`, but its `period` field is `0`, not `4`. -/
theorem osCreateDeadlineTask_impl_period :
    ((osCreateDeadlineTask_impl sample_kernel 4 (some sample_task)).map fun r => r.1)
        = some RTX_OK ∧
    ((osCreateDeadlineTask_impl sample_kernel 4 (some sample_task)).map fun r =>
        (r.2.1.g_tasks 1).is_periodic) = some 1 ∧
    ((osCreateDeadlineTask_impl sample_kernel 4 (some sample_task)).map fun r =>
        (r.2.1.g_tasks 1).deadline_value) = some 4 ∧
    ((osCreateDeadlineTask_impl sample_kernel 4 (some sample_task)).map fun r =>
        (r.2.1.g_tasks 1).time_left) = some 4 ∧
    ((osCreateDeadlineTask_impl sample_kernel 4 (some sample_task)).map fun r =>
        (r.2.1.g_tasks 1).period) = some 0 ∧
    osCreateDeadlineTask_impl sample_kernel 0 (some sample_task)
        = some (RTX_ERR, sample_kernel, some sample_task) := by
  refine ⟨by decide, by decide, by decide, by decide, by decide, rfl⟩

/-- C14 (the code at a failing input). Task 1 is Running with deadline 5 and task 2 is
Ready. `set_deadline(3, 2)` meets the three requirements, stores 3 into the deadline and
the slice of task 2 and switches to it, yet the value left in `svc_args[0]` is
`RTX_ERR`. -/
theorem SVC_4_preempt_returns_error :
    (two_tasks_started.map fun k => k.g_active_task_id) = some 1 ∧
    (two_tasks_started.map fun k => (k.g_tasks 1).state) = some RUNNING ∧
    (two_tasks_started.map fun k => (k.g_tasks 1).deadline_value) = some 5 ∧
    (two_tasks_started.map fun k => (k.g_tasks 2).state) = some READY ∧
    (two_tasks_started.map fun k => (SVC_4 k 3 2).1) = some RTX_ERR ∧
    (two_tasks_started.map fun k => ((SVC_4 k 3 2).2.g_tasks 2).deadline_value) = some 3 ∧
    (two_tasks_started.map fun k => ((SVC_4 k 3 2).2.g_tasks 2).time_left) = some 3 ∧
    (two_tasks_started.map fun k => ((SVC_4 k 3 2).2.g_tasks 2).state) = some RUNNING := by
  refine ⟨by decide, by decide, by decide, by decide, by decide, by decide, by decide,
    by decide⟩

theorem remove_from_free_list_data (h : Heap) (F b : Nat) :
    ((remove_from_free_list h F).blk b).size = (h.blk b).size ∧
    ((remove_from_free_list h F).blk b).is_allocated = (h.blk b).is_allocated ∧
    ((remove_from_free_list h F).blk b).owner_tid = (h.blk b).owner_tid := by
  unfold remove_from_free_list
  dsimp only
  split_ifs <;> simp

theorem coalesce_next_flags (h : Heap) (B b : Nat) :
    ((coalesce_next h B).blk b).is_allocated = (h.blk b).is_allocated ∧
    ((coalesce_next h B).blk b).owner_tid = (h.blk b).owner_tid := by
  unfold coalesce_next
  dsimp only
  split_ifs <;>
    simp [(remove_from_free_list_data _ _ _).2.1, (remove_from_free_list_data _ _ _).2.2]

theorem coalesce_prev_flags (h : Heap) (B b : Nat) :
    ((coalesce_prev h B).blk b).is_allocated = (h.blk b).is_allocated ∧
    ((coalesce_prev h B).blk b).owner_tid = (h.blk b).owner_tid := by
  unfold coalesce_prev
  dsimp only
  split_ifs <;>
    simp [(remove_from_free_list_data _ _ _).2.1, (remove_from_free_list_data _ _ _).2.2]

/-- Coalescing changes no `is_allocated` flag and no owner. -/
theorem coalesce_free_blocks_flags (h : Heap) (B b : Nat) :
    ((coalesce_free_blocks h B).blk b).is_allocated = (h.blk b).is_allocated ∧
    ((coalesce_free_blocks h B).blk b).owner_tid = (h.blk b).owner_tid := by
  unfold coalesce_free_blocks
  rw [(coalesce_prev_flags _ _ _).1, (coalesce_prev_flags _ _ _).2,
    (coalesce_next_flags _ _ _).1, (coalesce_next_flags _ _ _).2]
  exact ⟨rfl, rfl⟩

theorem add_to_free_list_data {h h' : Heap} {B : Nat} (hadd : add_to_free_list h B = some h')
    (b : Nat) :
    (h'.blk b).size = (h.blk b).size ∧
    (h'.blk b).is_allocated = (h.blk b).is_allocated ∧
    (h'.blk b).owner_tid = (h.blk b).owner_tid := by
  unfold add_to_free_list at hadd
  simp only [Heap.set_prev_free_list_head, Heap.set_next_free_list_head] at hadd
  by_cases h1 : h.free_list_head = 0
  · rw [if_pos h1] at hadd
    simp only [Option.some.injEq] at hadd
    subst hadd
    simp
  · rw [if_neg h1] at hadd
    cases hs : add_scan ((h.set_next B 0).set_prev B 0).blk B WALK_FUEL 0 h.free_list_head with
    | none => rw [hs] at hadd; simp at hadd
    | some r =>
      obtain ⟨prev, cur⟩ := r
      rw [hs] at hadd
      dsimp only at hadd
      by_cases h2 : prev = 0
      · rw [if_pos h2] at hadd
        simp only [Option.some.injEq] at hadd
        subst hadd
        simp [h1]
      · rw [if_neg h2] at hadd
        simp only [Option.some.injEq] at hadd
        subst hadd
        split_ifs <;> simp

/-- A valid pointer to a block that is marked allocated and that the caller may free:
on a well-formed free list `k_mem_dealloc_impl` returns `RTX_OK`, and afterwards the
block is not marked allocated and its owner is the Null Task. -/
theorem k_mem_dealloc_impl_ok {h : Heap} {l : List Nat} (tid ptr : Nat)
    (inv : FreeListInv h l) (hp : ptr ≠ 0) (hv : is_valid_pointer h ptr = true)
    (ha : (h.blk (u32 (ptr + 4294967296 - HDR))).is_allocated ≠ 0)
    (ho : (h.blk (u32 (ptr + 4294967296 - HDR))).owner_tid = tid ∨ tid = TID_NULL) :
    ∃ h', k_mem_dealloc_impl tid h ptr = some (RTX_OK, h') ∧
      (h'.blk (u32 (ptr + 4294967296 - HDR))).is_allocated = 0 ∧
      (h'.blk (u32 (ptr + 4294967296 - HDR))).owner_tid = TID_NULL := by
  have hB : u32 (ptr + 4294967296 - HDR) ∉ l := fun hm => ha (inv.free _ hm).1
  have hseg : Seg ((h.set_is_allocated (u32 (ptr + 4294967296 - HDR)) 0).set_owner_tid
      (u32 (ptr + 4294967296 - HDR)) TID_NULL).blk
      ((h.set_is_allocated (u32 (ptr + 4294967296 - HDR)) 0).set_owner_tid
      (u32 (ptr + 4294967296 - HDR)) TID_NULL).free_list_head 0 l 0 := by
    simp only [Heap.set_owner_tid_free_list_head, Heap.set_is_allocated_free_list_head]
    exact Seg.frame (fun a _ => by simp) inv.seg
  obtain ⟨h2, hadd⟩ := add_to_free_list_returns _ hseg hB inv.length_lt
  refine ⟨coalesce_free_blocks h2 (u32 (ptr + 4294967296 - HDR)), ?_, ?_, ?_⟩
  · unfold k_mem_dealloc_impl
    rw [if_neg hp, if_neg (by
      rintro (h0 | h0)
      · exact inv.init h0
      · rw [hv] at h0; cases h0)]
    dsimp only
    rw [if_neg ha, if_neg (by
      rintro ⟨h1, h2⟩
      rcases ho with h3 | h3
      · exact h1 h3
      · exact h2 h3), hadd]
  · rw [(coalesce_free_blocks_flags _ _ _).1, (add_to_free_list_data hadd _).2.1]
    simp
  · rw [(coalesce_free_blocks_flags _ _ _).2, (add_to_free_list_data hadd _).2.2]
    simp

/-- The invariant of the free list only depends on the headers of the blocks on the
list and on the globals. -/
theorem FreeListInv.congr {h h' : Heap} {l : List Nat} (inv : FreeListInv h l)
    (hs : h'.heap_start = h.heap_start) (he : h'.heap_end = h.heap_end)
    (hi : h'.memory_initialized = h.memory_initialized)
    (hh : h'.free_list_head = h.free_list_head)
    (hb : ∀ a ∈ l, h'.blk a = h.blk a) : FreeListInv h' l where
  init := by rw [hi]; exact inv.init
  start_pos := by rw [hs]; exact inv.start_pos
  end_lt := by rw [he]; exact inv.end_lt
  seg := by
    rw [hh]
    exact Seg.frame (fun a ha => by rw [hb a ha]; exact ⟨rfl, rfl⟩) inv.seg
  inside := fun a ha => by rw [hs, he, hb a ha]; exact inv.inside a ha
  free := fun a ha => by rw [hb a ha]; exact inv.free a ha
  aligned := inv.aligned
  gaps := inv.gaps.imp_of_mem (fun {a b} ha _ hab => by rw [hb a ha]; exact hab)

/-- On a well-formed free list `k_mem_alloc_impl` returns and leaves a well-formed free
list; a `NULL` result leaves the heap unchanged; a non-null result is the payload address
of a block that is 4-byte aligned, marked allocated, owned by the caller and not on the
free list. -/
theorem k_mem_alloc_impl_inv {h : Heap} {l : List Nat} (tid n : Nat)
    (inv : FreeListInv h l) (hn : 0 < n) (hn' : n ≤ 4294967000) :
    ∃ p h' l', k_mem_alloc_impl tid h n = some (p, h') ∧ FreeListInv h' l' ∧
      (p = 0 → h' = h) ∧
      (p ≠ 0 → HDR ≤ p ∧ p < 4294967296 ∧ (p - HDR) % 4 = 0 ∧ p - HDR ∉ l' ∧
        (h'.blk (p - HDR)).is_allocated = 1 ∧ (h'.blk (p - HDR)).owner_tid = tid) := by
  have hH : HDR = 20 := rfl
  cases hf : l.find? (fun a => decide (total_size n ≤ (h.blk a).size)) with
  | none =>
    rw [List.find?_eq_none] at hf
    refine ⟨0, h, l, k_mem_alloc_impl_none tid n inv (fun a ha => ?_), inv, fun _ => rfl,
      fun e => absurd rfl e⟩
    have := hf a ha
    simp at this
    exact this
  | some F =>
    rw [List.find?_eq_some] at hf
    obtain ⟨hp, l1, l2, hl, hsm⟩ := hf
    subst hl
    simp only [decide_eq_true_eq] at hp
    obtain ⟨h', hal, -, -, -, ha1, ha2, -, -, hcase⟩ := k_mem_alloc_impl_fit tid n inv hn hn'
      (fun a ha => by have := hsm a ha; simp at this; exact this) hp
    have hFm : F ∈ l1 ++ F :: l2 := by simp
    have hFin := inv.inside F hFm
    have hend := inv.end_lt
    have hal4 := inv.aligned F hFm
    obtain ⟨ht1, ht2, ht3⟩ := total_size_bounds n hn'
    have hnd := inv.nodup
    have hF1 : F ∉ l1 := fun hm => (List.nodup_append.1 hnd).2.2 hm (List.mem_cons_self _ _)
    have hF2 : F ∉ l2 := (List.nodup_cons.1 (List.nodup_append.1 hnd).2.1).1
    have hsub : F + HDR - HDR = F := by omega
    by_cases hc : total_size n + HDR + 16 ≤ (h.blk F).size
    · rw [if_pos hc] at hcase
      refine ⟨F + HDR, h', _, hal, hcase.1, fun e => by omega, fun _ => ?_⟩
      rw [hsub]
      refine ⟨by omega, by omega, hal4, ?_, ha1, ha2⟩
      intro hm
      rcases List.mem_append.1 hm with h1 | h1
      · exact hF1 h1
      · rcases List.mem_cons.1 h1 with h3 | h3
        · omega
        · exact hF2 h3
    · rw [if_neg hc] at hcase
      refine ⟨F + HDR, h', _, hal, hcase.1, fun e => by omega, fun _ => ?_⟩
      rw [hsub]
      refine ⟨by omega, by omega, hal4, ?_, ha1, ha2⟩
      intro hm
      rcases List.mem_append.1 hm with h1 | h1
      · exact hF1 h1
      · exact hF2 h1

/-- `osCreateTask_impl` keeps the free list well formed. -/
theorem osCreateTask_impl_inv {k k' : Kernel} {l : List Nat} {t : Option TCB} {r : Int}
    {t' : Option TCB} (inv : FreeListInv k.mem l)
    (hu16 : ∀ c, t = some c → c.stack_size < 65536)
    (h : osCreateTask_impl k t = some (r, k', t')) : ∃ l', FreeListInv k'.mem l' := by
  have hH : HDR = 20 := rfl
  have hS : STACK_SIZE = 1024 := rfl
  unfold osCreateTask_impl osGetTID_internal at h
  by_cases h1 : k.g_kernel_initialized = 0
  · rw [if_pos h1] at h
    simp only [Option.some.injEq, Prod.mk.injEq] at h
    exact ⟨l, h.2.1 ▸ inv⟩
  rw [if_neg h1] at h
  cases t with
  | none =>
    simp only [Option.some.injEq, Prod.mk.injEq] at h
    exact ⟨l, h.2.1 ▸ inv⟩
  | some c =>
    dsimp only at h
    have hss := hu16 c rfl
    by_cases h2 : c.ptask = 0 ∨ c.stack_size = 0
    · rw [if_pos h2] at h
      simp only [Option.some.injEq, Prod.mk.injEq] at h
      exact ⟨l, h.2.1 ▸ inv⟩
    rw [if_neg h2] at h
    by_cases h3 : c.stack_size < STACK_SIZE
    · rw [if_pos h3] at h
      simp only [Option.some.injEq, Prod.mk.injEq] at h
      exact ⟨l, h.2.1 ▸ inv⟩
    rw [if_neg h3] at h
    by_cases h4 : find_dormant k = TID_NULL ∨ (MAX_TASKS : Int) - 1 ≤ k.g_num_tasks
    · rw [if_pos h4] at h
      simp only [Option.some.injEq, Prod.mk.injEq] at h
      exact ⟨l, h.2.1 ▸ inv⟩
    rw [if_neg h4] at h
    obtain ⟨p, m, l', hal, inv', hnull, hnn⟩ := k_mem_alloc_impl_inv k.g_active_task_id
      c.stack_size inv (by omega) (by omega)
    rw [hal] at h
    dsimp only at h
    by_cases h5 : p = 0
    · rw [if_pos h5] at h
      simp only [Option.some.injEq, Prod.mk.injEq] at h
      refine ⟨l', ?_⟩
      rw [← h.2.1]
      exact inv'
    · rw [if_neg h5] at h
      simp only [Option.some.injEq, Prod.mk.injEq] at h
      obtain ⟨hp1, hp2, -, hp4, -, -⟩ := hnn h5
      refine ⟨l', ?_⟩
      rw [← h.2.1]
      have e : u32 (p + 4294967296 - HDR) = p - HDR := by unfold u32; omega
      refine inv'.congr (by simp) (by simp) (by simp) (by simp) (fun a ha => ?_)
      have hne : a ≠ p - HDR := fun z => hp4 (z ▸ ha)
      simp [e, Heap.set_owner_tid, Function.update_noteq hne]

theorem svc17_clear_g_tasks (k : Kernel) (c i : Nat) :
    (svc17_clear k c).g_tasks i =
      if i = c then
        { k.g_tasks c with state := DORMANT, ptask := 0, stack_high := 0, stack_size := 0,
                            stack_base := 0, stack_ptr := 0, is_fresh_task := TASK_NEW }
      else k.g_tasks i := by
  simp [svc17_clear]

@[simp] theorem svc17_clear_g_num_tasks (k : Kernel) (c : Nat) :
    (svc17_clear k c).g_num_tasks = k.g_num_tasks - 1 := by
  simp [svc17_clear]

/-- A slot that is not Running and is not picked by the scheduler is left alone by
`trigger_context_switch`. -/
theorem trigger_context_switch_dormant (k : Kernel) (i : Nat)
    (h : (k.g_tasks i).state = DORMANT) (hc : k.g_active_task_id < MAX_TASKS) :
    (trigger_context_switch k).g_tasks i = k.g_tasks i := by
  rw [trigger_context_switch_g_tasks]
  split_ifs with h1 h2 h3
  · rfl
  · exfalso
    rcases edf_scheduler_ready k hc with h0 | ⟨-, -, hr⟩
    · exact h1 (Or.inl h0)
    · rw [← h2, h] at hr
      exact absurd hr (by decide)
  · exfalso
    rw [h] at h3
    exact absurd h3.2.2 (by decide)
  · rfl

/-- C15. Task exit (SVC #17) with a well-formed free list. When the active task is the
Null Task nothing changes. Otherwise `k_mem_dealloc_impl` is called on the task's
`stack_base` (and, when that pointer is valid and its block is marked allocated and owned
by the task, it returns `RTX_OK` and the block is no longer marked allocated), the heap
afterwards is the heap that call left, the task's slot is Dormant with `entry = null`
and `stack_base = null`, `g_num_tasks` has gone down by exactly one, and
`trigger_context_switch` has run on the cleaned-up state. -/
theorem SVC_17_exit (k : Kernel) (l : List Nat) (inv : FreeListInv k.mem l)
    (hc : k.g_active_task_id < MAX_TASKS) :
    (k.g_active_task_id = TID_NULL → SVC_17 k = some k) ∧
    (k.g_active_task_id ≠ TID_NULL →
      ∃ r m k',
        k_mem_dealloc_impl k.g_active_task_id k.mem
          (k.g_tasks k.g_active_task_id).stack_base = some (r, m) ∧
        (is_valid_pointer k.mem (k.g_tasks k.g_active_task_id).stack_base = true →
          (k.g_tasks k.g_active_task_id).stack_base ≠ 0 →
          (k.mem.blk (u32 ((k.g_tasks k.g_active_task_id).stack_base + 4294967296 - HDR))).is_allocated
            ≠ 0 →
          (k.mem.blk (u32 ((k.g_tasks k.g_active_task_id).stack_base + 4294967296 - HDR))).owner_tid
            = k.g_active_task_id →
          r = RTX_OK ∧
          (m.blk (u32 ((k.g_tasks k.g_active_task_id).stack_base + 4294967296 - HDR))).is_allocated
            = 0) ∧
        SVC_17 k = some k' ∧
        k' = trigger_context_switch (svc17_clear { k with mem := m } k.g_active_task_id) ∧
        k'.mem = m ∧
        (k'.g_tasks k.g_active_task_id).state = DORMANT ∧
        (k'.g_tasks k.g_active_task_id).ptask = 0 ∧
        (k'.g_tasks k.g_active_task_id).stack_base = 0 ∧
        k'.g_num_tasks = k.g_num_tasks - 1) := by
  refine ⟨fun h0 => ?_, fun h0 => ?_⟩
  · unfold SVC_17
    dsimp only
    rw [if_neg (fun x => x h0)]
  · obtain ⟨r, m, hd⟩ := k_mem_dealloc_impl_returns k.g_active_task_id
      (k.g_tasks k.g_active_task_id).stack_base inv
    refine ⟨r, m, _, hd, ?_, ?_, rfl, ?_, ?_⟩
    · intro hv hp ha ho
      obtain ⟨h', hd', hz, -⟩ := k_mem_dealloc_impl_ok k.g_active_task_id
        (k.g_tasks k.g_active_task_id).stack_base inv hp hv ha (Or.inl ho)
      rw [hd] at hd'
      simp only [Option.some.injEq, Prod.mk.injEq] at hd'
      rw [hd'.1, hd'.2]
      exact ⟨rfl, hz⟩
    · unfold SVC_17 osGetTID_internal
      dsimp only
      rw [if_pos h0, hd]
    · simp
    · have hdor : ((svc17_clear { k with mem := m } k.g_active_task_id).g_tasks
          k.g_active_task_id).state = DORMANT := by
        rw [svc17_clear_g_tasks, if_pos rfl]
      rw [trigger_context_switch_dormant _ _ hdor (by simpa using hc)]
      rw [svc17_clear_g_tasks, if_pos rfl]
      simp

theorem osKernelStart_mem (k : Kernel) : (osKernelStart k).2.mem = k.mem := by
  unfold osKernelStart
  dsimp only
  split_ifs <;> simp [SVC_0, start_setup]

theorem one_task_started_inv : ∃ l, FreeListInv one_task_started.mem l := by
  obtain ⟨⟨k', t'⟩, h⟩ := exists_of_map_fst (osCreateTask_impl sample_kernel (some sample_task))
    RTX_OK (by decide)
  obtain ⟨l, inv⟩ := osCreateTask_impl_inv sample_kernel_inv
    (fun c hc => by cases hc; decide) h
  refine ⟨l, ?_⟩
  have : one_task_started = (osKernelStart k').2 := by
    unfold one_task_started
    rw [h]
  rw [this, osKernelStart_mem]
  exact inv

theorem SVC_17_exit_witness :
    one_task_started.g_active_task_id ≠ TID_NULL ∧
    ∃ r m k',
      k_mem_dealloc_impl one_task_started.g_active_task_id one_task_started.mem
        (one_task_started.g_tasks one_task_started.g_active_task_id).stack_base = some (r, m) ∧
      r = RTX_OK ∧ SVC_17 one_task_started = some k' ∧
      (k'.g_tasks one_task_started.g_active_task_id).state = DORMANT ∧
      k'.g_num_tasks = one_task_started.g_num_tasks - 1 := by
  obtain ⟨l, inv⟩ := one_task_started_inv
  have hne : one_task_started.g_active_task_id ≠ TID_NULL := by decide
  obtain ⟨r, m, k', h1, h2, h3, -, -, h6, -, -, h9⟩ :=
    (SVC_17_exit one_task_started l inv (by decide)).2 hne
  exact ⟨hne, r, m, k', h1, (h2 (by decide) (by decide) (by decide) (by decide)).1, h3, h6, h9⟩

/-- `coalesce_next` does nothing unless the successor on the free list is free and
starts exactly where the block ends. -/
theorem coalesce_next_skip (h : Heap) (B : Nat)
    (hno : (h.blk B).next = 0 ∨ (h.blk (h.blk B).next).is_allocated ≠ 0 ∨
      u32 (B + (h.blk B).size) ≠ (h.blk B).next) :
    coalesce_next h B = h := by
  unfold coalesce_next
  dsimp only
  by_cases h1 : (h.blk B).next ≠ 0 ∧ (h.blk (h.blk B).next).is_allocated = 0
  · rw [if_pos h1]
    rcases hno with h2 | h2 | h2
    · exact absurd h2 h1.1
    · exact absurd h1.2 h2
    · rw [if_neg h2]
  · rw [if_neg h1]

/-- `coalesce_prev` does nothing unless the predecessor on the free list is free and
ends exactly where the block starts. -/
theorem coalesce_prev_skip (h : Heap) (B : Nat)
    (hno : (h.blk B).prev = 0 ∨ (h.blk (h.blk B).prev).is_allocated ≠ 0 ∨
      u32 ((h.blk B).prev + (h.blk (h.blk B).prev).size) ≠ B) :
    coalesce_prev h B = h := by
  unfold coalesce_prev
  dsimp only
  by_cases h1 : (h.blk B).prev ≠ 0 ∧ (h.blk (h.blk B).prev).is_allocated = 0
  · rw [if_pos h1]
    rcases hno with h2 | h2 | h2
    · exact absurd h2 h1.1
    · exact absurd h1.2 h2
    · rw [if_neg h2]
  · rw [if_neg h1]

/-- `coalesce_next` when the successor `N` of `B` on the free list is free and adjacent:
`N` is absorbed into `B` and leaves the list. -/
theorem coalesce_next_merge {h : Heap} {l1 l2 : List Nat} {B N : Nat}
    (hseg : Seg h.blk h.free_list_head 0 (l1 ++ B :: N :: l2) 0)
    (hnd : (l1 ++ B :: N :: l2).Nodup) (hnz : ∀ a ∈ l1 ++ B :: N :: l2, a ≠ 0)
    (hfree : (h.blk N).is_allocated = 0) (hadj : u32 (B + (h.blk B).size) = N) :
    Seg (coalesce_next h B).blk (coalesce_next h B).free_list_head 0 (l1 ++ B :: l2) 0 ∧
    (coalesce_next h B).heap_start = h.heap_start ∧
    (coalesce_next h B).heap_end = h.heap_end ∧
    (coalesce_next h B).memory_initialized = h.memory_initialized ∧
    ((coalesce_next h B).blk B).size = u32 ((h.blk B).size + (h.blk N).size) ∧
    ∀ b, b ≠ B → ((coalesce_next h B).blk b).size = (h.blk b).size := by
  -- what the chain says about `B` and `N`
  have hseg' : Seg h.blk h.free_list_head 0 ((l1 ++ [B]) ++ N :: l2) 0 := by
    simpa using hseg
  obtain ⟨x, hs1, hs2⟩ := Seg.append.1 hseg'
  obtain ⟨hx, hNprev, hs3⟩ := hs2
  subst hx
  have hlast : lastOr (l1 ++ [B]) 0 = B := by simp [lastOr_append_cons]
  rw [hlast] at hNprev
  obtain ⟨y, hs4, hs5⟩ := Seg.append.1 hs1
  obtain ⟨hy, -, hBnext⟩ := hs5
  subst hy
  have hBnext' : (h.blk y).next = x := hBnext
  have hN2 : (h.blk x).next = l2.headD 0 := hs3.head_eq
  have hB0 : y ≠ 0 := hnz y (by simp)
  have hN0 : x ≠ 0 := hnz x (by simp)
  have hnd' : ((l1 ++ [y]) ++ x :: l2).Nodup := by simpa using hnd
  have hBN : y ≠ x := by
    intro e
    exact (List.nodup_append.1 hnd').2.2 (show y ∈ l1 ++ [y] by simp) (by simp [e])
  have hNl2 : x ∉ l2 := (List.nodup_cons.1 (List.nodup_append.1 hnd').2.1).1
  have hN2N : (h.blk x).next ≠ x := by
    rw [hN2]
    rcases headD_eq_or_mem l2 0 with ⟨-, e⟩ | hm
    · rw [e]; exact Ne.symm hN0
    · exact fun e => hNl2 (e ▸ hm)
  have hyl2 : y ∉ l2 := fun hm =>
    (List.nodup_append.1 hnd').2.2 (show y ∈ l1 ++ [y] by simp) (List.mem_cons_of_mem _ hm)
  have hyN2 : y ≠ (h.blk x).next := by
    rw [hN2]
    rcases headD_eq_or_mem l2 0 with ⟨-, e⟩ | hm
    · rw [e]; exact hB0
    · exact fun e => hyl2 (e ▸ hm)
  -- the result in closed form
  have hcl : coalesce_next h y =
      remove_from_free_list
        (if (h.blk x).next ≠ 0 then
          ((h.set_size y (u32 ((h.blk y).size + (h.blk x).size))).set_next y
            (h.blk x).next).set_prev (h.blk x).next y
         else (h.set_size y (u32 ((h.blk y).size + (h.blk x).size))).set_next y (h.blk x).next)
        x := by
    unfold coalesce_next
    dsimp only
    rw [hBnext', if_pos ⟨hN0, hfree⟩, if_pos hadj]
    simp [Ne.symm hBN]
  have hremove := Seg.remove hseg' hnd' (by simpa using hnz)
  have hseg2 : Seg (remove_from_free_list h x).blk (remove_from_free_list h x).free_list_head 0
      (l1 ++ y :: l2) 0 := by simpa using hremove.1
  obtain ⟨f1, -, -, -, f5⟩ := remove_from_free_list_spec h x (by rw [hNprev]; exact hBN)
  rw [hcl]
  by_cases hn2 : (h.blk x).next = 0
  · rw [if_neg (fun z => z hn2)]
    obtain ⟨e1, e2, e3, e4, e5⟩ := remove_from_free_list_spec
      ((h.set_size y (u32 ((h.blk y).size + (h.blk x).size))).set_next y (h.blk x).next) x
      (by simp [Ne.symm hBN, hNprev, hBN])
    refine ⟨?_, by simp [e2], by simp [e3], by simp [e4], ?_, ?_⟩
    · have ehead : (remove_from_free_list ((h.set_size y (u32 ((h.blk y).size +
          (h.blk x).size))).set_next y (h.blk x).next) x).free_list_head =
          (remove_from_free_list h x).free_list_head := by
        rw [e1, f1]; simp [Ne.symm hBN, hNprev]
      rw [ehead]
      refine Seg.frame (fun a _ => ?_) hseg2
      rw [(e5 a).1, (e5 a).2.1, (f5 a).1, (f5 a).2.1]
      by_cases ha : a = x
      · simp [ha]
      · by_cases hb : a = y
        · simp [ha, hb, Ne.symm hBN, hNprev, hB0, hBN, hn2]
        · simp [ha, hb, Ne.symm hBN, hNprev, hB0, hn2]
    · rw [(e5 y).2.2.1]; simp
    · intro b hb
      rw [(e5 b).2.2.1]; simp [hb]
  · rw [if_pos hn2]
    obtain ⟨e1, e2, e3, e4, e5⟩ := remove_from_free_list_spec
      (((h.set_size y (u32 ((h.blk y).size + (h.blk x).size))).set_next y
            (h.blk x).next).set_prev (h.blk x).next y) x
      (by simp [Ne.symm hBN, hNprev, hBN, Ne.symm hN2N])
    refine ⟨?_, by simp [e2], by simp [e3], by simp [e4], ?_, ?_⟩
    · have ehead : (remove_from_free_list (((h.set_size y (u32 ((h.blk y).size +
          (h.blk x).size))).set_next y (h.blk x).next).set_prev (h.blk x).next y) x).free_list_head =
          (remove_from_free_list h x).free_list_head := by
        rw [e1, f1]; simp [Ne.symm hBN, hNprev, Ne.symm hN2N]
      rw [ehead]
      refine Seg.frame (fun a _ => ?_) hseg2
      rw [(e5 a).1, (e5 a).2.1, (f5 a).1, (f5 a).2.1]
      by_cases ha : a = x
      · simp [ha]
      · by_cases hb : a = y
        · simp [ha, hb, Ne.symm hBN, hNprev, hB0, hBN, hn2, Ne.symm hN2N, hyN2]
        · by_cases hc : a = (h.blk x).next
          · simp [ha, hb, Ne.symm hBN, hNprev, hB0, hn2, Ne.symm hN2N, hc, hN2N, Ne.symm hyN2]
          · simp [ha, hb, Ne.symm hBN, hNprev, hB0, hn2, Ne.symm hN2N, hc]
    · rw [(e5 y).2.2.1]; simp
    · intro b hb
      rw [(e5 b).2.2.1]; simp [hb]

/-- The links of a node in the middle of a null-terminated chain. -/
theorem Seg.at_mid {m : Nat → mem_block} {l1 l2 : List Nat} {F p : Nat}
    (hseg : Seg m p 0 (l1 ++ F :: l2) 0) :
    (m F).prev = lastOr l1 0 ∧ (m F).next = l2.headD 0 := by
  obtain ⟨x, -, hs2⟩ := Seg.append.1 hseg
  obtain ⟨-, hprev, hs3⟩ := hs2
  exact ⟨hprev, hs3.head_eq⟩

/-- The payload pointer of a block that lies inside the heap and is large enough passes
`is_valid_pointer`, and the header address computed from it is the block. -/
theorem is_valid_pointer_block (h : Heap) (F : Nat) (hF : h.heap_start ≤ F)
    (hsz : HDR + 4 ≤ (h.blk F).size) (hFe : F + (h.blk F).size ≤ h.heap_end)
    (hend : h.heap_end < 4294967296) :
    is_valid_pointer h (F + HDR) = true ∧ u32 (F + HDR + 4294967296 - HDR) = F := by
  have hH : HDR = 20 := rfl
  have e : u32 (F + HDR + 4294967296 - HDR) = F := by unfold u32; omega
  refine ⟨?_, e⟩
  unfold is_valid_pointer
  dsimp only
  rw [e]
  have e1 : u32 (h.heap_start + HDR) = h.heap_start + HDR := by unfold u32; omega
  have e2 : u32 (F + (h.blk F).size) = F + (h.blk F).size := by unfold u32; omega
  rw [e1, e2, if_neg (by omega), if_neg (by omega), if_neg (by omega)]

/-- The shape of a successful `k_mem_dealloc_impl`: the block is marked free, linked
into the free list, and coalesced. -/
theorem k_mem_dealloc_impl_eq (tid : Nat) (h : Heap) (F : Nat) (hp : F + HDR ≠ 0)
    (hi : h.memory_initialized ≠ 0) (hv : is_valid_pointer h (F + HDR) = true)
    (hB : u32 (F + HDR + 4294967296 - HDR) = F)
    (ha : (h.blk F).is_allocated ≠ 0) (ho : (h.blk F).owner_tid = tid ∨ tid = TID_NULL) :
    k_mem_dealloc_impl tid h (F + HDR) =
      (add_to_free_list ((h.set_is_allocated F 0).set_owner_tid F TID_NULL) F).map
        fun h2 => (RTX_OK, coalesce_free_blocks h2 F) := by
  unfold k_mem_dealloc_impl
  rw [if_neg hp, if_neg (by
    rintro (h0 | h0)
    · exact hi h0
    · rw [hv] at h0; cases h0)]
  dsimp only
  rw [hB, if_neg ha, if_neg (by
    rintro ⟨h1, h2⟩
    rcases ho with h3 | h3
    · exact h1 h3
    · exact h2 h3)]
  cases add_to_free_list ((h.set_is_allocated F 0).set_owner_tid F TID_NULL) F <;> rfl

theorem mem_block_ext (x y : mem_block) (h1 : x.size = y.size)
    (h2 : x.is_allocated = y.is_allocated) (h3 : x.owner_tid = y.owner_tid)
    (h4 : x.next = y.next) (h5 : x.prev = y.prev) : x = y := by
  cases x; cases y; simp_all

/-- Two heaps whose free lists are chains over the same nodes, with the same sizes, flags
and owners, have the same list head and the same headers on the list. -/
theorem Seg.blk_eq {h h' : Heap} {l : List Nat}
    (hseg : Seg h.blk h.free_list_head 0 l 0) (hseg' : Seg h'.blk h'.free_list_head 0 l 0)
    (hd : ∀ a ∈ l, (h'.blk a).size = (h.blk a).size ∧
      (h'.blk a).is_allocated = (h.blk a).is_allocated ∧
      (h'.blk a).owner_tid = (h.blk a).owner_tid) :
    h'.free_list_head = h.free_list_head ∧ ∀ a ∈ l, h'.blk a = h.blk a := by
  have hh : h'.free_list_head = h.free_list_head := by rw [hseg.head_eq, hseg'.head_eq]
  rw [hh] at hseg'
  have hl := Seg.links_eq hseg hseg'
  exact ⟨hh, fun a ha => mem_block_ext _ _ (hd a ha).1 (hd a ha).2.1 (hd a ha).2.2
    (hl a ha).1 (hl a ha).2⟩

/-- Allocation followed by the release of the same block, the owner of the block having
been changed to the releasing task in between: `k_mem_dealloc_impl` returns `RTX_OK` and
the free list is what it was before the allocation, header for header. -/
theorem alloc_dealloc_round_trip {h : Heap} {l1 l2 : List Nat} {F : Nat} (tid tid' n : Nat)
    (inv : FreeListInv h (l1 ++ F :: l2)) (hn : 0 < n) (hn' : n ≤ 4294967000)
    (hsmall : ∀ a ∈ l1, (h.blk a).size < total_size n)
    (hfit : total_size n ≤ (h.blk F).size) :
    ∃ h1 h2, k_mem_alloc_impl tid h n = some (F + HDR, h1) ∧
      k_mem_dealloc_impl tid' (h1.set_owner_tid F tid') (F + HDR) = some (RTX_OK, h2) ∧
      h2.heap_start = h.heap_start ∧ h2.heap_end = h.heap_end ∧
      h2.memory_initialized = h.memory_initialized ∧
      h2.free_list_head = h.free_list_head ∧
      ∀ a ∈ l1 ++ F :: l2, h2.blk a = h.blk a := by
  have hH : HDR = 20 := rfl
  obtain ⟨ht1, ht2, ht3⟩ := total_size_bounds n hn'
  obtain ⟨h1, hal, g1, g2, g3, fa, fo, fn, fp, hcase⟩ :=
    k_mem_alloc_impl_fit tid n inv hn hn' hsmall hfit
  have hFm : F ∈ l1 ++ F :: l2 := by simp
  have hF0 : F ≠ 0 := inv.ne_zero F hFm
  have hFin := inv.inside F hFm
  have hend := inv.end_lt
  have hlo : ∀ a ∈ l1, a < F := fun a ha =>
    (List.pairwise_append.1 inv.sorted).2.2 a ha F (List.mem_cons_self _ _)
  have hhi : ∀ a ∈ l2, F + (h.blk F).size < a := fun a ha =>
    List.rel_of_pairwise_cons (List.pairwise_append.1 inv.gaps).2.1 ha
  have hgapF : ∀ a ∈ l1, a + (h.blk a).size < F := fun a ha =>
    (List.pairwise_append.1 inv.gaps).2.2 a ha F (List.mem_cons_self _ _)
  have hl1 : ∀ a ∈ l1, a ∈ l1 ++ F :: l2 := fun a ha => List.mem_append_left _ ha
  have hl2 : ∀ a ∈ l2, a ∈ l1 ++ F :: l2 := fun a ha =>
    List.mem_append_right _ (List.mem_cons_of_mem _ ha)
  refine ⟨h1, ?_⟩
  by_cases hsplit : total_size n + HDR + 16 ≤ (h.blk F).size
  · rw [if_pos hsplit] at hcase
    obtain ⟨inv1, sF, sR, hdata⟩ := hcase
    have hv := is_valid_pointer_block (h1.set_owner_tid F tid') F
      (by simp [g1]; exact hFin.1) (by simp [sF]; omega) (by simp [sF, g2]; omega)
      (by simp [g2]; exact hend)
    have heq := k_mem_dealloc_impl_eq tid' (h1.set_owner_tid F tid') F (by omega)
      (by simp [g3]; exact inv.init) hv.1 hv.2 (by simp [fa]) (Or.inl (by simp))
    have hseg0 : Seg (((h1.set_owner_tid F tid').set_is_allocated F 0).set_owner_tid F
        TID_NULL).blk (((h1.set_owner_tid F tid').set_is_allocated F 0).set_owner_tid F
        TID_NULL).free_list_head 0 (l1 ++ (F + total_size n) :: l2) 0 := by
      simp only [Heap.set_owner_tid_free_list_head, Heap.set_is_allocated_free_list_head]
      exact Seg.frame (fun a _ => by simp) inv1.seg
    obtain ⟨h3, hadd, hseg3, a1, a2, a3, adata⟩ := Seg.add hseg0 inv1.nodup inv1.ne_zero hF0 hlo
      (fun a ha => by
        rcases List.mem_cons.1 ha with rfl | ha
        · omega
        · have := hhi a ha; omega) inv1.length_lt
    rw [hadd] at heq
    have hsorted3 : (l1 ++ F :: (F + total_size n) :: l2).Pairwise (· < ·) := by
      have hs1 := List.pairwise_append.1 inv1.sorted
      refine List.pairwise_append.2 ⟨hs1.1, List.pairwise_cons.2 ⟨fun a ha => ?_, hs1.2.1⟩,
        fun a ha b hb => ?_⟩
      · rcases List.mem_cons.1 ha with rfl | ha
        · omega
        · have := hhi a ha; omega
      · rcases List.mem_cons.1 hb with rfl | hb
        · exact hlo a ha
        · exact hs1.2.2 a ha b hb
    have hnd3 : (l1 ++ F :: (F + total_size n) :: l2).Nodup :=
      hsorted3.imp (fun hab => Nat.ne_of_lt hab)
    have hnz3 : ∀ a ∈ l1 ++ F :: (F + total_size n) :: l2, a ≠ 0 := fun a ha => by
      rcases List.mem_append.1 ha with ha | ha
      · exact inv.ne_zero a (hl1 a ha)
      · rcases List.mem_cons.1 ha with rfl | ha
        · exact hF0
        · rcases List.mem_cons.1 ha with rfl | ha
          · omega
          · exact inv.ne_zero a (hl2 a ha)
    have hRfree : (h3.blk (F + total_size n)).is_allocated = 0 := by
      rw [(adata _).2.1]
      simp only [Heap.set_owner_tid_is_allocated, Heap.set_is_allocated_is_allocated]
      rw [if_neg (by omega)]
      exact (inv1.free _ (by simp)).1
    have hFsz3 : (h3.blk F).size = total_size n := by
      rw [(adata _).1]; simpa using sF
    have hRsz3 : (h3.blk (F + total_size n)).size = (h.blk F).size - total_size n := by
      rw [(adata _).1]; simpa using sR
    have hadj : u32 (F + (h3.blk F).size) = F + total_size n := by
      rw [hFsz3]; unfold u32; omega
    obtain ⟨hseg4, c1, c2, c3, c4, c5⟩ := coalesce_next_merge hseg3 hnd3 hnz3 hRfree hadj
    have hskip : coalesce_prev (coalesce_next h3 F) F = coalesce_next h3 F := by
      apply coalesce_prev_skip
      rw [(Seg.at_mid hseg4).1]
      rcases lastOr_eq_or_mem l1 0 with ⟨-, e⟩ | hm
      · exact Or.inl e
      · refine Or.inr (Or.inr ?_)
        have hne : lastOr l1 0 ≠ F := Nat.ne_of_lt (hlo _ hm)
        rw [c5 _ hne, (adata _).1]
        simp only [Heap.set_owner_tid_size, Heap.set_is_allocated_size]
        rw [(hdata _ hne (by have := hlo _ hm; omega)).1]
        have := hgapF _ hm
        unfold u32; omega
    refine ⟨coalesce_next h3 F, hal, ?_, ?_, ?_, ?_, ?_⟩
    · rw [heq]; simp [coalesce_free_blocks, hskip]
    · rw [c1, a1]; simpa using g1
    · rw [c2, a2]; simpa using g2
    · rw [c3, a3]; simpa using g3
    · refine Seg.blk_eq inv.seg hseg4 (fun a ha => ?_)
      rw [(coalesce_next_flags _ _ _).1, (coalesce_next_flags _ _ _).2, (adata _).2.1,
        (adata _).2.2]
      by_cases haF : a = F
      · subst haF
        rw [c4, hFsz3, hRsz3]
        have hfr := inv.free a ha
        refine ⟨by unfold u32; omega, by simp [hfr.1], by simp [hfr.2]⟩
      · have haR : a ≠ F + total_size n := by
          rcases List.mem_append.1 ha with ha | ha
          · have := hlo a ha; omega
          · rcases List.mem_cons.1 ha with rfl | ha
            · exact absurd rfl haF
            · have := hhi a ha; omega
        have hd := hdata a haF haR
        rw [c5 a haF, (adata _).1]
        simp [haF, hd.1, hd.2.1, hd.2.2]
  · rw [if_neg hsplit] at hcase
    obtain ⟨inv1, sF, hdata⟩ := hcase
    have hv := is_valid_pointer_block (h1.set_owner_tid F tid') F
      (by simp [g1]; exact hFin.1) (by simp [sF]; omega) (by simp [sF, g2]; omega)
      (by simp [g2]; exact hend)
    have heq := k_mem_dealloc_impl_eq tid' (h1.set_owner_tid F tid') F (by omega)
      (by simp [g3]; exact inv.init) hv.1 hv.2 (by simp [fa]) (Or.inl (by simp))
    have hseg0 : Seg (((h1.set_owner_tid F tid').set_is_allocated F 0).set_owner_tid F
        TID_NULL).blk (((h1.set_owner_tid F tid').set_is_allocated F 0).set_owner_tid F
        TID_NULL).free_list_head 0 (l1 ++ l2) 0 := by
      simp only [Heap.set_owner_tid_free_list_head, Heap.set_is_allocated_free_list_head]
      exact Seg.frame (fun a _ => by simp) inv1.seg
    obtain ⟨h3, hadd, hseg3, a1, a2, a3, adata⟩ := Seg.add hseg0 inv1.nodup inv1.ne_zero hF0 hlo
      (fun a ha => by have := hhi a ha; omega) inv1.length_lt
    rw [hadd] at heq
    have hFsz3 : (h3.blk F).size = (h.blk F).size := by
      rw [(adata _).1]; simpa using sF
    have hsz3 : ∀ a, a ≠ F → (h3.blk a).size = (h.blk a).size := fun a haF => by
      rw [(adata _).1]; simpa using (hdata a haF).1
    have hskip1 : coalesce_next h3 F = h3 := by
      apply coalesce_next_skip
      rw [(Seg.at_mid hseg3).2]
      rcases headD_eq_or_mem l2 0 with ⟨-, e⟩ | hm
      · exact Or.inl e
      · refine Or.inr (Or.inr ?_)
        rw [hFsz3]
        have := hhi _ hm
        have := (inv.inside _ (hl2 _ hm)).2
        unfold u32; omega
    have hskip2 : coalesce_prev h3 F = h3 := by
      apply coalesce_prev_skip
      rw [(Seg.at_mid hseg3).1]
      rcases lastOr_eq_or_mem l1 0 with ⟨-, e⟩ | hm
      · exact Or.inl e
      · refine Or.inr (Or.inr ?_)
        rw [hsz3 _ (Nat.ne_of_lt (hlo _ hm))]
        have := hgapF _ hm
        unfold u32; omega
    refine ⟨h3, hal, ?_, ?_, ?_, ?_, ?_⟩
    · rw [heq]; simp [coalesce_free_blocks, hskip1, hskip2]
    · rw [a1]; simpa using g1
    · rw [a2]; simpa using g2
    · rw [a3]; simpa using g3
    · refine Seg.blk_eq inv.seg hseg3 (fun a ha => ?_)
      rw [(adata _).2.1, (adata _).2.2]
      by_cases haF : a = F
      · subst haF
        have hfr := inv.free a ha
        refine ⟨hFsz3, by simp [hfr.1], by simp [hfr.2]⟩
      · have hd := hdata a haF
        rw [hsz3 a haF]
        simp [haF, hd.2.1, hd.2.2]

/-- The walk of `free_blocks` over a chain returns its blocks in order. -/
theorem free_blocks_loop_seg {m : Nat → mem_block} {l : List Nat} {p q : Nat}
    (hseg : Seg m p q l 0) (hnz : ∀ a ∈ l, a ≠ 0) (fuel : Nat) (hf : l.length < fuel) :
    free_blocks_loop m fuel p = some (l.map fun a => (a, (m a).size)) := by
  induction l generalizing p q fuel with
  | nil =>
    have hp : p = 0 := hseg
    subst hp
    cases fuel with
    | zero => simp at hf
    | succ f => simp [free_blocks_loop]
  | cons a l ih =>
    obtain ⟨h1, -, h3⟩ := hseg
    subst h1
    cases fuel with
    | zero => simp at hf
    | succ f =>
      have := ih h3 (fun b hb => hnz b (List.mem_cons_of_mem _ hb)) f
        (by simp at hf; omega)
      simp [free_blocks_loop, hnz p (List.mem_cons_self _ _), this]

/-- On a well-formed free list `free_blocks` returns the list with its sizes. -/
theorem free_blocks_inv {h : Heap} {l : List Nat} (inv : FreeListInv h l) :
    free_blocks h = some (l.map fun a => (a, (h.blk a).size)) :=
  free_blocks_loop_seg inv.seg inv.ne_zero _ inv.length_lt

/-- An allocation followed by the release of the same block by the task it was handed
to: the release returns `RTX_OK`, the free list is what it was before the allocation,
and the same request is served again at the same address. -/
theorem k_mem_alloc_dealloc_restores {h : Heap} {l : List Nat} (tid tid' n : Nat)
    (inv : FreeListInv h l) (hn : 0 < n) (hn' : n ≤ 4294967000)
    {p : Nat} {h1 : Heap} (hal : k_mem_alloc_impl tid h n = some (p, h1)) (hp : p ≠ 0) :
    ∃ h2, k_mem_dealloc_impl tid' (h1.set_owner_tid (u32 (p + 4294967296 - HDR)) tid') p =
        some (RTX_OK, h2) ∧
      FreeListInv h2 l ∧ h2.free_list_head = h.free_list_head ∧
      (∀ a ∈ l, h2.blk a = h.blk a) ∧
      ∀ tid'', ∃ m, k_mem_alloc_impl tid'' h2 n = some (p, m) := by
  have hH : HDR = 20 := rfl
  cases hf : l.find? (fun a => decide (total_size n ≤ (h.blk a).size)) with
  | none =>
    rw [List.find?_eq_none] at hf
    have := k_mem_alloc_impl_none tid n inv (fun a ha => by
      have := hf a ha
      simp at this
      exact this)
    rw [this] at hal
    simp only [Option.some.injEq, Prod.mk.injEq] at hal
    exact absurd hal.1.symm hp
  | some F =>
    rw [List.find?_eq_some] at hf
    obtain ⟨hfit, l1, l2, hl, hsm⟩ := hf
    subst hl
    simp only [decide_eq_true_eq] at hfit
    have hsmall : ∀ a ∈ l1, (h.blk a).size < total_size n := fun a ha => by
      have := hsm a ha; simp at this; exact this
    obtain ⟨h1', h2, hal', hde, g1, g2, g3, g4, g5⟩ :=
      alloc_dealloc_round_trip tid tid' n inv hn hn' hsmall hfit
    rw [hal'] at hal
    simp only [Option.some.injEq, Prod.mk.injEq] at hal
    obtain ⟨hpe, hhe⟩ := hal
    subst hpe
    subst hhe
    have hFin := inv.inside F (by simp)
    have hend := inv.end_lt
    have e : u32 (F + HDR + 4294967296 - HDR) = F := by unfold u32; omega
    rw [e]
    have inv2 : FreeListInv h2 (l1 ++ F :: l2) := inv.congr g1 g2 g3 g4 g5
    refine ⟨h2, hde, inv2, g4, g5, fun tid'' => ?_⟩
    obtain ⟨m, hm, -⟩ := k_mem_alloc_impl_fit tid'' n inv2 hn hn'
      (fun a ha => by rw [g5 a (List.mem_append_left _ ha)]; exact hsmall a ha)
      (by rw [g5 F (by simp)]; exact hfit)
    exact ⟨m, hm⟩

/-- C16. Stack recycling round trip. Start from a well-formed free list and let
`osCreateTask_impl` create the task `T` successfully. In any later state with the same
heap (no allocator call in between) in which `T` is the active task and its slot still
records its stack, the exit of `T` (SVC #17) returns, and afterwards the free list is the
one from before the creation: the same blocks with the same sizes in the same order. A
subsequent allocation of `T`'s stack size from that state succeeds, at the address of the
stack that was released. -/
theorem stack_recycling_round_trip (k k1 k2 : Kernel) (l : List Nat) (t t1 : TCB)
    (inv : FreeListInv k.mem l) (hss : t.stack_size < 65536)
    (hcreate : osCreateTask_impl k (some t) = some (RTX_OK, k1, some t1))
    (hmem : k2.mem = k1.mem) (hact : k2.g_active_task_id = t1.tid)
    (hslot : (k2.g_tasks t1.tid).stack_base = (k1.g_tasks t1.tid).stack_base) :
    ∃ k3 fl, SVC_17 k2 = some k3 ∧
      free_blocks k.mem = some fl ∧ free_blocks k3.mem = some fl ∧
      (k1.g_tasks t1.tid).stack_base ≠ 0 ∧
      ∀ tid, ∃ m, k_mem_alloc_impl tid k3.mem t.stack_size =
        some ((k1.g_tasks t1.tid).stack_base, m) := by
  have hS : STACK_SIZE = 1024 := rfl
  obtain ⟨a, m, hal, ha, -, -, hsz, hs, -, hk, ht⟩ :=
    osCreateTask_impl_ok k k1 t (some t1) hcreate
  have htid : t1.tid = find_dormant k := by
    simp only [Option.some.injEq] at ht
    rw [ht]
  have hbase : (k1.g_tasks (find_dormant k)).stack_base = a := by
    rw [hk, (create_preempt_static _ _ _).2.2.2.1, create_install_g_tasks, if_pos rfl]
  have hm1 : k1.mem = m.set_owner_tid (u32 (a + 4294967296 - HDR)) (find_dormant k) := by
    rw [hk]; simp
  obtain ⟨h2, hde, inv2, g4, g5, hre⟩ := k_mem_alloc_dealloc_restores k.g_active_task_id
    (find_dormant k) t.stack_size inv (by omega) (by omega) hal ha
  rw [htid] at hact hslot
  rw [htid, hbase]
  rw [hbase] at hslot
  refine ⟨trigger_context_switch (svc17_clear { k2 with mem := h2 } (find_dormant k)),
    l.map fun b => (b, (k.mem.blk b).size), ?_, free_blocks_inv inv, ?_, ha, ?_⟩
  · unfold SVC_17 osGetTID_internal
    dsimp only
    rw [hact, if_pos hs, hslot, hmem, hm1, hde]
  · have : (trigger_context_switch (svc17_clear { k2 with mem := h2 } (find_dormant k))).mem
        = h2 := by simp
    rw [this, free_blocks_inv inv2]
    congr 1
    exact List.map_congr_left (fun b hb => by rw [g5 b hb])
  · have : (trigger_context_switch (svc17_clear { k2 with mem := h2 } (find_dormant k))).mem
        = h2 := by simp
    rw [this]
    exact hre

theorem stack_recycling_round_trip_witness :
    FreeListInv sample_kernel.mem [0x20001000] ∧ sample_task.stack_size < 65536 ∧
    ∃ k1 t1, osCreateTask_impl sample_kernel (some sample_task) = some (RTX_OK, k1, some t1) ∧
      one_task_started.mem = k1.mem ∧ one_task_started.g_active_task_id = t1.tid ∧
      (one_task_started.g_tasks t1.tid).stack_base = (k1.g_tasks t1.tid).stack_base ∧
      ∃ k3 fl, SVC_17 one_task_started = some k3 ∧
        free_blocks sample_kernel.mem = some fl ∧ free_blocks k3.mem = some fl ∧
        (k1.g_tasks t1.tid).stack_base ≠ 0 ∧
        ∀ tid, ∃ m, k_mem_alloc_impl tid k3.mem sample_task.stack_size =
          some ((k1.g_tasks t1.tid).stack_base, m) := by
  obtain ⟨⟨k', t'⟩, h⟩ := exists_of_map_fst (osCreateTask_impl sample_kernel (some sample_task))
    RTX_OK (by decide)
  obtain ⟨a, m, -, -, -, -, -, -, -, -, ht⟩ := osCreateTask_impl_ok sample_kernel k' sample_task t' h
  have hk : k' = one_task_created := by
    unfold one_task_created
    rw [h]
  have hs : one_task_started = (osKernelStart k').2 := by
    unfold one_task_started
    rw [h]
  have hfd : find_dormant sample_kernel = 1 := by decide
  rw [hfd] at ht
  subst ht
  have h1 : one_task_started.mem = k'.mem := by rw [hs, osKernelStart_mem]
  have h2 : one_task_started.g_active_task_id = 1 := by decide
  have h3 : (one_task_started.g_tasks 1).stack_base = (k'.g_tasks 1).stack_base := by
    rw [hk]; decide
  exact ⟨sample_kernel_inv, by decide, k', _, h, h1, h2, h3,
    stack_recycling_round_trip sample_kernel k' one_task_started [0x20001000] sample_task _
      sample_kernel_inv (by decide) h h1 h2 h3⟩

/-- C21. `osSleep(10)` called by task 1 of `one_task_started`, whose slice is 5: the task
is Sleeping, the requested time is stored in `time_left`, and `sleep_time` still holds
0; a call with `ms = 0` changes nothing. -/
theorem osSleep_writes_time_left :
    one_task_started.g_active_task_id = 1 ∧
    (one_task_started.g_tasks 1).time_left = 5 ∧
    (one_task_started.g_tasks 1).sleep_time = 0 ∧
    ((osSleep one_task_started 10).g_tasks 1).state = SLEEPING ∧
    ((osSleep one_task_started 10).g_tasks 1).time_left = 10 ∧
    ((osSleep one_task_started 10).g_tasks 1).sleep_time = 0 ∧
    osSleep one_task_started 0 = one_task_started := by
  refine ⟨by decide, by decide, by decide, by decide, by decide, by decide, ?_⟩
  unfold osSleep
  simp

/-- C20. Task 1 of `one_task_started` has been dispatched (its fresh flag is cleared) and
has deadline 5; after it calls `osSleep(10)` its `time_left` is 10, above its deadline. -/
theorem osSleep_breaks_slice_bound :
    (one_task_started.g_tasks 1).is_fresh_task = TASK_EXISTING ∧
    (one_task_started.g_tasks 1).time_left ≤ (one_task_started.g_tasks 1).deadline_value ∧
    ((osSleep one_task_started 10).g_tasks 1).is_fresh_task = TASK_EXISTING ∧
    ((osSleep one_task_started 10).g_tasks 1).deadline_value = 5 ∧
    ((osSleep one_task_started 10).g_tasks 1).time_left = 10 := by
  decide

/-- C30. On the freshly initialised heap a request of `0xFFFFFFFD` bytes is rounded to 0
in 32-bit arithmetic, so the total is the header size alone: the call returns a non-null
pointer to a block whose size field is 20, a payload capacity of 0 bytes. -/
theorem k_mem_alloc_impl_size_wrap :
    aligned_size 0xFFFFFFFD = 0 ∧ total_size 0xFFFFFFFD = HDR ∧
    (k_mem_alloc_impl 0 sample_kernel.mem 0xFFFFFFFD).map
      (fun r => (r.1, (r.2.blk (r.1 - HDR)).size, (r.2.blk (r.1 - HDR)).is_allocated)) =
      some (0x20001014, 20, 1) := by
  decide

/-- C27. With task 1 Running at deadline 10, `osCreateDeadlineTask_impl(20, t)` returns
`RTX_OK`, yet the new task (slot 2, deadline 20) is marked Running and no longer fresh,
and task 1 has been demoted to Ready: the check inside `osCreateTask_impl` compared the
default deadline 5 with 10 before the deadline 20 was stored. -/
theorem osCreateDeadlineTask_impl_preempts_on_default :
    deadline_task_started.g_kernel_running = 1 ∧
    deadline_task_started.g_active_task_id = 1 ∧
    (deadline_task_started.g_tasks 1).state = RUNNING ∧
    (deadline_task_started.g_tasks 1).deadline_value = 10 ∧
    second_deadline_task.1 = RTX_OK ∧
    (second_deadline_task.2.g_tasks 2).deadline_value = 20 ∧
    (second_deadline_task.2.g_tasks 2).state = RUNNING ∧
    (second_deadline_task.2.g_tasks 2).is_fresh_task = TASK_EXISTING ∧
    (second_deadline_task.2.g_tasks 1).state = READY ∧
    second_deadline_task.2.pendsv = true ∧
    second_deadline_task.2.target_task_id = 2 := by
  decide

/-- C28, the claim as stated fails: task 1 is the current task and is Sleeping, so the
scheduler returns the Null Task, which differs from the current task; after
`trigger_context_switch` the Null Task is still Ready, not Running. -/
theorem trigger_context_switch_null_not_running :
    one_task_sleeping.g_active_task_id = 1 ∧
    edf_scheduler one_task_sleeping = TID_NULL ∧
    ((trigger_context_switch one_task_sleeping).g_tasks TID_NULL).state = READY ∧
    (trigger_context_switch one_task_sleeping).pendsv = false := by
  decide

@[simp] theorem trigger_context_switch_pendsv (k : Kernel) :
    (trigger_context_switch k).pendsv =
      if edf_scheduler k = TID_NULL ∨ edf_scheduler k = k.g_active_task_id then k.pendsv
      else true := by
  unfold trigger_context_switch osGetTID_internal
  dsimp only
  split_ifs <;> simp

/-- C28, amended. Let `next = edf_scheduler()` and let `c` be the current task. If `next`
is the Null Task or `next = c`, `trigger_context_switch` writes `target_task_id` and
nothing else. Otherwise `next` is Running with its fresh flag cleared and its `time_left`
refilled to its deadline if it was 0; `c`, if it is not the Null Task and was Running, is
Ready with its `time_left` refilled to its deadline if it was 0; every other slot is
unchanged; and PendSV is pending. -/
theorem trigger_context_switch_procedure (k : Kernel) :
    ((edf_scheduler k = TID_NULL ∨ edf_scheduler k = k.g_active_task_id) →
      trigger_context_switch k = { k with target_task_id := edf_scheduler k }) ∧
    (edf_scheduler k ≠ TID_NULL → edf_scheduler k ≠ k.g_active_task_id →
      (trigger_context_switch k).g_tasks (edf_scheduler k) =
        { k.g_tasks (edf_scheduler k) with
          state := RUNNING, is_fresh_task := TASK_EXISTING,
          time_left := if (k.g_tasks (edf_scheduler k)).time_left = 0
                       then (k.g_tasks (edf_scheduler k)).deadline_value
                       else (k.g_tasks (edf_scheduler k)).time_left } ∧
      (k.g_active_task_id ≠ TID_NULL → (k.g_tasks k.g_active_task_id).state = RUNNING →
        (trigger_context_switch k).g_tasks k.g_active_task_id =
          { k.g_tasks k.g_active_task_id with
            state := READY,
            time_left := if (k.g_tasks k.g_active_task_id).time_left = 0
                         then (k.g_tasks k.g_active_task_id).deadline_value
                         else (k.g_tasks k.g_active_task_id).time_left }) ∧
      (∀ i, i ≠ edf_scheduler k →
        ¬ (i = k.g_active_task_id ∧ i ≠ TID_NULL ∧ (k.g_tasks i).state = RUNNING) →
        (trigger_context_switch k).g_tasks i = k.g_tasks i) ∧
      (trigger_context_switch k).pendsv = true ∧
      (trigger_context_switch k).target_task_id = edf_scheduler k ∧
      (trigger_context_switch k).g_active_task_id = k.g_active_task_id) := by
  refine ⟨fun h => ?_, fun h1 h2 => ?_⟩
  · unfold trigger_context_switch osGetTID_internal
    dsimp only
    rw [if_pos h]
  · have hno : ¬ (edf_scheduler k = TID_NULL ∨ edf_scheduler k = k.g_active_task_id) := by
      rintro (h | h)
      · exact h1 h
      · exact h2 h
    refine ⟨?_, ?_, ?_, ?_, ?_, ?_⟩
    · rw [trigger_context_switch_g_tasks, if_neg hno, if_pos rfl]
      simp [refill]
    · intro h3 h4
      rw [trigger_context_switch_g_tasks, if_neg hno, if_neg (Ne.symm h2), if_pos ⟨rfl, h3, h4⟩]
      simp [refill]
    · intro i h3 h4
      rw [trigger_context_switch_g_tasks, if_neg hno, if_neg h3, if_neg h4]
    · rw [trigger_context_switch_pendsv, if_neg hno]
    · simp
    · simp

/-- Where a non-null result of `k_mem_alloc_impl` lies: the payload is 4-byte aligned and
the requested bytes fit between it and the heap high boundary. -/
theorem k_mem_alloc_impl_extent {h : Heap} {l : List Nat} (tid n : Nat)
    (inv : FreeListInv h l) (hn : 0 < n) (hn' : n ≤ 4294967000)
    {p : Nat} {h' : Heap} (hal : k_mem_alloc_impl tid h n = some (p, h')) (hp : p ≠ 0) :
    p % 4 = 0 ∧ h.heap_start + HDR ≤ p ∧ p + n ≤ h.heap_end ∧
      n + HDR ≤ (h'.blk (p - HDR)).size := by
  have hH : HDR = 20 := rfl
  cases hf : l.find? (fun a => decide (total_size n ≤ (h.blk a).size)) with
  | none =>
    rw [List.find?_eq_none] at hf
    have := k_mem_alloc_impl_none tid n inv (fun a ha => by
      have := hf a ha
      simp at this
      exact this)
    rw [this] at hal
    simp only [Option.some.injEq, Prod.mk.injEq] at hal
    exact absurd hal.1.symm hp
  | some F =>
    rw [List.find?_eq_some] at hf
    obtain ⟨hfit, l1, l2, hl, hsm⟩ := hf
    subst hl
    simp only [decide_eq_true_eq] at hfit
    obtain ⟨h1, hal', -, -, -, -, -, -, -, hcase⟩ := k_mem_alloc_impl_fit tid n inv hn hn'
      (fun a ha => by have := hsm a ha; simp at this; exact this) hfit
    rw [hal'] at hal
    simp only [Option.some.injEq, Prod.mk.injEq] at hal
    obtain ⟨hpe, hhe⟩ := hal
    subst hpe
    subst hhe
    have hFin := inv.inside F (by simp)
    have hal4 := inv.aligned F (by simp)
    obtain ⟨ht1, ht2, ht3⟩ := total_size_bounds n hn'
    have hsub : F + HDR - HDR = F := by omega
    rw [hsub]
    refine ⟨by omega, by omega, by omega, ?_⟩
    by_cases hc : total_size n + HDR + 16 ≤ (h.blk F).size
    · rw [if_pos hc] at hcase
      rw [hcase.2.1]; exact ht1
    · rw [if_neg hc] at hcase
      rw [hcase.2.1]; omega

theorem deadline_preempt_static (k : Kernel) (d : Int) (i : Nat) :
    ((deadline_preempt k d).g_tasks i).stack_high = (k.g_tasks i).stack_high ∧
    ((deadline_preempt k d).g_tasks i).stack_size = (k.g_tasks i).stack_size ∧
    ((deadline_preempt k d).g_tasks i).stack_base = (k.g_tasks i).stack_base := by
  unfold deadline_preempt
  split_ifs
  · have := trigger_context_switch_static k i
    exact ⟨this.2.1, this.2.2.1, this.2.2.2.1⟩
  · simp

/-- What a successful `osCreateDeadlineTask_impl` is made of. -/
theorem osCreateDeadlineTask_impl_ok (k k' : Kernel) (d : Int) (t : TCB) (t' : Option TCB)
    (h : osCreateDeadlineTask_impl k d (some t) = some (RTX_OK, k', t')) :
    ∃ k1, osCreateTask_impl k (some t) = some (RTX_OK, k1, t') ∧ 0 < d ∧
      k' = deadline_preempt (deadline_install k1 (t'.getD t).tid d) d := by
  unfold osCreateDeadlineTask_impl at h
  dsimp only at h
  by_cases h1 : d ≤ 0 ∨ t.stack_size < STACK_SIZE
  · rw [if_pos h1] at h; simp at h
  rw [if_neg h1] at h
  cases hc : osCreateTask_impl k (some t) with
  | none => rw [hc] at h; simp at h
  | some r =>
    obtain ⟨res, k1, t1⟩ := r
    rw [hc] at h
    dsimp only at h
    by_cases h2 : res ≠ RTX_OK
    · rw [if_pos h2] at h
      simp only [Option.some.injEq, Prod.mk.injEq] at h
      exact absurd h.1 h2
    · rw [if_neg h2] at h
      simp only [Option.some.injEq, Prod.mk.injEq, true_and] at h
      have hres : res = RTX_OK := not_not.1 h2
      subst hres
      obtain ⟨hk, ht⟩ := h
      subst ht
      exact ⟨k1, rfl, by omega, hk.symm⟩

/-- The stack fields of the slot filled by a successful `osCreateTask_impl` on a
well-formed heap. -/
theorem osCreateTask_impl_stack {k k' : Kernel} {l : List Nat} {t t' : TCB}
    (inv : FreeListInv k.mem l) (hss : t.stack_size < 65536)
    (h : osCreateTask_impl k (some t) = some (RTX_OK, k', some t')) :
    (k'.g_tasks t'.tid).stack_size = t.stack_size ∧
    (k'.g_tasks t'.tid).stack_high =
      (k'.g_tasks t'.tid).stack_base + (k'.g_tasks t'.tid).stack_size ∧
    (k'.g_tasks t'.tid).stack_base % 4 = 0 ∧
    k.mem.heap_start + HDR ≤ (k'.g_tasks t'.tid).stack_base ∧
    (k'.g_tasks t'.tid).stack_high ≤ k.mem.heap_end := by
  have hS : STACK_SIZE = 1024 := rfl
  obtain ⟨a, m, hal, ha, -, -, hsz, -, -, hk, ht⟩ := osCreateTask_impl_ok k k' t (some t') h
  have htid : t'.tid = find_dormant k := by
    simp only [Option.some.injEq] at ht
    rw [ht]
  obtain ⟨e1, e2, e3, e4⟩ := k_mem_alloc_impl_extent k.g_active_task_id t.stack_size inv
    (by omega) (by omega) hal ha
  have hst := create_preempt_static (create_install { k with mem := m } (find_dormant k) t a)
    (find_dormant k) (find_dormant k)
  have hin := create_install_g_tasks { k with mem := m } (find_dormant k) t a (find_dormant k)
  rw [if_pos rfl] at hin
  rw [← hk, hin] at hst
  obtain ⟨-, s2, s3, s4, -⟩ := hst
  dsimp only at s2 s3 s4
  have hend := inv.end_lt
  rw [htid, s2, s3, s4]
  refine ⟨rfl, ?_, e1, e2, ?_⟩
  · unfold u32; omega
  · unfold u32; omega

/-- C19, the claim as stated fails: the heap low boundary of `sample_kernel` is 4-byte
aligned and the first task is created with a stack of 1024 bytes; its `stack_high` is
`stack_base + 1024`, and it is 4 modulo 8. -/
theorem stack_high_not_8_aligned :
    sample_kernel.mem.heap_start % 4 = 0 ∧
    (one_task_created.g_tasks 1).state = READY ∧
    (one_task_created.g_tasks 1).stack_size = 1024 ∧
    (one_task_created.g_tasks 1).stack_high - (one_task_created.g_tasks 1).stack_base = 1024 ∧
    (one_task_created.g_tasks 1).stack_high % 8 = 4 := by
  decide

/-- C19, amended. For every task created by `osCreateTask_impl` or
`osCreateDeadlineTask_impl` on a well-formed heap (any accepted stack size),
`stack_high = stack_base + stack_size` without wrap-around, `stack_base` is a multiple of
4, and `stack_high` is a multiple of 4 whenever the stack size is. -/
theorem stack_high_alignment (k : Kernel) (l : List Nat) (t : TCB)
    (inv : FreeListInv k.mem l) (hss : t.stack_size < 65536) :
    (∀ k' t', osCreateTask_impl k (some t) = some (RTX_OK, k', some t') →
      (k'.g_tasks t'.tid).stack_size = t.stack_size ∧
      (k'.g_tasks t'.tid).stack_high - (k'.g_tasks t'.tid).stack_base =
        (k'.g_tasks t'.tid).stack_size ∧
      (k'.g_tasks t'.tid).stack_base ≤ (k'.g_tasks t'.tid).stack_high ∧
      (k'.g_tasks t'.tid).stack_base % 4 = 0 ∧
      (t.stack_size % 4 = 0 → (k'.g_tasks t'.tid).stack_high % 4 = 0)) ∧
    (∀ d k' t', osCreateDeadlineTask_impl k d (some t) = some (RTX_OK, k', some t') →
      (k'.g_tasks t'.tid).stack_size = t.stack_size ∧
      (k'.g_tasks t'.tid).stack_high - (k'.g_tasks t'.tid).stack_base =
        (k'.g_tasks t'.tid).stack_size ∧
      (k'.g_tasks t'.tid).stack_base ≤ (k'.g_tasks t'.tid).stack_high ∧
      (k'.g_tasks t'.tid).stack_base % 4 = 0 ∧
      (t.stack_size % 4 = 0 → (k'.g_tasks t'.tid).stack_high % 4 = 0)) := by
  refine ⟨fun k' t' h => ?_, fun d k' t' h => ?_⟩
  · obtain ⟨e1, e2, e3, -, -⟩ := osCreateTask_impl_stack inv hss h
    refine ⟨e1, by omega, by omega, e3, fun h4 => ?_⟩
    rw [e2, e1]; omega
  · obtain ⟨k1, hc, -, hk⟩ := osCreateDeadlineTask_impl_ok k k' d t (some t') h
    obtain ⟨e1, e2, e3, -, -⟩ := osCreateTask_impl_stack inv hss hc
    have hst := deadline_preempt_static (deadline_install k1 t'.tid d) d t'.tid
    simp only [Option.getD_some] at hk
    rw [← hk] at hst
    have hin : (deadline_install k1 t'.tid d).g_tasks t'.tid =
        { k1.g_tasks t'.tid with deadline_value := ofInt32 d, time_left := ofInt32 d,
                                  next_period_start := 0, is_periodic := 1 } := by
      simp [deadline_install]
    rw [hin] at hst
    obtain ⟨s1, s2, s3⟩ := hst
    dsimp only at s1 s2 s3
    rw [s1, s2, s3]
    refine ⟨e1, by omega, by omega, e3, fun h4 => ?_⟩
    rw [e2, e1]; omega

theorem stack_high_alignment_witness :
    FreeListInv sample_kernel.mem [0x20001000] ∧ sample_task.stack_size < 65536 ∧
    ∃ k' t', osCreateTask_impl sample_kernel (some sample_task) = some (RTX_OK, k', some t') ∧
      (k'.g_tasks t'.tid).stack_size = sample_task.stack_size ∧
      (k'.g_tasks t'.tid).stack_high - (k'.g_tasks t'.tid).stack_base =
        (k'.g_tasks t'.tid).stack_size ∧
      (k'.g_tasks t'.tid).stack_base ≤ (k'.g_tasks t'.tid).stack_high ∧
      (k'.g_tasks t'.tid).stack_base % 4 = 0 ∧
      (sample_task.stack_size % 4 = 0 → (k'.g_tasks t'.tid).stack_high % 4 = 0) := by
  obtain ⟨⟨k', t'⟩, h⟩ := exists_of_map_fst (osCreateTask_impl sample_kernel (some sample_task))
    RTX_OK (by decide)
  obtain ⟨a, m, -, -, -, -, -, -, -, -, ht⟩ :=
    osCreateTask_impl_ok sample_kernel k' sample_task t' h
  subst ht
  exact ⟨sample_kernel_inv, by decide, k', _, h,
    (stack_high_alignment sample_kernel [0x20001000] sample_task sample_kernel_inv
      (by decide)).1 k' _ h⟩

/-- Every non-null result of `k_mem_alloc_impl` on a well-formed free list comes from the
first block of the list that is large enough. -/
theorem k_mem_alloc_impl_first_fit {h : Heap} {l : List Nat} (tid n : Nat)
    (inv : FreeListInv h l) (hn : 0 < n) (hn' : n ≤ 4294967000)
    {p : Nat} {h' : Heap} (hal : k_mem_alloc_impl tid h n = some (p, h')) (hp : p ≠ 0) :
    ∃ l1 l2 F, l = l1 ++ F :: l2 ∧ p = F + HDR ∧
      (∀ a ∈ l1, (h.blk a).size < total_size n) ∧ total_size n ≤ (h.blk F).size := by
  cases hf : l.find? (fun a => decide (total_size n ≤ (h.blk a).size)) with
  | none =>
    rw [List.find?_eq_none] at hf
    have := k_mem_alloc_impl_none tid n inv (fun a ha => by
      have := hf a ha
      simp at this
      exact this)
    rw [this] at hal
    simp only [Option.some.injEq, Prod.mk.injEq] at hal
    exact absurd hal.1.symm hp
  | some F =>
    rw [List.find?_eq_some] at hf
    obtain ⟨hfit, l1, l2, hl, hsm⟩ := hf
    simp only [decide_eq_true_eq] at hfit
    have hsmall : ∀ a ∈ l1, (h.blk a).size < total_size n := fun a ha => by
      have := hsm a ha; simp at this; exact this
    subst hl
    obtain ⟨h1, hal', -⟩ := k_mem_alloc_impl_fit tid n inv hn hn' hsmall hfit
    rw [hal'] at hal
    simp only [Option.some.injEq, Prod.mk.injEq] at hal
    exact ⟨l1, l2, F, rfl, hal.1.symm, hsmall, hfit⟩

/-- Allocation marks ownership, for a request of at most 4294967000 bytes. On a
well-formed free list, whenever `k_mem_alloc_impl` returns a non-null pointer `p`, the block whose header precedes `p`
was on the free list, is now marked allocated with `owner_tid` equal to the current task
identifier, and is not on the free list any more (which is well formed again); the
allocated flag and the owner of every header outside the extent of that block are
unchanged. -/
theorem k_mem_alloc_impl_marks_owner {h h' : Heap} {l : List Nat} (tid n p : Nat)
    (inv : FreeListInv h l) (hn : 0 < n) (hn' : n ≤ 4294967000)
    (hal : k_mem_alloc_impl tid h n = some (p, h')) (hp : p ≠ 0) :
    HDR ≤ p ∧ p - HDR ∈ l ∧
    (h'.blk (p - HDR)).is_allocated = 1 ∧ (h'.blk (p - HDR)).owner_tid = tid ∧
    (∃ l', FreeListInv h' l' ∧ p - HDR ∉ l' ∧
      free_blocks h' = some (l'.map fun a => (a, (h'.blk a).size))) ∧
    ∀ b, (b < p - HDR ∨ p - HDR + (h.blk (p - HDR)).size ≤ b) →
      (h'.blk b).is_allocated = (h.blk b).is_allocated ∧
      (h'.blk b).owner_tid = (h.blk b).owner_tid := by
  have hH : HDR = 20 := rfl
  obtain ⟨l1, l2, F, hl, hpF, hsmall, hfit⟩ := k_mem_alloc_impl_first_fit tid n inv hn hn' hal hp
  subst hl
  subst hpF
  obtain ⟨h1, hal', -, -, -, fa, fo, -, -, hcase⟩ :=
    k_mem_alloc_impl_fit tid n inv hn hn' hsmall hfit
  rw [hal'] at hal
  simp only [Option.some.injEq, Prod.mk.injEq, true_and] at hal
  subst hal
  obtain ⟨ht1, ht2, ht3⟩ := total_size_bounds n hn'
  have hsub : F + HDR - HDR = F := by omega
  rw [hsub]
  have hnd := inv.nodup
  have hF1 : F ∉ l1 := fun hm => (List.nodup_append.1 hnd).2.2 hm (List.mem_cons_self _ _)
  have hF2 : F ∉ l2 := (List.nodup_cons.1 (List.nodup_append.1 hnd).2.1).1
  refine ⟨by omega, by simp, fa, fo, ?_, ?_⟩
  · by_cases hc : total_size n + HDR + 16 ≤ (h.blk F).size
    · rw [if_pos hc] at hcase
      refine ⟨_, hcase.1, ?_, free_blocks_inv hcase.1⟩
      intro hm
      rcases List.mem_append.1 hm with h1 | h1
      · exact hF1 h1
      · rcases List.mem_cons.1 h1 with h3 | h3
        · omega
        · exact hF2 h3
    · rw [if_neg hc] at hcase
      refine ⟨_, hcase.1, ?_, free_blocks_inv hcase.1⟩
      intro hm
      rcases List.mem_append.1 hm with h1 | h1
      · exact hF1 h1
      · exact hF2 h1
  · intro b hb
    by_cases hc : total_size n + HDR + 16 ≤ (h.blk F).size
    · rw [if_pos hc] at hcase
      have := hcase.2.2.2 b (by omega) (by omega)
      exact ⟨this.2.1, this.2.2⟩
    · rw [if_neg hc] at hcase
      have := hcase.2.2 b (by omega)
      exact ⟨this.2.1, this.2.2⟩

theorem k_mem_alloc_impl_marks_owner_witness :
    ∃ p h', k_mem_alloc_impl 3 sample_kernel.mem 64 = some (p, h') ∧ p ≠ 0 ∧
      (h'.blk (p - HDR)).is_allocated = 1 ∧ (h'.blk (p - HDR)).owner_tid = 3 := by
  obtain ⟨p, h', l', hal, -, -, hnn⟩ := k_mem_alloc_impl_inv 3 64 sample_kernel_inv
    (by decide) (by decide)
  have hp : p ≠ 0 := by
    have : (k_mem_alloc_impl 3 sample_kernel.mem 64).map Prod.fst = some 0x20001014 := by
      decide
    rw [hal] at this
    simp only [Option.map_some', Option.some.injEq] at this
    rw [this]; decide
  have := k_mem_alloc_impl_marks_owner 3 64 p sample_kernel_inv (by decide) (by decide) hal hp
  exact ⟨p, h', hal, hp, this.2.2.1, this.2.2.2.1⟩

theorem total_size_eq (n : Nat) (hn : n ≤ 4294967000) :
    total_size n = (n + 3) / 4 * 4 + HDR := by
  have hH : HDR = 20 := rfl
  unfold total_size aligned_size u32
  split_ifs with h <;> omega

/-- The split rule for a request of at most 4294967000 bytes. On a well-formed free
list, let `k_mem_alloc_impl(n)` return the non-null pointer `p`, let `F = p - HDR` be the selected block, `S` its size before the
call and `total = (n rounded up to a multiple of 4) + HDR`. Then `F` was on the free list
with `total ≤ S`. If `S ≥ total + HDR + 16` the block is split: `F` has size exactly
`total`, and a free block of size `S - total` at `F + total` has taken the place of `F`
on the free list. Otherwise `F` keeps size `S`, and the free list is the old one without
`F`: no block is created. The sizes of the other blocks of the list do not change. -/
theorem k_mem_alloc_impl_split_rule {h h' : Heap} {l : List Nat} (tid n p : Nat)
    (inv : FreeListInv h l) (hn : 0 < n) (hn' : n ≤ 4294967000)
    (hal : k_mem_alloc_impl tid h n = some (p, h')) (hp : p ≠ 0) :
    total_size n = (n + 3) / 4 * 4 + HDR ∧
    ∃ l1 l2, l = l1 ++ (p - HDR) :: l2 ∧ total_size n ≤ (h.blk (p - HDR)).size ∧
      (total_size n + HDR + 16 ≤ (h.blk (p - HDR)).size →
        (h'.blk (p - HDR)).size = total_size n ∧
        (h'.blk (p - HDR + total_size n)).size = (h.blk (p - HDR)).size - total_size n ∧
        (h'.blk (p - HDR + total_size n)).is_allocated = 0 ∧
        FreeListInv h' (l1 ++ (p - HDR + total_size n) :: l2)) ∧
      (¬ total_size n + HDR + 16 ≤ (h.blk (p - HDR)).size →
        (h'.blk (p - HDR)).size = (h.blk (p - HDR)).size ∧
        FreeListInv h' (l1 ++ l2)) ∧
      ∀ b ∈ l1 ++ l2, (h'.blk b).size = (h.blk b).size := by
  have hH : HDR = 20 := rfl
  refine ⟨total_size_eq n hn', ?_⟩
  obtain ⟨l1, l2, F, hl, hpF, hsmall, hfit⟩ := k_mem_alloc_impl_first_fit tid n inv hn hn' hal hp
  subst hl
  subst hpF
  obtain ⟨h1, hal', -, -, -, -, -, -, -, hcase⟩ :=
    k_mem_alloc_impl_fit tid n inv hn hn' hsmall hfit
  rw [hal'] at hal
  simp only [Option.some.injEq, Prod.mk.injEq, true_and] at hal
  subst hal
  obtain ⟨ht1, ht2, ht3⟩ := total_size_bounds n hn'
  have hsub : F + HDR - HDR = F := by omega
  rw [hsub]
  have hnd := inv.nodup
  have hF1 : F ∉ l1 := fun hm => (List.nodup_append.1 hnd).2.2 hm (List.mem_cons_self _ _)
  have hF2 : F ∉ l2 := (List.nodup_cons.1 (List.nodup_append.1 hnd).2.1).1
  have hFin := inv.inside F (by simp)
  have hlo : ∀ a ∈ l1, a < F := fun a ha =>
    (List.pairwise_append.1 inv.sorted).2.2 a ha F (List.mem_cons_self _ _)
  have hhi : ∀ a ∈ l2, F + (h.blk F).size < a := fun a ha =>
    List.rel_of_pairwise_cons (List.pairwise_append.1 inv.gaps).2.1 ha
  refine ⟨l1, l2, rfl, hfit, fun hc => ?_, fun hc => ?_, fun b hb => ?_⟩
  · rw [if_pos hc] at hcase
    exact ⟨hcase.2.1, hcase.2.2.1, (hcase.1.free _ (by simp)).1, hcase.1⟩
  · rw [if_neg hc] at hcase
    exact ⟨hcase.2.1, hcase.1⟩
  · have hbF : b ≠ F := by
      rintro rfl
      rcases List.mem_append.1 hb with h1 | h1
      · exact hF1 h1
      · exact hF2 h1
    by_cases hc : total_size n + HDR + 16 ≤ (h.blk F).size
    · rw [if_pos hc] at hcase
      refine (hcase.2.2.2 b hbF ?_).1
      rcases List.mem_append.1 hb with h1 | h1
      · have := hlo b h1; omega
      · have := hhi b h1; omega
    · rw [if_neg hc] at hcase
      exact (hcase.2.2 b hbF).1

theorem k_mem_alloc_impl_split_rule_witness :
    ∃ p h', k_mem_alloc_impl 3 sample_kernel.mem 64 = some (p, h') ∧ p ≠ 0 ∧
      total_size 64 = 84 ∧ (h'.blk (p - HDR)).size = 84 ∧
      (h'.blk (p - HDR + 84)).size = (sample_kernel.mem.blk (p - HDR)).size - 84 := by
  obtain ⟨p, h', l', hal, -, -, hnn⟩ := k_mem_alloc_impl_inv 3 64 sample_kernel_inv
    (by decide) (by decide)
  have hpv : p = 0x20001014 := by
    have : (k_mem_alloc_impl 3 sample_kernel.mem 64).map Prod.fst = some 0x20001014 := by
      decide
    rw [hal] at this
    simpa using this
  have hp : p ≠ 0 := by rw [hpv]; decide
  obtain ⟨ht, l1, l2, -, -, hsplit, -, -⟩ :=
    k_mem_alloc_impl_split_rule 3 64 p sample_kernel_inv (by decide) (by decide) hal hp
  have hbig : total_size 64 + HDR + 16 ≤ (sample_kernel.mem.blk (p - HDR)).size := by
    rw [hpv]; decide
  have ht' : total_size 64 = 84 := by decide
  obtain ⟨s1, s2, -, -⟩ := hsplit hbig
  rw [ht'] at s1 s2
  exact ⟨p, h', hal, hp, ht', s1, s2⟩

theorem below_succ (H j : Nat) (hj : j < 1000) :
    u32 (below H j + 4294967296 - 4) = below H (j + 1) := by
  unfold below u32; omega

theorem below_ne (H i j : Nat) (hi : i < 1000) (hj : j < 1000) (hij : i ≠ j) :
    below H i ≠ below H j := by
  unfold below u32; omega

theorem Kernel.push_spec (k : Kernel) (t v H j : Nat) (hj : j < 1000)
    (hsp : k.task_stack_ptrs t = below H j) :
    (k.push t v).task_stack_ptrs t = below H (j + 1) ∧
    (k.push t v).words (below H (j + 1)) = v ∧
    (∀ a, a ≠ below H (j + 1) → (k.push t v).words a = k.words a) ∧
    (k.push t v).img = k.img ∧ (k.push t v).g_tasks = k.g_tasks := by
  unfold Kernel.push
  dsimp only
  rw [hsp, below_succ H j hj]
  refine ⟨by simp, by simp, fun a ha => by simp [Function.update_noteq ha], rfl, rfl⟩

theorem Kernel.push_n_spec (k : Kernel) (t v H n j : Nat) (hj : j + n < 1000)
    (hsp : k.task_stack_ptrs t = below H j) :
    (k.push_n t v n).task_stack_ptrs t = below H (j + n) ∧
    (∀ i, j < i → i ≤ j + n → (k.push_n t v n).words (below H i) = v) ∧
    (∀ i, i ≤ j → (k.push_n t v n).words (below H i) = k.words (below H i)) := by
  induction n generalizing k j with
  | zero =>
    refine ⟨by simpa [Kernel.push_n] using hsp, fun i h1 h2 => by omega, fun i _ => rfl⟩
  | succ n ih =>
    obtain ⟨p1, p2, p3, -, -⟩ := k.push_spec t v H j (by omega) hsp
    obtain ⟨q1, q2, q3⟩ := ih (k.push t v) (j + 1) (by omega) p1
    simp only [Kernel.push_n]
    refine ⟨by rw [q1]; congr 1; omega, fun i h1 h2 => ?_, fun i h1 => ?_⟩
    · by_cases hi : i = j + 1
      · rw [hi, q3 (j + 1) (Nat.le_refl _), p2]
      · exact q2 i (by omega) (by omega)
    · rw [q3 i (by omega), p3 _ (below_ne H i (j + 1) (by omega) (by omega) (by omega))]

@[simp] theorem Kernel.push_img (k : Kernel) (t v : Nat) : (k.push t v).img = k.img := by
  simp [Kernel.push]

theorem three_pushes_spec (k0 : Kernel) (t H : Nat) (hs0 : k0.task_stack_ptrs t = below H 0) :
    (((k0.push t 0x01000000).push t ((k0.push t 0x01000000).g_tasks t).ptask).push t
      ((k0.push t 0x01000000).push t
        ((k0.push t 0x01000000).g_tasks t).ptask).img.osTaskExit).task_stack_ptrs t =
      below H 3 ∧
    (((k0.push t 0x01000000).push t ((k0.push t 0x01000000).g_tasks t).ptask).push t
      ((k0.push t 0x01000000).push t
        ((k0.push t 0x01000000).g_tasks t).ptask).img.osTaskExit).words (below H 1) =
      0x01000000 ∧
    (((k0.push t 0x01000000).push t ((k0.push t 0x01000000).g_tasks t).ptask).push t
      ((k0.push t 0x01000000).push t
        ((k0.push t 0x01000000).g_tasks t).ptask).img.osTaskExit).words (below H 2) =
      (k0.g_tasks t).ptask ∧
    (((k0.push t 0x01000000).push t ((k0.push t 0x01000000).g_tasks t).ptask).push t
      ((k0.push t 0x01000000).push t
        ((k0.push t 0x01000000).g_tasks t).ptask).img.osTaskExit).words (below H 3) =
      k0.img.osTaskExit := by
  obtain ⟨a1, a2, a3, a4, a5⟩ := k0.push_spec t 0x01000000 _ 0 (by omega) hs0
  obtain ⟨b1, b2, b3, b4, b5⟩ := (k0.push t 0x01000000).push_spec t
    ((k0.push t 0x01000000).g_tasks t).ptask _ 1 (by omega) a1
  obtain ⟨c1, c2, c3, c4, c5⟩ := ((k0.push t 0x01000000).push t
    ((k0.push t 0x01000000).g_tasks t).ptask).push_spec t
    ((k0.push t 0x01000000).push t ((k0.push t 0x01000000).g_tasks t).ptask).img.osTaskExit
    _ 2 (by omega) b1
  refine ⟨c1, ?_, ?_, ?_⟩
  · rw [c3 _ (below_ne _ 1 3 (by omega) (by omega) (by omega)),
      b3 _ (below_ne _ 1 2 (by omega) (by omega) (by omega)), a2]
  · rw [c3 _ (below_ne _ 2 3 (by omega) (by omega) (by omega)), b2, a5]
  · rw [c2, b4, a4]

/-- The frame built by the statements shared by `trigger_context_switch` and case 1 of
the SVC handler. -/
theorem init_frame_layout (k : Kernel) (t : Nat) (hH : (k.g_tasks t).stack_high < 4294967296) :
    initial_frame (init_frame k t) t (k.g_tasks t).stack_high (k.g_tasks t).ptask := by
  have h0 : (k.g_tasks t).stack_high = below (k.g_tasks t).stack_high 0 := by
    unfold below u32; omega
  obtain ⟨c1, w1, w2, w3⟩ := three_pushes_spec
    { k with task_stack_ptrs := Function.update k.task_stack_ptrs t (k.g_tasks t).stack_high }
    t (k.g_tasks t).stack_high (by simpa using h0)
  obtain ⟨d1, d2, d3⟩ := Kernel.push_n_spec _ t 0xAAAAAAAA _ 5 3 (by omega) c1
  obtain ⟨e1, e2, e3⟩ := Kernel.push_n_spec _ t 0xAAAAAAAA _ 8 8 (by omega) d1
  unfold init_frame
  dsimp only
  refine ⟨e1, ?_, ?_, ?_, fun j h1 h2 => ?_⟩
  · rw [e3 1 (by omega), d3 1 (by omega), w1]
  · rw [e3 2 (by omega), d3 2 (by omega), w2]
  · rw [e3 3 (by omega), d3 3 (by omega), w3]
    simp
  · by_cases hj : j ≤ 8
    · rw [e3 j hj, d2 j (by omega) (by omega)]
    · exact e2 j (by omega) (by omega)

/-- The frame built by `osKernelStart`. -/
theorem first_frame_layout (k : Kernel) (t : Nat) (hH : (k.g_tasks t).stack_high < 4294967296) :
    initial_frame (first_frame k t) t (k.g_tasks t).stack_high (k.g_tasks t).ptask := by
  have h0 : (k.g_tasks t).stack_high = below (k.g_tasks t).stack_high 0 := by
    unfold below u32; omega
  obtain ⟨c1, w1, w2, w3⟩ := three_pushes_spec
    { k with task_stack_ptrs := Function.update k.task_stack_ptrs t (k.g_tasks t).stack_high }
    t (k.g_tasks t).stack_high (by simpa using h0)
  obtain ⟨d1, d2, d3⟩ := Kernel.push_n_spec _ t 0xAAAAAAAA _ 13 3 (by omega) c1
  unfold first_frame
  dsimp only
  refine ⟨d1, ?_, ?_, ?_, fun j h1 h2 => ?_⟩
  · rw [d3 1 (by omega), w1]
  · rw [d3 2 (by omega), w2]
  · rw [d3 3 (by omega), w3]
    simp
  · exact d2 j (by omega) (by omega)

theorem initial_frame_congr {k k' : Kernel} {t H e : Nat}
    (h1 : k'.task_stack_ptrs = k.task_stack_ptrs) (h2 : k'.words = k.words)
    (h3 : k'.img = k.img) (h : initial_frame k t H e) : initial_frame k' t H e := by
  unfold initial_frame at *
  rw [h1, h2, h3]
  exact h

/-- C29. Initial frame layout. Each of the three priming sites, applied to a task with
stack upper boundary `H` (a 32-bit value), leaves the initial frame below `H` (see
`initial_frame`) and the task's fresh flag cleared: `trigger_context_switch` when it
switches to a fresh task, case 1 of the SVC handler when its target is fresh, and
`osKernelStart` for the first task. -/
theorem initial_frame_three_sites (k : Kernel) :
    (edf_scheduler k ≠ TID_NULL → edf_scheduler k ≠ k.g_active_task_id →
      (k.g_tasks (edf_scheduler k)).is_fresh_task = TASK_NEW →
      (k.g_tasks (edf_scheduler k)).stack_high < 4294967296 →
      initial_frame (trigger_context_switch k) (edf_scheduler k)
        (k.g_tasks (edf_scheduler k)).stack_high (k.g_tasks (edf_scheduler k)).ptask ∧
      ((trigger_context_switch k).g_tasks (edf_scheduler k)).is_fresh_task = TASK_EXISTING) ∧
    (k.target_task_id ≠ TID_NULL →
      (k.g_tasks k.target_task_id).is_fresh_task = TASK_NEW →
      (k.g_tasks k.target_task_id).stack_high < 4294967296 →
      initial_frame (SVC_1 k) k.target_task_id
        (k.g_tasks k.target_task_id).stack_high (k.g_tasks k.target_task_id).ptask ∧
      ((SVC_1 k).g_tasks k.target_task_id).is_fresh_task = TASK_EXISTING) ∧
    (∀ k', osKernelStart k = (true, k') →
      (k.g_tasks (edf_scheduler k)).stack_high < 4294967296 →
      k'.g_active_task_id = edf_scheduler k ∧
      initial_frame k' (edf_scheduler k)
        (k.g_tasks (edf_scheduler k)).stack_high (k.g_tasks (edf_scheduler k)).ptask ∧
      (k'.g_tasks (edf_scheduler k)).is_fresh_task = TASK_EXISTING) := by
  refine ⟨fun h1 h2 h3 h4 => ?_, fun h1 h2 h3 => ?_, fun k' hs h4 => ?_⟩
  · have hno : ¬ (edf_scheduler k = TID_NULL ∨ edf_scheduler k = k.g_active_task_id) := by
      rintro (h | h)
      · exact h1 h
      · exact h2 h
    refine ⟨?_, ?_⟩
    · have hl := init_frame_layout { k with target_task_id := edf_scheduler k }
        (edf_scheduler k) h4
      refine initial_frame_congr ?_ ?_ ?_ hl
      · unfold trigger_context_switch osGetTID_internal
        dsimp only
        rw [if_neg hno]
        simp [tcs_frame, h3]
      · unfold trigger_context_switch osGetTID_internal
        dsimp only
        rw [if_neg hno]
        simp [tcs_frame, h3]
      · simp
    · rw [trigger_context_switch_g_tasks, if_neg hno, if_pos rfl]
      simp [refill]
  · refine ⟨?_, ?_⟩
    · have hl := init_frame_layout k k.target_task_id h3
      refine initial_frame_congr ?_ ?_ ?_ hl
      · simp [SVC_1, svc1_frame, h1, h2]
      · simp [SVC_1, svc1_frame, h1, h2]
      · simp
    · rw [SVC_1_g_tasks, if_pos ⟨rfl, h1⟩]
      simp [refill, h2]
  · unfold osKernelStart at hs
    by_cases c1 : k.g_kernel_initialized = 0 ∨ k.g_kernel_running ≠ 0
    · rw [if_pos c1] at hs
      simp at hs
    rw [if_neg c1] at hs
    dsimp only at hs
    by_cases c2 : edf_scheduler k = TID_NULL
    · rw [if_pos c2] at hs
      simp at hs
    rw [if_neg c2] at hs
    simp only [Prod.mk.injEq, true_and] at hs
    subst hs
    have hl := first_frame_layout
      { k with target_task_id := edf_scheduler k, g_active_task_id := edf_scheduler k }
      (edf_scheduler k) h4
    refine ⟨?_, initial_frame_congr ?_ ?_ ?_ hl, ?_⟩
    · simp [SVC_0, start_setup]
    · simp [SVC_0, start_setup]
    · simp [SVC_0, start_setup]
    · simp [SVC_0, start_setup]
    · simp only [SVC_0, start_setup]
      split_ifs <;> simp

theorem initial_frame_three_sites_witness :
    (osKernelStart one_task_created).1 = true ∧
    (one_task_created.g_tasks 1).stack_high = 0x20001414 ∧
    initial_frame (osKernelStart one_task_created).2 1 0x20001414 0x08001001 ∧
    ((osKernelStart one_task_created).2.g_tasks 1).is_fresh_task = TASK_EXISTING := by
  have hs : osKernelStart one_task_created = (true, (osKernelStart one_task_created).2) :=
    Prod.ext (by decide) rfl
  have he : edf_scheduler one_task_created = 1 := by decide
  have h1 : (one_task_created.g_tasks 1).stack_high = 0x20001414 := by decide
  have h2 : (one_task_created.g_tasks 1).ptask = 0x08001001 := by decide
  have := (initial_frame_three_sites one_task_created).2.2 _ hs (by rw [he, h1]; decide)
  rw [he, h1, h2] at this
  exact ⟨by decide, h1, this.2.1, this.2.2⟩

theorem EdfInv.step {g : Nat → TCB} {done : List Nat} {acc : EdfScan} (i : Nat)
    (inv : EdfInv g done acc) (hi : ∀ j ∈ done, j < i) :
    EdfInv g (done ++ [i]) (edf_scan_step g acc i) := by
  unfold edf_scan_step
  by_cases h1 : (g i).state = READY
  · rw [if_pos h1]
    by_cases h2 : (g i).deadline_value < acc.earliest_deadline
    · rw [if_pos h2]
      refine ⟨fun j hj hr => ?_, ?_, fun _ => ⟨by simp, h1, rfl, fun j hj hr hd => ?_⟩,
        fun h => ?_, ?_⟩
      · rcases List.mem_append.1 hj with hj | hj
        · have := inv.le j hj hr
          dsimp only; omega
        · simp at hj; subst hj; exact Nat.le_refl _
      · have := inv.max
        dsimp only; omega
      · rcases List.mem_append.1 hj with hj | hj
        · have := inv.le j hj hr
          dsimp only at hd; omega
        · simp at hj; subst hj; exact Nat.le_refl _
      · have := inv.max
        dsimp only at h; omega
      · dsimp only
        rw [List.countP_append]
        have h0 : done.countP (fun j => decide ((g j).state = READY ∧
            (g j).deadline_value = (g i).deadline_value)) = 0 := by
          rw [List.countP_eq_zero]
          intro j hj
          simp only [decide_eq_true_eq, not_and]
          intro hr hd
          have := inv.le j hj hr
          omega
        rw [h0]
        simp [h1]
    · rw [if_neg h2]
      by_cases h3 : (g i).deadline_value = acc.earliest_deadline
      · rw [if_pos h3]
        refine ⟨fun j hj hr => ?_, inv.max, fun hlt => ?_, inv.none, ?_⟩
        · rcases List.mem_append.1 hj with hj | hj
          · exact inv.le j hj hr
          · simp at hj; subst hj; dsimp only; omega
        · obtain ⟨s1, s2, s3, s4⟩ := inv.sel hlt
          refine ⟨List.mem_append_left _ s1, s2, s3, fun j hj hr hd => ?_⟩
          rcases List.mem_append.1 hj with hj | hj
          · exact s4 j hj hr hd
          · simp at hj; subst hj
            exact Nat.le_of_lt (hi _ s1)
        · dsimp only
          rw [List.countP_append, inv.cnt]
          simp [h1, h3]
      · rw [if_neg h3]
        refine ⟨fun j hj hr => ?_, inv.max, fun hlt => ?_, inv.none, ?_⟩
        · rcases List.mem_append.1 hj with hj | hj
          · exact inv.le j hj hr
          · simp at hj; subst hj; omega
        · obtain ⟨s1, s2, s3, s4⟩ := inv.sel hlt
          refine ⟨List.mem_append_left _ s1, s2, s3, fun j hj hr hd => ?_⟩
          rcases List.mem_append.1 hj with hj | hj
          · exact s4 j hj hr hd
          · simp at hj; subst hj
            exact absurd hd h3
        · rw [List.countP_append, inv.cnt]
          simp [h3]
  · rw [if_neg h1]
    refine ⟨fun j hj hr => ?_, inv.max, fun hlt => ?_, inv.none, ?_⟩
    · rcases List.mem_append.1 hj with hj | hj
      · exact inv.le j hj hr
      · simp at hj; subst hj; exact absurd hr h1
    · obtain ⟨s1, s2, s3, s4⟩ := inv.sel hlt
      refine ⟨List.mem_append_left _ s1, s2, s3, fun j hj hr hd => ?_⟩
      rcases List.mem_append.1 hj with hj | hj
      · exact s4 j hj hr hd
      · simp at hj; subst hj
        exact absurd hr h1
    · rw [List.countP_append, inv.cnt]
      simp [h1]

theorem EdfInv.foldl {g : Nat → TCB} (rest : List Nat) {done : List Nat} {acc : EdfScan}
    (inv : EdfInv g done acc) (hs : (done ++ rest).Pairwise (· < ·)) :
    EdfInv g (done ++ rest) (rest.foldl (edf_scan_step g) acc) := by
  induction rest generalizing done acc with
  | nil => simpa using inv
  | cons i rest ih =>
    rw [List.foldl_cons]
    have hs' : ((done ++ [i]) ++ rest).Pairwise (· < ·) := by simpa using hs
    have := ih (inv.step i (fun j hj =>
      (List.pairwise_append.1 hs).2.2 j hj i (List.mem_cons_self _ _))) hs'
    simpa using this

/-- The first loop of `edf_scheduler` over the whole table. -/
theorem edf_scan_inv (g : Nat → TCB) :
    EdfInv g (List.range' 1 (MAX_TASKS - 1)) (edf_scan g) := by
  have h0 : EdfInv g []
      { earliest_deadline := 0xFFFFFFFF, selected_task := 0, tasks_with_same_deadline := 0,
        first_equal_deadline_task := TID_NULL } :=
    ⟨fun i hi => (by cases hi), Nat.le_refl _, fun h => absurd h (by decide), fun _ => rfl, rfl⟩
  have := EdfInv.foldl (List.range' 1 (MAX_TASKS - 1)) h0
    (by simpa using List.pairwise_lt_range' 1 (MAX_TASKS - 1))
  simpa [edf_scan] using this

theorem mem_slots (i : Nat) : i ∈ List.range' 1 (MAX_TASKS - 1) ↔ 1 ≤ i ∧ i < MAX_TASKS := by
  rw [List.mem_range'_1]
  have : MAX_TASKS = 16 := rfl
  omega

/-- The deadline found by the first loop is a lower bound for every Ready slot. -/
theorem edf_scan_le (g : Nat → TCB) (i : Nat) (h1 : 1 ≤ i) (h2 : i < MAX_TASKS)
    (hr : (g i).state = READY) : (edf_scan g).earliest_deadline ≤ (g i).deadline_value :=
  (edf_scan_inv g).le i ((mem_slots i).2 ⟨h1, h2⟩) hr

/-- When two or more slots attain the deadline found by the first loop, one of them is
found by the second loop of `edf_scheduler`. -/
theorem edf_scan_tie_hit (g : Nat → TCB) (h : 1 < (edf_scan g).tasks_with_same_deadline) :
    ∃ i, 1 ≤ i ∧ i < MAX_TASKS ∧ (g i).state = READY ∧
      (g i).deadline_value = (edf_scan g).earliest_deadline := by
  rw [(edf_scan_inv g).cnt] at h
  have hpos : 0 < (List.range' 1 (MAX_TASKS - 1)).countP (fun i => decide ((g i).state = READY ∧
      (g i).deadline_value = (edf_scan g).earliest_deadline)) := by omega
  rw [List.countP_pos_iff] at hpos
  obtain ⟨i, hi, hp⟩ := hpos
  simp only [decide_eq_true_eq] at hp
  exact ⟨i, ((mem_slots i).1 hi).1, ((mem_slots i).1 hi).2, hp.1, hp.2⟩

/-- Whenever some Ready slot has a deadline below `0xFFFFFFFF`, or two Ready slots share
the earliest deadline, `edf_scheduler` returns a Ready slot of `[1, MAX_TASKS)` whose
deadline is the earliest one. -/
theorem edf_scheduler_hit (k : Kernel) (hc : k.g_active_task_id < MAX_TASKS)
    (h : (edf_scan k.g_tasks).earliest_deadline < 0xFFFFFFFF ∨
      1 < (edf_scan k.g_tasks).tasks_with_same_deadline) :
    1 ≤ edf_scheduler k ∧ edf_scheduler k < MAX_TASKS ∧
    (k.g_tasks (edf_scheduler k)).state = READY ∧
    (k.g_tasks (edf_scheduler k)).deadline_value = (edf_scan k.g_tasks).earliest_deadline := by
  have hM : MAX_TASKS = 16 := rfl
  have inv := edf_scan_inv k.g_tasks
  unfold edf_scheduler osGetTID_internal
  dsimp only
  have hstart : u32 (k.g_active_task_id + 1) = k.g_active_task_id + 1 := by
    unfold u32; omega
  rw [hstart]
  by_cases h1 : 1 < (edf_scan k.g_tasks).tasks_with_same_deadline
  · rw [if_pos h1]
    cases hf1 : (List.range' (k.g_active_task_id + 1) (MAX_TASKS - (k.g_active_task_id + 1))).find?
        (fun i => decide ((k.g_tasks i).state = READY ∧
          (k.g_tasks i).deadline_value = (edf_scan k.g_tasks).earliest_deadline)) with
    | some i =>
      dsimp only
      have hp := List.find?_some hf1
      have hm := List.mem_of_find?_eq_some hf1
      rw [List.mem_range'_1] at hm
      simp only [decide_eq_true_eq] at hp
      exact ⟨by omega, by omega, hp.1, hp.2⟩
    | none =>
      dsimp only
      cases hf2 : (List.range' 1 k.g_active_task_id).find?
          (fun i => decide ((k.g_tasks i).state = READY ∧
            (k.g_tasks i).deadline_value = (edf_scan k.g_tasks).earliest_deadline)) with
      | some i =>
        dsimp only
        have hp := List.find?_some hf2
        have hm := List.mem_of_find?_eq_some hf2
        rw [List.mem_range'_1] at hm
        simp only [decide_eq_true_eq] at hp
        exact ⟨by omega, by omega, hp.1, hp.2⟩
      | none =>
        exfalso
        obtain ⟨i, i1, i2, i3, i4⟩ := edf_scan_tie_hit k.g_tasks h1
        rw [List.find?_eq_none] at hf1 hf2
        by_cases hic : k.g_active_task_id < i
        · have := hf1 i (by rw [List.mem_range'_1]; omega)
          simp only [decide_eq_true_eq] at this
          exact this ⟨i3, i4⟩
        · have := hf2 i (by rw [List.mem_range'_1]; omega)
          simp only [decide_eq_true_eq] at this
          exact this ⟨i3, i4⟩
  · rw [if_neg h1]
    have hlt : (edf_scan k.g_tasks).earliest_deadline < 0xFFFFFFFF := by
      rcases h with h | h
      · exact h
      · exact absurd h h1
    obtain ⟨s1, s2, s3, -⟩ := inv.sel hlt
    exact ⟨((mem_slots _).1 s1).1, ((mem_slots _).1 s1).2, s2, s3⟩

/-- With the Null Task as the current task, the slot returned by `edf_scheduler` is the
lowest Ready slot with the earliest deadline. -/
theorem edf_scheduler_first (k : Kernel) (hc : k.g_active_task_id = TID_NULL)
    (h : (edf_scan k.g_tasks).earliest_deadline < 0xFFFFFFFF) (i : Nat)
    (h1 : 1 ≤ i) (h2 : i < MAX_TASKS) (hr : (k.g_tasks i).state = READY)
    (hd : (k.g_tasks i).deadline_value = (edf_scan k.g_tasks).earliest_deadline) :
    edf_scheduler k ≤ i := by
  have hM : MAX_TASKS = 16 := rfl
  have inv := edf_scan_inv k.g_tasks
  unfold edf_scheduler osGetTID_internal
  dsimp only
  rw [hc]
  have hstart : u32 (TID_NULL + 1) = 1 := by decide
  rw [hstart]
  have hsel := (inv.sel h).2.2.2 i ((mem_slots i).2 ⟨h1, h2⟩) hr hd
  by_cases hcnt : 1 < (edf_scan k.g_tasks).tasks_with_same_deadline
  · rw [if_pos hcnt]
    cases hf1 : (List.range' 1 (MAX_TASKS - 1)).find?
        (fun i => decide ((k.g_tasks i).state = READY ∧
          (k.g_tasks i).deadline_value = (edf_scan k.g_tasks).earliest_deadline)) with
    | some j =>
      dsimp only
      rw [List.find?_range'_eq_some] at hf1
      by_contra hlt
      have := hf1.2.2 i h1 (by omega)
      simp [hr, hd] at this
    | none =>
      exfalso
      rw [List.find?_eq_none] at hf1
      have := hf1 i ((mem_slots i).2 ⟨h1, h2⟩)
      simp only [decide_eq_true_eq] at this
      exact this ⟨hr, hd⟩
  · rw [if_neg hcnt]
    exact hsel

/-- The task table after `start_setup`: the first task is Running, no longer fresh, with
a full slice; every Ready slot of `[1, MAX_TASKS)` has a full slice. -/
theorem start_setup_g_tasks (k : Kernel) (t i : Nat) :
    (start_setup k t).g_tasks i =
      if i = t then
        { k.g_tasks t with state := RUNNING, is_fresh_task := TASK_EXISTING,
                           time_left := (k.g_tasks t).deadline_value }
      else if 1 ≤ i ∧ i < MAX_TASKS ∧ (k.g_tasks i).state = READY then
        { k.g_tasks i with time_left := (k.g_tasks i).deadline_value }
      else k.g_tasks i := by
  simp only [start_setup]
  by_cases hi : i = t
  · subst hi
    simp
  · simp [hi]

/-- C23. Kernel start dispatches by EDF. On an initialised kernel that is not yet running
(so the current task is still the Null Task) with at least one Ready slot whose deadline
is below `0xFFFFFFFF` (every created task: deadlines are positive `int`s),
`osKernelStart` reaches `SVC #0`, and the slot `t` it makes the active task is a Ready
slot of `[1, MAX_TASKS)` of minimum deadline, the lowest such slot on a tie; afterwards
`t` is Running, its fresh flag is cleared, its `time_left` equals its deadline, no other
slot has changed state, and `g_kernel_running` is 1. -/
theorem osKernelStart_dispatches_edf (k : Kernel)
    (hinit : k.g_kernel_initialized ≠ 0) (hrun : k.g_kernel_running = 0)
    (hact : k.g_active_task_id = TID_NULL)
    (hready : ∃ i, 1 ≤ i ∧ i < MAX_TASKS ∧ (k.g_tasks i).state = READY ∧
      (k.g_tasks i).deadline_value < 0xFFFFFFFF) :
    ∃ k', osKernelStart k = (true, k') ∧
      1 ≤ edf_scheduler k ∧ edf_scheduler k < MAX_TASKS ∧
      (k.g_tasks (edf_scheduler k)).state = READY ∧
      (∀ i, 1 ≤ i → i < MAX_TASKS → (k.g_tasks i).state = READY →
        (k.g_tasks (edf_scheduler k)).deadline_value ≤ (k.g_tasks i).deadline_value) ∧
      (∀ i, 1 ≤ i → i < MAX_TASKS → (k.g_tasks i).state = READY →
        (k.g_tasks i).deadline_value = (k.g_tasks (edf_scheduler k)).deadline_value →
        edf_scheduler k ≤ i) ∧
      k'.g_active_task_id = edf_scheduler k ∧
      (k'.g_tasks (edf_scheduler k)).state = RUNNING ∧
      (k'.g_tasks (edf_scheduler k)).is_fresh_task = TASK_EXISTING ∧
      (k'.g_tasks (edf_scheduler k)).time_left =
        (k.g_tasks (edf_scheduler k)).deadline_value ∧
      (k'.g_tasks (edf_scheduler k)).deadline_value =
        (k.g_tasks (edf_scheduler k)).deadline_value ∧
      (∀ i, i ≠ edf_scheduler k → (k'.g_tasks i).state = (k.g_tasks i).state) ∧
      k'.g_kernel_running = 1 := by
  obtain ⟨j, j1, j2, j3, j4⟩ := hready
  have hlt : (edf_scan k.g_tasks).earliest_deadline < 0xFFFFFFFF :=
    Nat.lt_of_le_of_lt (edf_scan_le k.g_tasks j j1 j2 j3) j4
  obtain ⟨t1, t2, t3, t4⟩ := edf_scheduler_hit k (by rw [hact]; decide) (Or.inl hlt)
  have hne : edf_scheduler k ≠ TID_NULL := by
    intro h; rw [h] at t1; exact absurd t1 (by decide)
  refine ⟨SVC_0 (start_setup { k with target_task_id := edf_scheduler k } (edf_scheduler k)),
    ?_, t1, t2, t3, ?_, ?_, ?_, ?_, ?_, ?_, ?_, ?_, ?_⟩
  · unfold osKernelStart
    rw [if_neg (by
      rintro (h | h)
      · exact hinit h
      · exact h hrun)]
    dsimp only
    rw [if_neg hne]
  · intro i i1 i2 i3
    rw [t4]
    exact edf_scan_le k.g_tasks i i1 i2 i3
  · intro i i1 i2 i3 i4
    exact edf_scheduler_first k hact hlt i i1 i2 i3 (by rw [i4, t4])
  · simp [SVC_0, start_setup]
  · simp only [SVC_0]
    rw [start_setup_g_tasks, if_pos rfl]
  · simp only [SVC_0]
    rw [start_setup_g_tasks, if_pos rfl]
  · simp only [SVC_0]
    rw [start_setup_g_tasks, if_pos rfl]
  · simp only [SVC_0]
    rw [start_setup_g_tasks, if_pos rfl]
  · intro i hi
    simp only [SVC_0]
    rw [start_setup_g_tasks, if_neg hi]
    split_ifs <;> rfl
  · simp [SVC_0, start_setup]

theorem osKernelStart_dispatches_edf_witness :
    (xy_created.g_tasks 1).state = READY ∧ (xy_created.g_tasks 1).deadline_value = 20 ∧
    (xy_created.g_tasks 2).state = READY ∧ (xy_created.g_tasks 2).deadline_value = 5 ∧
    ∃ k', osKernelStart xy_created = (true, k') ∧ k'.g_active_task_id = 2 ∧
      (k'.g_tasks 2).state = RUNNING ∧ (k'.g_tasks 1).state = READY ∧
      k'.g_kernel_running = 1 := by
  have he : edf_scheduler xy_created = 2 := by decide
  obtain ⟨k', h1, -, -, -, -, -, h7, h8, -, -, -, h12, h13⟩ := osKernelStart_dispatches_edf
    xy_created (by decide) (by decide) (by decide) ⟨1, by decide, by decide, by decide, by decide⟩
  rw [he] at h7 h8 h12
  refine ⟨by decide, by decide, by decide, by decide, k', h1, h7, h8, ?_, h13⟩
  rw [h12 1 (by decide)]
  decide

theorem yield_mark_g_tasks (k : Kernel) (c i : Nat) :
    (yield_mark k c).g_tasks i =
      if i = c then
        { k.g_tasks c with
          state := READY,
          time_left := if (k.g_tasks c).is_periodic = 0 then (k.g_tasks c).deadline_value
                       else (k.g_tasks c).time_left }
      else k.g_tasks i := by
  unfold yield_mark
  dsimp only
  by_cases hp : (k.g_tasks c).is_periodic = 0
  · by_cases hi : i = c
    · subst hi; simp [hp]
    · simp [hp, hi]
  · by_cases hi : i = c
    · subst hi; simp [hp]
    · simp [hp, hi]

/-- The two ways `osCreateTask_impl` ends: with an error, the kernel unchanged but for
the heap, or with `RTX_OK` after the installation of the new slot. -/
theorem osCreateTask_impl_cases {k k' : Kernel} {t t' : Option TCB} {r : Int}
    (h : osCreateTask_impl k t = some (r, k', t')) :
    (r = RTX_ERR ∧ ∃ m, k' = { k with mem := m }) ∨
    (r = RTX_OK ∧ ∃ c a m, t = some c ∧ a ≠ 0 ∧ find_dormant k ≠ TID_NULL ∧
      k.g_num_tasks < (MAX_TASKS : Int) - 1 ∧
      k' = create_preempt (create_install { k with mem := m } (find_dormant k) c a)
        (find_dormant k)) := by
  unfold osCreateTask_impl osGetTID_internal at h
  by_cases h1 : k.g_kernel_initialized = 0
  · rw [if_pos h1] at h
    simp only [Option.some.injEq, Prod.mk.injEq] at h
    exact Or.inl ⟨h.1.symm, k.mem, h.2.1.symm⟩
  rw [if_neg h1] at h
  cases t with
  | none =>
    simp only [Option.some.injEq, Prod.mk.injEq] at h
    exact Or.inl ⟨h.1.symm, k.mem, h.2.1.symm⟩
  | some c =>
    dsimp only at h
    by_cases h2 : c.ptask = 0 ∨ c.stack_size = 0
    · rw [if_pos h2] at h
      simp only [Option.some.injEq, Prod.mk.injEq] at h
      exact Or.inl ⟨h.1.symm, k.mem, h.2.1.symm⟩
    rw [if_neg h2] at h
    by_cases h3 : c.stack_size < STACK_SIZE
    · rw [if_pos h3] at h
      simp only [Option.some.injEq, Prod.mk.injEq] at h
      exact Or.inl ⟨h.1.symm, k.mem, h.2.1.symm⟩
    rw [if_neg h3] at h
    by_cases h4 : find_dormant k = TID_NULL ∨ (MAX_TASKS : Int) - 1 ≤ k.g_num_tasks
    · rw [if_pos h4] at h
      simp only [Option.some.injEq, Prod.mk.injEq] at h
      exact Or.inl ⟨h.1.symm, k.mem, h.2.1.symm⟩
    rw [if_neg h4] at h
    cases hal : k_mem_alloc_impl k.g_active_task_id k.mem c.stack_size with
    | none => rw [hal] at h; simp at h
    | some x =>
      obtain ⟨a, m⟩ := x
      rw [hal] at h
      dsimp only at h
      by_cases h5 : a = 0
      · rw [if_pos h5] at h
        simp only [Option.some.injEq, Prod.mk.injEq] at h
        exact Or.inl ⟨h.1.symm, m, h.2.1.symm⟩
      · rw [if_neg h5] at h
        simp only [Option.some.injEq, Prod.mk.injEq] at h
        exact Or.inr ⟨h.1.symm, c, a, m, rfl, h5, fun x => h4 (Or.inl x),
          Int.lt_of_not_ge (fun x => h4 (Or.inr x)), h.2.1.symm⟩

/-- The ways `osCreateDeadlineTask_impl` ends: as a failed `osCreateTask_impl` does, or
with `RTX_OK` after a successful `osCreateTask_impl` and the installation of the
deadline. -/
theorem osCreateDeadlineTask_impl_cases {k k' : Kernel} {d : Int} {t t' : Option TCB} {r : Int}
    (h : osCreateDeadlineTask_impl k d t = some (r, k', t')) :
    (r = RTX_ERR ∧ ∃ m, k' = { k with mem := m }) ∨
    (r = RTX_OK ∧ ∃ k1 c t1, t = some c ∧ osCreateTask_impl k t = some (RTX_OK, k1, t1) ∧
      k' = deadline_preempt (deadline_install k1 (t1.getD c).tid d) d) := by
  unfold osCreateDeadlineTask_impl at h
  cases t with
  | none =>
    simp only [Option.some.injEq, Prod.mk.injEq] at h
    exact Or.inl ⟨h.1.symm, k.mem, h.2.1.symm⟩
  | some c =>
    dsimp only at h
    by_cases h1 : d ≤ 0 ∨ c.stack_size < STACK_SIZE
    · rw [if_pos h1] at h
      simp only [Option.some.injEq, Prod.mk.injEq] at h
      exact Or.inl ⟨h.1.symm, k.mem, h.2.1.symm⟩
    rw [if_neg h1] at h
    cases hc : osCreateTask_impl k (some c) with
    | none => rw [hc] at h; simp at h
    | some x =>
      obtain ⟨res, k1, t1⟩ := x
      rw [hc] at h
      dsimp only at h
      by_cases h2 : res ≠ RTX_OK
      · rw [if_pos h2] at h
        simp only [Option.some.injEq, Prod.mk.injEq] at h
        rcases osCreateTask_impl_cases hc with ⟨e, m, hm⟩ | ⟨e, -⟩
        · exact Or.inl ⟨by rw [← h.1]; exact e, m, by rw [← h.2.1]; exact hm⟩
        · exact absurd e h2
      · rw [if_neg h2] at h
        simp only [Option.some.injEq, Prod.mk.injEq] at h
        have hres : res = RTX_OK := not_not.1 h2
        subst hres
        exact Or.inr ⟨h.1.symm, k1, c, t1, rfl, rfl, h.2.1.symm⟩

theorem OnlyRunning.mono {k k' : Kernel} {a : Nat} (h : OnlyRunning k a)
    (hs : ∀ i, (k'.g_tasks i).state = RUNNING → (k.g_tasks i).state = RUNNING) :
    OnlyRunning k' a :=
  ⟨fun h0 => h.1 (hs _ h0), fun i hi hr => h.2 i hi (hs i hr)⟩

theorem PendSV_Handler_g_tasks (k : Kernel) : (PendSV_Handler k).g_tasks = k.g_tasks := by
  unfold PendSV_Handler perform_context_switch osGetTID_internal
  dsimp only
  split_ifs <;> rfl

theorem PendSV_Handler_pendsv (k : Kernel) : (PendSV_Handler k).pendsv = false := by
  unfold PendSV_Handler
  by_cases h : k.pendsv = true
  · rw [if_pos h]
  · rw [if_neg h]; simpa using h

theorem PendSV_Handler_active (k : Kernel) :
    (PendSV_Handler k).g_active_task_id =
      if k.pendsv = true ∧ k.target_task_id ≠ TID_NULL then k.target_task_id
      else k.g_active_task_id := by
  unfold PendSV_Handler perform_context_switch osGetTID_internal
  dsimp only
  by_cases h : k.pendsv = true
  · by_cases h1 : k.g_active_task_id ≠ TID_NULL <;>
    by_cases h2 : k.target_task_id ≠ TID_NULL <;> simp [h, h1, h2]
  · simp [h]

/-- After the PendSV exception the only slot that may be Running is the active one. -/
theorem RunningMid.after_pendsv {k : Kernel} (h : RunningMid k) :
    (PendSV_Handler k).pendsv = false ∧
      OnlyRunning (PendSV_Handler k) (PendSV_Handler k).g_active_task_id := by
  refine ⟨PendSV_Handler_pendsv k, ?_⟩
  unfold RunningMid at h
  rw [PendSV_Handler_active]
  unfold OnlyRunning
  rw [PendSV_Handler_g_tasks]
  by_cases hp : k.pendsv = true
  · rw [if_pos hp] at h
    rw [if_pos ⟨hp, h.1⟩]
    exact h.2
  · rw [if_neg hp] at h
    rw [if_neg (fun x => hp x.1)]
    exact h

/-- `trigger_context_switch` from a state with no exception pending in which only the
active task may be Running. -/
theorem RunningMid.of_trigger {k : Kernel} (hp : k.pendsv = false)
    (h : OnlyRunning k k.g_active_task_id) : RunningMid (trigger_context_switch k) := by
  unfold RunningMid
  rw [trigger_context_switch_pendsv, trigger_context_switch_target_task_id,
    trigger_context_switch_g_active_task_id]
  by_cases hno : edf_scheduler k = TID_NULL ∨ edf_scheduler k = k.g_active_task_id
  · rw [if_pos hno, if_neg (by rw [hp]; simp)]
    refine h.mono (fun i hi => ?_)
    rw [trigger_context_switch_g_tasks, if_pos hno] at hi
    exact hi
  · rw [if_neg hno, if_pos rfl]
    refine ⟨fun x => hno (Or.inl x), ?_, fun i hi hr => ?_⟩
    · rw [trigger_context_switch_g_tasks, if_neg hno, if_neg (fun x => hno (Or.inl x.symm))]
      rw [if_neg (fun x => x.2.1 rfl)]
      exact h.1
    · by_contra hne
      rw [trigger_context_switch_g_tasks, if_neg hno, if_neg hne] at hr
      by_cases hc : i = k.g_active_task_id ∧ i ≠ TID_NULL ∧ (k.g_tasks i).state = RUNNING
      · rw [if_pos hc] at hr
        simp [refill] at hr
      · rw [if_neg hc] at hr
        have := h.2 i hi hr
        by_cases h0 : i = TID_NULL
        · rw [h0] at hr; exact h.1 hr
        · exact hc ⟨this, h0, hr⟩

/-- The scheduling decision shared by `osYield` and `osSleep`, from a state with no
exception pending and no Running slot. -/
theorem RunningMid.of_yield {k : Kernel} (hp : k.pendsv = false)
    (h0 : (k.g_tasks TID_NULL).state ≠ RUNNING)
    (h : ∀ i, i < MAX_TASKS → (k.g_tasks i).state ≠ RUNNING) :
    RunningMid (yield_to_target k) := by
  unfold yield_to_target
  dsimp only
  by_cases ht : edf_scheduler k ≠ TID_NULL
  · rw [if_pos ht]
    unfold RunningMid
    have hps : (SVC_1 { k with target_task_id := edf_scheduler k }).pendsv = true := by
      simp [SVC_1]
    rw [if_pos hps, SVC_1_target_task_id]
    refine ⟨ht, ?_, fun i hi hr => ?_⟩
    · rw [SVC_1_g_tasks]
      dsimp only
      rw [if_neg (fun x => ht x.1.symm)]
      exact h0
    · by_contra hne
      rw [SVC_1_g_tasks] at hr
      dsimp only at hr
      rw [if_neg (fun x => hne x.1)] at hr
      exact h i hi hr
  · rw [if_neg ht]
    unfold RunningMid
    dsimp only
    rw [if_neg (by rw [hp]; simp)]
    exact ⟨h0, fun i hi hr => absurd hr (h i hi)⟩

theorem deadline_preempt_not_running (k : Kernel) (d : Int) (h : k.g_kernel_running = 0) :
    deadline_preempt k d = k := by
  unfold deadline_preempt
  rw [if_neg (fun x => x.1 h)]

theorem BootedInv.of_create_task {k k' : Kernel} {r : Int} {t t' : Option TCB} (h : BootedInv k)
    (hc : osCreateTask_impl k t = some (r, k', t')) : BootedInv k' := by
  obtain ⟨h1, h2, h3⟩ := h
  rcases osCreateTask_impl_cases hc with ⟨-, m, hk⟩ | ⟨-, c, a, m, -, -, hs, -, hk⟩
  · subst hk
    exact ⟨h1, h2, h3⟩
  · rw [create_preempt_not_running _ _ (by simpa using h2)] at hk
    subst hk
    refine ⟨by simpa using h1, by simpa using h2, fun i hi => ?_⟩
    rw [create_install_g_tasks]
    by_cases hi' : i = find_dormant k
    · rw [if_pos hi']; simp
    · rw [if_neg hi']; exact h3 i hi

theorem BootedInv.of_create_deadline_task {k k' : Kernel} {d r : Int} {t t' : Option TCB}
    (h : BootedInv k) (hc : osCreateDeadlineTask_impl k d t = some (r, k', t')) :
    BootedInv k' := by
  rcases osCreateDeadlineTask_impl_cases hc with ⟨-, m, hk⟩ | ⟨-, k1, c, t1, -, hc1, hk⟩
  · subst hk
    exact h
  · obtain ⟨h1, h2, h3⟩ := h.of_create_task hc1
    rw [deadline_preempt_not_running _ _ (by simpa using h2)] at hk
    subst hk
    refine ⟨by simpa using h1, by simpa using h2, fun i hi => ?_⟩
    have : ((deadline_install k1 (t1.getD c).tid d).g_tasks i).state = (k1.g_tasks i).state := by
      unfold deadline_install
      rw [Kernel.upd_g_tasks]
      split_ifs with hh
      · rw [hh]
      · rfl
    rw [this]
    exact h3 i hi

theorem Booted.booted_inv {k : Kernel} (h : Booted k) : BootedInv k := by
  induction h with
  | init k hp ht =>
    refine ⟨by simpa [osKernelInit_impl] using hp, by simp [osKernelInit_impl], fun i hi => ?_⟩
    by_cases h0 : i = 0
    · subst h0; simp [osKernelInit_impl]
    · simp [osKernelInit_impl, h0, hi]
  | create _ hc ih => exact ih.of_create_task hc
  | create_deadline _ hc ih => exact ih.of_create_deadline_task hc

theorem StartedInv.mid {k : Kernel} (h : StartedInv k) : RunningMid k := by
  unfold RunningMid
  rw [if_neg (by rw [h.1]; simp)]
  exact h.2

theorem sleep_mark_g_tasks (k : Kernel) (c : Nat) (ms : Int) (i : Nat) :
    (sleep_mark k c ms).g_tasks i =
      if i = c then { k.g_tasks c with state := SLEEPING, time_left := ofInt32 ms }
      else k.g_tasks i := by
  simp [sleep_mark]

theorem svc4_store_g_tasks (k : Kernel) (d : Int) (t i : Nat) :
    (svc4_store k d t).g_tasks i =
      if i = t then { k.g_tasks t with deadline_value := ofInt32 d, time_left := ofInt32 d }
      else k.g_tasks i := by
  simp [svc4_store]

theorem RunningMid.of_osSleep {k : Kernel} (h : StartedInv k) (ms : Int) :
    RunningMid (osSleep k ms) := by
  unfold osSleep osGetTID_internal
  dsimp only
  by_cases hc : k.g_active_task_id ≠ TID_NULL ∧ 0 < ms
  · rw [if_pos hc]
    refine RunningMid.of_yield (by simpa using h.1) ?_ (fun i hi hr => ?_)
    · rw [sleep_mark_g_tasks, if_neg (Ne.symm hc.1)]
      exact h.2.1
    · rw [sleep_mark_g_tasks] at hr
      by_cases hic : i = k.g_active_task_id
      · rw [if_pos hic] at hr; simp at hr
      · rw [if_neg hic] at hr
        exact hic (h.2.2 i hi hr)
  · rw [if_neg hc]
    exact h.mid

theorem RunningMid.of_osYield {k : Kernel} (h : StartedInv k) : RunningMid (osYield k) := by
  unfold osYield osGetTID_internal
  dsimp only
  by_cases hc : k.g_active_task_id ≠ TID_NULL
  · rw [if_pos hc]
    refine RunningMid.of_yield (by simpa using h.1) ?_ (fun i hi hr => ?_)
    · rw [yield_mark_g_tasks, if_neg (Ne.symm hc)]
      exact h.2.1
    · rw [yield_mark_g_tasks] at hr
      by_cases hic : i = k.g_active_task_id
      · rw [if_pos hic] at hr; simp at hr
      · rw [if_neg hic] at hr
        exact hic (h.2.2 i hi hr)
  · rw [if_neg hc]
    exact h.mid

theorem RunningMid.of_osPeriodYield {k : Kernel} (h : StartedInv k) :
    RunningMid (osPeriodYield k) := by
  unfold osPeriodYield osGetTID_internal
  dsimp only
  split_ifs
  · exact RunningMid.of_osSleep h _
  · refine StartedInv.mid ⟨by simpa using h.1, ?_⟩
    rw [Kernel.upd_g_active_task_id]
    refine h.2.mono (fun i hi => ?_)
    rw [Kernel.upd_g_tasks] at hi
    split_ifs at hi with hh
    · rw [hh]; exact hi
    · exact hi
  · exact RunningMid.of_osSleep h _
  · exact h.mid

theorem RunningMid.of_SVC_17 {k k' : Kernel} (h : StartedInv k) (hs : SVC_17 k = some k') :
    RunningMid k' := by
  unfold SVC_17 osGetTID_internal at hs
  dsimp only at hs
  by_cases hc : k.g_active_task_id ≠ TID_NULL
  · rw [if_pos hc] at hs
    cases hd : k_mem_dealloc_impl k.g_active_task_id k.mem
        (k.g_tasks k.g_active_task_id).stack_base with
    | none => rw [hd] at hs; simp at hs
    | some x =>
      obtain ⟨r, m⟩ := x
      rw [hd] at hs
      simp only [Option.some.injEq] at hs
      subst hs
      refine RunningMid.of_trigger (by simpa using h.1) ?_
      rw [svc17_clear_g_active_task_id]
      have h2 : OnlyRunning { k with mem := m } k.g_active_task_id := h.2
      refine h2.mono (fun i hi => ?_)
      rw [svc17_clear_g_tasks] at hi
      by_cases hh : i = k.g_active_task_id
      · rw [if_pos hh] at hi
        simp at hi
      · rw [if_neg hh] at hi
        exact hi
  · rw [if_neg hc] at hs
    simp only [Option.some.injEq] at hs
    subst hs
    exact h.mid

theorem RunningMid.of_create {k k' : Kernel} {r : Int} {t t' : Option TCB}
    (h : StartedInv k) (hc : osCreateTask_impl k t = some (r, k', t')) : RunningMid k' := by
  rcases osCreateTask_impl_cases hc with ⟨-, m, hk⟩ | ⟨-, c, a, m, -, -, hs, -, hk⟩
  · subst hk
    exact StartedInv.mid ⟨h.1, h.2⟩
  · subst hk
    have hin : StartedInv (create_install { k with mem := m } (find_dormant k) c a) := by
      refine ⟨by simpa using h.1, ?_⟩
      rw [create_install_g_active_task_id]
      have h2 : OnlyRunning { k with mem := m } k.g_active_task_id := h.2
      refine h2.mono (fun i hi => ?_)
      rw [create_install_g_tasks] at hi
      split_ifs at hi with hh
      · simp at hi
      · exact hi
    unfold create_preempt
    split_ifs
    · exact RunningMid.of_trigger hin.1 hin.2
    · exact hin.mid

theorem RunningMid.of_SVC_4 {k : Kernel} (h : StartedInv k) (d : Int) (tid : Nat) :
    RunningMid (SVC_4 k d tid).2 := by
  have hst : StartedInv (svc4_store k d tid) := by
    refine ⟨by simpa using h.1, ?_⟩
    rw [svc4_store_g_active_task_id]
    refine h.2.mono (fun i hi => ?_)
    rw [svc4_store_g_tasks] at hi
    split_ifs at hi with hh
    · rw [hh]; exact hi
    · exact hi
  unfold SVC_4
  dsimp only
  split_ifs
  · exact RunningMid.of_trigger hst.1 hst.2
  · exact hst.mid
  · exact h.mid

theorem StartedInv.of_start {k k' : Kernel} (h : BootedInv k)
    (hs : osKernelStart k = (true, k')) : StartedInv k' := by
  obtain ⟨h1, h2, h3⟩ := h
  unfold osKernelStart at hs
  by_cases c1 : k.g_kernel_initialized = 0 ∨ k.g_kernel_running ≠ 0
  · rw [if_pos c1] at hs
    simp at hs
  rw [if_neg c1] at hs
  dsimp only at hs
  by_cases c2 : edf_scheduler k = TID_NULL
  · rw [if_pos c2] at hs
    simp at hs
  rw [if_neg c2] at hs
  simp only [Prod.mk.injEq, true_and] at hs
  subst hs
  refine ⟨by simpa [SVC_0, start_setup] using h1, ?_, fun i hi hr => ?_⟩
  · simp only [SVC_0]
    rw [start_setup_g_tasks, if_neg (Ne.symm c2)]
    split_ifs
    · exact h3 0 (by decide)
    · exact h3 0 (by decide)
  · have ha : (SVC_0 (start_setup { k with target_task_id := edf_scheduler k }
        (edf_scheduler k))).g_active_task_id = edf_scheduler k := by
      simp [SVC_0, start_setup]
    rw [ha]
    by_contra hne
    simp only [SVC_0] at hr
    rw [start_setup_g_tasks, if_neg hne] at hr
    split_ifs at hr
    · exact h3 i hi hr
    · exact h3 i hi hr

/-- Every state reached after a successful start has no exception pending and no Running
slot other than the active task's. -/
theorem Started.started_inv {k : Kernel} (h : Started k) : StartedInv k := by
  induction h with
  | start hb hs => exact StartedInv.of_start hb.booted_inv hs
  | yield _ ih => exact (RunningMid.of_osYield ih).after_pendsv
  | sleep ms _ ih => exact (RunningMid.of_osSleep ih ms).after_pendsv
  | period_yield _ ih => exact (RunningMid.of_osPeriodYield ih).after_pendsv
  | exit _ hs ih => exact (RunningMid.of_SVC_17 ih hs).after_pendsv
  | create _ hc ih => exact (RunningMid.of_create ih hc).after_pendsv
  | set_deadline d tid _ ih => exact (RunningMid.of_SVC_4 ih d tid).after_pendsv
  | trigger _ ih => exact (RunningMid.of_trigger ih.1 ih.2).after_pendsv

theorem sample_kernel_booted : Booted sample_kernel := Booted.init power_on rfl rfl

theorem one_task_started_is_started : Started one_task_started := by
  obtain ⟨⟨k', t'⟩, h⟩ := exists_of_map_fst (osCreateTask_impl sample_kernel (some sample_task))
    RTX_OK (by decide)
  have hk : k' = one_task_created := by
    unfold one_task_created
    rw [h]
  have hs : one_task_started = (osKernelStart k').2 := by
    unfold one_task_started
    rw [h]
  have hb : Booted k' := Booted.create sample_kernel_booted h
  rw [hs]
  refine Started.start hb (Prod.ext ?_ rfl)
  rw [hk]
  decide

/-- C17, the claim as stated fails: after `osKernelInit`, one `osCreateTask` and
`osKernelStart`, the only task calls `osSleep(10)`; no task is Ready, so no switch takes
place, and in the state reached the kernel is running while no slot of the task table is
Running. -/
theorem no_running_task_while_sleeping :
    Started (PendSV_Handler (osSleep one_task_started 10)) ∧
    (PendSV_Handler (osSleep one_task_started 10)).g_kernel_running = 1 ∧
    ∀ i, i < MAX_TASKS →
      ((PendSV_Handler (osSleep one_task_started 10)).g_tasks i).state ≠ RUNNING := by
  refine ⟨Started.sleep 10 one_task_started_is_started, by decide, ?_⟩
  decide

/-- C17, amended. In every state reachable after a successful kernel start through
yield, sleep, period yield, task exit, create, set_deadline and
`trigger_context_switch`, no kernel call being in progress, at most one slot of the task
table is Running, and a Running slot is the active task's and not the Null Task's. -/
theorem at_most_one_running (k : Kernel) (h : Started k) :
    (∀ i, i < MAX_TASKS → (k.g_tasks i).state = RUNNING →
      i = k.g_active_task_id ∧ i ≠ TID_NULL) ∧
    ∀ i j, i < MAX_TASKS → j < MAX_TASKS → (k.g_tasks i).state = RUNNING →
      (k.g_tasks j).state = RUNNING → i = j := by
  obtain ⟨-, h0, h1⟩ := h.started_inv
  refine ⟨fun i hi hr => ⟨h1 i hi hr, fun e => h0 (e ▸ hr)⟩, fun i j hi hj hri hrj => ?_⟩
  rw [h1 i hi hri, h1 j hj hrj]

theorem at_most_one_running_witness :
    Started one_task_started ∧ (one_task_started.g_tasks 1).state = RUNNING ∧
    ∀ i j, i < MAX_TASKS → j < MAX_TASKS → (one_task_started.g_tasks i).state = RUNNING →
      (one_task_started.g_tasks j).state = RUNNING → i = j :=
  ⟨one_task_started_is_started, by decide,
    (at_most_one_running one_task_started one_task_started_is_started).2⟩

/-- With `osCreateDeadlineTask_impl` among the calls, two slots can be Running. -/
theorem two_running_after_deadline_create :
    (after_deadline_create_and_yield.g_tasks 1).state = RUNNING ∧
    (after_deadline_create_and_yield.g_tasks 2).state = RUNNING ∧
    after_deadline_create_and_yield.g_active_task_id = 1 := by
  decide

theorem countP_flip {l : List Nat} (hnd : l.Nodup) {s : Nat} (hs : s ∈ l) {p p' : Nat → Bool}
    (hsame : ∀ i ∈ l, i ≠ s → p' i = p i) (h0 : p s = false) (h1 : p' s = true) :
    l.countP p' = l.countP p + 1 := by
  induction l with
  | nil => cases hs
  | cons a l ih =>
    rw [List.nodup_cons] at hnd
    rcases List.mem_cons.1 hs with rfl | hs'
    · have : l.countP p' = l.countP p :=
        List.countP_congr (fun i hi => by
          have hne : i ≠ s := fun e => hnd.1 (e ▸ hi)
          rw [hsame i (List.mem_cons_of_mem _ hi) hne])
      rw [List.countP_cons, List.countP_cons, this]
      simp [h0, h1]
    · have hne : a ≠ s := fun e => hnd.1 (e ▸ hs')
      have := ih hnd.2 hs' (fun i hi => hsame i (List.mem_cons_of_mem _ hi))
      rw [List.countP_cons, List.countP_cons, this, hsame a (List.mem_cons_self _ _) hne]
      omega

theorem live_count_congr {k k' : Kernel}
    (h : ∀ i, ((k'.g_tasks i).state = DORMANT ↔ (k.g_tasks i).state = DORMANT)) :
    live_count k' = live_count k := by
  unfold live_count
  refine List.countP_congr (fun i _ => ?_)
  simp [h i]

theorem live_count_wake {k k' : Kernel} {s : Nat} (h1 : 1 ≤ s) (h2 : s < MAX_TASKS)
    (hs : (k.g_tasks s).state = DORMANT) (hs' : (k'.g_tasks s).state ≠ DORMANT)
    (h : ∀ i, i ≠ s → (k'.g_tasks i).state = (k.g_tasks i).state) :
    live_count k' = live_count k + 1 := by
  unfold live_count
  refine countP_flip (List.nodup_range' 1 (MAX_TASKS - 1)) ((mem_slots s).2 ⟨h1, h2⟩)
    (fun i _ hi => by rw [h i hi]) (by simp [hs]) (by simp [hs'])

theorem live_count_retire {k k' : Kernel} {s : Nat} (h1 : 1 ≤ s) (h2 : s < MAX_TASKS)
    (hs : (k.g_tasks s).state ≠ DORMANT) (hs' : (k'.g_tasks s).state = DORMANT)
    (h : ∀ i, i ≠ s → (k'.g_tasks i).state = (k.g_tasks i).state) :
    live_count k = live_count k' + 1 := by
  unfold live_count
  refine countP_flip (List.nodup_range' 1 (MAX_TASKS - 1)) ((mem_slots s).2 ⟨h1, h2⟩)
    (fun i _ hi => by rw [h i hi]) (by simp [hs']) (by simp [hs])

/-- `trigger_context_switch` turns no slot Dormant and wakes none. -/
theorem trigger_context_switch_dormant_iff (k : Kernel) (hc : k.g_active_task_id < MAX_TASKS)
    (i : Nat) :
    ((trigger_context_switch k).g_tasks i).state = DORMANT ↔ (k.g_tasks i).state = DORMANT := by
  rw [trigger_context_switch_g_tasks]
  split_ifs with h1 h2 h3
  · exact Iff.rfl
  · rcases edf_scheduler_ready k hc with h0 | ⟨-, -, hr⟩
    · exact absurd (Or.inl h0) h1
    · rw [← h2] at hr
      simp [refill, hr]
  · simp [refill, h3.2.2]
  · exact Iff.rfl

theorem edf_scheduler_lt (k : Kernel) (hc : k.g_active_task_id < MAX_TASKS) :
    edf_scheduler k < MAX_TASKS := by
  rcases edf_scheduler_ready k hc with h0 | ⟨-, h, -⟩
  · rw [h0]; decide
  · exact h

/-- What `trigger_context_switch` keeps of the count invariant while a call is in
progress. -/
theorem CountInv.trigger {k : Kernel} (h : CountInv k) : CountInv (trigger_context_switch k) := by
  obtain ⟨h1, h2, h3⟩ := h
  refine ⟨by simpa using h1, by simpa using edf_scheduler_lt k h1, ?_⟩
  rw [trigger_context_switch_g_num_tasks, h3,
    live_count_congr (trigger_context_switch_dormant_iff k h1)]

theorem CountInv.pendsv {k : Kernel} (h : CountInv k) : CountInv (PendSV_Handler k) := by
  obtain ⟨h1, h2, h3⟩ := h
  have hg := PendSV_Handler_g_tasks k
  have hn : (PendSV_Handler k).g_num_tasks = k.g_num_tasks := by
    unfold PendSV_Handler perform_context_switch osGetTID_internal
    dsimp only
    split_ifs <;> rfl
  have ht : (PendSV_Handler k).target_task_id = k.target_task_id := by
    unfold PendSV_Handler perform_context_switch osGetTID_internal
    dsimp only
    split_ifs <;> rfl
  refine ⟨?_, by rw [ht]; exact h2, ?_⟩
  · rw [PendSV_Handler_active]
    split_ifs
    · exact h2
    · exact h1
  · rw [hn, h3]
    congr 1
    exact live_count_congr (fun i => by rw [hg])

theorem CountInv.keep_create {k k' : Kernel} {r : Int} {t t' : Option TCB} (h : CountInv k)
    (hc : osCreateTask_impl k t = some (r, k', t')) : CountInv k' := by
  rcases osCreateTask_impl_cases hc with ⟨-, m, hk⟩ | ⟨-, c, a, m, -, -, hs, -, hk⟩
  · subst hk
    exact h
  · obtain ⟨h1, h2, h3⟩ := h
    rcases find_dormant_spec k with hd | ⟨d1, d2, d3, -⟩
    · exact absurd hd.1 hs
    have hin : CountInv (create_install { k with mem := m } (find_dormant k) c a) := by
      refine ⟨by simpa using h1, by simpa using h2, ?_⟩
      rw [create_install_g_num_tasks]
      have hw : live_count (create_install { k with mem := m } (find_dormant k) c a) =
          live_count k + 1 := by
        refine live_count_wake d1 d2 d3 ?_ (fun i hi => ?_)
        · rw [create_install_g_tasks, if_pos rfl]
          simp
        · rw [create_install_g_tasks, if_neg hi]
      rw [hw]
      show k.g_num_tasks + 1 = ((live_count k + 1 : Nat) : Int)
      rw [h3]
      push_cast
      rfl
    subst hk
    unfold create_preempt
    split_ifs
    · exact hin.trigger
    · exact hin

theorem CountInv.keep_create_deadline {k k' : Kernel} {d r : Int} {t t' : Option TCB}
    (h : CountInv k) (hc : osCreateDeadlineTask_impl k d t = some (r, k', t')) :
    CountInv k' := by
  rcases osCreateDeadlineTask_impl_cases hc with ⟨-, m, hk⟩ | ⟨-, k1, c, t1, -, hc1, hk⟩
  · subst hk
    exact h
  · obtain ⟨h1, h2, h3⟩ := h.keep_create hc1
    have hin : CountInv (deadline_install k1 (t1.getD c).tid d) := by
      refine ⟨by simpa using h1, by simpa using h2, ?_⟩
      rw [deadline_install_g_num_tasks, h3]
      congr 1
      refine (live_count_congr (fun i => ?_)).symm
      unfold deadline_install
      rw [Kernel.upd_g_tasks]
      split_ifs with hh
      · rw [hh]
      · exact Iff.rfl
    subst hk
    unfold deadline_preempt
    split_ifs
    · exact hin.trigger
    · exact hin

theorem CountInv.start {k : Kernel} (h : CountInv k) : CountInv (osKernelStart k).2 := by
  obtain ⟨h1, h2, h3⟩ := h
  unfold osKernelStart
  by_cases c1 : k.g_kernel_initialized = 0 ∨ k.g_kernel_running ≠ 0
  · rw [if_pos c1]
    exact ⟨h1, h2, h3⟩
  rw [if_neg c1]
  dsimp only
  by_cases c2 : edf_scheduler k = TID_NULL
  · rw [if_pos c2]
    refine ⟨h1, ?_, h3⟩
    show edf_scheduler k < MAX_TASKS
    rw [c2]
    decide
  rw [if_neg c2]
  dsimp only
  have hr : (k.g_tasks (edf_scheduler k)).state = READY := by
    rcases edf_scheduler_ready k h1 with h0 | ⟨-, -, hr⟩
    · exact absurd h0 c2
    · exact hr
  refine ⟨by simpa [SVC_0, start_setup] using edf_scheduler_lt k h1,
    by simpa [SVC_0, start_setup] using edf_scheduler_lt k h1, ?_⟩
  have hn : (SVC_0 (start_setup { k with target_task_id := edf_scheduler k }
      (edf_scheduler k))).g_num_tasks = k.g_num_tasks := by
    simp [SVC_0, start_setup]
  rw [hn, h3]
  congr 1
  refine live_count_congr (fun i => ?_)
  simp only [SVC_0]
  rw [start_setup_g_tasks]
  split_ifs with hh
  · rw [hh]
    simp [hr]
  · exact Iff.rfl
  · exact Iff.rfl

theorem CountInv.exit {k k' : Kernel} (h : CountInv k)
    (hlive : (k.g_tasks k.g_active_task_id).state ≠ DORMANT) (hs : SVC_17 k = some k') :
    CountInv k' := by
  obtain ⟨h1, h2, h3⟩ := h
  unfold SVC_17 osGetTID_internal at hs
  dsimp only at hs
  by_cases hc : k.g_active_task_id ≠ TID_NULL
  · rw [if_pos hc] at hs
    cases hd : k_mem_dealloc_impl k.g_active_task_id k.mem
        (k.g_tasks k.g_active_task_id).stack_base with
    | none => rw [hd] at hs; simp at hs
    | some x =>
      obtain ⟨r, m⟩ := x
      rw [hd] at hs
      simp only [Option.some.injEq] at hs
      subst hs
      refine CountInv.trigger ⟨by simpa using h1, by simpa using h2, ?_⟩
      rw [svc17_clear_g_num_tasks]
      have hw : live_count k =
          live_count (svc17_clear { k with mem := m } k.g_active_task_id) + 1 := by
        refine live_count_retire (Nat.pos_of_ne_zero hc) h1 hlive ?_ (fun i hi => ?_)
        · rw [svc17_clear_g_tasks, if_pos rfl]
        · rw [svc17_clear_g_tasks, if_neg hi]
      have hw' : (live_count k : Int) =
          (live_count (svc17_clear { k with mem := m } k.g_active_task_id) : Int) + 1 := by
        exact_mod_cast hw
      rw [hw'] at h3
      show k.g_num_tasks - 1 = _
      omega
  · rw [if_neg hc] at hs
    simp only [Option.some.injEq] at hs
    subst hs
    exact ⟨h1, h2, h3⟩

theorem Counted.count_inv {k : Kernel} (h : Counted k) : CountInv k := by
  induction h with
  | init k hp ht =>
    refine ⟨by simp [osKernelInit_impl], by simpa [osKernelInit_impl] using
      (show k.target_task_id < MAX_TASKS by rw [ht]; decide), ?_⟩
    have h0 : live_count (osKernelInit_impl k) = 0 := by
      unfold live_count
      rw [List.countP_eq_zero]
      intro i hi
      have := (mem_slots i).1 hi
      have hne : i ≠ 0 := by omega
      simp [osKernelInit_impl, this.2, hne]
    rw [h0]
    simp [osKernelInit_impl]
  | create _ hc ih => exact (ih.keep_create hc).pendsv
  | create_deadline _ hc ih => exact (ih.keep_create_deadline hc).pendsv
  | start _ ih => exact ih.start
  | exit _ hl hs ih => exact (ih.exit hl hs).pendsv

/-- The task count while only live tasks exit. In every state reached from
`osKernelInit` through `osCreateTask_impl`, `osCreateDeadlineTask_impl`, `osKernelStart` and the exit (SVC #17)
of a live task, `g_num_tasks` equals the number of slots of `[1, MAX_TASKS)` whose state
is not Dormant. -/
theorem g_num_tasks_counts_live_slots (k : Kernel) (h : Counted k) :
    k.g_num_tasks = (live_count k : Int) :=
  h.count_inv.2.2

theorem g_num_tasks_counts_live_slots_witness :
    Counted (PendSV_Handler one_task_created) ∧
    (PendSV_Handler one_task_created).g_num_tasks = 1 ∧
    live_count (PendSV_Handler one_task_created) = 1 := by
  obtain ⟨⟨k', t'⟩, h⟩ := exists_of_map_fst (osCreateTask_impl sample_kernel (some sample_task))
    RTX_OK (by decide)
  have hk : k' = one_task_created := by
    unfold one_task_created
    rw [h]
  have hc : Counted (PendSV_Handler one_task_created) := by
    rw [← hk]
    exact Counted.create (Counted.init power_on rfl rfl) h
  have := g_num_tasks_counts_live_slots _ hc
  have h1 : (PendSV_Handler one_task_created).g_num_tasks = 1 := by decide
  refine ⟨hc, h1, ?_⟩
  rw [h1] at this
  exact_mod_cast this.symm

/-- A non-null pointer is answered with `RTX_ERR`, the heap unchanged, when one of the
checks of `k_mem_dealloc_impl` fails. -/
theorem k_mem_dealloc_impl_rejects (tid : Nat) (h : Heap) (p : Nat) (hp : p ≠ 0)
    (hc : h.memory_initialized = 0 ∨ is_valid_pointer h p = false ∨
      (h.blk (u32 (p + 4294967296 - HDR))).is_allocated = 0 ∨
      ((h.blk (u32 (p + 4294967296 - HDR))).owner_tid ≠ tid ∧ tid ≠ TID_NULL)) :
    k_mem_dealloc_impl tid h p = some (RTX_ERR, h) := by
  unfold k_mem_dealloc_impl
  rw [if_neg hp]
  by_cases h1 : h.memory_initialized = 0 ∨ is_valid_pointer h p = false
  · rw [if_pos h1]
  rw [if_neg h1]
  dsimp only
  by_cases h2 : (h.blk (u32 (p + 4294967296 - HDR))).is_allocated = 0
  · rw [if_pos h2]
  rw [if_neg h2]
  by_cases h3 : (h.blk (u32 (p + 4294967296 - HDR))).owner_tid ≠ tid ∧ tid ≠ TID_NULL
  · rw [if_pos h3]
  exfalso
  rcases hc with hc | hc | hc | hc
  · exact h1 (Or.inl hc)
  · exact h1 (Or.inr hc)
  · exact h2 hc
  · exact h3 hc

/-- C6. `k_mem_dealloc_impl` changes the heap only when it frees. A call with the null
pointer returns `RTX_OK` and the heap as it was; a call that returns `RTX_ERR` returns
the heap as it was; and a non-null pointer is answered with `RTX_ERR` whenever the heap
is not initialised, the pointer fails `is_valid_pointer` (outside the heap, implausible
header size), the block is not marked allocated, or the caller is neither its owner nor
the Null Task. -/
theorem k_mem_dealloc_impl_error_unchanged (tid : Nat) (h : Heap) :
    k_mem_dealloc_impl tid h 0 = some (RTX_OK, h) ∧
    (∀ p h', k_mem_dealloc_impl tid h p = some (RTX_ERR, h') → h' = h) ∧
    (∀ p, p ≠ 0 →
      (h.memory_initialized = 0 ∨ is_valid_pointer h p = false ∨
        (h.blk (u32 (p + 4294967296 - HDR))).is_allocated = 0 ∨
        ((h.blk (u32 (p + 4294967296 - HDR))).owner_tid ≠ tid ∧ tid ≠ TID_NULL)) →
      k_mem_dealloc_impl tid h p = some (RTX_ERR, h)) := by
  refine ⟨by simp [k_mem_dealloc_impl], fun p h' hd => ?_, fun p hp hc => ?_⟩
  · unfold k_mem_dealloc_impl at hd
    by_cases h0 : p = 0
    · rw [if_pos h0] at hd
      simp only [Option.some.injEq, Prod.mk.injEq] at hd
      exact absurd hd.1 (by decide)
    rw [if_neg h0] at hd
    by_cases h1 : h.memory_initialized = 0 ∨ is_valid_pointer h p = false
    · rw [if_pos h1] at hd
      simp only [Option.some.injEq, Prod.mk.injEq] at hd
      exact hd.2.symm
    rw [if_neg h1] at hd
    dsimp only at hd
    by_cases h2 : (h.blk (u32 (p + 4294967296 - HDR))).is_allocated = 0
    · rw [if_pos h2] at hd
      simp only [Option.some.injEq, Prod.mk.injEq] at hd
      exact hd.2.symm
    rw [if_neg h2] at hd
    by_cases h3 : (h.blk (u32 (p + 4294967296 - HDR))).owner_tid ≠ tid ∧ tid ≠ TID_NULL
    · rw [if_pos h3] at hd
      simp only [Option.some.injEq, Prod.mk.injEq] at hd
      exact hd.2.symm
    rw [if_neg h3] at hd
    cases ha : add_to_free_list ((h.set_is_allocated (u32 (p + 4294967296 - HDR)) 0).set_owner_tid
        (u32 (p + 4294967296 - HDR)) TID_NULL) (u32 (p + 4294967296 - HDR)) with
    | none => rw [ha] at hd; simp at hd
    | some h2' =>
      rw [ha] at hd
      simp only [Option.some.injEq, Prod.mk.injEq] at hd
      exact absurd hd.1 (by decide)
  · exact k_mem_dealloc_impl_rejects tid h p hp hc

/-- C8. `k_mem_init_impl` returns `RTX_ERR` and the heap as it was when the kernel has
not been initialised. When it returns `RTX_OK` (whether or not the heap had been
initialised before) the heap low boundary is 4-byte aligned, the heap is marked
initialised, the list head is the low boundary, and the header there is that of a block
whose size is the whole heap (high boundary minus low boundary, in 32-bit arithmetic),
not allocated, owned by the Null Task, with no successor and no predecessor: for a
non-null low boundary the free list is exactly that one block. -/
theorem k_mem_init_impl_single_block (img : Image) (h : Heap) :
    k_mem_init_impl img 0 h = (RTX_ERR, h) ∧
    ∀ g h', k_mem_init_impl img g h = (RTX_OK, h') →
      g ≠ 0 ∧ h'.heap_start % 4 = 0 ∧ h'.memory_initialized = 1 ∧
      h'.free_list_head = h'.heap_start ∧
      h'.blk h'.heap_start =
        ⟨u32 (h'.heap_end + 4294967296 - h'.heap_start), 0, TID_NULL, 0, 0⟩ ∧
      (h'.heap_start ≤ h'.heap_end →
        (h'.blk h'.heap_start).size = h'.heap_end - h'.heap_start) ∧
      (h'.heap_start ≠ 0 →
        free_blocks h' =
          some [(h'.heap_start, u32 (h'.heap_end + 4294967296 - h'.heap_start))]) := by
  refine ⟨by simp [k_mem_init_impl], fun g h' hok => ?_⟩
  obtain ⟨hg, hs, he, hh, hi, hb, -⟩ := k_mem_init_impl_ok img g h h' hok
  have hend : h'.heap_end < 4294967296 := by rw [he]; exact u32_lt _
  refine ⟨hg, by rw [hs]; exact init_heap_start_aligned img, hi, hh, hb, fun hle => ?_,
    fun hne => ?_⟩
  · rw [hb]
    show u32 (h'.heap_end + 4294967296 - h'.heap_start) = _
    unfold u32; omega
  · have hseg : Seg h'.blk h'.free_list_head 0 [h'.heap_start] 0 := by
      refine ⟨hh, ?_, ?_⟩
      · rw [hb]
      · show (h'.blk h'.heap_start).next = 0
        rw [hb]
    have := free_blocks_loop_seg hseg (fun a ha => by simp at ha; rw [ha]; exact hne)
      WALK_FUEL (by simp)
    unfold free_blocks
    rw [this]
    simp [hb]

theorem Heap.set_owner_tid_self (h : Heap) (a v : Nat) (hv : (h.blk a).owner_tid = v) :
    h.set_owner_tid a v = h := by
  unfold Heap.set_owner_tid
  have : ({ h.blk a with owner_tid := v } : mem_block) = h.blk a := by
    rw [← hv]
  rw [this, Function.update_eq_self]

/-- First Fit for requests whose size computation does not wrap (at most 4294967000
bytes). On a well-formed free list, with `total = (n rounded up to a multiple of 4) + HDR`: `k_mem_alloc_impl(0)` returns null; for `n > 0`, when no block of the list
has size at least `total` the call returns null and the heap as it was; otherwise it
returns the non-null payload address `F + HDR` of the block `F` of the list with
`size ≥ total` that has the lowest address. -/
theorem k_mem_alloc_impl_lowest_fit {h : Heap} {l : List Nat} (tid n : Nat)
    (inv : FreeListInv h l) (hn' : n ≤ 4294967000) :
    k_mem_alloc_impl tid h 0 = some (0, h) ∧
    total_size n = (n + 3) / 4 * 4 + HDR ∧
    (0 < n → (∀ a ∈ l, (h.blk a).size < total_size n) →
      k_mem_alloc_impl tid h n = some (0, h)) ∧
    (0 < n → (∃ a ∈ l, total_size n ≤ (h.blk a).size) →
      ∃ F h', F ∈ l ∧ total_size n ≤ (h.blk F).size ∧
        (∀ a ∈ l, total_size n ≤ (h.blk a).size → F ≤ a) ∧
        k_mem_alloc_impl tid h n = some (F + HDR, h') ∧ F + HDR ≠ 0) := by
  have hH : HDR = 20 := rfl
  refine ⟨by simp [k_mem_alloc_impl], total_size_eq n hn',
    fun _ hs => k_mem_alloc_impl_none tid n inv hs, fun hn hex => ?_⟩
  cases hf : l.find? (fun a => decide (total_size n ≤ (h.blk a).size)) with
  | none =>
    exfalso
    rw [List.find?_eq_none] at hf
    obtain ⟨a, ha, hfit⟩ := hex
    have := hf a ha
    simp only [decide_eq_true_eq] at this
    exact this hfit
  | some F =>
    rw [List.find?_eq_some] at hf
    obtain ⟨hfit, l1, l2, hl, hsm⟩ := hf
    simp only [decide_eq_true_eq] at hfit
    have hsmall : ∀ a ∈ l1, (h.blk a).size < total_size n := fun a ha => by
      have := hsm a ha; simp at this; exact this
    subst hl
    obtain ⟨h1, hal, -⟩ := k_mem_alloc_impl_fit tid n inv hn hn' hsmall hfit
    refine ⟨F, h1, by simp, hfit, fun a ha hfa => ?_, hal, by omega⟩
    rcases List.mem_append.1 ha with ha | ha
    · have := hsmall a ha; omega
    · rcases List.mem_cons.1 ha with rfl | ha
      · exact Nat.le_refl _
      · exact Nat.le_of_lt (List.rel_of_pairwise_cons
          (List.pairwise_append.1 inv.sorted).2.1 ha)

theorem k_mem_alloc_impl_lowest_fit_witness :
    k_mem_alloc_impl 1 sample_kernel.mem 0 = some (0, sample_kernel.mem) ∧
    ∃ h', k_mem_alloc_impl 1 sample_kernel.mem 64 = some (0x20001000 + HDR, h') := by
  obtain ⟨h1, -, -, h4⟩ := k_mem_alloc_impl_lowest_fit 1 64 sample_kernel_inv (by decide)
  refine ⟨h1, ?_⟩
  obtain ⟨F, h', hF, -, -, hal, -⟩ := h4 (by decide) ⟨0x20001000, by simp, by decide⟩
  simp only [List.mem_singleton] at hF
  subst hF
  exact ⟨h', hal⟩

/-- Release of a pointer obtained for a request of at most 4294967000 bytes. On a
well-formed free list, for a pointer `p` returned non-null by `k_mem_alloc_impl(n)`: `k_mem_dealloc_impl(p)` issued by the same task with no other
allocator call in between returns `RTX_OK`, and a second `k_mem_dealloc_impl(p)` right
after it returns `RTX_ERR` (and leaves the heap as the first one left it). -/
theorem k_mem_dealloc_impl_twice {h h1 : Heap} {l : List Nat} (tid n p : Nat)
    (inv : FreeListInv h l) (hn : 0 < n) (hn' : n ≤ 4294967000)
    (hal : k_mem_alloc_impl tid h n = some (p, h1)) (hp : p ≠ 0) :
    ∃ h2, k_mem_dealloc_impl tid h1 p = some (RTX_OK, h2) ∧
      k_mem_dealloc_impl tid h2 p = some (RTX_ERR, h2) := by
  have hH : HDR = 20 := rfl
  obtain ⟨l1, l2, F, hl, hpF, -, -⟩ := k_mem_alloc_impl_first_fit tid n inv hn hn' hal hp
  have ho : (h1.blk (p - HDR)).owner_tid = tid := by
    obtain ⟨p', h', l', hal', -, -, hnn⟩ := k_mem_alloc_impl_inv tid n inv hn hn'
    rw [hal] at hal'
    simp only [Option.some.injEq, Prod.mk.injEq] at hal'
    obtain ⟨e1, e2⟩ := hal'
    subst e1
    subst e2
    exact (hnn hp).2.2.2.2.2
  obtain ⟨h2, hde, inv2, -, g5, -⟩ := k_mem_alloc_dealloc_restores tid tid n inv hn hn' hal hp
  have hFend := inv.end_lt
  have hFin := inv.inside F (by rw [hl]; simp)
  have e : u32 (p + 4294967296 - HDR) = p - HDR := by
    rw [hpF]; unfold u32; omega
  rw [e, Heap.set_owner_tid_self _ _ _ ho] at hde
  refine ⟨h2, hde, k_mem_dealloc_impl_rejects tid h2 p hp (Or.inr (Or.inr (Or.inl ?_)))⟩
  rw [e]
  have hm : p - HDR ∈ l := by rw [hl, hpF]; simp
  rw [g5 _ hm]
  exact (inv.free _ hm).1

theorem k_mem_dealloc_impl_twice_witness :
    ∃ p h1 h2, k_mem_alloc_impl 3 sample_kernel.mem 64 = some (p, h1) ∧ p ≠ 0 ∧
      k_mem_dealloc_impl 3 h1 p = some (RTX_OK, h2) ∧
      k_mem_dealloc_impl 3 h2 p = some (RTX_ERR, h2) := by
  obtain ⟨p, h1, l', hal, -, -, -⟩ := k_mem_alloc_impl_inv 3 64 sample_kernel_inv
    (by decide) (by decide)
  have hp : p ≠ 0 := by
    have : (k_mem_alloc_impl 3 sample_kernel.mem 64).map Prod.fst = some 0x20001014 := by
      decide
    rw [hal] at this
    simp only [Option.map_some', Option.some.injEq] at this
    rw [this]; decide
  obtain ⟨h2, d1, d2⟩ := k_mem_dealloc_impl_twice 3 64 p sample_kernel_inv (by decide)
    (by decide) hal hp
  exact ⟨p, h1, h2, hal, hp, d1, d2⟩

/-- Ownership enforcement for a request of at most 4294967000 bytes. On a well-formed
free list, let task `A` obtain the non-null pointer `p` from `k_mem_alloc_impl`. A `k_mem_dealloc_impl(p)` executed with
current identifier `B`, where `B ≠ A` and `B` is not the Null Task, returns `RTX_ERR`
and the heap as it was: the block is still marked allocated with owner `A`. A subsequent
`k_mem_dealloc_impl(p)` executed with current identifier `A` returns `RTX_OK`. -/
theorem k_mem_dealloc_impl_owner_only {h h1 : Heap} {l : List Nat} (A B n p : Nat)
    (inv : FreeListInv h l) (hn : 0 < n) (hn' : n ≤ 4294967000)
    (hal : k_mem_alloc_impl A h n = some (p, h1)) (hp : p ≠ 0)
    (hBA : B ≠ A) (hB0 : B ≠ TID_NULL) :
    k_mem_dealloc_impl B h1 p = some (RTX_ERR, h1) ∧
    (h1.blk (p - HDR)).is_allocated = 1 ∧ (h1.blk (p - HDR)).owner_tid = A ∧
    ∃ h2, k_mem_dealloc_impl A h1 p = some (RTX_OK, h2) := by
  have hH : HDR = 20 := rfl
  obtain ⟨l1, l2, F, hl, hpF, -, -⟩ := k_mem_alloc_impl_first_fit A n inv hn hn' hal hp
  have hao : (h1.blk (p - HDR)).is_allocated = 1 ∧ (h1.blk (p - HDR)).owner_tid = A := by
    obtain ⟨p', h', l', hal', -, -, hnn⟩ := k_mem_alloc_impl_inv A n inv hn hn'
    rw [hal] at hal'
    simp only [Option.some.injEq, Prod.mk.injEq] at hal'
    obtain ⟨e1, e2⟩ := hal'
    subst e1
    subst e2
    exact (hnn hp).2.2.2.2
  obtain ⟨h2, hde, -⟩ := k_mem_alloc_dealloc_restores A A n inv hn hn' hal hp
  have hFend := inv.end_lt
  have hFin := inv.inside F (by rw [hl]; simp)
  have e : u32 (p + 4294967296 - HDR) = p - HDR := by
    rw [hpF]; unfold u32; omega
  rw [e, Heap.set_owner_tid_self _ _ _ hao.2] at hde
  refine ⟨k_mem_dealloc_impl_rejects B h1 p hp (Or.inr (Or.inr (Or.inr ⟨?_, hB0⟩))),
    hao.1, hao.2, h2, hde⟩
  rw [e, hao.2]
  exact Ne.symm hBA

theorem k_mem_dealloc_impl_owner_only_witness :
    ∃ p h1 h2, k_mem_alloc_impl 3 sample_kernel.mem 64 = some (p, h1) ∧ p ≠ 0 ∧
      k_mem_dealloc_impl 4 h1 p = some (RTX_ERR, h1) ∧
      k_mem_dealloc_impl 3 h1 p = some (RTX_OK, h2) := by
  obtain ⟨p, h1, l', hal, -, -, -⟩ := k_mem_alloc_impl_inv 3 64 sample_kernel_inv
    (by decide) (by decide)
  have hp : p ≠ 0 := by
    have : (k_mem_alloc_impl 3 sample_kernel.mem 64).map Prod.fst = some 0x20001014 := by
      decide
    rw [hal] at this
    simp only [Option.map_some', Option.some.injEq] at this
    rw [this]; decide
  obtain ⟨d1, -, -, h2, d2⟩ := k_mem_dealloc_impl_owner_only 3 4 64 p sample_kernel_inv
    (by decide) (by decide) hal hp (by decide) (by decide)
  exact ⟨p, h1, h2, hal, hp, d1, d2⟩

theorem two_le_countP {l : List Nat} {p : Nat → Bool} {i j : Nat} (hi : i ∈ l) (hj : j ∈ l)
    (hij : i ≠ j) (pi : p i = true) (pj : p j = true) : 2 ≤ l.countP p := by
  induction l with
  | nil => cases hi
  | cons a l ih =>
    rw [List.countP_cons]
    rcases List.mem_cons.1 hi with rfl | hi'
    · rcases List.mem_cons.1 hj with rfl | hj'
      · exact absurd rfl hij
      · have : 0 < l.countP p := List.countP_pos_iff.2 ⟨j, hj', pj⟩
        rw [if_pos pi]; omega
    · rcases List.mem_cons.1 hj with rfl | hj'
      · have : 0 < l.countP p := List.countP_pos_iff.2 ⟨i, hi', pi⟩
        rw [if_pos pj]; omega
      · have := ih hi' hj'
        omega

/-- The bound on the deadlines of the Ready slots cannot be dropped from the statement
about the minimum deadline: on a table, which no call of the kernel builds, where slot 1 is the only Ready slot of
`[1, MAX_TASKS)` and holds the deadline `0xFFFFFFFF`, `edf_scheduler` returns the Null
Task. -/
theorem edf_scheduler_sentinel_deadline :
    (sentinel_deadline_kernel.g_tasks 1).state = READY ∧
    (sentinel_deadline_kernel.g_tasks 1).deadline_value = 0xFFFFFFFF ∧
    (∀ i, i < MAX_TASKS → 2 ≤ i → (sentinel_deadline_kernel.g_tasks i).state ≠ READY) ∧
    edf_scheduler sentinel_deadline_kernel = TID_NULL := by
  decide

/-- With no Ready slot in `[1, MAX_TASKS)` the scheduler returns the Null Task. -/
theorem edf_scheduler_idle (k : Kernel)
    (h : ∀ i, 1 ≤ i → i < MAX_TASKS → (k.g_tasks i).state ≠ READY) :
    edf_scheduler k = TID_NULL := by
  have inv := edf_scan_inv k.g_tasks
  have hmax : (edf_scan k.g_tasks).earliest_deadline = 0xFFFFFFFF := by
    by_contra hne
    have hlt : (edf_scan k.g_tasks).earliest_deadline < 0xFFFFFFFF :=
      Nat.lt_of_le_of_ne inv.max hne
    obtain ⟨s1, s2, -⟩ := inv.sel hlt
    exact h _ ((mem_slots _).1 s1).1 ((mem_slots _).1 s1).2 s2
  have hcnt : (edf_scan k.g_tasks).tasks_with_same_deadline = 0 := by
    rw [inv.cnt, List.countP_eq_zero]
    intro i hi
    simp only [decide_eq_true_eq, not_and]
    intro hr
    exact absurd hr (h i ((mem_slots i).1 hi).1 ((mem_slots i).1 hi).2)
  unfold edf_scheduler
  dsimp only
  rw [if_neg (by rw [hcnt]; decide)]
  exact inv.none hmax

/-- C9. For every task table the kernel builds, that is, whose Ready slots in
`[1, MAX_TASKS)` have deadlines below `0xFFFFFFFF` (the kernel stores 5 or a positive
`int` there; `0xFFFFFFFF` is what the Null Task holds), the current task being a slot
index:
`edf_scheduler` returns the Null Task when no slot in `[1, MAX_TASKS)` is Ready;
otherwise it returns a Ready slot of `[1, MAX_TASKS)` whose deadline is the minimum over
all Ready slots; and when one Ready slot has a deadline strictly below all the others,
it returns that slot. -/
theorem edf_scheduler_minimum (k : Kernel) (hc : k.g_active_task_id < MAX_TASKS)
    (hd : ∀ i, 1 ≤ i → i < MAX_TASKS → (k.g_tasks i).state = READY →
      (k.g_tasks i).deadline_value < 0xFFFFFFFF) :
    ((∀ i, 1 ≤ i → i < MAX_TASKS → (k.g_tasks i).state ≠ READY) →
      edf_scheduler k = TID_NULL) ∧
    ((∃ i, 1 ≤ i ∧ i < MAX_TASKS ∧ (k.g_tasks i).state = READY) →
      1 ≤ edf_scheduler k ∧ edf_scheduler k < MAX_TASKS ∧
      (k.g_tasks (edf_scheduler k)).state = READY ∧
      ∀ i, 1 ≤ i → i < MAX_TASKS → (k.g_tasks i).state = READY →
        (k.g_tasks (edf_scheduler k)).deadline_value ≤ (k.g_tasks i).deadline_value) ∧
    (∀ i, 1 ≤ i → i < MAX_TASKS → (k.g_tasks i).state = READY →
      (∀ j, 1 ≤ j → j < MAX_TASKS → (k.g_tasks j).state = READY → j ≠ i →
        (k.g_tasks i).deadline_value < (k.g_tasks j).deadline_value) →
      edf_scheduler k = i) := by
  have hmin : (∃ i, 1 ≤ i ∧ i < MAX_TASKS ∧ (k.g_tasks i).state = READY) →
      1 ≤ edf_scheduler k ∧ edf_scheduler k < MAX_TASKS ∧
      (k.g_tasks (edf_scheduler k)).state = READY ∧
      ∀ i, 1 ≤ i → i < MAX_TASKS → (k.g_tasks i).state = READY →
        (k.g_tasks (edf_scheduler k)).deadline_value ≤ (k.g_tasks i).deadline_value := by
    rintro ⟨j, j1, j2, j3⟩
    have hlt : (edf_scan k.g_tasks).earliest_deadline < 0xFFFFFFFF :=
      Nat.lt_of_le_of_lt (edf_scan_le k.g_tasks j j1 j2 j3) (hd j j1 j2 j3)
    obtain ⟨t1, t2, t3, t4⟩ := edf_scheduler_hit k hc (Or.inl hlt)
    exact ⟨t1, t2, t3, fun i i1 i2 i3 => by rw [t4]; exact edf_scan_le k.g_tasks i i1 i2 i3⟩
  refine ⟨edf_scheduler_idle k, hmin, fun i i1 i2 i3 huniq => ?_⟩
  obtain ⟨t1, t2, t3, t4⟩ := hmin ⟨i, i1, i2, i3⟩
  by_contra hne
  have := huniq _ t1 t2 t3 hne
  have := t4 i i1 i2 i3
  omega

theorem edf_scheduler_minimum_witness :
    (two_started.g_tasks 2).state = READY ∧
    1 ≤ edf_scheduler two_started ∧ edf_scheduler two_started < MAX_TASKS ∧
    (two_started.g_tasks (edf_scheduler two_started)).state = READY :=
  have h := (edf_scheduler_minimum two_started (by decide) (by decide)).2.1
    ⟨2, by decide, by decide, by decide⟩
  ⟨by decide, h.1, h.2.1, h.2.2.1⟩

/-- C10. Round-robin tie-break. Let two or more Ready slots of `[1, MAX_TASKS)` share the
minimum deadline `d` (deadlines being 32-bit values), and let the current task `c` be a
slot index. Then `edf_scheduler` returns the smallest index `i > c` that is Ready with
deadline `d` if there is one, and otherwise the smallest index `i` in `[1, c]` that is
Ready with deadline `d`. -/
theorem edf_scheduler_round_robin (k : Kernel) (d a b : Nat)
    (hc : k.g_active_task_id < MAX_TASKS)
    (hU : ∀ i, i < MAX_TASKS → (k.g_tasks i).deadline_value ≤ 0xFFFFFFFF)
    (hmin : ∀ i, 1 ≤ i → i < MAX_TASKS → (k.g_tasks i).state = READY →
      d ≤ (k.g_tasks i).deadline_value)
    (ha : 1 ≤ a ∧ a < MAX_TASKS ∧ (k.g_tasks a).state = READY ∧ (k.g_tasks a).deadline_value = d)
    (hb : 1 ≤ b ∧ b < MAX_TASKS ∧ (k.g_tasks b).state = READY ∧ (k.g_tasks b).deadline_value = d)
    (hab : a ≠ b) :
    (∀ i, k.g_active_task_id < i → i < MAX_TASKS → (k.g_tasks i).state = READY →
      (k.g_tasks i).deadline_value = d →
      (∀ j, k.g_active_task_id < j → j < i →
        ¬ ((k.g_tasks j).state = READY ∧ (k.g_tasks j).deadline_value = d)) →
      edf_scheduler k = i) ∧
    ((∀ j, k.g_active_task_id < j → j < MAX_TASKS →
        ¬ ((k.g_tasks j).state = READY ∧ (k.g_tasks j).deadline_value = d)) →
      ∀ i, 1 ≤ i → i ≤ k.g_active_task_id → (k.g_tasks i).state = READY →
        (k.g_tasks i).deadline_value = d →
        (∀ j, 1 ≤ j → j < i →
          ¬ ((k.g_tasks j).state = READY ∧ (k.g_tasks j).deadline_value = d)) →
        edf_scheduler k = i) := by
  have hM : MAX_TASKS = 16 := rfl
  have inv := edf_scan_inv k.g_tasks
  -- the deadline found by the first loop is `d`
  have he : (edf_scan k.g_tasks).earliest_deadline = d := by
    have h1 : (edf_scan k.g_tasks).earliest_deadline ≤ d := by
      rw [← ha.2.2.2]
      exact edf_scan_le k.g_tasks a ha.1 ha.2.1 ha.2.2.1
    by_contra hne
    have hlt : (edf_scan k.g_tasks).earliest_deadline < 0xFFFFFFFF := by
      have := hU a ha.2.1
      rw [ha.2.2.2] at this
      omega
    obtain ⟨s1, s2, s3, -⟩ := inv.sel hlt
    have := hmin _ ((mem_slots _).1 s1).1 ((mem_slots _).1 s1).2 s2
    omega
  have hcnt : 1 < (edf_scan k.g_tasks).tasks_with_same_deadline := by
    rw [inv.cnt, he]
    exact two_le_countP ((mem_slots a).2 ⟨ha.1, ha.2.1⟩) ((mem_slots b).2 ⟨hb.1, hb.2.1⟩) hab
      (by simp [ha.2.2.1, ha.2.2.2]) (by simp [hb.2.2.1, hb.2.2.2])
  have hstart : u32 (k.g_active_task_id + 1) = k.g_active_task_id + 1 := by
    unfold u32; omega
  refine ⟨fun i i1 i2 i3 i4 hfirst => ?_, fun hnone i i1 i2 i3 i4 hfirst => ?_⟩
  · unfold edf_scheduler osGetTID_internal
    dsimp only
    rw [if_pos hcnt, hstart, he]
    have hf : (List.range' (k.g_active_task_id + 1) (MAX_TASKS - (k.g_active_task_id + 1))).find?
        (fun i => decide ((k.g_tasks i).state = READY ∧ (k.g_tasks i).deadline_value = d)) =
        some i := by
      rw [List.find?_range'_eq_some]
      refine ⟨by simp [i3, i4], by rw [List.mem_range'_1]; omega, fun j j1 j2 => ?_⟩
      have := hfirst j (by omega) j2
      simp only [Bool.not_eq_true', decide_eq_false_iff_not]
      exact this
    rw [hf]
  · unfold edf_scheduler osGetTID_internal
    dsimp only
    rw [if_pos hcnt, hstart, he]
    have hf1 : (List.range' (k.g_active_task_id + 1) (MAX_TASKS - (k.g_active_task_id + 1))).find?
        (fun i => decide ((k.g_tasks i).state = READY ∧ (k.g_tasks i).deadline_value = d)) =
        none := by
      rw [List.find?_eq_none]
      intro j hj
      rw [List.mem_range'_1] at hj
      have := hnone j (by omega) (by omega)
      simpa using this
    have hf2 : (List.range' 1 k.g_active_task_id).find?
        (fun i => decide ((k.g_tasks i).state = READY ∧ (k.g_tasks i).deadline_value = d)) =
        some i := by
      rw [List.find?_range'_eq_some]
      refine ⟨by simp [i3, i4], by rw [List.mem_range'_1]; omega, fun j j1 j2 => ?_⟩
      have := hfirst j j1 j2
      simp only [Bool.not_eq_true', decide_eq_false_iff_not]
      exact this
    rw [hf1]
    dsimp only
    rw [hf2]

theorem edf_scheduler_round_robin_witness :
    two_started.g_active_task_id = 1 ∧ (two_started.g_tasks 1).deadline_value = 5 ∧
    (two_started.g_tasks 2).deadline_value = 5 ∧
    edf_scheduler (yield_mark two_started 1) = 2 := by
  have hc1 : (yield_mark two_started 1).g_active_task_id = 1 := by decide
  have h := (edf_scheduler_round_robin (yield_mark two_started 1) 5 1 2 (by decide)
    (by decide) (by decide) (by decide) (by decide) (by decide)).1 2 (by decide) (by decide)
    (by decide) (by decide) (fun j h1 h2 => by omega)
  exact ⟨by decide, by decide, by decide, h⟩

/-- The loop of `k_mem_count_extfrag_impl` over a chain of free blocks counts the blocks
whose payload capacity is below `n`. -/
theorem count_extfrag_loop_seg {m : Nat → mem_block} {l : List Nat} {p q : Nat} (n : Nat)
    (hseg : Seg m p q l 0) (hnz : ∀ a ∈ l, a ≠ 0) (hfree : ∀ a ∈ l, (m a).is_allocated = 0)
    (fuel : Nat) (hf : l.length < fuel) (c : Nat) :
    count_extfrag_loop m n fuel p c =
      some (c + l.countP fun a => decide (u32 ((m a).size + 4294967296 - HDR) < n)) := by
  induction l generalizing p q fuel c with
  | nil =>
    have hp : p = 0 := hseg
    subst hp
    cases fuel with
    | zero => simp at hf
    | succ f => simp [count_extfrag_loop]
  | cons a l ih =>
    obtain ⟨h1, -, h3⟩ := hseg
    subst h1
    cases fuel with
    | zero => simp at hf
    | succ f =>
      have ha0 := hnz p (List.mem_cons_self _ _)
      have haf := hfree p (List.mem_cons_self _ _)
      have := ih h3 (fun b hb => hnz b (List.mem_cons_of_mem _ hb))
        (fun b hb => hfree b (List.mem_cons_of_mem _ hb)) f (by simp at hf; omega)
      unfold count_extfrag_loop
      rw [if_neg ha0]
      dsimp only
      rw [this, List.countP_cons]
      by_cases hlt : u32 ((m p).size + 4294967296 - HDR) < n
      · simp [haf, hlt]; omega
      · simp [haf, hlt]

theorem Tiles.tiles_append {m : Nat → mem_block} {l1 l2 : List Nat} {a e : Nat} :
    Tiles m a (l1 ++ l2) e ↔ ∃ x, Tiles m a l1 x ∧ Tiles m x l2 e := by
  induction l1 generalizing a with
  | nil => simp [Tiles]
  | cons b l ih =>
    constructor
    · intro h
      obtain ⟨h1, h2, h3⟩ :
        a = b ∧ HDR + 4 ≤ (m b).size ∧ Tiles m (b + (m b).size) (l ++ l2) e := h
      obtain ⟨x, h4, h5⟩ := ih.1 h3
      exact ⟨x, ⟨h1, h2, h4⟩, h5⟩
    · rintro ⟨x, h, h5⟩
      obtain ⟨h1, h2, h4⟩ : a = b ∧ HDR + 4 ≤ (m b).size ∧ Tiles m (b + (m b).size) l x := h
      exact ⟨h1, h2, ih.2 ⟨x, h4, h5⟩⟩

theorem Tiles.tiles_frame {m m' : Nat → mem_block} {l : List Nat} {a e : Nat}
    (hm : ∀ b ∈ l, (m' b).size = (m b).size) (h : Tiles m a l e) : Tiles m' a l e := by
  induction l generalizing a with
  | nil => exact h
  | cons b l ih =>
    obtain ⟨h1, h2, h3⟩ := h
    have e1 := hm b (List.mem_cons_self _ _)
    refine ⟨h1, by rw [e1]; exact h2, ?_⟩
    rw [e1]
    exact ih (fun c hc => hm c (List.mem_cons_of_mem _ hc)) h3

theorem Tiles.bounds {m : Nat → mem_block} {l : List Nat} {a e : Nat} (h : Tiles m a l e) :
    a ≤ e ∧ ∀ b ∈ l, a ≤ b ∧ b + (m b).size ≤ e ∧ HDR + 4 ≤ (m b).size := by
  induction l generalizing a with
  | nil =>
    have : a = e := h
    simp [this]
  | cons b l ih =>
    obtain ⟨h1, h2, h3⟩ := h
    obtain ⟨i1, i2⟩ := ih h3
    subst h1
    refine ⟨by omega, fun c hc => ?_⟩
    rcases List.mem_cons.1 hc with hc | hc
    · subst hc
      exact ⟨le_refl _, i1, h2⟩
    · have := i2 c hc
      exact ⟨by omega, this.2.1, this.2.2⟩

theorem Tiles.ordered {m : Nat → mem_block} {l : List Nat} {a e : Nat} (h : Tiles m a l e) :
    l.Pairwise (fun b c => b + (m b).size ≤ c) := by
  induction l generalizing a with
  | nil => exact List.Pairwise.nil
  | cons b l ih =>
    obtain ⟨-, -, h3⟩ := h
    exact List.pairwise_cons.2 ⟨fun c hc => (h3.bounds.2 c hc).1, ih h3⟩

theorem Tiles.distinct {m : Nat → mem_block} {l : List Nat} {a e : Nat} (h : Tiles m a l e) :
    l.Nodup := by
  refine List.Pairwise.imp_of_mem ?_ h.ordered
  intro x y hx _ hxy
  have := (h.bounds.2 x hx).2.2
  have hH : HDR = 20 := rfl
  omega

/-- In a relation that holds pairwise along a list, two distinct members are related in
one of the two orders. -/
theorem pairwise_or {R : Nat → Nat → Prop} {l : List Nat} (h : l.Pairwise R) {x y : Nat}
    (hx : x ∈ l) (hy : y ∈ l) (hne : x ≠ y) : R x y ∨ R y x := by
  induction l with
  | nil => cases hx
  | cons a l ih =>
    obtain ⟨h1, h2⟩ := List.pairwise_cons.1 h
    rcases List.mem_cons.1 hx with ex | mx <;> rcases List.mem_cons.1 hy with ey | my
    · exact absurd (ex.trans ey.symm) hne
    · rw [ex]; exact Or.inl (h1 y my)
    · rw [ey]; exact Or.inr (h1 x mx)
    · exact ih h2 mx my

/-- No free block of a well-formed heap ends where another free block starts. -/
theorem HeapInv.no_adj {h : Heap} {bs : List Nat} (inv : HeapInv h bs) {x y : Nat}
    (hx : x ∈ bs) (hfx : (h.blk x).is_allocated = 0)
    (hy : y ∈ bs) (hfy : (h.blk y).is_allocated = 0) : x + (h.blk x).size ≠ y := by
  intro e
  have hH : HDR = 20 := rfl
  have sx := (inv.tiles.bounds.2 x hx).2.2
  have sy := (inv.tiles.bounds.2 y hy).2.2
  have mx : x ∈ bs.filter (is_free h) := List.mem_filter.2 ⟨hx, by simp [is_free, hfx]⟩
  have my : y ∈ bs.filter (is_free h) := List.mem_filter.2 ⟨hy, by simp [is_free, hfy]⟩
  rcases pairwise_or inv.fl.gaps mx my (by omega) with g | g <;> omega

/-- A tiling in which no free block ends where another free block starts has gaps
between the blocks of its free list. -/
theorem Tiles.gaps {h : Heap} {bs : List Nat} {a e : Nat} (ht : Tiles h.blk a bs e)
    (hno : ∀ x ∈ bs, (h.blk x).is_allocated = 0 → ∀ y ∈ bs, (h.blk y).is_allocated = 0 →
      x + (h.blk x).size ≠ y) :
    (bs.filter (is_free h)).Pairwise (fun x y => x + (h.blk x).size < y) := by
  refine List.Pairwise.imp_of_mem ?_ (ht.ordered.filter _)
  intro x y hx hy hxy
  obtain ⟨hx1, hx2⟩ := List.mem_filter.1 hx
  obtain ⟨hy1, hy2⟩ := List.mem_filter.1 hy
  simp only [is_free, decide_eq_true_eq] at hx2 hy2
  have := hno x hx1 hx2 y hy1 hy2
  omega

/-- A tiled heap whose free list is the chain of its free blocks, with no two free
blocks touching, is well formed. -/
theorem HeapInv.of_tiles {h : Heap} {bs : List Nat}
    (hi : h.memory_initialized ≠ 0) (hs : 0 < h.heap_start) (he : h.heap_end < 4294967296)
    (ht : Tiles h.blk h.heap_start bs h.heap_end)
    (hseg : Seg h.blk h.free_list_head 0 (bs.filter (is_free h)) 0)
    (ho : ∀ b ∈ bs, (h.blk b).is_allocated = 0 → (h.blk b).owner_tid = TID_NULL)
    (hal : ∀ b ∈ bs, b % 4 = 0) (hne : bs ≠ [])
    (hno : ∀ x ∈ bs, (h.blk x).is_allocated = 0 → ∀ y ∈ bs, (h.blk y).is_allocated = 0 →
      x + (h.blk x).size ≠ y) :
    HeapInv h bs := by
  refine ⟨{ init := hi, start_pos := hs, end_lt := he, seg := hseg, inside := ?_,
            free := ?_, aligned := ?_, gaps := ht.gaps hno }, ht, hal, hne⟩
  · intro a ha
    have := ht.bounds.2 a (List.mem_filter.1 ha).1
    exact ⟨this.1, this.2.1⟩
  · intro a ha
    obtain ⟨h1, h2⟩ := List.mem_filter.1 ha
    simp only [is_free, decide_eq_true_eq] at h2
    exact ⟨h2, ho a h1 h2⟩
  · intro a ha
    exact hal a (List.mem_filter.1 ha).1

theorem is_free_iff (h : Heap) (b : Nat) : is_free h b = true ↔ (h.blk b).is_allocated = 0 := by
  simp [is_free]

theorem is_free_congr {h h' : Heap} {l : List Nat}
    (hf : ∀ b ∈ l, (h'.blk b).is_allocated = (h.blk b).is_allocated) :
    l.filter (is_free h') = l.filter (is_free h) :=
  List.filter_congr (fun b hb => by simp [is_free, hf b hb])

/-- The tiling around one of its blocks. -/
theorem Tiles.around {m : Nat → mem_block} {A C : List Nat} {B a e : Nat}
    (h : Tiles m a (A ++ B :: C) e) :
    Tiles m a A B ∧ HDR + 4 ≤ (m B).size ∧ Tiles m (B + (m B).size) C e ∧
    (∀ x ∈ A, a ≤ x ∧ x + (m x).size ≤ B) ∧
    (∀ y ∈ C, B + (m B).size ≤ y ∧ y + (m y).size ≤ e) ∧ a ≤ B ∧ B + (m B).size ≤ e := by
  obtain ⟨x, h1, h2⟩ := Tiles.tiles_append.1 h
  obtain ⟨h3, h4, h5⟩ : x = B ∧ HDR + 4 ≤ (m B).size ∧ Tiles m (B + (m B).size) C e := h2
  subst h3
  exact ⟨h1, h4, h5, fun y hy => ⟨(h1.bounds.2 y hy).1, (h1.bounds.2 y hy).2.1⟩,
    fun y hy => ⟨(h5.bounds.2 y hy).1, (h5.bounds.2 y hy).2.1⟩, h1.bounds.1, h5.bounds.1⟩

/-- An allocation on a tiled heap: either `NULL` is returned and nothing changes, or the
payload of a block `F` of the tiling that was free is returned, the heap is tiled again
(by the same blocks, or with `F` cut in two), and the blocks marked allocated are those
that were, and `F`. -/
theorem HeapInv.after_alloc {h : Heap} {bs : List Nat} (tid n : Nat) (inv : HeapInv h bs)
    (hn' : n ≤ 4294967000) :
    ∃ p h', k_mem_alloc_impl tid h n = some (p, h') ∧
      ((p = 0 ∧ h' = h) ∨
       ∃ bs' F, p = F + HDR ∧ F ∈ bs ∧ (h.blk F).is_allocated = 0 ∧ HeapInv h' bs' ∧
          h'.heap_start = h.heap_start ∧ h'.heap_end = h.heap_end ∧
          ∀ x, (x ∈ bs' ∧ (h'.blk x).is_allocated ≠ 0) ↔
            ((x ∈ bs ∧ (h.blk x).is_allocated ≠ 0) ∨ x = F)) := by
  have hH : HDR = 20 := rfl
  by_cases hn : n = 0
  · refine ⟨0, h, ?_, Or.inl ⟨rfl, rfl⟩⟩
    unfold k_mem_alloc_impl
    rw [if_pos (Or.inr hn)]
  have hn0 : 0 < n := Nat.pos_of_ne_zero hn
  obtain ⟨ht1, ht2, ht3⟩ := total_size_bounds n hn'
  cases hf : bs.find? (fun b => is_free h b && decide (total_size n ≤ (h.blk b).size)) with
  | none =>
    rw [List.find?_eq_none] at hf
    refine ⟨0, h, k_mem_alloc_impl_none tid n inv.fl (fun a ha => ?_), Or.inl ⟨rfl, rfl⟩⟩
    obtain ⟨h1, h2⟩ := List.mem_filter.1 ha
    have := hf a h1
    simp [h2] at this
    exact this
  | some F =>
    rw [List.find?_eq_some] at hf
    obtain ⟨hp, A, C, hl, hsm⟩ := hf
    subst hl
    simp only [Bool.and_eq_true, decide_eq_true_eq, is_free_iff] at hp
    obtain ⟨hFf, hfit⟩ := hp
    have hfl : (A ++ F :: C).filter (is_free h) =
        A.filter (is_free h) ++ F :: C.filter (is_free h) := by
      rw [List.filter_append, List.filter_cons_of_pos ((is_free_iff h F).2 hFf)]
    have inv1 := inv.fl
    rw [hfl] at inv1
    obtain ⟨tA, sF, tC, bA, bC, lo, hi⟩ := inv.tiles.around
    have hend := inv.fl.end_lt
    obtain ⟨h', hal, g1, g2, g3, fa, fo, fn, fp, hcase⟩ :=
      k_mem_alloc_impl_fit tid n inv1 hn0 hn' (fun a ha => by
        obtain ⟨h1, h2⟩ := List.mem_filter.1 ha
        have := hsm a h1
        simp [h2] at this
        exact this) hfit
    have hnd := inv.tiles.distinct
    have hFA : F ∉ A := fun hm => by
      have := (bA F hm).2
      omega
    have hFC : F ∉ C := fun hm => by
      have := (bC F hm).1
      omega
    have hFm : F ∈ A ++ F :: C := by simp
    refine ⟨F + HDR, h', hal, Or.inr ?_⟩
    by_cases hsp : total_size n + HDR + 16 ≤ (h.blk F).size
    · rw [if_pos hsp] at hcase
      obtain ⟨inv', sF', sR', hfr⟩ := hcase
      have hRm : F + total_size n ∈
          A.filter (is_free h) ++ (F + total_size n) :: C.filter (is_free h) := by simp
      have hRf := (inv'.free _ hRm).1
      have hRA : F + total_size n ∉ A := fun hm => by
        have := (bA _ hm).2
        omega
      have hRC : F + total_size n ∉ C := fun hm => by
        have := (bC _ hm).1
        omega
      have frA : ∀ b ∈ A, (h'.blk b).size = (h.blk b).size ∧
          (h'.blk b).is_allocated = (h.blk b).is_allocated := fun b hb =>
        have := hfr b (fun e => hFA (e ▸ hb)) (fun e => hRA (e ▸ hb))
        ⟨this.1, this.2.1⟩
      have frC : ∀ b ∈ C, (h'.blk b).size = (h.blk b).size ∧
          (h'.blk b).is_allocated = (h.blk b).is_allocated := fun b hb =>
        have := hfr b (fun e => hFC (e ▸ hb)) (fun e => hRC (e ▸ hb))
        ⟨this.1, this.2.1⟩
      refine ⟨A ++ F :: (F + total_size n) :: C, F, rfl, hFm, hFf, ⟨?_, ?_, ?_, by simp⟩,
        g1, g2, ?_⟩
      · have : (A ++ F :: (F + total_size n) :: C).filter (is_free h') =
            A.filter (is_free h) ++ (F + total_size n) :: C.filter (is_free h) := by
          rw [List.filter_append, List.filter_cons_of_neg (by simp [is_free, fa]),
            List.filter_cons_of_pos ((is_free_iff _ _).2 hRf),
            is_free_congr (fun b hb => (frA b hb).2), is_free_congr (fun b hb => (frC b hb).2)]
        rw [this]
        exact inv'
      · rw [g1, g2]
        refine Tiles.tiles_append.2 ⟨F, tA.tiles_frame (fun b hb => (frA b hb).1), ?_⟩
        show F = F ∧ HDR + 4 ≤ (h'.blk F).size ∧
          Tiles h'.blk (F + (h'.blk F).size) ((F + total_size n) :: C) h.heap_end
        rw [sF']
        refine ⟨rfl, by omega, ?_⟩
        show F + total_size n = F + total_size n ∧
          HDR + 4 ≤ (h'.blk (F + total_size n)).size ∧
          Tiles h'.blk (F + total_size n + (h'.blk (F + total_size n)).size) C h.heap_end
        rw [sR']
        refine ⟨rfl, by omega, ?_⟩
        have e2 : F + total_size n + ((h.blk F).size - total_size n) = F + (h.blk F).size := by
          omega
        rw [e2]
        exact Tiles.tiles_frame (fun b hb => (frC b hb).1) tC
      · intro b hb
        simp only [List.mem_append, List.mem_cons] at hb
        rcases hb with hb | hb | hb | hb
        · exact inv.aligned b (List.mem_append_left _ hb)
        · subst hb; exact inv.aligned _ hFm
        · have := inv.aligned _ hFm
          subst hb
          omega
        · exact inv.aligned b (List.mem_append_right _ (List.mem_cons_of_mem _ hb))
      · intro x
        simp only [List.mem_append, List.mem_cons]
        constructor
        · rintro ⟨hx | hx | hx | hx, hax⟩
          · exact Or.inl ⟨Or.inl hx, by rw [← (frA x hx).2]; exact hax⟩
          · exact Or.inr hx
          · subst hx; exact absurd hRf hax
          · exact Or.inl ⟨Or.inr (Or.inr hx), by rw [← (frC x hx).2]; exact hax⟩
        · rintro (⟨hx | hx | hx, hax⟩ | hx)
          · exact ⟨Or.inl hx, by rw [(frA x hx).2]; exact hax⟩
          · subst hx; exact absurd hFf hax
          · exact ⟨Or.inr (Or.inr (Or.inr hx)), by rw [(frC x hx).2]; exact hax⟩
          · subst hx; exact ⟨Or.inr (Or.inl rfl), by rw [fa]; decide⟩
    · rw [if_neg hsp] at hcase
      obtain ⟨inv', sF', hfr⟩ := hcase
      have frA : ∀ b ∈ A, (h'.blk b).size = (h.blk b).size ∧
          (h'.blk b).is_allocated = (h.blk b).is_allocated := fun b hb =>
        have := hfr b (fun e => hFA (e ▸ hb))
        ⟨this.1, this.2.1⟩
      have frC : ∀ b ∈ C, (h'.blk b).size = (h.blk b).size ∧
          (h'.blk b).is_allocated = (h.blk b).is_allocated := fun b hb =>
        have := hfr b (fun e => hFC (e ▸ hb))
        ⟨this.1, this.2.1⟩
      refine ⟨A ++ F :: C, F, rfl, hFm, hFf, ⟨?_, ?_, inv.aligned, by simp⟩, g1, g2, ?_⟩
      · have : (A ++ F :: C).filter (is_free h') =
            A.filter (is_free h) ++ C.filter (is_free h) := by
          rw [List.filter_append, List.filter_cons_of_neg (by simp [is_free, fa]),
            is_free_congr (fun b hb => (frA b hb).2), is_free_congr (fun b hb => (frC b hb).2)]
        rw [this]
        exact inv'
      · rw [g1, g2]
        refine Tiles.tiles_frame (fun b hb => ?_) inv.tiles
        by_cases e : b = F
        · rw [e, sF']
        · exact (hfr b e).1
      · intro x
        simp only [List.mem_append, List.mem_cons]
        constructor
        · rintro ⟨hx | hx | hx, hax⟩
          · exact Or.inl ⟨Or.inl hx, by rw [← (frA x hx).2]; exact hax⟩
          · exact Or.inr hx
          · exact Or.inl ⟨Or.inr (Or.inr hx), by rw [← (frC x hx).2]; exact hax⟩
        · rintro (⟨hx | hx | hx, hax⟩ | hx)
          · exact ⟨Or.inl hx, by rw [(frA x hx).2]; exact hax⟩
          · subst hx; exact absurd hFf hax
          · exact ⟨Or.inr (Or.inr hx), by rw [(frC x hx).2]; exact hax⟩
          · subst hx; exact ⟨Or.inr (Or.inl rfl), by rw [fa]; decide⟩

/-- Merging a block into its predecessor on the free list is what `coalesce_next` does
from the predecessor. -/
theorem coalesce_prev_eq_next (h : Heap) (B P : Nat) (hprev : (h.blk B).prev = P)
    (hnext : (h.blk P).next = B) (hP : P ≠ 0) (hB : B ≠ 0)
    (hfP : (h.blk P).is_allocated = 0) (hfB : (h.blk B).is_allocated = 0) :
    coalesce_prev h B = coalesce_next h P := by
  unfold coalesce_prev coalesce_next
  dsimp only
  rw [hprev, hnext, if_pos (show P ≠ 0 ∧ (h.blk P).is_allocated = 0 from ⟨hP, hfP⟩),
    if_pos (show B ≠ 0 ∧ (h.blk B).is_allocated = 0 from ⟨hB, hfB⟩)]

/-- The first half of coalescing on a tiled heap. The block `B` has just been linked
into the free list; `C` are the blocks after it, among which no two free blocks touch.
Afterwards `B` extends over its successor if that one was free, and the free block after
`B`, if any, does not touch it. -/
theorem coalesce_next_tiles {h : Heap} {L C : List Nat} {B e : Nat}
    (hseg : Seg h.blk h.free_list_head 0 (L ++ B :: C.filter (is_free h)) 0)
    (hnd : (L ++ B :: C.filter (is_free h)).Nodup)
    (hnz : ∀ a ∈ L ++ B :: C.filter (is_free h), a ≠ 0)
    (sB : HDR + 4 ≤ (h.blk B).size)
    (tC : Tiles h.blk (B + (h.blk B).size) C e) (he : e < 4294967296)
    (hno : ∀ x ∈ C, (h.blk x).is_allocated = 0 → ∀ y ∈ C, (h.blk y).is_allocated = 0 →
      x + (h.blk x).size ≠ y) :
    ∃ C2, Seg (coalesce_next h B).blk (coalesce_next h B).free_list_head 0
        (L ++ B :: C2.filter (is_free h)) 0 ∧
      (coalesce_next h B).heap_start = h.heap_start ∧
      (coalesce_next h B).heap_end = h.heap_end ∧
      (coalesce_next h B).memory_initialized = h.memory_initialized ∧
      (∀ b, b ≠ B → ((coalesce_next h B).blk b).size = (h.blk b).size) ∧
      (h.blk B).size ≤ ((coalesce_next h B).blk B).size ∧
      Tiles h.blk (B + ((coalesce_next h B).blk B).size) C2 e ∧
      C2.Sublist C ∧
      (∀ x ∈ C, x ∈ C2 ∨ (h.blk x).is_allocated = 0) ∧
      (∀ y ∈ C2, (h.blk y).is_allocated = 0 → B + ((coalesce_next h B).blk B).size ≠ y) := by
  have hH : HDR = 20 := rfl
  have hBnext := (Seg.at_mid hseg).2
  cases C with
  | nil =>
    have e1 : coalesce_next h B = h := coalesce_next_skip h B (Or.inl (by simpa using hBnext))
    rw [e1]
    exact ⟨[], hseg, rfl, rfl, rfl, fun _ _ => rfl, le_refl _, tC, List.Sublist.refl _,
      fun _ hx => Or.inl hx, fun _ hy => by cases hy⟩
  | cons c C' =>
    obtain ⟨hc, sc, tC'⟩ :
      B + (h.blk B).size = c ∧ HDR + 4 ≤ (h.blk c).size ∧
        Tiles h.blk (c + (h.blk c).size) C' e := tC
    have bC' := tC'.bounds
    by_cases fc : (h.blk c).is_allocated = 0
    · have hR : (c :: C').filter (is_free h) = c :: C'.filter (is_free h) :=
        List.filter_cons_of_pos ((is_free_iff h c).2 fc)
      rw [hR] at hseg hnd hnz
      have hadj : u32 (B + (h.blk B).size) = c := by unfold u32; omega
      obtain ⟨m1, m2, m3, m4, m5, m6⟩ := coalesce_next_merge hseg hnd hnz fc hadj
      have e5 : ((coalesce_next h B).blk B).size = (h.blk B).size + (h.blk c).size := by
        rw [m5]; unfold u32; omega
      refine ⟨C', m1, m2, m3, m4, m6, by omega, ?_, List.sublist_cons_self _ _,
        fun x hx => ?_, fun y hy fy => ?_⟩
      · rw [e5]
        have : B + ((h.blk B).size + (h.blk c).size) = c + (h.blk c).size := by omega
        rw [this]
        exact tC'
      · rcases List.mem_cons.1 hx with hx | hx
        · exact Or.inr (hx ▸ fc)
        · exact Or.inl hx
      · rw [e5]
        have := hno c (List.mem_cons_self _ _) fc y (List.mem_cons_of_mem _ hy) fy
        omega
    · have hR : (c :: C').filter (is_free h) = C'.filter (is_free h) :=
        List.filter_cons_of_neg (by simp [is_free, fc])
      have e1 : coalesce_next h B = h := by
        refine coalesce_next_skip h B ?_
        rw [hBnext, hR]
        rcases headD_eq_or_mem (C'.filter (is_free h)) 0 with ⟨-, h0⟩ | hm
        · exact Or.inl h0
        · refine Or.inr (Or.inr ?_)
          have := (bC'.2 _ (List.mem_filter.1 hm).1).1
          unfold u32
          omega
      rw [e1]
      refine ⟨c :: C', hseg, rfl, rfl, rfl, fun _ _ => rfl, le_refl _, ⟨hc, sc, tC'⟩,
        List.Sublist.refl _, fun _ hx => Or.inl hx, fun y hy fy => ?_⟩
      rcases List.mem_cons.1 hy with hy | hy
      · exact absurd (hy ▸ fy) fc
      · have := (bC'.2 y hy).1
        omega

/-- The second half of coalescing on a tiled heap. The free block `B` is on the free
list; `A` are the blocks before it, among which no two free blocks touch. Afterwards
either nothing has changed and no free block of `A` touches `B`, or the last block `X` of
`A` was free and now extends over `B`, and no free block before `X` touches it. -/
theorem coalesce_prev_tiles {h : Heap} {A R : List Nat} {B s : Nat}
    (hseg : Seg h.blk h.free_list_head 0 (A.filter (is_free h) ++ B :: R) 0)
    (hnd : (A.filter (is_free h) ++ B :: R).Nodup)
    (hnz : ∀ a ∈ A.filter (is_free h) ++ B :: R, a ≠ 0)
    (fB : (h.blk B).is_allocated = 0)
    (tA : Tiles h.blk s A B) (hBe : B + (h.blk B).size < 4294967296)
    (sB : HDR + 4 ≤ (h.blk B).size)
    (hno : ∀ x ∈ A, (h.blk x).is_allocated = 0 → ∀ y ∈ A, (h.blk y).is_allocated = 0 →
      x + (h.blk x).size ≠ y) :
    ∃ A2 X, Seg (coalesce_prev h B).blk (coalesce_prev h B).free_list_head 0
        (A2.filter (is_free h) ++ X :: R) 0 ∧
      (coalesce_prev h B).heap_start = h.heap_start ∧
      (coalesce_prev h B).heap_end = h.heap_end ∧
      (coalesce_prev h B).memory_initialized = h.memory_initialized ∧
      (∀ b, b ≠ X → ((coalesce_prev h B).blk b).size = (h.blk b).size) ∧
      X + ((coalesce_prev h B).blk X).size = B + (h.blk B).size ∧
      HDR + 4 ≤ ((coalesce_prev h B).blk X).size ∧
      Tiles h.blk s A2 X ∧
      ((X = B ∧ A2 = A) ∨ (A = A2 ++ [X] ∧ (h.blk X).is_allocated = 0)) ∧
      (∀ x ∈ A2, (h.blk x).is_allocated = 0 → x + (h.blk x).size ≠ X) := by
  have hH : HDR = 20 := rfl
  have hBprev := (Seg.at_mid hseg).1
  rcases List.eq_nil_or_concat A with hA | ⟨A', a, hA⟩
  · subst hA
    have e1 : coalesce_prev h B = h := coalesce_prev_skip h B (Or.inl (by simpa using hBprev))
    rw [e1]
    exact ⟨[], B, hseg, rfl, rfl, rfl, fun _ _ => rfl, rfl, sB, tA, Or.inl ⟨rfl, rfl⟩,
      fun _ hx => by cases hx⟩
  · rw [List.concat_eq_append] at hA
    subst hA
    obtain ⟨x, tA', ta⟩ := Tiles.tiles_append.1 tA
    obtain ⟨hx, sa, haB⟩ :
      x = a ∧ HDR + 4 ≤ (h.blk a).size ∧ a + (h.blk a).size = B := ta
    subst hx
    have bA' := tA'.bounds
    by_cases fa : (h.blk x).is_allocated = 0
    · have hL : (A' ++ [x]).filter (is_free h) = A'.filter (is_free h) ++ [x] := by
        rw [List.filter_append, List.filter_cons_of_pos ((is_free_iff h x).2 fa)]
        rfl
      rw [hL] at hseg hnd hnz hBprev
      have hl : (A'.filter (is_free h) ++ [x]) ++ B :: R =
          A'.filter (is_free h) ++ x :: B :: R := by simp
      rw [hl] at hseg hnd hnz
      have hprev : (h.blk B).prev = x := by
        rw [hBprev, lastOr_append_cons]
        rfl
      have hnext : (h.blk x).next = B := by
        rw [(Seg.at_mid hseg).2]
        rfl
      have hx0 : x ≠ 0 := hnz x (by simp)
      have hB0 : B ≠ 0 := hnz B (by simp)
      have e1 := coalesce_prev_eq_next h B x hprev hnext hx0 hB0 fa fB
      rw [e1]
      have hadj : u32 (x + (h.blk x).size) = B := by unfold u32; omega
      obtain ⟨m1, m2, m3, m4, m5, m6⟩ := coalesce_next_merge hseg hnd hnz fB hadj
      have e5 : ((coalesce_next h x).blk x).size = (h.blk x).size + (h.blk B).size := by
        rw [m5]; unfold u32; omega
      refine ⟨A', x, m1, m2, m3, m4, m6, by omega, by omega, tA', Or.inr ⟨rfl, fa⟩,
        fun y hy fy => ?_⟩
      exact hno y (List.mem_append_left _ hy) fy x (by simp) fa
    · have hL : (A' ++ [x]).filter (is_free h) = A'.filter (is_free h) := by
        rw [List.filter_append, List.filter_cons_of_neg (by simp [is_free, fa])]
        simp
      have e1 : coalesce_prev h B = h := by
        refine coalesce_prev_skip h B ?_
        rw [hBprev, hL]
        rcases lastOr_eq_or_mem (A'.filter (is_free h)) 0 with ⟨-, h0⟩ | hm
        · exact Or.inl h0
        · refine Or.inr (Or.inr ?_)
          have := (bA'.2 _ (List.mem_filter.1 hm).1).2.1
          unfold u32
          omega
      rw [e1]
      refine ⟨A' ++ [x], B, hseg, rfl, rfl, rfl, fun _ _ => rfl, rfl, sB, tA,
        Or.inl ⟨rfl, rfl⟩, fun y hy fy => ?_⟩
      rcases List.mem_append.1 hy with hy | hy
      · have := (bA'.2 y hy).2.1
        omega
      · simp only [List.mem_singleton] at hy
        exact absurd (hy ▸ fy) fa

/-- Releasing an allocated block `B` of a tiled heap: `k_mem_dealloc_impl` returns
`RTX_OK`, the heap is tiled again (`B` merged with the free blocks that touch it), and
the blocks marked allocated are those that were, without `B`. -/
theorem HeapInv.after_dealloc {h : Heap} {A C : List Nat} {B : Nat} (tid : Nat)
    (inv : HeapInv h (A ++ B :: C)) (ha : (h.blk B).is_allocated ≠ 0)
    (ho : (h.blk B).owner_tid = tid ∨ tid = TID_NULL) :
    ∃ h' bs', k_mem_dealloc_impl tid h (B + HDR) = some (RTX_OK, h') ∧ HeapInv h' bs' ∧
      h'.heap_start = h.heap_start ∧ h'.heap_end = h.heap_end ∧
      ∀ x, (x ∈ bs' ∧ (h'.blk x).is_allocated ≠ 0) ↔
        (x ∈ A ++ B :: C ∧ (h.blk x).is_allocated ≠ 0 ∧ x ≠ B) := by
  have hH : HDR = 20 := rfl
  obtain ⟨tA, sB, tC, bA, bC, lo, hi⟩ := inv.tiles.around
  have hend := inv.fl.end_lt
  have hpos := inv.fl.start_pos
  have hBm : B ∈ A ++ B :: C := by simp
  have hBA : ∀ a ∈ A, a ≠ B := fun a hm e => by
    have := (bA a hm).2
    have := (tA.bounds.2 a hm).2.2
    omega
  have hBC : ∀ a ∈ C, a ≠ B := fun a hm e => by
    have := (bC a hm).1
    omega
  have hB0 : B ≠ 0 := by omega
  -- the free list before the call
  have hfl : (A ++ B :: C).filter (is_free h) =
      A.filter (is_free h) ++ C.filter (is_free h) := by
    rw [List.filter_append, List.filter_cons_of_neg (by simp [is_free, ha])]
  have inv1 := inv.fl
  rw [hfl] at inv1
  -- the block is marked free and linked into the list
  have hseg1 : Seg ((h.set_is_allocated B 0).set_owner_tid B TID_NULL).blk
      ((h.set_is_allocated B 0).set_owner_tid B TID_NULL).free_list_head 0
      (A.filter (is_free h) ++ C.filter (is_free h)) 0 := by
    simp only [Heap.set_owner_tid_free_list_head, Heap.set_is_allocated_free_list_head]
    exact Seg.frame (fun a _ => by simp) inv1.seg
  obtain ⟨h2, hadd, hseg2, g1, g2, g3, hd2⟩ := Seg.add hseg1 inv1.nodup inv1.ne_zero hB0
    (fun a hm => by
      have := (bA a (List.mem_filter.1 hm).1).2
      have := (tA.bounds.2 a (List.mem_filter.1 hm).1).2.2
      omega)
    (fun a hm => by
      have := (bC a (List.mem_filter.1 hm).1).1
      omega) inv1.length_lt
  simp only [Heap.set_owner_tid_heap_start, Heap.set_is_allocated_heap_start,
    Heap.set_owner_tid_heap_end, Heap.set_is_allocated_heap_end,
    Heap.set_owner_tid_memory_initialized, Heap.set_is_allocated_memory_initialized] at g1 g2 g3
  have S2 : ∀ b, (h2.blk b).size = (h.blk b).size := fun b => by
    rw [(hd2 b).1]; simp
  have F2 : ∀ b, (h2.blk b).is_allocated = if b = B then 0 else (h.blk b).is_allocated :=
    fun b => by
      rw [(hd2 b).2.1]
      by_cases e : b = B <;> simp [e]
  have O2 : ∀ b, (h2.blk b).owner_tid = if b = B then TID_NULL else (h.blk b).owner_tid :=
    fun b => by
      rw [(hd2 b).2.2]
      by_cases e : b = B <;> simp [e]
  have F2' : ∀ b, b ≠ B → (h2.blk b).is_allocated = (h.blk b).is_allocated := fun b hb => by
    rw [F2 b, if_neg hb]
  have F2B : (h2.blk B).is_allocated = 0 := by rw [F2 B, if_pos rfl]
  have fA : A.filter (is_free h2) = A.filter (is_free h) :=
    is_free_congr (fun b hb => F2' b (hBA b hb))
  have fC : ∀ C2 : List Nat, C2.Sublist C → C2.filter (is_free h2) = C2.filter (is_free h) :=
    fun C2 hs => is_free_congr (fun b hb => F2' b (hBC b (hs.subset hb)))
  -- the result of the call
  obtain ⟨hv, hBu⟩ := is_valid_pointer_block h B lo sB hi hend
  have hres := k_mem_dealloc_impl_eq tid h B (by omega) inv.fl.init hv hBu ha ho
  rw [hadd] at hres
  -- nodup and non-null for the lists that occur
  have hsub : ∀ C2 : List Nat, C2.Sublist C →
      (A.filter (is_free h) ++ B :: C2.filter (is_free h2)).Sublist (A ++ B :: C) :=
    fun C2 hs => List.Sublist.append (List.filter_sublist _)
      (List.Sublist.cons₂ B ((List.filter_sublist _).trans hs))
  have hnd : ∀ C2 : List Nat, C2.Sublist C →
      (A.filter (is_free h) ++ B :: C2.filter (is_free h2)).Nodup :=
    fun C2 hs => inv.tiles.distinct.sublist (hsub C2 hs)
  have hnz : ∀ C2 : List Nat, C2.Sublist C →
      ∀ a ∈ A.filter (is_free h) ++ B :: C2.filter (is_free h2), a ≠ 0 :=
    fun C2 hs a hm => by
      have := (inv.tiles.bounds.2 a ((hsub C2 hs).subset hm)).1
      omega
  -- first half of the coalescing
  rw [← fC C (List.Sublist.refl _)] at hseg2
  obtain ⟨C2, seg3, k1, k2, k3, S3, S3B, tC2, hC2, hCC2, hhead⟩ :=
    coalesce_next_tiles hseg2 (hnd C (List.Sublist.refl _)) (hnz C (List.Sublist.refl _))
      (by rw [S2]; exact sB)
      (by rw [S2]; exact Tiles.tiles_frame (fun b _ => S2 b) tC) hend
      (fun x hx fx y hy fy => by
        rw [S2]
        rw [F2' x (hBC x hx)] at fx
        rw [F2' y (hBC y hy)] at fy
        exact inv.no_adj (by simp [hx]) fx (by simp [hy]) fy)
  have F3 : ∀ b, ((coalesce_next h2 B).blk b).is_allocated = (h2.blk b).is_allocated :=
    fun b => (coalesce_next_flags h2 B b).1
  have O3 : ∀ b, ((coalesce_next h2 B).blk b).owner_tid = (h2.blk b).owner_tid :=
    fun b => (coalesce_next_flags h2 B b).2
  have e3 : is_free (coalesce_next h2 B) = is_free h2 := by
    funext b
    simp [is_free, F3 b]
  have bC2 := tC2.bounds
  -- second half of the coalescing
  have seg3' : Seg (coalesce_next h2 B).blk (coalesce_next h2 B).free_list_head 0
      (A.filter (is_free (coalesce_next h2 B)) ++ B :: C2.filter (is_free h2)) 0 := by
    rw [e3, fA]
    exact seg3
  have tA3 : Tiles (coalesce_next h2 B).blk h.heap_start A B :=
    Tiles.tiles_frame (fun b hb => by rw [S3 b (hBA b hb), S2]) tA
  obtain ⟨A2, X, seg4, j1, j2, j3, S4, S4X, sX, tA2, hX, hlast⟩ :=
    coalesce_prev_tiles seg3' (by rw [e3, fA]; exact hnd C2 hC2)
      (by rw [e3, fA]; exact hnz C2 hC2) (by rw [F3, F2B]) tA3 (by omega)
      (by rw [S2] at S3B; omega)
      (fun x hx fx y hy fy => by
        rw [S3 x (hBA x hx), S2]
        rw [F3, F2' x (hBA x hx)] at fx
        rw [F3, F2' y (hBA y hy)] at fy
        exact inv.no_adj (by simp [hx]) fx (by simp [hy]) fy)
  have F4 : ∀ b, ((coalesce_prev (coalesce_next h2 B) B).blk b).is_allocated =
      (h2.blk b).is_allocated := fun b => by
    rw [(coalesce_prev_flags _ B b).1, F3]
  have O4 : ∀ b, ((coalesce_prev (coalesce_next h2 B) B).blk b).owner_tid =
      (h2.blk b).owner_tid := fun b => by
    rw [(coalesce_prev_flags _ B b).2, O3]
  have e4 : is_free (coalesce_prev (coalesce_next h2 B) B) = is_free h2 := by
    funext b
    simp [is_free, F4 b]
  -- where the blocks of the new tiling lie
  have hA2A : ∀ x ∈ A2, x ∈ A := fun x hx => by
    rcases hX with ⟨-, e⟩ | ⟨e, -⟩
    · rw [← e]; exact hx
    · rw [e]; exact List.mem_append_left _ hx
  have hXB : X ≤ B := by
    rcases hX with ⟨e, -⟩ | ⟨e, -⟩
    · omega
    · have := (bA X (by rw [e]; simp)).2
      omega
  have hXm : X ∈ A ++ B :: C := by
    rcases hX with ⟨e, -⟩ | ⟨e, -⟩
    · rw [e]; exact hBm
    · exact List.mem_append_left _ (by rw [e]; simp)
  have hXf : ((coalesce_prev (coalesce_next h2 B) B).blk X).is_allocated = 0 := by
    rcases hX with ⟨e, -⟩ | ⟨-, e⟩
    · rw [F4, e, F2B]
    · rw [(coalesce_prev_flags _ B X).1]; exact e
  have bA2 := tA2.bounds
  have hA2X : ∀ x ∈ A2, x ≠ X := fun x hx e => by
    have := (bA2.2 x hx)
    omega
  have hA2B : ∀ x ∈ A2, x ≠ B := fun x hx => hBA x (hA2A x hx)
  have hC2X : ∀ y ∈ C2, y ≠ X ∧ y ≠ B := fun y hy => by
    have := (bC2.2 y hy).1
    rw [S2] at S3B
    constructor <;> omega
  have SA2 : ∀ x ∈ A2, ((coalesce_prev (coalesce_next h2 B) B).blk x).size =
      (h.blk x).size := fun x hx => by
    rw [S4 x (hA2X x hx), S3 x (hA2B x hx), S2]
  have SC2 : ∀ y ∈ C2, ((coalesce_prev (coalesce_next h2 B) B).blk y).size =
      (h.blk y).size := fun y hy => by
    rw [S4 y (hC2X y hy).1, S3 y (hC2X y hy).2, S2]
  have hbs' : ∀ x ∈ A2 ++ X :: C2, x ∈ A ++ B :: C := fun x hx => by
    rcases List.mem_append.1 hx with hx | hx
    · exact List.mem_append_left _ (hA2A x hx)
    · rcases List.mem_cons.1 hx with hx | hx
      · rw [hx]; exact hXm
      · exact List.mem_append_right _ (List.mem_cons_of_mem _ (hC2.subset hx))
  refine ⟨coalesce_free_blocks h2 B, A2 ++ X :: C2, hres, ?_, ?_, ?_, ?_⟩
  · unfold coalesce_free_blocks
    refine HeapInv.of_tiles (by rw [j3, k3, g3]; exact inv.fl.init)
      (by rw [j1, k1, g1]; exact hpos) (by rw [j2, k2, g2]; exact hend) ?_ ?_ ?_ ?_
      (by simp) ?_
    · rw [j1, k1, g1, j2, k2, g2]
      refine Tiles.tiles_append.2 ⟨X, Tiles.tiles_frame (fun b hb => ?_) tA2, rfl, sX, ?_⟩
      · rw [S4 b (hA2X b hb)]
      · rw [S4X]
        exact Tiles.tiles_frame (fun b hb => by rw [S4 b (hC2X b hb).1, S3 b (hC2X b hb).2]) tC2
    · have : (A2 ++ X :: C2).filter (is_free (coalesce_prev (coalesce_next h2 B) B)) =
          A2.filter (is_free (coalesce_next h2 B)) ++ X :: C2.filter (is_free h2) := by
        rw [List.filter_append, List.filter_cons_of_pos ((is_free_iff _ _).2 hXf), e4, e3]
      rw [this]
      exact seg4
    · intro b hb fb
      rw [O4, O2]
      by_cases e : b = B
      · rw [if_pos e]
      · rw [if_neg e]
        rw [F4, F2' b e] at fb
        exact (inv.fl.free b (List.mem_filter.2 ⟨hbs' b hb, (is_free_iff _ _).2 fb⟩)).2
    · intro b hb
      exact inv.aligned b (hbs' b hb)
    · intro x hx fx y hy fy
      rw [F4] at fx fy
      rcases List.mem_append.1 hx with hx | hx
      · have bx := bA2.2 x hx
        rw [SA2 x hx]
        rw [F2' x (hA2B x hx)] at fx
        rcases List.mem_append.1 hy with hy | hy
        · rw [F2' y (hA2B y hy)] at fy
          exact inv.no_adj (List.mem_append_left _ (hA2A x hx)) fx
            (List.mem_append_left _ (hA2A y hy)) fy
        · rcases List.mem_cons.1 hy with hy | hy
          · rw [hy]
            have := hlast x hx (by rw [F3, F2' x (hA2B x hx)]; exact fx)
            rw [S3 x (hA2B x hx), S2] at this
            exact this
          · have := (bC2.2 y hy).1
            have := S3 x (hA2B x hx)
            have := S2 x
            rw [S2] at S3B
            omega
      · rcases List.mem_cons.1 hx with hx | hx
        · rw [hx, S4X]
          rcases List.mem_append.1 hy with hy | hy
          · have := bA2.2 y hy
            rw [S2] at S3B
            omega
          · rcases List.mem_cons.1 hy with hy | hy
            · rw [S2] at S3B
              omega
            · rw [F2' y (hC2X y hy).2] at fy
              exact hhead y hy (by rw [F2' y (hC2X y hy).2]; exact fy)
        · have bx := bC2.2 x hx
          rw [SC2 x hx]
          rw [F2' x (hC2X x hx).2] at fx
          rcases List.mem_append.1 hy with hy | hy
          · have := bA2.2 y hy
            rw [S2] at S3B
            omega
          · rcases List.mem_cons.1 hy with hy | hy
            · rw [S2] at S3B
              omega
            · rw [F2' y (hC2X y hy).2] at fy
              exact inv.no_adj
                (List.mem_append_right _ (List.mem_cons_of_mem _ (hC2.subset hx))) fx
                (List.mem_append_right _ (List.mem_cons_of_mem _ (hC2.subset hy))) fy
  · unfold coalesce_free_blocks
    rw [j1, k1, g1]
  · unfold coalesce_free_blocks
    rw [j2, k2, g2]
  · intro x
    unfold coalesce_free_blocks
    rw [F4]
    constructor
    · rintro ⟨hx, fx⟩
      have hxB : x ≠ B := fun e => fx (e ▸ F2B)
      rw [F2' x hxB] at fx
      exact ⟨hbs' x hx, fx, hxB⟩
    · rintro ⟨hx, fx, hxB⟩
      rw [F2' x hxB]
      refine ⟨?_, fx⟩
      rcases List.mem_append.1 hx with hx | hx
      · rcases hX with ⟨-, e⟩ | ⟨e, -⟩
        · rw [e]; exact List.mem_append_left _ hx
        · rw [e] at hx
          rcases List.mem_append.1 hx with hx | hx
          · exact List.mem_append_left _ hx
          · simp only [List.mem_singleton] at hx
            rw [hx]; simp
      · rcases List.mem_cons.1 hx with hx | hx
        · exact absurd hx hxB
        · rcases hCC2 x hx with h1 | h1
          · exact List.mem_append_right _ (List.mem_cons_of_mem _ h1)
          · rw [F2' x hxB] at h1
            exact absurd h1 fx

/-- A call of `k_mem_dealloc_impl` that does not return `RTX_OK` for a non-null pointer
leaves the heap as it was. -/
theorem k_mem_dealloc_impl_noop {tid p : Nat} {r : Int} {h h' : Heap}
    (hd : k_mem_dealloc_impl tid h p = some (r, h')) (hc : p = 0 ∨ r = RTX_ERR) : h' = h := by
  unfold k_mem_dealloc_impl at hd
  by_cases h0 : p = 0
  · rw [if_pos h0] at hd
    simp only [Option.some.injEq, Prod.mk.injEq] at hd
    exact hd.2.symm
  rw [if_neg h0] at hd
  have hr : r = RTX_ERR := hc.resolve_left h0
  subst hr
  by_cases h1 : h.memory_initialized = 0 ∨ is_valid_pointer h p = false
  · rw [if_pos h1] at hd
    simp only [Option.some.injEq, Prod.mk.injEq] at hd
    exact hd.2.symm
  rw [if_neg h1] at hd
  dsimp only at hd
  by_cases h2 : (h.blk (u32 (p + 4294967296 - HDR))).is_allocated = 0
  · rw [if_pos h2] at hd
    simp only [Option.some.injEq, Prod.mk.injEq] at hd
    exact hd.2.symm
  rw [if_neg h2] at hd
  by_cases h3 : (h.blk (u32 (p + 4294967296 - HDR))).owner_tid ≠ tid ∧ tid ≠ TID_NULL
  · rw [if_pos h3] at hd
    simp only [Option.some.injEq, Prod.mk.injEq] at hd
    exact hd.2.symm
  rw [if_neg h3] at hd
  cases hadd : add_to_free_list ((h.set_is_allocated (u32 (p + 4294967296 - HDR)) 0).set_owner_tid
      (u32 (p + 4294967296 - HDR)) TID_NULL) (u32 (p + 4294967296 - HDR)) with
  | none => rw [hadd] at hd; cases hd
  | some h2 =>
    rw [hadd] at hd
    simp only [Option.some.injEq, Prod.mk.injEq] at hd
    exact absurd hd.1 (by decide)

theorem ReachInv.of_init {img : Image} {g : Nat} {h0 h : Heap}
    (hok : k_mem_init_impl img g h0 = (RTX_OK, h)) (hpos : 0 < init_heap_start img)
    (hle : init_heap_start img ≤ init_heap_end img) : ReachInv img h [] := by
  have hH : HDR = 20 := rfl
  obtain ⟨-, hs, he, hh, hi, hb, hsz⟩ := k_mem_init_impl_ok img g h0 h hok
  obtain ⟨inv, hsize⟩ := k_mem_init_impl_inv img g h0 h hok (by rw [hs]; exact hpos)
    (by rw [hs, he]; exact hle)
  have hfree : (h.blk h.heap_start).is_allocated = 0 := by rw [hb]
  have hfl : [h.heap_start].filter (is_free h) = [h.heap_start] :=
    List.filter_cons_of_pos ((is_free_iff _ _).2 hfree)
  have hsz' : HDR + 16 ≤ (h.blk h.heap_start).size := by rw [hb]; exact hsz
  refine ⟨hs, he, List.nodup_nil, [h.heap_start], ⟨by rw [hfl]; exact inv, ?_, ?_, by simp⟩, ?_⟩
  · refine ⟨rfl, by omega, ?_⟩
    show h.heap_start + (h.blk h.heap_start).size = h.heap_end
    rw [hs, he] at *
    omega
  · intro b hb'
    simp only [List.mem_singleton] at hb'
    rw [hb', hs]
    exact init_heap_start_aligned img
  · intro p
    simp only [List.not_mem_nil, List.mem_singleton, false_iff, not_exists, not_and, and_imp]
    intro b hb' hal
    exact absurd (hb' ▸ hfree) hal

theorem ReachInv.of_alloc {img : Image} {h h' : Heap} {O : List Nat} {tid n p : Nat}
    (inv : ReachInv img h O) (hn : n ≤ 4294967000)
    (hal : k_mem_alloc_impl tid h n = some (p, h')) :
    ReachInv img h' (if p = 0 then O else p :: O) := by
  have hH : HDR = 20 := rfl
  obtain ⟨hs, he, hnd, bs, hinv, hO⟩ := inv
  obtain ⟨p', h'', hal', hcase⟩ := HeapInv.after_alloc tid n hinv hn
  rw [hal] at hal'
  simp only [Option.some.injEq, Prod.mk.injEq] at hal'
  obtain ⟨e1, e2⟩ := hal'
  subst e1 e2
  rcases hcase with ⟨hp, hh⟩ | ⟨bs', F, hp, hFm, hFf, hinv', g1, g2, hiff⟩
  · rw [if_pos hp, hh]
    exact ⟨hs, he, hnd, bs, hinv, hO⟩
  · have hp0 : p ≠ 0 := by omega
    rw [if_neg hp0]
    refine ⟨by rw [g1, hs], by rw [g2, he], List.nodup_cons.2 ⟨fun hm => ?_, hnd⟩, bs', hinv',
      fun q => ?_⟩
    · obtain ⟨b, ⟨-, hb2⟩, hb3⟩ := (hO p).1 hm
      have : b = F := by omega
      exact hb2 (this ▸ hFf)
    · rw [List.mem_cons, hO q]
      constructor
      · rintro (hq | ⟨b, hb, hq⟩)
        · exact ⟨F, (hiff F).2 (Or.inr rfl), by omega⟩
        · exact ⟨b, (hiff b).2 (Or.inl hb), hq⟩
      · rintro ⟨b, hb, hq⟩
        rcases (hiff b).1 hb with hb | hb
        · exact Or.inr ⟨b, hb, hq⟩
        · exact Or.inl (by omega)

theorem ReachInv.of_dealloc {img : Image} {h h' : Heap} {O : List Nat} {tid p : Nat}
    (inv : ReachInv img h O) (hp : p ∈ O)
    (hd : k_mem_dealloc_impl tid h p = some (RTX_OK, h')) :
    ReachInv img h' (O.erase p) := by
  have hH : HDR = 20 := rfl
  obtain ⟨hs, he, hnd, bs, hinv, hO⟩ := inv
  obtain ⟨B, ⟨hBm, hBa⟩, hpB⟩ := (hO p).1 hp
  obtain ⟨A, C, hbs⟩ := List.append_of_mem hBm
  subst hbs
  subst hpB
  obtain ⟨-, sB, -, -, -, lo, hi⟩ := hinv.tiles.around
  obtain ⟨hv, hBu⟩ := is_valid_pointer_block h B lo sB hi hinv.fl.end_lt
  have ho : (h.blk B).owner_tid = tid ∨ tid = TID_NULL := by
    by_contra hno
    have := k_mem_dealloc_impl_rejects tid h (B + HDR) (by omega)
      (Or.inr (Or.inr (Or.inr (by
        rw [hBu]
        exact ⟨fun e => hno (Or.inl e), fun e => hno (Or.inr e)⟩))))
    rw [this] at hd
    simp only [Option.some.injEq, Prod.mk.injEq] at hd
    exact absurd hd.1 (by decide)
  obtain ⟨h'', bs', hd', hinv', g1, g2, hiff⟩ := HeapInv.after_dealloc tid hinv hBa ho
  rw [hd] at hd'
  simp only [Option.some.injEq, Prod.mk.injEq, true_and] at hd'
  subst hd'
  refine ⟨by rw [g1, hs], by rw [g2, he], hnd.erase _, bs', hinv', fun q => ?_⟩
  rw [hnd.mem_erase_iff, hO q]
  constructor
  · rintro ⟨hq, b, ⟨hb1, hb2⟩, hqb⟩
    exact ⟨b, (hiff b).2 ⟨hb1, hb2, fun e => hq (by omega)⟩, hqb⟩
  · rintro ⟨b, hb, hqb⟩
    obtain ⟨hb1, hb2, hb3⟩ := (hiff b).1 hb
    exact ⟨by omega, b, ⟨hb1, hb2⟩, hqb⟩

/-- Every state of `HeapReach` satisfies `ReachInv`. -/
theorem HeapReach.reach_inv {img : Image} {h : Heap} {O : List Nat} (hr : HeapReach img h O) :
    ReachInv img h O := by
  induction hr with
  | init g h0 h hok hpos hle => exact ReachInv.of_init hok hpos hle
  | alloc tid n p h h' O _ hn hal ih => exact ih.of_alloc hn hal
  | dealloc tid p h h' O _ hp hd ih => exact ih.of_dealloc hp hd
  | refused tid p r h h' O _ hd hc ih =>
    rw [k_mem_dealloc_impl_noop hd hc]
    exact ih

theorem eq_some_getD {α : Type} (o : Option α) (d : α) (h : o.isSome = true) :
    o = some (o.getD d) := by
  cases o with
  | none => cases h
  | some x => rfl

theorem sample_heap_reach : HeapReach sample_image sample_kernel.mem [] :=
  HeapReach.init 1 power_on.mem _ (Prod.ext (by decide) rfl) (by decide) (by decide)

theorem alloc_p_reach : HeapReach sample_image alloc_p.2 [0x20001014] := by
  have h1 := HeapReach.alloc 1 64 alloc_p.1 _ alloc_p.2 _ sample_heap_reach (by decide)
    (eq_some_getD _ (0, sample_kernel.mem) (by decide))
  have e : (if alloc_p.1 = 0 then [] else [alloc_p.1]) = [0x20001014] := by decide
  rw [e] at h1
  exact h1

theorem alloc_q_reach : HeapReach sample_image alloc_q.2 [0x20001068, 0x20001014] := by
  have h1 := HeapReach.alloc 1 64 alloc_q.1 _ alloc_q.2 _ alloc_p_reach (by decide)
    (eq_some_getD _ (0, alloc_p.2) (by decide))
  have e : (if alloc_q.1 = 0 then [0x20001014] else [alloc_q.1, 0x20001014]) =
      [0x20001068, 0x20001014] := by decide
  rw [e] at h1
  exact h1

/-- In a state of `HeapReach`, the release of an outstanding pointer by the owner of its
block, or by the Null Task, returns `RTX_OK` and leads to a state of `HeapReach`. -/
theorem HeapReach.release {img : Image} {h : Heap} {O : List Nat} (hr : HeapReach img h O)
    {p tid : Nat} (hp : p ∈ O)
    (ho : (h.blk (p - HDR)).owner_tid = tid ∨ tid = TID_NULL) :
    ∃ h', k_mem_dealloc_impl tid h p = some (RTX_OK, h') ∧ HeapReach img h' (O.erase p) := by
  obtain ⟨-, -, -, bs, hinv, hO⟩ := hr.reach_inv
  obtain ⟨B, ⟨hBm, hBa⟩, hpB⟩ := (hO p).1 hp
  obtain ⟨A, C, hbs⟩ := List.append_of_mem hBm
  subst hbs
  subst hpB
  rw [Nat.add_sub_cancel] at ho
  obtain ⟨h', bs', hd, -⟩ := HeapInv.after_dealloc tid hinv hBa ho
  exact ⟨h', hd, HeapReach.dealloc tid _ h h' O hr hp hd⟩

theorem freed_p_reach : HeapReach sample_image freed_p.2 [0x20001068] := by
  obtain ⟨h', hd, hr⟩ := @HeapReach.release _ _ _ alloc_q_reach 0x20001014 1 (by decide)
    (Or.inl (by decide))
  have e1 : alloc_p.1 = 0x20001014 := by decide
  have e : freed_p.2 = h' := by
    unfold freed_p
    rw [e1, hd]
    rfl
  rw [e]
  exact hr

theorem freed_q_reach : HeapReach sample_image freed_q.2 [] := by
  obtain ⟨h', hd, hr⟩ := @HeapReach.release _ _ _ freed_p_reach 0x20001068 1 (by decide)
    (Or.inl (by decide))
  have e1 : alloc_q.1 = 0x20001068 := by decide
  have e : freed_q.2 = h' := by
    unfold freed_q
    rw [e1, hd]
    rfl
  rw [e]
  exact hr

/-- C4 (counterexample). `k_mem_init_impl` succeeds on `stale_memory`; it does not clear
the heap region, since the heap was not initialised before. A `k_mem_dealloc_impl` of
`0x20001078`, a pointer that no allocation returned, passes `is_valid_pointer` and the
`is_allocated` check on the stale header and returns `RTX_OK`. The free list is then the
block at `0x20001000` of size `0x13000` followed by the block at `0x20001064`, which lies
inside the first one: `0x20001000 + 0x13000 < 0x20001064` does not hold. -/
theorem free_list_gap_broken_by_stale_header :
    (k_mem_init_impl sample_image 1 stale_memory).1 = RTX_OK ∧
    (k_mem_dealloc_impl 0 stale_heap 0x20001078).map Prod.fst = some RTX_OK ∧
    ((k_mem_dealloc_impl 0 stale_heap 0x20001078).bind fun r => free_blocks r.2) =
      some [(0x20001000, 0x13000), (0x20001064, 24)] ∧
    ¬ (0x20001000 + 0x13000 < 0x20001064) := by
  decide

/-- C26 (counterexample). On `stale_heap` task 1 allocates 200 bytes and gets
`0x20001014`; the release of `0x20001078` (never returned by an allocation) succeeds on
the stale header inside that payload; an allocation of 4 bytes by task 2 then returns
`0x20001078`, while the block of task 1 at `0x20001000`, of size 220, is still marked
allocated: the payload of the second allocation lies inside the payload of the first. -/
theorem payloads_overlap_after_stale_release :
    (k_mem_alloc_impl 1 stale_heap 200).map Prod.fst = some 0x20001014 ∧
    (k_mem_dealloc_impl 0 stale_alloc.2 0x20001078).map Prod.fst = some RTX_OK ∧
    (k_mem_alloc_impl 2 stale_freed.2 4).map Prod.fst = some 0x20001078 ∧
    ((k_mem_alloc_impl 2 stale_freed.2 4).map fun r =>
      ((r.2.blk 0x20001000).is_allocated, (r.2.blk 0x20001000).size,
       (r.2.blk 0x20001064).is_allocated, (r.2.blk 0x20001064).size)) =
      some (1, 220, 1, 24) ∧
    0x20001014 ≤ 0x20001078 ∧ 0x20001078 + 4 ≤ 0x20001000 + 220 := by
  decide

/-- C3 (counterexample). On `stale_heap` task 1 allocates 200 bytes (`0x20001014`), the
release of `0x20001078` succeeds on the stale header, and task 1 releases its pointer
successfully: every allocated pointer has been freed, but the free list holds three
blocks and `k_mem_count_extfrag_impl` with the heap size returns 3. -/
theorem three_free_blocks_after_all_freed :
    (k_mem_alloc_impl 1 stale_heap 200).map Prod.fst = some 0x20001014 ∧
    (k_mem_dealloc_impl 0 stale_alloc.2 0x20001078).map Prod.fst = some RTX_OK ∧
    (k_mem_dealloc_impl 1 stale_freed.2 0x20001014).map Prod.fst = some RTX_OK ∧
    ((k_mem_dealloc_impl 1 stale_freed.2 0x20001014).bind fun r => free_blocks r.2) =
      some [(0x20001000, 220), (0x20001064, 24), (0x200010DC, 0x12F24)] ∧
    ((k_mem_dealloc_impl 1 stale_freed.2 0x20001014).bind fun r =>
      k_mem_count_extfrag_impl r.2 0x13000) = some 3 := by
  decide

/-- C4. Free-list invariant. After a successful `k_mem_init_impl` (on an image whose heap
region does not wrap around the address space) and any sequence of `k_mem_alloc_impl`
and `k_mem_dealloc_impl` calls in which requests are of at most `MAX_REQUEST` bytes and
every non-null pointer whose release returns `RTX_OK` is an outstanding pointer (returned
by an allocation and not released since), the walk along the free list ends, and the
blocks it visits are in strictly increasing address order with no two of them touching:
for blocks `a` before `b`, `address(a) + size(a) < address(b)`. -/
theorem free_list_sorted_with_gaps (img : Image) (h : Heap) (O : List Nat)
    (hr : HeapReach img h O) :
    ∃ l, free_blocks h = some l ∧
      l.Pairwise (fun a b => a.1 < b.1 ∧ a.1 + a.2 < b.1) := by
  obtain ⟨-, -, -, bs, hinv, -⟩ := hr.reach_inv
  refine ⟨_, free_blocks_inv hinv.fl, ?_⟩
  rw [List.pairwise_map]
  exact hinv.fl.gaps.imp (fun hab => ⟨by omega, hab⟩)

theorem free_list_sorted_with_gaps_witness :
    HeapReach sample_image freed_p.2 [0x20001068] ∧
    free_blocks freed_p.2 = some [(0x20001000, 84), (0x200010A8, 0x12F58)] ∧
    ∃ l, free_blocks freed_p.2 = some l ∧
      l.Pairwise (fun a b => a.1 < b.1 ∧ a.1 + a.2 < b.1) :=
  ⟨freed_p_reach, by decide,
    free_list_sorted_with_gaps sample_image freed_p.2 [0x20001068] freed_p_reach⟩

/-- C26. Tiling invariant. After a successful `k_mem_init_impl` (on an image whose heap
region does not wrap around the address space) and any sequence of `k_mem_alloc_impl`
and `k_mem_dealloc_impl` calls in which requests are of at most `MAX_REQUEST` bytes and
every non-null pointer whose release returns `RTX_OK` is an outstanding pointer, there
is a sequence of blocks `bs` that following the size fields from the heap low boundary
visits, each of size at least `HDR + 4`, ending exactly at the heap high boundary. The
outstanding pointers are the payload addresses of the blocks of `bs` that are marked
allocated; every block lies inside the heap, and two distinct blocks do not overlap, so
the payload regions of two distinct allocated blocks are disjoint. -/
theorem heap_tiling (img : Image) (h : Heap) (O : List Nat) (hr : HeapReach img h O) :
    ∃ bs, Tiles h.blk h.heap_start bs h.heap_end ∧
      (∀ b ∈ bs, HDR + 4 ≤ (h.blk b).size) ∧
      (∀ p, p ∈ O ↔ ∃ b, (b ∈ bs ∧ (h.blk b).is_allocated ≠ 0) ∧ p = b + HDR) ∧
      (∀ b ∈ bs, h.heap_start ≤ b ∧ b + (h.blk b).size ≤ h.heap_end) ∧
      (∀ b ∈ bs, ∀ c ∈ bs, b ≠ c →
        b + (h.blk b).size ≤ c ∨ c + (h.blk c).size ≤ b) := by
  obtain ⟨-, -, -, bs, hinv, hO⟩ := hr.reach_inv
  have hb := hinv.tiles.bounds.2
  exact ⟨bs, hinv.tiles, fun b hm => (hb b hm).2.2, hO, fun b hm => ⟨(hb b hm).1, (hb b hm).2.1⟩,
    fun b hm c hc hne => pairwise_or hinv.tiles.ordered hm hc hne⟩

theorem heap_tiling_witness :
    HeapReach sample_image alloc_q.2 [0x20001068, 0x20001014] ∧
    ∃ bs, Tiles alloc_q.2.blk alloc_q.2.heap_start bs alloc_q.2.heap_end ∧
      (∀ b ∈ bs, HDR + 4 ≤ (alloc_q.2.blk b).size) ∧
      (∀ p, p ∈ [0x20001068, 0x20001014] ↔
        ∃ b, (b ∈ bs ∧ (alloc_q.2.blk b).is_allocated ≠ 0) ∧ p = b + HDR) ∧
      (∀ b ∈ bs, alloc_q.2.heap_start ≤ b ∧ b + (alloc_q.2.blk b).size ≤ alloc_q.2.heap_end) ∧
      (∀ b ∈ bs, ∀ c ∈ bs, b ≠ c →
        b + (alloc_q.2.blk b).size ≤ c ∨ c + (alloc_q.2.blk c).size ≤ b) :=
  ⟨alloc_q_reach, heap_tiling sample_image alloc_q.2 [0x20001068, 0x20001014] alloc_q_reach⟩

/-- C3. Coalescing completeness. Start from a heap freshly initialised by a successful
`k_mem_init_impl` (on an image whose heap region does not wrap around the address space),
of size `H = high boundary - low boundary`. After any finite sequence of
`k_mem_alloc_impl` and `k_mem_dealloc_impl` calls in which requests are of at most
`MAX_REQUEST` bytes and every non-null pointer whose release returns `RTX_OK` is an
outstanding pointer, and at the end of which no pointer is outstanding, the free list
consists of exactly one block, at the heap low boundary, of size `H`, and
`k_mem_count_extfrag_impl(H)` returns 1. -/
theorem coalescing_complete (img : Image) (h : Heap) (hr : HeapReach img h []) :
    free_blocks h =
      some [(init_heap_start img, init_heap_end img - init_heap_start img)] ∧
    k_mem_count_extfrag_impl h (init_heap_end img - init_heap_start img) = some 1 := by
  have hH : HDR = 20 := rfl
  obtain ⟨hs, he, -, bs, hinv, hO⟩ := hr.reach_inv
  have hfree : ∀ b ∈ bs, (h.blk b).is_allocated = 0 := fun b hm => by
    by_contra hal
    exact List.not_mem_nil _ ((hO (b + HDR)).2 ⟨b, ⟨hm, hal⟩, rfl⟩)
  have hfl : bs.filter (is_free h) = bs :=
    List.filter_eq_self.2 (fun b hm => (is_free_iff h b).2 (hfree b hm))
  have inv := hinv.fl
  rw [hfl] at inv
  have hend := inv.end_lt
  match bs, hinv, hfree, inv with
  | [], hinv, _, _ => exact absurd rfl hinv.ne_nil
  | a :: c :: rest, hinv, hfree, _ =>
    exfalso
    obtain ⟨-, -, h3⟩ :
      h.heap_start = a ∧ HDR + 4 ≤ (h.blk a).size ∧
        Tiles h.blk (a + (h.blk a).size) (c :: rest) h.heap_end := hinv.tiles
    exact hinv.no_adj (by simp) (hfree a (by simp)) (by simp) (hfree c (by simp)) h3.1
  | [a], hinv, _, inv =>
    obtain ⟨h1, h2, h3⟩ :
      h.heap_start = a ∧ HDR + 4 ≤ (h.blk a).size ∧ a + (h.blk a).size = h.heap_end :=
      hinv.tiles
    have hsz : (h.blk a).size = init_heap_end img - init_heap_start img := by
      rw [← hs, ← he]; omega
    refine ⟨?_, ?_⟩
    · rw [free_blocks_inv inv]
      simp only [List.map_cons, List.map_nil]
      rw [hsz, ← hs, h1]
    · unfold k_mem_count_extfrag_impl
      rw [if_neg inv.init, count_extfrag_loop_seg _ inv.seg inv.ne_zero
        (fun b hb => (inv.free b hb).1) WALK_FUEL inv.length_lt 0, ← hsz]
      have : u32 ((h.blk a).size + 4294967296 - HDR) < (h.blk a).size := by
        unfold u32; omega
      simp [this]

theorem coalescing_complete_witness :
    HeapReach sample_image freed_q.2 [] ∧
    free_blocks freed_q.2 = some [(0x20001000, 0x13000)] ∧
    k_mem_count_extfrag_impl freed_q.2 0x13000 = some 1 := by
  have := coalescing_complete sample_image freed_q.2 freed_q_reach
  have e1 : init_heap_start sample_image = 0x20001000 := by decide
  have e2 : init_heap_end sample_image = 0x20014000 := by decide
  rw [e1, e2] at this
  exact ⟨freed_q_reach, this⟩

/-- C1. First Fit fails for a request whose rounding wraps. On the freshly initialised
heap the free list is the single block of size `0x13000`, and the request `0xFFFFFFFE`
rounded up to a multiple of 4, plus the header, is `0x100000014`: no block of the list is
that large, yet `k_mem_alloc_impl` returns the non-null pointer `0x20001014`. In 32-bit
arithmetic the rounding gives 0 and the total is the header alone. -/
theorem k_mem_alloc_impl_fit_wrap :
    free_blocks sample_kernel.mem = some [(0x20001000, 0x13000)] ∧
    (0xFFFFFFFE + 3) / 4 * 4 + HDR = 0x100000014 ∧ ¬ (0x100000014 ≤ 0x13000) ∧
    total_size 0xFFFFFFFE = HDR ∧
    (k_mem_alloc_impl 1 sample_kernel.mem 0xFFFFFFFE).map Prod.fst = some 0x20001014 := by
  decide

/-- C2. A pointer that cannot be released. On the freshly initialised heap task 1 calls
`k_mem_alloc_impl(0xFFFFFFFD)` and gets the non-null pointer `0x20001014`, to a block of
size 20; the `k_mem_dealloc_impl` of that pointer by the same task, with no allocator
call in between, returns `RTX_ERR`: a size of 20 is below `HDR + 4` and fails
`is_valid_pointer`. -/
theorem k_mem_dealloc_impl_refuses_wrapped :
    (k_mem_alloc_impl 1 sample_kernel.mem 0xFFFFFFFD).map
      (fun r => (r.1, (r.2.blk 0x20001000).size, is_valid_pointer r.2 r.1)) =
      some (0x20001014, 20, false) ∧
    ((k_mem_alloc_impl 1 sample_kernel.mem 0xFFFFFFFD).bind fun r =>
      (k_mem_dealloc_impl 1 r.2 r.1).map Prod.fst) = some RTX_ERR := by
  decide

/-- C5. The owner cannot release either. On the freshly initialised heap task 3 calls
`k_mem_alloc_impl(0xFFFFFFFF)` and gets the non-null pointer `0x20001014`; the
`k_mem_dealloc_impl` of it by task 4 returns `RTX_ERR` and the block stays allocated with
owner 3, but the subsequent `k_mem_dealloc_impl` by task 3 returns `RTX_ERR` as well: the
block has size 20 and fails `is_valid_pointer` for every caller. -/
theorem k_mem_dealloc_impl_owner_refused :
    (k_mem_alloc_impl 3 sample_kernel.mem 0xFFFFFFFF).map
      (fun r => (r.1, (r.2.blk 0x20001000).is_allocated, (r.2.blk 0x20001000).owner_tid)) =
      some (0x20001014, 1, 3) ∧
    ((k_mem_alloc_impl 3 sample_kernel.mem 0xFFFFFFFF).bind fun r =>
      (k_mem_dealloc_impl 4 r.2 r.1).map
        fun d => (d.1, (d.2.blk 0x20001000).is_allocated, (d.2.blk 0x20001000).owner_tid)) =
      some (RTX_ERR, 1, 3) ∧
    ((k_mem_alloc_impl 3 sample_kernel.mem 0xFFFFFFFF).bind fun r =>
      (k_mem_dealloc_impl 4 r.2 r.1).bind fun d =>
        (k_mem_dealloc_impl 3 d.2 r.1).map Prod.fst) = some RTX_ERR := by
  decide

/-- C24. An allocated block that stays on the free list. On the freshly initialised heap
the request `0xFFFFFFEC` is a multiple of 4 and the header addition wraps to a total of
0. `k_mem_alloc_impl` returns the non-null pointer `0x20001014`; the block in front of
it, at `0x20001000`, is marked allocated with the caller as owner, but it is the head of
the free list, with size 0: the split took its remainder at the block's own address and
put it back on the list. -/
theorem k_mem_alloc_impl_keeps_block_listed :
    total_size 0xFFFFFFEC = 0 ∧
    (k_mem_alloc_impl 2 sample_kernel.mem 0xFFFFFFEC).map
      (fun r => (r.1, r.2.free_list_head, (r.2.blk 0x20001000).is_allocated,
        (r.2.blk 0x20001000).owner_tid, (r.2.blk 0x20001000).size)) =
      some (0x20001014, 0x20001000, 1, 2, 0) ∧
    ((k_mem_alloc_impl 2 sample_kernel.mem 0xFFFFFFEC).bind fun r => free_blocks r.2) =
      some [(0x20001000, 0)] := by
  decide

/-- C25. A split that the split rule forbids. On the freshly initialised heap the selected
block has size `S = 0x13000`. For the request `0xFFFFFFFE` the total, the request rounded
up to a multiple of 4 plus `HDR`, is `0x100000014`, so `S ≥ total + HDR + 16` is false
and the block should keep its size. In 32-bit arithmetic the total is 20: the block is
split, the allocated block has size 20, and a new free block of size `0x12FEC` at
`0x20001014`, the address that is returned as the payload, is on the free list. -/
theorem k_mem_alloc_impl_splits_on_wrap :
    (0xFFFFFFFE + 3) / 4 * 4 + HDR = 0x100000014 ∧
    ¬ (0x100000014 + HDR + 16 ≤ 0x13000) ∧ total_size 0xFFFFFFFE = 20 ∧
    (k_mem_alloc_impl 2 sample_kernel.mem 0xFFFFFFFE).map
      (fun r => (r.1, (r.2.blk 0x20001000).size)) = some (0x20001014, 20) ∧
    ((k_mem_alloc_impl 2 sample_kernel.mem 0xFFFFFFFE).bind fun r => free_blocks r.2) =
      some [(0x20001014, 0x12FEC)] := by
  decide

theorem PendSV_Handler_g_num_tasks (k : Kernel) :
    (PendSV_Handler k).g_num_tasks = k.g_num_tasks := by
  unfold PendSV_Handler perform_context_switch osGetTID_internal
  dsimp only
  split_ifs <;> rfl

/-- SVC #17 from a task whose `stack_base` is already null: `k_mem_dealloc_impl(NULL)`
succeeds without touching the heap and the cleanup runs again. -/
theorem SVC_17_again (k : Kernel) (hc : k.g_active_task_id ≠ TID_NULL)
    (hb : (k.g_tasks k.g_active_task_id).stack_base = 0) :
    SVC_17 k = some (trigger_context_switch (svc17_clear k k.g_active_task_id)) := by
  unfold SVC_17
  dsimp only
  rw [if_pos hc, hb]
  have : k_mem_dealloc_impl (osGetTID_internal k) k.mem 0 = some (RTX_OK, k.mem) := by
    unfold k_mem_dealloc_impl
    rw [if_pos rfl]
  rw [this]

/-- C18. The task count after a second exit. One task is created on the initialised
kernel and the kernel is started. The task exits through SVC #17: its slot is Dormant,
`g_num_tasks` is 0 and no slot is live; no other task is Ready, so
`trigger_context_switch` returns at its Null Task guard and the task stays the active
task. Its next SVC #17 passes the only guard of case 17 (`tid != TID_NULL`) and
decrements again: `g_num_tasks` is -1 while the number of live slots is 0. -/
theorem g_num_tasks_negative_after_second_exit :
    (SVC_17 one_task_started).isSome = true ∧
    exited_once.g_active_task_id = 1 ∧ (exited_once.g_tasks 1).state = DORMANT ∧
    exited_once.g_num_tasks = 0 ∧ live_count exited_once = 0 ∧
    (SVC_17 exited_once).isSome = true ∧
    exited_twice.g_num_tasks = -1 ∧ live_count exited_twice = 0 := by
  have a1 : (SVC_17 one_task_started).isSome = true := by decide
  have a2 : exited_once.g_active_task_id = 1 := by decide
  have a3 : (exited_once.g_tasks 1).state = DORMANT := by decide
  have a4 : exited_once.g_num_tasks = 0 := by decide
  have a5 : live_count exited_once = 0 := by decide
  have a6 : (exited_once.g_tasks 1).stack_base = 0 := by decide
  have hs := SVC_17_again exited_once (by rw [a2]; decide) (by rw [a2]; exact a6)
  rw [a2] at hs
  have e : exited_twice =
      PendSV_Handler (trigger_context_switch (svc17_clear exited_once 1)) := by
    unfold exited_twice
    rw [hs]
    rfl
  refine ⟨a1, a2, a3, a4, a5, by rw [hs]; rfl, ?_, ?_⟩
  · rw [e, PendSV_Handler_g_num_tasks, trigger_context_switch_g_num_tasks,
      svc17_clear_g_num_tasks, a4]
    rfl
  · rw [e, ← a5]
    refine live_count_congr (fun i => ?_)
    rw [PendSV_Handler_g_tasks, trigger_context_switch_dormant_iff _
      (by simp [a2]) i, svc17_clear_g_tasks]
    by_cases hi : i = 1
    · rw [if_pos hi, hi]
      simp [a3]
    · rw [if_neg hi]

/-- The deadlines the kernel stores in a user slot are 5 (`osKernelInit`,
`osCreateTask_impl`) or the value of a positive `int` parameter
(`osCreateDeadlineTask_impl`, SVC #4): all of them are below the `0xFFFFFFFF` held by the
Null Task. -/
theorem stored_deadline_below_sentinel (d : Int) (h0 : 0 < d) (h1 : d ≤ 2147483647)
    (k : Kernel) (t : Nat) :
    (5 : Nat) < 0xFFFFFFFF ∧ ofInt32 d < 0xFFFFFFFF ∧
    ((svc4_store k d t).g_tasks t).deadline_value = ofInt32 d ∧
    ((deadline_install k t d).g_tasks t).deadline_value = ofInt32 d := by
  refine ⟨by decide, ?_, by simp [svc4_store, Kernel.upd], by simp [deadline_install, Kernel.upd]⟩
  unfold ofInt32
  omega

end RTX
